import Mathlib

/-! sleep_model : alpha-cycle scheduling and memory scoring

A verification development for `sleep_err.go` (package `main`, type `Sim`).

Conventions of the embedding.

* The network engine (`leabra.Network`, `leabra.Layer`, `leabra.Prjn`) is a library.  Its
  per-unit state, weights and settling equations are an abstract state `D` together with a
  record `Engine D` of the operations the simulation calls on it.  Every theorem holds for
  every engine.
* The attributes that the simulation itself assigns (layer `Off` and type, projection `Off`,
  `Learn.Learn`, `WtScale.Rel`, `WtScale.Abs`) live in a concrete `Network` value, looked up by
  name as in the source.  A failed lookup is the Go panic of a type assertion on `nil`.
* Unit variables (`float32`) are exact rationals.  The counters of `MemStats` are `float64`
  accumulators that only ever receive `+= 1`, so they are natural numbers.  The rates are
  quotients of two counters and can be `0/0` or `x/0`, so they live in `Flt`, which keeps the
  IEEE special values; the quotient of two counters is kept exact (no rounding to 53 bits).
  A `NaN` unit value behaves in every comparison of `MemStats` like the value `1/2`
  (`ActM`) or like a value `≥ 1/2` (`Targ`, `ActQ1`), so rational unit values cover the
  behaviours of the code.
* The trial-level procedures (`TrainTrial...`, `TestAll`, `Train...`, `SetEnv`, `ConfigEnv`)
  are modelled on a separate record `TrialSim V` of the fields they use.  The environments
  (`env.FixedTable`) are a library: an abstract state `V` with a record `EnvOps V`.  Each
  call of another procedure is recorded in `calls`.  The two loops without a static bound
  (the loop of `TestAll`, the loop of the `Train...` procedures) take a bound on their
  iterations; a loop that reaches its bound ends with `Halt.spin` and the state it reached,
  and the theorems about these procedures hold for every bound.
-/

namespace SleepModel

/-! ## Floating point values with the IEEE special cases -/

/-- A `float64` value: not-a-number, the two infinities, or a finite number. -/
inductive Flt where
  | nan : Flt
  | ninf : Flt
  | fin (q : ℚ) : Flt
  | pinf : Flt
  deriving DecidableEq

/-- Go `a < b` on floats: false as soon as one side is `NaN`. -/
def Flt.lt : Flt → Flt → Bool
  | .nan, _ => false
  | _, .nan => false
  | .ninf, .ninf => false
  | .ninf, _ => true
  | .fin _, .ninf => false
  | .fin a, .fin b => decide (a < b)
  | .fin _, .pinf => true
  | .pinf, _ => false

/-- Go `a / b` for two counters held in `float64` variables: `0/0` is `NaN`, `x/0` with
`x > 0` is `+Inf`, no panic is raised. -/
def fdiv (a b : Nat) : Flt :=
  if b = 0 then (if a = 0 then Flt.nan else Flt.pinf) else Flt.fin ((a : ℚ) / (b : ℚ))

/-- The constant `0.5` of the comparisons in `MemStats`. -/
def half : ℚ := 1 / 2

/-! ## Network configuration -/

/-- Layer types of `emer.LayerType`. -/
inductive LayerType where
  | Hidden | Input | Target | Compare
  deriving DecidableEq

/-- The Go dynamic type of a projection, as tested by the type assertions
`.(*leabra.Prjn)`, `.(*hip.EcCa1Prjn)`, `.(*hip.CHLPrjn)`. -/
inductive PrjnKind where
  | Prjn | EcCa1Prjn | CHLPrjn
  deriving DecidableEq

/-- A projection, with the attributes the simulation assigns. -/
structure Prjn where
  Send : String
  Kind : PrjnKind
  Off : Bool
  Learn : Bool
  Rel : ℚ
  Abs : ℚ
  deriving DecidableEq

/-- A layer, with the attributes the simulation assigns and its receiving projections. -/
structure Layer where
  Nm : String
  Shp : List Nat
  Typ : LayerType
  Off : Bool
  RcvPrjns : List Prjn
  deriving DecidableEq

/-- The network: its layers, in order of creation. -/
structure Network where
  Layers : List Layer
  deriving DecidableEq

/-- The number of units in a layer: `Shape().Len()`, the product of the dimensions. -/
def Layer.Len (ly : Layer) : Nat := ly.Shp.foldl (fun a d => a * d) 1

/-- Looks up a layer by name: `Net.LayerByName(nm)`; `none` is Go's `nil`. -/
def Network.LayerByName (net : Network) (nm : String) : Option Layer :=
  net.Layers.find? (fun ly => ly.Nm == nm)

/-- Looks up a receiving projection by the name of its sending layer:
`ly.RcvPrjns.SendName(send)`. -/
def Layer.SendName (ly : Layer) (send : String) : Option Prjn :=
  ly.RcvPrjns.find? (fun pj => pj.Send == send)

/-- Updates the first element of a list that satisfies `p` (the element a lookup returns). -/
def modifyFirst {α : Type} (p : α → Bool) (f : α → α) : List α → List α
  | [] => []
  | a :: l => if p a then f a :: l else a :: modifyFirst p f l

/-- Assignment through a layer pointer obtained from `LayerByName(nm)`. -/
def Network.modLayer (net : Network) (nm : String) (f : Layer → Layer) : Network :=
  ⟨modifyFirst (fun ly => ly.Nm == nm) f net.Layers⟩

/-- Assignment through a projection pointer obtained from
`LayerByName(recv).RcvPrjns.SendName(send)`. -/
def Network.modPrjn (net : Network) (recv send : String) (f : Prjn → Prjn) : Network :=
  net.modLayer recv (fun ly =>
    { ly with RcvPrjns := modifyFirst (fun pj => pj.Send == send) f ly.RcvPrjns })

/-! ## Simulation state -/

/-- Time scales of `leabra.TimeScales`, in the order of the library's enumeration. -/
inductive TimeScales where
  | Cycle | FastSpike | Quarter | Phase | BetaCycle | AlphaCycle | ThetaCycle | Event
  | Trial | Tick | Sequence | Condition | Block | Epoch | Run | Expt | Scene | Episode
  deriving DecidableEq

/-- The integer value of a time scale. -/
def TimeScales.ord : TimeScales → Nat
  | .Cycle => 0 | .FastSpike => 1 | .Quarter => 2 | .Phase => 3 | .BetaCycle => 4
  | .AlphaCycle => 5 | .ThetaCycle => 6 | .Event => 7 | .Trial => 8 | .Tick => 9
  | .Sequence => 10 | .Condition => 11 | .Block => 12 | .Epoch => 13 | .Run => 14
  | .Expt => 15 | .Scene => 16 | .Episode => 17

/-- The counters of `leabra.Time` that the alpha cycle reads or advances. -/
structure Time where
  Cycle : Int
  Quarter : Int
  CycPerQtr : Int
  deriving DecidableEq

/-- One statement of an alpha-cycle procedure: a lookup by name (with the Go type asserted
on a projection, `none` for the interface `leabra.LeabraPrjn`), an assignment of a network
attribute, or a call of the engine, the view or the log. -/
inductive Act where
  | LayerByName (lay : String)
  | SendName (recv send : String) (kind : Option PrjnKind)
  | SetLearn (recv send : String) (b : Bool)
  | SetPrjnOff (recv send : String) (b : Bool)
  | SetRel (recv send : String) (v : ℚ)
  | SetAbs (recv send : String) (v : ℚ)
  | SetLayOff (lay : String) (b : Bool)
  | SetType (lay : String) (t : LayerType)
  | UpdateExtFlags (lay : String)
  | GScaleFmAvgAct
  | InitGInc
  | AlphaCycInit
  | AlphaCycStart
  | Cycle
  | LogTstCyc
  | CycleInc
  | UpdateView
  | UnitVals (lay var : String)
  | ApplyExt1D32 (lay : String)
  | QuarterFinal
  | MemStats
  | QuarterInc
  | DWt
  | WtFmDWt
  | TstCycPlotGoUpdate
  deriving DecidableEq

/-- A statement that was executed, with the state it left: the network configuration, the
time counters, the buffer `TmpVals` and the engine state. -/
structure Event (D : Type) where
  act : Act
  net : Network
  time : Time
  tmp : List ℚ
  dyn : D

/-- The fields of `Sim` that the alpha cycle and the statistics use, plus `trace`, the
history of executed statements (not a field of the source; it only records). -/
structure Sim (D : Type) where
  Net : Network
  Dyn : D
  Time : Time
  ViewOn : Bool
  TrainUpdt : TimeScales
  TestUpdt : TimeScales
  NetView : Option Bool
  SemWake : Int
  Outecback : ℚ
  MemThr : Flt
  Mem : Flt
  TrgOnWasOffAll : Flt
  TrgOnWasOffCmp : Flt
  TrgOffWasOn : Flt
  TrgOnWasOffB : Flt
  TrgOnWasOffC : Flt
  TrgOffWasOnB : Flt
  TrgOffWasOnC : Flt
  TrlSSEB : Flt
  TrlSSEC : Flt
  TrlAvgSSEB : Flt
  TrlAvgSSEC : Flt
  TrlCosDiff : Flt
  EpcSSE : Flt
  EpcAvgSSE : Flt
  EpcPctErr : Flt
  EpcPctCor : Flt
  EpcCosDiff : Flt
  FirstZero : Int
  SumSSE : Flt
  SumAvgSSE : Flt
  SumCosDiff : Flt
  CntErr : Int
  TmpVals : List ℚ
  LayStatNms : List String
  trace : List (Event D)

/-- The engine operations called by the simulation.  State-changing operations read the
configuration (and the time counters where the source passes `&ss.Time`). -/
structure Engine (D : Type) where
  UnitVal1D : D → String → String → Nat → ℚ
  UnitVals : D → String → String → List ℚ
  ApplyExt1D32 : Network → String → List ℚ → D → D
  UpdateExtFlags : Network → String → D → D
  GScaleFmAvgAct : Network → D → D
  InitGInc : Network → D → D
  AlphaCycInit : Network → D → D
  Cycle : Network → Time → D → D
  QuarterFinal : Network → Time → D → D
  DWt : Network → D → D
  WtFmDWt : Network → D → D

/-! A procedure that can panic returns `Except (Sim D) (Sim D)`: `ok` with the final state,
or `error` with the state at the moment of the panic. -/

/-! ## MemStats -/

/-- The six counters of the loop over all units. -/
structure MemCnt where
  trgOnWasOffAll : Nat
  trgOnWasOffCmp : Nat
  trgOffWasOn : Nat
  cmpN : Nat
  trgOnN : Nat
  trgOffN : Nat
  deriving DecidableEq

/-- The four counters of a sub-pool loop. -/
structure PoolCnt where
  trgOffWasOn : Nat
  trgOnWasOff : Nat
  trgOnN : Nat
  trgOffN : Nat
  deriving DecidableEq

/-- Body of the loop over all units (source lines 2230-2251). -/
def memStep (actm trg inact : ℚ) (c : MemCnt) : MemCnt :=
  if trg < half then
    let c1 := { c with trgOffN := c.trgOffN + 1 }
    if actm > half then { c1 with trgOffWasOn := c1.trgOffWasOn + 1 } else c1
  else
    let c1 := { c with trgOnN := c.trgOnN + 1 }
    if inact < half then
      let c2 := { c1 with cmpN := c1.cmpN + 1 }
      if actm < half then
        { c2 with trgOnWasOffAll := c2.trgOnWasOffAll + 1,
                  trgOnWasOffCmp := c2.trgOnWasOffCmp + 1 }
      else c2
    else
      if actm < half then { c1 with trgOnWasOffAll := c1.trgOnWasOffAll + 1 } else c1

/-- Body of a sub-pool loop (source lines 2255-2267 and 2271-2283). -/
def poolStep (actm trg : ℚ) (c : PoolCnt) : PoolCnt :=
  if trg < half then
    let c1 := { c with trgOffN := c.trgOffN + 1 }
    if actm > half then { c1 with trgOffWasOn := c1.trgOffWasOn + 1 } else c1
  else
    let c1 := { c with trgOnN := c.trgOnN + 1 }
    if actm < half then { c1 with trgOnWasOff := c1.trgOnWasOff + 1 } else c1

/-- The indices of `for ni := lo; ni < hi; ni++`. -/
def upto (lo hi : Nat) : List Nat := List.range' lo (hi - lo)

/-- Indices visited by the loop at source line 2254: `for ni := 2*49 - 1; ni < 3*49; ni++`. -/
def poolBIdx : List Nat := upto (2 * 49 - 1) (3 * 49)

/-- Indices visited by the loop at source line 2270: `for ni := 3*49 - 1; ni < 4*49; ni++`. -/
def poolCIdx : List Nat := upto (3 * 49 - 1) (4 * 49)

/-- The loop over a list of unit indices with the all-units body. -/
def memLoop (actm trg inact : Nat → ℚ) (idx : List Nat) : MemCnt :=
  idx.foldl (fun c ni => memStep (actm ni) (trg ni) (inact ni) c) ⟨0, 0, 0, 0, 0, 0⟩

/-- The loop over a list of unit indices with the sub-pool body. -/
def poolLoop (actm trg : Nat → ℚ) (idx : List Nat) : PoolCnt :=
  idx.foldl (fun c ni => poolStep (actm ni) (trg ni) c) ⟨0, 0, 0, 0⟩

/-- The memory criterion: `if miss < ss.MemThr && fa < ss.MemThr { 1 } else { 0 }`. -/
def memFlag (miss fa thr : Flt) : Flt :=
  if Flt.lt miss thr && Flt.lt fa thr then Flt.fin 1 else Flt.fin 0

/-- The statements of `MemStats` after the two layer lookups (source lines 2212-2315), for
`nn = ecin.Shape().Len()`. -/
def memStatsBody {D : Type} (E : Engine D) (train : Bool) (ss : Sim D) (nn : Nat) : Sim D :=
  let actm := E.UnitVal1D ss.Dyn "Output" "ActM"
  let trg := E.UnitVal1D ss.Dyn "ECin" "Targ"
  let inact := E.UnitVal1D ss.Dyn "ECin" "ActQ1"
  let c := memLoop actm trg inact (upto 0 nn)
  let b := poolLoop actm trg poolBIdx
  let cc := poolLoop actm trg poolCIdx
  let trgOnWasOffAll := fdiv c.trgOnWasOffAll c.trgOnN
  let trgOffWasOn := fdiv c.trgOffWasOn c.trgOffN
  let trgOnWasOffB := fdiv b.trgOnWasOff b.trgOnN
  let trgOffWasOnB := fdiv b.trgOffWasOn b.trgOffN
  let trgOnWasOffC := fdiv cc.trgOnWasOff cc.trgOnN
  let trgOffWasOnC := fdiv cc.trgOffWasOn cc.trgOffN
  let trgOnWasOffCmp : Flt :=
    if train then Flt.fin (c.trgOnWasOffCmp : ℚ)
    else if c.cmpN > 0 then fdiv c.trgOnWasOffCmp c.cmpN
    else Flt.fin (c.trgOnWasOffCmp : ℚ)
  let mem : Flt :=
    if train then memFlag trgOnWasOffAll trgOffWasOn ss.MemThr
    else if c.cmpN > 0 then memFlag trgOnWasOffCmp trgOffWasOn ss.MemThr
    else ss.Mem
  { ss with
    Mem := mem,
    TrgOnWasOffAll := trgOnWasOffAll,
    TrgOnWasOffCmp := trgOnWasOffCmp,
    TrgOffWasOn := trgOffWasOn,
    TrgOffWasOnB := trgOffWasOnB,
    TrgOnWasOffB := trgOnWasOffB,
    TrgOffWasOnC := trgOffWasOnC,
    TrgOnWasOffC := trgOnWasOffC }

/-- `Sim.MemStats(train)` (source lines 2208-2316).  Panics when `ECin` or `Output` is not
a layer of the network. -/
def MemStats {D : Type} (E : Engine D) (train : Bool) (ss : Sim D) : Except (Sim D) (Sim D) :=
  match ss.Net.LayerByName "ECin" with
  | none => Except.error ss
  | some ecin =>
    match ss.Net.LayerByName "Output" with
    | none => Except.error ss
    | some _ => Except.ok (memStatsBody E train ss ecin.Len)

/-! ## Executing the statements of an alpha cycle -/

/-- Appends an executed statement, with the state it left, to the history. -/
def Sim.log {D : Type} (a : Act) (ss : Sim D) : Sim D :=
  { ss with trace := ss.trace ++ [⟨a, ss.Net, ss.Time, ss.TmpVals, ss.Dyn⟩] }

/-- Replaces the network configuration. -/
def Sim.setNet {D : Type} (ss : Sim D) (net : Network) : Sim D := { ss with Net := net }

/-- Replaces the engine state. -/
def Sim.setDyn {D : Type} (ss : Sim D) (d : D) : Sim D := { ss with Dyn := d }

/-- The lookup `LayerByName(recv).RcvPrjns.SendName(send).(*T)` succeeds. -/
def Network.hasPrjn (net : Network) (recv send : String) (kind : Option PrjnKind) : Bool :=
  match net.LayerByName recv with
  | none => false
  | some ly =>
    match ly.SendName send with
    | none => false
    | some pj =>
      match kind with
      | none => true
      | some k => pj.Kind == k

/-- The value of `WtScale.Rel` read through a projection pointer (0 if there is no such
projection; the procedures read it only after the lookup has succeeded). -/
def Network.prjnRel (net : Network) (recv send : String) : ℚ :=
  match net.LayerByName recv with
  | none => 0
  | some ly =>
    match ly.SendName send with
    | none => 0
    | some pj => pj.Rel

/-- The condition under which a statement does not panic. -/
def Act.safe {D : Type} (ss : Sim D) : Act → Bool
  | .LayerByName lay => (ss.Net.LayerByName lay).isSome
  | .SendName recv send kind => ss.Net.hasPrjn recv send kind
  | .LogTstCyc => ss.LayStatNms.all (fun nm => (ss.Net.LayerByName nm).isSome)
  | .MemStats => (ss.Net.LayerByName "ECin").isSome && (ss.Net.LayerByName "Output").isSome
  | _ => true

/-- The effect of one statement on the state (the history apart).  `AlphaCycStart`,
`CycleInc` and `QuarterInc` are the methods of `leabra.Time`; `LogTstCyc` (source lines
3931-3947) writes to a log table, which is not part of the state; `UpdateView` and
`TstCycPlot.GoUpdate` only notify the display. -/
def Act.effect {D : Type} (E : Engine D) (train : Bool) (ss : Sim D) :
    Act → Except (Sim D) (Sim D)
  | .LayerByName _ => Except.ok ss
  | .SendName _ _ _ => Except.ok ss
  | .SetLearn recv send b =>
      Except.ok (ss.setNet (ss.Net.modPrjn recv send (fun pj => { pj with Learn := b })))
  | .SetPrjnOff recv send b =>
      Except.ok (ss.setNet (ss.Net.modPrjn recv send (fun pj => { pj with Off := b })))
  | .SetRel recv send v =>
      Except.ok (ss.setNet (ss.Net.modPrjn recv send (fun pj => { pj with Rel := v })))
  | .SetAbs recv send v =>
      Except.ok (ss.setNet (ss.Net.modPrjn recv send (fun pj => { pj with Abs := v })))
  | .SetLayOff lay b =>
      Except.ok (ss.setNet (ss.Net.modLayer lay (fun ly => { ly with Off := b })))
  | .SetType lay t =>
      Except.ok (ss.setNet (ss.Net.modLayer lay (fun ly => { ly with Typ := t })))
  | .UpdateExtFlags lay => Except.ok (ss.setDyn (E.UpdateExtFlags ss.Net lay ss.Dyn))
  | .GScaleFmAvgAct => Except.ok (ss.setDyn (E.GScaleFmAvgAct ss.Net ss.Dyn))
  | .InitGInc => Except.ok (ss.setDyn (E.InitGInc ss.Net ss.Dyn))
  | .AlphaCycInit => Except.ok (ss.setDyn (E.AlphaCycInit ss.Net ss.Dyn))
  | .AlphaCycStart => Except.ok { ss with Time := { ss.Time with Cycle := 0, Quarter := 0 } }
  | .Cycle => Except.ok (ss.setDyn (E.Cycle ss.Net ss.Time ss.Dyn))
  | .LogTstCyc => Except.ok ss
  | .CycleInc => Except.ok { ss with Time := { ss.Time with Cycle := ss.Time.Cycle + 1 } }
  | .UpdateView => Except.ok ss
  | .UnitVals lay var => Except.ok { ss with TmpVals := E.UnitVals ss.Dyn lay var }
  | .ApplyExt1D32 lay => Except.ok (ss.setDyn (E.ApplyExt1D32 ss.Net lay ss.TmpVals ss.Dyn))
  | .QuarterFinal => Except.ok (ss.setDyn (E.QuarterFinal ss.Net ss.Time ss.Dyn))
  | .MemStats => SleepModel.MemStats E train ss
  | .QuarterInc => Except.ok { ss with Time := { ss.Time with Quarter := ss.Time.Quarter + 1 } }
  | .DWt => Except.ok (ss.setDyn (E.DWt ss.Net ss.Dyn))
  | .WtFmDWt => Except.ok (ss.setDyn (E.WtFmDWt ss.Net ss.Dyn))
  | .TstCycPlotGoUpdate => Except.ok ss

/-- Executes one statement: panics with the current state if the statement is not safe,
otherwise applies its effect and records it. -/
def exec {D : Type} (E : Engine D) (train : Bool) (a : Act) (ss : Sim D) :
    Except (Sim D) (Sim D) :=
  if a.safe ss then
    match a.effect E train ss with
    | Except.ok ss1 => Except.ok (ss1.log a)
    | Except.error e => Except.error e
  else Except.error ss

/-- Executes a straight-line sequence of statements. -/
def execs {D : Type} (E : Engine D) (train : Bool) :
    List Act → Sim D → Except (Sim D) (Sim D)
  | [], ss => Except.ok ss
  | a :: l, ss =>
    match exec E train a ss with
    | Except.ok ss1 => execs E train l ss1
    | Except.error e => Except.error e

/-- Executes a statement under a condition: `if c { a }`. -/
def execIf {D : Type} (E : Engine D) (train : Bool) (c : Bool) (a : Act) (ss : Sim D) :
    Except (Sim D) (Sim D) :=
  if c then exec E train a ss else Except.ok ss

/-- The loop `for i := i0; i < i0 + n; i++ { body }`. -/
def forLoop {D : Type} (body : Nat → Sim D → Except (Sim D) (Sim D)) :
    Nat → Nat → Sim D → Except (Sim D) (Sim D)
  | 0, _, ss => Except.ok ss
  | n + 1, i, ss =>
    match body i ss with
    | Except.ok ss1 => forLoop body n (i + 1) ss1
    | Except.error e => Except.error e

/-- The local `viewUpdt` of every alpha-cycle procedure:
`viewUpdt := ss.TrainUpdt; if !train { viewUpdt = ss.TestUpdt }`. -/
def viewUpdtOf {D : Type} (train : Bool) (ss : Sim D) : TimeScales :=
  if train then ss.TrainUpdt else ss.TestUpdt

/-- Body of the cycle loop, the same text in the seven procedures (source lines 727-743,
928-944, 1125-1141, 1301-1317, 1453-1469, 1597-1613, 1770-1786). -/
def cycBody {D : Type} (E : Engine D) (train : Bool) (viewUpdt : TimeScales) (cyc : Nat)
    (ss : Sim D) : Except (Sim D) (Sim D) := do
  let ss ← exec E train Act.Cycle ss
  let ss ← execIf E train (!train) Act.LogTstCyc ss
  let ss ← exec E train Act.CycleInc ss
  if ss.ViewOn then
    match viewUpdt with
    | TimeScales.Cycle =>
        execIf E train (decide ((cyc : Int) ≠ ss.Time.CycPerQtr - 1)) Act.UpdateView ss
    | TimeScales.FastSpike =>
        execIf E train (decide ((cyc + 1) % 10 = 0)) Act.UpdateView ss
    | _ => pure ss
  else pure ss

/-- The cycle loop `for cyc := 0; cyc < ss.Time.CycPerQtr; cyc++`. -/
def cycLoop {D : Type} (E : Engine D) (train : Bool) (viewUpdt : TimeScales) (ss : Sim D) :
    Except (Sim D) (Sim D) :=
  forLoop (cycBody E train viewUpdt) ss.Time.CycPerQtr.toNat 0 ss

/-- End of a quarter, the same text in the seven procedures (source lines 769-783, 970-984,
1162-1176, 1330-1344, 1472-1486, 1616-1630, 1813-1827). -/
def qtrEnd {D : Type} (E : Engine D) (train : Bool) (viewUpdt : TimeScales) (qtr : Nat)
    (ss : Sim D) : Except (Sim D) (Sim D) := do
  let ss ← exec E train Act.QuarterFinal ss
  let ss ← execIf E train (decide (qtr + 1 = 3)) Act.MemStats ss
  let ss ← exec E train Act.QuarterInc ss
  if ss.ViewOn then
    if viewUpdt.ord ≤ TimeScales.Quarter.ord then exec E train Act.UpdateView ss
    else if viewUpdt = TimeScales.Phase then
      execIf E train (decide (qtr ≥ 2)) Act.UpdateView ss
    else pure ss
  else pure ss

/-- The quarter loop `for qtr := 0; qtr < 4; qtr++`: the cycle loop, the statements of
`switch qtr + 1` (given by `sw` for each procedure), then the end of the quarter. -/
def qtrLoop {D : Type} (E : Engine D) (train : Bool) (viewUpdt : TimeScales)
    (sw : Nat → List Act) (ss : Sim D) : Except (Sim D) (Sim D) :=
  forLoop (fun qtr ss => do
    let ss ← cycLoop E train viewUpdt ss
    let ss ← execs E train (sw (qtr + 1)) ss
    qtrEnd E train viewUpdt qtr ss) 4 0 ss

/-- End of a procedure, after the weight update (source lines 797-802 and the same text in
the other six). -/
def alphaEnd {D : Type} (E : Engine D) (train : Bool) (viewUpdt : TimeScales) (ss : Sim D) :
    Except (Sim D) (Sim D) := do
  let ss ← execIf E train (ss.ViewOn && decide (viewUpdt = TimeScales.AlphaCycle))
    Act.UpdateView ss
  execIf E train (!train) Act.TstCycPlotGoUpdate ss

/-! ## The seven alpha-cycle procedures

Each procedure is given by the sequences of its statements, in the order of the source.
A projection variable of the source is written by the names of its receiving and sending
layers: `ca1FmECin` is `"CA1" "ECin"`, `OutputFMECin` is `"Output" "ECout"` (it is looked up
with `SendName("ECout")`), `CortexFMin` is `"Cortex" "Input"`, `letterhid` and `letter` are
both the layer `"Letter"`. -/

/-- The statements of `if train { ecin.SetType(Hidden); ecout.SetType(Target) } else
{ ecout.SetType(Compare) }` followed by `ecout.UpdateExtFlags()`, after the three
`SetType(emer.Hidden)` on `dg`, `ca1`, `ca3` (source lines 701-713, 898-910, 1097-1109,
1277-1289). -/
def hipTypes (train : Bool) : List Act :=
  [Act.SetType "DG" LayerType.Hidden, Act.SetType "CA1" LayerType.Hidden,
   Act.SetType "CA3" LayerType.Hidden] ++
  (if train then [Act.SetType "ECin" LayerType.Hidden, Act.SetType "ECout" LayerType.Target]
   else [Act.SetType "ECout" LayerType.Compare]) ++
  [Act.UpdateExtFlags "ECout"]

/-- The statements `if train { ss.Net.DWt() }` and `if train { ss.Net.WtFmDWt() }`. -/
def learnActs (train : Bool) : List Act :=
  (if train then [Act.DWt] else []) ++ (if train then [Act.WtFmDWt] else [])

/-- Lookups of `AlphaCycHip` (source lines 621-654); `AlphaCycSleep` has the same (817-850). -/
def hipLookups : List Act :=
  [Act.LayerByName "CA1", Act.LayerByName "CA3", Act.LayerByName "Output",
   Act.LayerByName "DG", Act.LayerByName "ECin", Act.LayerByName "ECout",
   Act.LayerByName "Cortex", Act.LayerByName "Letter",
   Act.SendName "CA1" "ECin" (some PrjnKind.EcCa1Prjn),
   Act.SendName "CA1" "CA3" (some PrjnKind.CHLPrjn),
   Act.SendName "ECin" "Input" (some PrjnKind.Prjn),
   Act.SendName "ECin" "ECout" (some PrjnKind.Prjn),
   Act.SendName "Output" "Cortex" (some PrjnKind.Prjn),
   Act.SendName "Output" "Letter" (some PrjnKind.Prjn),
   Act.SendName "Output" "ECout" (some PrjnKind.Prjn),
   Act.SendName "Cortex" "Output" (some PrjnKind.Prjn),
   Act.SendName "ECin" "Output" (some PrjnKind.Prjn),
   Act.SendName "Letter" "Output" (some PrjnKind.Prjn),
   Act.SendName "Cortex" "Input" (some PrjnKind.Prjn),
   Act.SendName "CA3" "ECin" (some PrjnKind.EcCa1Prjn),
   Act.SendName "DG" "ECin" (some PrjnKind.CHLPrjn), Act.LayerByName "Letter",
   Act.SendName "CA3" "CA3" (some PrjnKind.EcCa1Prjn),
   Act.SendName "CA1" "CA3" (some PrjnKind.CHLPrjn),
   Act.SendName "ECout" "CA1" (some PrjnKind.EcCa1Prjn),
   Act.SendName "CA1" "ECout" (some PrjnKind.EcCa1Prjn), Act.SendName "CA3" "DG" none,
   Act.LayerByName "Semantic", Act.SendName "ECin" "Semantic" (some PrjnKind.Prjn),
   Act.SendName "Semantic" "Input" (some PrjnKind.Prjn),
   Act.SendName "Semantic" "ECin" (some PrjnKind.Prjn)]

/-- Assignments of `AlphaCycHip` (source lines 655-694). -/
def hipConfig (semWake : Int) (outecback : ℚ) : List Act :=
  [Act.SetLearn "ECin" "Semantic" false, Act.SetLearn "Semantic" "Input" false,
   Act.SetLearn "Semantic" "ECin" false, Act.SetRel "ECin" "Semantic" ((semWake : ℚ) / 100),
   Act.SetRel "ECin" "ECout" (1 / 2), Act.SetAbs "ECin" "Output" 0,
   Act.SetRel "ECin" "Output" outecback, Act.SetLearn "Letter" "Output" false,
   Act.SetLearn "Cortex" "Output" false, Act.SetLearn "Output" "Cortex" false,
   Act.SetLearn "Output" "Letter" false, Act.SetLearn "CA1" "ECout" true,
   Act.SetLearn "CA3" "CA3" true, Act.SetLearn "CA1" "CA3" true,
   Act.SetLearn "ECout" "CA1" true, Act.SetLearn "CA3" "ECin" true,
   Act.SetLearn "DG" "ECin" true, Act.SetLearn "CA1" "ECin" true,
   Act.SetLayOff "Cortex" true, Act.SetPrjnOff "Output" "ECout" false,
   Act.SetLayOff "Letter" true, Act.SetPrjnOff "ECin" "Input" false,
   Act.SetPrjnOff "ECin" "ECout" false, Act.SetPrjnOff "Output" "Letter" true,
   Act.SetPrjnOff "Output" "Cortex" true, Act.SetPrjnOff "Cortex" "Output" true,
   Act.SetPrjnOff "Cortex" "Input" true, Act.SetPrjnOff "CA1" "ECin" false,
   Act.SetPrjnOff "CA3" "ECin" false, Act.SetPrjnOff "DG" "ECin" false,
   Act.SetLayOff "CA1" false, Act.SetLayOff "CA3" false, Act.SetLayOff "DG" false,
   Act.SetLayOff "ECout" false]

/-- Assignments of `AlphaCycSleep` (source lines 851-891). -/
def sleepConfig : List Act :=
  [Act.SetLearn "ECin" "Semantic" false, Act.SetLearn "Semantic" "Input" false,
   Act.SetLearn "Semantic" "ECin" false, Act.SetRel "ECin" "Semantic" 2,
   Act.SetRel "ECin" "Input" 2, Act.SetRel "ECin" "ECout" (1 / 10),
   Act.SetAbs "ECin" "Output" 1, Act.SetRel "ECin" "Output" 1,
   Act.SetLearn "Letter" "Output" true, Act.SetLearn "Cortex" "Output" true,
   Act.SetLearn "Output" "Cortex" true, Act.SetLearn "Output" "Letter" true,
   Act.SetLearn "CA1" "ECout" true, Act.SetLearn "CA3" "CA3" true,
   Act.SetLearn "CA1" "CA3" true, Act.SetLearn "ECout" "CA1" true,
   Act.SetLearn "CA3" "ECin" true, Act.SetLearn "DG" "ECin" true,
   Act.SetLearn "CA1" "ECin" true, Act.SetLayOff "Cortex" false,
   Act.SetPrjnOff "Output" "ECout" false, Act.SetLayOff "Letter" false,
   Act.SetPrjnOff "ECin" "Input" false, Act.SetPrjnOff "ECin" "ECout" false,
   Act.SetPrjnOff "Output" "Letter" false, Act.SetPrjnOff "Output" "Cortex" false,
   Act.SetPrjnOff "Cortex" "Output" false, Act.SetPrjnOff "Cortex" "Input" false,
   Act.SetPrjnOff "CA1" "ECin" false, Act.SetPrjnOff "CA3" "ECin" false,
   Act.SetPrjnOff "DG" "ECin" false, Act.SetLayOff "CA1" false, Act.SetLayOff "CA3" false,
   Act.SetLayOff "DG" false, Act.SetLayOff "ECout" false]

/-- Lookups of `AlphaCycDaydream` (source lines 1017-1049). -/
def daydreamLookups : List Act :=
  [Act.LayerByName "CA1", Act.LayerByName "CA3", Act.LayerByName "Output",
   Act.LayerByName "DG", Act.LayerByName "ECin", Act.LayerByName "ECout",
   Act.LayerByName "Cortex", Act.LayerByName "Letter",
   Act.SendName "CA1" "ECin" (some PrjnKind.EcCa1Prjn),
   Act.SendName "CA1" "CA3" (some PrjnKind.CHLPrjn),
   Act.SendName "ECin" "Input" (some PrjnKind.Prjn),
   Act.SendName "ECin" "ECout" (some PrjnKind.Prjn),
   Act.SendName "Output" "Cortex" (some PrjnKind.Prjn),
   Act.SendName "Output" "Letter" (some PrjnKind.Prjn),
   Act.SendName "Output" "ECout" (some PrjnKind.Prjn),
   Act.SendName "Cortex" "Output" (some PrjnKind.Prjn),
   Act.SendName "ECin" "Output" (some PrjnKind.Prjn),
   Act.SendName "Letter" "Output" (some PrjnKind.Prjn),
   Act.SendName "Cortex" "Input" (some PrjnKind.Prjn),
   Act.SendName "CA3" "ECin" (some PrjnKind.EcCa1Prjn),
   Act.SendName "DG" "ECin" (some PrjnKind.CHLPrjn), Act.LayerByName "Letter",
   Act.SendName "CA3" "CA3" (some PrjnKind.EcCa1Prjn),
   Act.SendName "CA1" "CA3" (some PrjnKind.CHLPrjn),
   Act.SendName "ECout" "CA1" (some PrjnKind.EcCa1Prjn),
   Act.SendName "CA1" "ECout" (some PrjnKind.EcCa1Prjn), Act.LayerByName "Semantic",
   Act.SendName "ECin" "Semantic" (some PrjnKind.Prjn),
   Act.SendName "Semantic" "Input" (some PrjnKind.Prjn),
   Act.SendName "Semantic" "ECin" (some PrjnKind.Prjn)]

/-- Assignments of `AlphaCycDaydream` (source lines 1050-1090). -/
def daydreamConfig (semWake : Int) (outecback : ℚ) : List Act :=
  [Act.SetLearn "ECin" "Semantic" false, Act.SetLearn "Semantic" "Input" false,
   Act.SetLearn "Semantic" "ECin" false, Act.SetRel "ECin" "Semantic" ((semWake : ℚ) / 100),
   Act.SetRel "ECin" "Input" 2, Act.SetRel "ECin" "ECout" (1 / 10),
   Act.SetAbs "ECin" "Output" 1, Act.SetRel "ECin" "Output" outecback,
   Act.SetLearn "Letter" "Output" true, Act.SetLearn "Cortex" "Output" true,
   Act.SetLearn "Output" "Cortex" true, Act.SetLearn "Output" "Letter" true,
   Act.SetLearn "CA1" "ECout" true, Act.SetLearn "CA3" "CA3" true,
   Act.SetLearn "CA1" "CA3" true, Act.SetLearn "ECout" "CA1" true,
   Act.SetLearn "CA3" "ECin" true, Act.SetLearn "DG" "ECin" true,
   Act.SetLearn "CA1" "ECin" true, Act.SetLayOff "Cortex" false,
   Act.SetPrjnOff "Output" "ECout" false, Act.SetLayOff "Letter" false,
   Act.SetPrjnOff "ECin" "Input" false, Act.SetPrjnOff "ECin" "ECout" false,
   Act.SetPrjnOff "Output" "Letter" false, Act.SetPrjnOff "Output" "Cortex" false,
   Act.SetPrjnOff "Cortex" "Output" false, Act.SetPrjnOff "Cortex" "Input" false,
   Act.SetPrjnOff "CA1" "ECin" false, Act.SetPrjnOff "CA3" "ECin" false,
   Act.SetPrjnOff "DG" "ECin" false, Act.SetLayOff "CA1" false, Act.SetLayOff "CA3" false,
   Act.SetLayOff "DG" false, Act.SetLayOff "ECout" false]

/-- Lookups of `AlphaCycHipPureRet` (source lines 1207-1234). -/
def pureRetLookups : List Act :=
  [Act.LayerByName "CA1", Act.LayerByName "CA3", Act.LayerByName "Output",
   Act.LayerByName "DG", Act.LayerByName "ECin", Act.LayerByName "ECout",
   Act.LayerByName "Cortex", Act.LayerByName "Letter",
   Act.SendName "CA1" "ECin" (some PrjnKind.EcCa1Prjn),
   Act.SendName "CA1" "CA3" (some PrjnKind.CHLPrjn),
   Act.SendName "ECin" "Input" (some PrjnKind.Prjn),
   Act.SendName "ECin" "ECout" (some PrjnKind.Prjn),
   Act.SendName "Output" "Cortex" (some PrjnKind.Prjn),
   Act.SendName "Output" "Letter" (some PrjnKind.Prjn),
   Act.SendName "Output" "ECout" (some PrjnKind.Prjn),
   Act.SendName "ECin" "Output" (some PrjnKind.Prjn),
   Act.SendName "Cortex" "Output" (some PrjnKind.Prjn),
   Act.SendName "Letter" "Output" (some PrjnKind.Prjn),
   Act.SendName "Cortex" "Input" (some PrjnKind.Prjn),
   Act.SendName "CA3" "ECin" (some PrjnKind.EcCa1Prjn),
   Act.SendName "DG" "ECin" (some PrjnKind.CHLPrjn), Act.LayerByName "Letter",
   Act.SendName "CA3" "CA3" (some PrjnKind.EcCa1Prjn),
   Act.SendName "CA1" "CA3" (some PrjnKind.CHLPrjn),
   Act.SendName "ECout" "CA1" (some PrjnKind.EcCa1Prjn),
   Act.SendName "CA1" "ECout" (some PrjnKind.EcCa1Prjn), Act.SendName "CA3" "DG" none]

/-- Assignments of `AlphaCycHipPureRet` (source lines 1236-1270). -/
def pureRetConfig (outecback : ℚ) : List Act :=
  [Act.SetRel "ECin" "ECout" (1 / 2), Act.SetAbs "ECin" "Output" 0,
   Act.SetRel "ECin" "Output" outecback, Act.SetLearn "Letter" "Output" false,
   Act.SetLearn "Cortex" "Output" false, Act.SetLearn "Output" "Cortex" false,
   Act.SetLearn "Output" "Letter" false, Act.SetLearn "CA1" "ECout" true,
   Act.SetLearn "CA3" "CA3" true, Act.SetLearn "CA1" "CA3" true,
   Act.SetLearn "ECout" "CA1" true, Act.SetLearn "CA3" "ECin" true,
   Act.SetLearn "DG" "ECin" true, Act.SetLearn "CA1" "ECin" true,
   Act.SetLayOff "Cortex" true, Act.SetLayOff "Letter" true,
   Act.SetPrjnOff "ECin" "Input" false, Act.SetPrjnOff "ECin" "ECout" false,
   Act.SetPrjnOff "Output" "Letter" true, Act.SetPrjnOff "Output" "ECout" false,
   Act.SetPrjnOff "Output" "Cortex" true, Act.SetPrjnOff "Cortex" "Output" true,
   Act.SetPrjnOff "Cortex" "Input" true, Act.SetPrjnOff "CA1" "ECin" false,
   Act.SetPrjnOff "CA3" "ECin" false, Act.SetPrjnOff "DG" "ECin" false,
   Act.SetLayOff "CA1" false, Act.SetLayOff "CA3" false, Act.SetLayOff "DG" false,
   Act.SetLayOff "ECout" false]

/-- Lookups of `AlphaCycSem` (source lines 1371-1406); `AlphaCycCor` has the same (1515-1550). -/
def semLookups : List Act :=
  [Act.LayerByName "ECin", Act.LayerByName "CA1", Act.LayerByName "CA3",
   Act.LayerByName "DG", Act.LayerByName "Output", Act.LayerByName "ECout",
   Act.LayerByName "Cortex", Act.LayerByName "Letter",
   Act.SendName "CA1" "ECin" (some PrjnKind.EcCa1Prjn),
   Act.SendName "ECin" "Input" (some PrjnKind.Prjn),
   Act.SendName "ECin" "ECout" (some PrjnKind.Prjn),
   Act.SendName "Output" "Cortex" (some PrjnKind.Prjn),
   Act.SendName "Cortex" "Output" (some PrjnKind.Prjn),
   Act.SendName "Cortex" "Input" (some PrjnKind.Prjn),
   Act.SendName "CA3" "ECin" (some PrjnKind.EcCa1Prjn),
   Act.SendName "DG" "ECin" (some PrjnKind.CHLPrjn),
   Act.SendName "CA3" "CA3" (some PrjnKind.EcCa1Prjn),
   Act.SendName "CA1" "CA3" (some PrjnKind.CHLPrjn),
   Act.SendName "ECout" "CA1" (some PrjnKind.EcCa1Prjn),
   Act.SendName "CA1" "ECout" (some PrjnKind.EcCa1Prjn), Act.LayerByName "Letter",
   Act.SendName "Letter" "Output" (some PrjnKind.Prjn),
   Act.SendName "Output" "Letter" (some PrjnKind.Prjn), Act.LayerByName "Semantic",
   Act.SendName "ECin" "Semantic" (some PrjnKind.Prjn),
   Act.SendName "Semantic" "Input" (some PrjnKind.Prjn),
   Act.SendName "Semantic" "ECin" (some PrjnKind.Prjn)]

/-- Assignments of `AlphaCycSem` (source lines 1407-1437). -/
def semConfig (outecback : ℚ) : List Act :=
  [Act.SetLearn "ECin" "Semantic" true, Act.SetLearn "Semantic" "Input" true,
   Act.SetLearn "Semantic" "ECin" true, Act.SetRel "ECin" "Semantic" outecback,
   Act.SetLearn "Letter" "Output" false, Act.SetLearn "Cortex" "Output" false,
   Act.SetLearn "Output" "Cortex" false, Act.SetLearn "Output" "Letter" false,
   Act.SetLearn "CA1" "ECout" false, Act.SetLearn "CA3" "CA3" false,
   Act.SetLearn "CA1" "CA3" false, Act.SetLearn "ECout" "CA1" false,
   Act.SetPrjnOff "Output" "Letter" false, Act.SetLearn "CA3" "ECin" false,
   Act.SetLearn "DG" "ECin" false, Act.SetLearn "CA1" "ECin" false,
   Act.SetLayOff "Cortex" true, Act.SetLayOff "Letter" true,
   Act.SetPrjnOff "ECin" "Input" true, Act.SetPrjnOff "ECin" "ECout" false,
   Act.SetPrjnOff "Output" "Cortex" false, Act.SetPrjnOff "Cortex" "Output" false,
   Act.SetPrjnOff "Cortex" "Input" false, Act.SetPrjnOff "CA1" "ECin" false,
   Act.SetPrjnOff "CA3" "ECin" false, Act.SetPrjnOff "DG" "ECin" false,
   Act.SetLayOff "CA1" true, Act.SetLayOff "CA3" true, Act.SetLayOff "DG" true,
   Act.SetLayOff "ECout" true]

/-- Assignments of `AlphaCycCor` (source lines 1551-1581). -/
def corConfig : List Act :=
  [Act.SetLearn "ECin" "Semantic" false, Act.SetLearn "Semantic" "Input" false,
   Act.SetLearn "Semantic" "ECin" false, Act.SetRel "ECin" "Semantic" (1 / 100),
   Act.SetLearn "Letter" "Output" true, Act.SetLearn "Cortex" "Output" true,
   Act.SetLearn "Output" "Cortex" true, Act.SetLearn "Output" "Letter" true,
   Act.SetLearn "CA1" "ECout" false, Act.SetLearn "CA3" "CA3" false,
   Act.SetLearn "CA1" "CA3" false, Act.SetLearn "ECout" "CA1" false,
   Act.SetPrjnOff "Output" "Letter" false, Act.SetLearn "CA3" "ECin" false,
   Act.SetLearn "DG" "ECin" false, Act.SetLearn "CA1" "ECin" false,
   Act.SetLayOff "Cortex" false, Act.SetLayOff "Letter" false,
   Act.SetPrjnOff "ECin" "Input" true, Act.SetPrjnOff "ECin" "ECout" true,
   Act.SetPrjnOff "Output" "Cortex" false, Act.SetPrjnOff "Cortex" "Output" false,
   Act.SetPrjnOff "Cortex" "Input" false, Act.SetPrjnOff "CA1" "ECin" false,
   Act.SetPrjnOff "CA3" "ECin" false, Act.SetPrjnOff "DG" "ECin" false,
   Act.SetLayOff "CA1" true, Act.SetLayOff "CA3" true, Act.SetLayOff "DG" true,
   Act.SetLayOff "ECout" true]

/-- First lookups of `AlphaCycFull` (source lines 1665-1692). -/
def fullLookups : List Act :=
  [Act.LayerByName "Output", Act.LayerByName "CA1", Act.LayerByName "CA3",
   Act.LayerByName "DG", Act.LayerByName "ECin", Act.LayerByName "ECout",
   Act.LayerByName "Cortex", Act.SendName "CA1" "ECin" (some PrjnKind.EcCa1Prjn),
   Act.SendName "ECin" "Input" (some PrjnKind.Prjn),
   Act.SendName "ECin" "ECout" (some PrjnKind.Prjn),
   Act.SendName "Output" "Cortex" (some PrjnKind.Prjn),
   Act.SendName "Cortex" "Output" (some PrjnKind.Prjn),
   Act.SendName "Cortex" "Input" (some PrjnKind.Prjn),
   Act.SendName "CA3" "ECin" (some PrjnKind.EcCa1Prjn),
   Act.SendName "CA3" "CA3" (some PrjnKind.EcCa1Prjn),
   Act.SendName "CA1" "CA3" (some PrjnKind.CHLPrjn),
   Act.SendName "DG" "ECin" (some PrjnKind.CHLPrjn), Act.LayerByName "Letter",
   Act.SendName "ECout" "CA1" (some PrjnKind.EcCa1Prjn),
   Act.SendName "CA1" "ECout" (some PrjnKind.EcCa1Prjn), Act.LayerByName "Letter",
   Act.SendName "Letter" "Output" (some PrjnKind.Prjn),
   Act.SendName "Output" "Letter" (some PrjnKind.Prjn),
   Act.SendName "Output" "ECout" (some PrjnKind.Prjn),
   Act.SendName "ECin" "Output" (some PrjnKind.Prjn), Act.SendName "CA3" "DG" none]

/-- First assignments of `AlphaCycFull` (source lines 1694-1695). -/
def fullConfigA (outecback : ℚ) : List Act :=
  [Act.SetAbs "ECin" "Output" 1, Act.SetRel "ECin" "Output" outecback]

/-- Second lookups of `AlphaCycFull` (source lines 1699-1702). -/
def fullSemLookups : List Act :=
  [Act.LayerByName "Semantic", Act.SendName "ECin" "Semantic" (some PrjnKind.Prjn),
   Act.SendName "Semantic" "Input" (some PrjnKind.Prjn),
   Act.SendName "Semantic" "ECin" (some PrjnKind.Prjn)]

/-- Second assignments of `AlphaCycFull` (source lines 1703-1738). -/
def fullConfigB (semWake : Int) : List Act :=
  [Act.SetLearn "ECin" "Semantic" false, Act.SetLearn "Semantic" "Input" false,
   Act.SetLearn "Semantic" "ECin" false, Act.SetRel "ECin" "Semantic" ((semWake : ℚ) / 100),
   Act.SetRel "ECin" "Input" 1, Act.SetRel "ECin" "ECout" (1 / 2),
   Act.SetLearn "Letter" "Output" true, Act.SetLearn "Cortex" "Output" true,
   Act.SetLearn "Output" "Cortex" true, Act.SetLearn "Output" "Letter" true,
   Act.SetLearn "CA1" "ECout" false, Act.SetLearn "CA3" "CA3" false,
   Act.SetLearn "CA1" "CA3" false, Act.SetLearn "ECout" "CA1" false,
   Act.SetPrjnOff "Output" "Letter" false, Act.SetLearn "CA3" "ECin" false,
   Act.SetLearn "DG" "ECin" false, Act.SetLearn "CA1" "ECin" false,
   Act.SetLayOff "Cortex" false, Act.SetLayOff "Letter" false,
   Act.SetPrjnOff "ECin" "Input" false, Act.SetPrjnOff "ECin" "ECout" false,
   Act.SetPrjnOff "Output" "ECout" false, Act.SetPrjnOff "Output" "Cortex" false,
   Act.SetPrjnOff "Cortex" "Output" false, Act.SetPrjnOff "Cortex" "Input" false,
   Act.SetPrjnOff "CA1" "ECin" false, Act.SetPrjnOff "CA3" "ECin" false,
   Act.SetPrjnOff "DG" "ECin" false, Act.SetLayOff "CA1" false, Act.SetLayOff "CA3" false,
   Act.SetLayOff "DG" false, Act.SetLayOff "ECout" false]

/-- Assignments and lookups of `AlphaCycFull` (source lines 1694-1738). -/
def fullConfig (semWake : Int) (outecback : ℚ) : List Act :=
  fullConfigA outecback ++ fullSemLookups ++ fullConfigB semWake

/-- The statements of `switch qtr + 1` in `AlphaCycHip` (source lines 745-768), for
`q = qtr + 1`. -/
def hipSwitch (train : Bool) (dgwtscale : ℚ) (q : Nat) : List Act :=
  if q = 1 then
    [Act.SetAbs "CA1" "ECin" 0, Act.SetAbs "CA1" "CA3" 1,
     Act.SetRel "CA3" "DG" (if train then dgwtscale else 1),
     Act.GScaleFmAvgAct, Act.InitGInc]
  else if q = 3 then
    [Act.SetAbs "CA1" "ECin" 1, Act.SetAbs "CA1" "CA3" 0, Act.GScaleFmAvgAct, Act.InitGInc] ++
    (if train then [Act.UnitVals "ECin" "Act", Act.ApplyExt1D32 "ECout"]
     else [Act.UnitVals "ECin" "Act"])
  else []

/-- The four statements of `if train { ... }` that clamp `Output` and then `ECout` (source
lines 963-968 and 1155-1160). -/
def sleepClamp (train : Bool) : List Act :=
  if train then
    [Act.UnitVals "ECout" "Act", Act.ApplyExt1D32 "Output",
     Act.UnitVals "ECin" "Act", Act.ApplyExt1D32 "ECout"]
  else []

/-- The statements of `switch qtr + 1` in `AlphaCycSleep` (source lines 946-969). -/
def sleepSwitch (train : Bool) (dgwtscale : ℚ) (q : Nat) : List Act :=
  if q = 1 then
    [Act.SetAbs "CA1" "ECin" 0, Act.SetAbs "CA1" "CA3" 1,
     Act.SetRel "CA3" "DG" (if train then dgwtscale else 1),
     Act.GScaleFmAvgAct, Act.InitGInc]
  else if q = 3 then
    [Act.SetAbs "CA1" "ECin" 1, Act.SetAbs "CA1" "CA3" 0, Act.GScaleFmAvgAct, Act.InitGInc] ++
    sleepClamp train
  else []

/-- The statements of `switch qtr + 1` in `AlphaCycDaydream` (source lines 1143-1161). -/
def daydreamSwitch (train : Bool) (q : Nat) : List Act :=
  if q = 1 then
    [Act.SetAbs "CA1" "ECin" 0, Act.SetAbs "CA1" "CA3" 1, Act.GScaleFmAvgAct, Act.InitGInc]
  else if q = 3 then
    [Act.SetAbs "CA1" "ECin" 1, Act.SetAbs "CA1" "CA3" 0, Act.GScaleFmAvgAct, Act.InitGInc] ++
    sleepClamp train
  else []

/-- The statements of `switch qtr + 1` in `AlphaCycHipPureRet` (source lines 1319-1329). -/
def pureRetSwitch (train : Bool) (q : Nat) : List Act :=
  if q = 3 then
    (if train then [Act.UnitVals "ECin" "Act", Act.ApplyExt1D32 "ECout"]
     else [Act.UnitVals "ECin" "Act"])
  else []

/-- The statements of `switch qtr + 1` in `AlphaCycFull` (source lines 1788-1807). -/
def fullSwitch (train : Bool) (q : Nat) : List Act :=
  if q = 1 then [Act.SetAbs "CA1" "ECin" 0, Act.SetAbs "CA1" "CA3" 1]
  else if q = 2 then [Act.SetAbs "CA1" "ECin" 0, Act.SetAbs "CA1" "CA3" 1]
  else if q = 3 then
    [Act.SetAbs "CA1" "ECin" 0, Act.SetAbs "CA1" "CA3" 1] ++
    (if train then [Act.UnitVals "ECout" "Act", Act.ApplyExt1D32 "Output"] else [])
  else []

/-- `Sim.AlphaCycHip(train)` (source lines 609-803). -/
def AlphaCycHip {D : Type} (E : Engine D) (train : Bool) (ss : Sim D) : Except (Sim D) (Sim D) := do
  let viewUpdt := viewUpdtOf train ss
  let ss ← execs E train hipLookups ss
  let ss ← execs E train (hipConfig ss.SemWake ss.Outecback ++ hipTypes train ++
    [Act.SetAbs "CA1" "ECin" 1, Act.SetAbs "CA1" "CA3" 0]) ss
  let dgwtscale := ss.Net.prjnRel "CA3" "DG"
  let ss ← execs E train [Act.SetRel "CA3" "DG" 0, Act.AlphaCycInit, Act.AlphaCycStart] ss
  let ss ← qtrLoop E train viewUpdt (hipSwitch train dgwtscale) ss
  let ss ← execs E train
    ([Act.SetRel "CA3" "DG" dgwtscale, Act.SetAbs "CA1" "CA3" 1] ++ learnActs train) ss
  alphaEnd E train viewUpdt ss

/-- `Sim.AlphaCycSleep(train)` (source lines 805-1003). -/
def AlphaCycSleep {D : Type} (E : Engine D) (train : Bool) (ss : Sim D) : Except (Sim D) (Sim D) := do
  let viewUpdt := viewUpdtOf train ss
  let ss ← execs E train hipLookups ss
  let ss ← execs E train (sleepConfig ++ hipTypes train ++
    (if train then [Act.SetPrjnOff "Output" "ECout" true] else []) ++
    [Act.SetAbs "CA1" "ECin" 1, Act.SetAbs "CA1" "CA3" 0]) ss
  let dgwtscale := ss.Net.prjnRel "CA3" "DG"
  let ss ← execs E train [Act.SetRel "CA3" "DG" 0, Act.GScaleFmAvgAct, Act.InitGInc,
    Act.AlphaCycInit, Act.AlphaCycStart] ss
  let ss ← qtrLoop E train viewUpdt (sleepSwitch train dgwtscale) ss
  let ss ← execs E train
    ([Act.SetRel "CA3" "DG" dgwtscale, Act.SetAbs "CA1" "CA3" 1] ++ learnActs train) ss
  alphaEnd E train viewUpdt ss

/-- `Sim.AlphaCycDaydream(train)` (source lines 1005-1193). -/
def AlphaCycDaydream {D : Type} (E : Engine D) (train : Bool) (ss : Sim D) : Except (Sim D) (Sim D) := do
  let viewUpdt := viewUpdtOf train ss
  let ss ← execs E train daydreamLookups ss
  let ss ← execs E train (daydreamConfig ss.SemWake ss.Outecback ++ hipTypes train ++
    (if train then [Act.SetPrjnOff "Output" "ECout" true] else []) ++
    [Act.SetAbs "CA1" "ECin" 1, Act.SetAbs "CA1" "CA3" 0]) ss
  let ss ← execs E train [Act.GScaleFmAvgAct, Act.InitGInc,
    Act.AlphaCycInit, Act.AlphaCycStart] ss
  let ss ← qtrLoop E train viewUpdt (daydreamSwitch train) ss
  let ss ← execs E train (learnActs train) ss
  alphaEnd E train viewUpdt ss

/-- `Sim.AlphaCycHipPureRet(train)` (source lines 1195-1361). -/
def AlphaCycHipPureRet {D : Type} (E : Engine D) (train : Bool) (ss : Sim D) : Except (Sim D) (Sim D) := do
  let viewUpdt := viewUpdtOf train ss
  let ss ← execs E train pureRetLookups ss
  let ss ← execs E train (pureRetConfig ss.Outecback ++ hipTypes train ++
    [Act.SetAbs "CA1" "ECin" 0, Act.SetAbs "CA1" "CA3" 1, Act.SetRel "CA3" "DG" 1]) ss
  let ss ← execs E train [Act.AlphaCycInit, Act.AlphaCycStart] ss
  let ss ← qtrLoop E train viewUpdt (pureRetSwitch train) ss
  let ss ← execs E train (learnActs train) ss
  alphaEnd E train viewUpdt ss

/-- `Sim.AlphaCycSem(train)` (source lines 1365-1507). -/
def AlphaCycSem {D : Type} (E : Engine D) (train : Bool) (ss : Sim D) : Except (Sim D) (Sim D) := do
  let viewUpdt := viewUpdtOf train ss
  let ss ← execs E train semLookups ss
  let ss ← execs E train (semConfig ss.Outecback) ss
  let ss ← execs E train [Act.AlphaCycInit, Act.AlphaCycStart] ss
  let ss ← qtrLoop E train viewUpdt (fun _ => []) ss
  let ss ← execs E train (learnActs train) ss
  alphaEnd E train viewUpdt ss

/-- `Sim.AlphaCycCor(train)` (source lines 1509-1651). -/
def AlphaCycCor {D : Type} (E : Engine D) (train : Bool) (ss : Sim D) : Except (Sim D) (Sim D) := do
  let viewUpdt := viewUpdtOf train ss
  let ss ← execs E train semLookups ss
  let ss ← execs E train corConfig ss
  let ss ← execs E train [Act.AlphaCycInit, Act.AlphaCycStart] ss
  let ss ← qtrLoop E train viewUpdt (fun _ => []) ss
  let ss ← execs E train (learnActs train) ss
  alphaEnd E train viewUpdt ss

/-- `Sim.AlphaCycFull(train)` (source lines 1653-1839). -/
def AlphaCycFull {D : Type} (E : Engine D) (train : Bool) (ss : Sim D) : Except (Sim D) (Sim D) := do
  let viewUpdt := viewUpdtOf train ss
  let ss ← execs E train ((if train then [Act.WtFmDWt] else []) ++ fullLookups) ss
  let ss ← execs E train (fullConfig ss.SemWake ss.Outecback ++
    (if train then [Act.SetPrjnOff "Output" "ECout" true] else []) ++
    [Act.SetType "DG" LayerType.Hidden, Act.SetType "CA1" LayerType.Hidden,
     Act.SetType "CA3" LayerType.Hidden, Act.SetType "ECout" LayerType.Compare,
     Act.UpdateExtFlags "ECout"] ++
    (if train then [Act.SetType "ECin" LayerType.Compare, Act.UpdateExtFlags "ECin"] else []) ++
    [Act.SetAbs "CA1" "ECin" 0, Act.SetAbs "CA1" "CA3" 1, Act.SetRel "CA3" "DG" 1]) ss
  let ss ← execs E train [Act.AlphaCycInit, Act.AlphaCycStart] ss
  let ss ← qtrLoop E train viewUpdt (fullSwitch train) ss
  let ss ← execs E train (if train then [Act.DWt] else []) ss
  alphaEnd E train viewUpdt ss

/-- The seven alpha-cycle procedures. -/
inductive Mode where
  | Hip | Sleep | Daydream | HipPureRet | Sem | Cor | Full
  deriving DecidableEq

/-- The procedure of a mode. -/
def Mode.run {D : Type} (m : Mode) (E : Engine D) (train : Bool) (ss : Sim D) : Except (Sim D) (Sim D) :=
  match m with
  | .Hip => AlphaCycHip E train ss
  | .Sleep => AlphaCycSleep E train ss
  | .Daydream => AlphaCycDaydream E train ss
  | .HipPureRet => AlphaCycHipPureRet E train ss
  | .Sem => AlphaCycSem E train ss
  | .Cor => AlphaCycCor E train ss
  | .Full => AlphaCycFull E train ss

/-- The names a procedure looks up before its quarter loop. -/
def Mode.lookups (m : Mode) : List Act :=
  match m with
  | .Hip => hipLookups
  | .Sleep => hipLookups
  | .Daydream => daydreamLookups
  | .HipPureRet => pureRetLookups
  | .Sem => semLookups
  | .Cor => semLookups
  | .Full => fullLookups ++ fullSemLookups

/-- The first sequence of statements of a procedure: its lookups (in `AlphaCycFull`, after
`if train { ss.Net.WtFmDWt() }`). -/
def Mode.look (m : Mode) (train : Bool) : List Act :=
  match m with
  | .Hip => hipLookups
  | .Sleep => hipLookups
  | .Daydream => daydreamLookups
  | .HipPureRet => pureRetLookups
  | .Sem => semLookups
  | .Cor => semLookups
  | .Full => (if train then [Act.WtFmDWt] else []) ++ fullLookups

/-- The assignments of a procedure before the start of the alpha cycle, up to the read of
`dgwtscale`. -/
def Mode.cfg {D : Type} (m : Mode) (train : Bool) (ss : Sim D) : List Act :=
  match m with
  | .Hip => hipConfig ss.SemWake ss.Outecback ++ hipTypes train ++
      [Act.SetAbs "CA1" "ECin" 1, Act.SetAbs "CA1" "CA3" 0]
  | .Sleep => sleepConfig ++ hipTypes train ++
      (if train then [Act.SetPrjnOff "Output" "ECout" true] else []) ++
      [Act.SetAbs "CA1" "ECin" 1, Act.SetAbs "CA1" "CA3" 0]
  | .Daydream => daydreamConfig ss.SemWake ss.Outecback ++ hipTypes train ++
      (if train then [Act.SetPrjnOff "Output" "ECout" true] else []) ++
      [Act.SetAbs "CA1" "ECin" 1, Act.SetAbs "CA1" "CA3" 0]
  | .HipPureRet => pureRetConfig ss.Outecback ++ hipTypes train ++
      [Act.SetAbs "CA1" "ECin" 0, Act.SetAbs "CA1" "CA3" 1, Act.SetRel "CA3" "DG" 1]
  | .Sem => semConfig ss.Outecback
  | .Cor => corConfig
  | .Full => fullConfig ss.SemWake ss.Outecback ++
      (if train then [Act.SetPrjnOff "Output" "ECout" true] else []) ++
      [Act.SetType "DG" LayerType.Hidden, Act.SetType "CA1" LayerType.Hidden,
       Act.SetType "CA3" LayerType.Hidden, Act.SetType "ECout" LayerType.Compare,
       Act.UpdateExtFlags "ECout"] ++
      (if train then [Act.SetType "ECin" LayerType.Compare, Act.UpdateExtFlags "ECin"]
       else []) ++
      [Act.SetAbs "CA1" "ECin" 0, Act.SetAbs "CA1" "CA3" 1, Act.SetRel "CA3" "DG" 1]

/-- The statements of a procedure from the read of `dgwtscale` to the quarter loop. -/
def Mode.start (m : Mode) : List Act :=
  match m with
  | .Hip => [Act.SetRel "CA3" "DG" 0, Act.AlphaCycInit, Act.AlphaCycStart]
  | .Sleep => [Act.SetRel "CA3" "DG" 0, Act.GScaleFmAvgAct, Act.InitGInc,
      Act.AlphaCycInit, Act.AlphaCycStart]
  | .Daydream => [Act.GScaleFmAvgAct, Act.InitGInc, Act.AlphaCycInit, Act.AlphaCycStart]
  | _ => [Act.AlphaCycInit, Act.AlphaCycStart]

/-- The statements of `switch qtr + 1` of a procedure. -/
def Mode.sw (m : Mode) (train : Bool) (dgwtscale : ℚ) (q : Nat) : List Act :=
  match m with
  | .Hip => hipSwitch train dgwtscale q
  | .Sleep => sleepSwitch train dgwtscale q
  | .Daydream => daydreamSwitch train q
  | .HipPureRet => pureRetSwitch train q
  | .Sem => []
  | .Cor => []
  | .Full => fullSwitch train q

/-- The statements of a procedure between the quarter loop and its end. -/
def Mode.post (m : Mode) (train : Bool) (dgwtscale : ℚ) : List Act :=
  match m with
  | .Hip => [Act.SetRel "CA3" "DG" dgwtscale, Act.SetAbs "CA1" "CA3" 1] ++ learnActs train
  | .Sleep => [Act.SetRel "CA3" "DG" dgwtscale, Act.SetAbs "CA1" "CA3" 1] ++ learnActs train
  | .Full => if train then [Act.DWt] else []
  | _ => learnActs train

/-- The condition under which a trial of mode `m` runs without a panic: every name the
procedure looks up is in the network and, when testing, so is every layer of `LayStatNms`
(read by `LogTstCyc`). -/
def Mode.ready {D : Type} (m : Mode) (train : Bool) (ss : Sim D) : Bool :=
  m.lookups.all (fun a => a.safe ss) && (train || Act.LogTstCyc.safe ss)

/-- The statements executed during a call: the `act` fields of the events appended to the
history. -/
def newActs {D : Type} (ss ss1 : Sim D) : List Act :=
  (ss1.trace.drop ss.trace.length).map (fun e => e.act)

/-! ## The quantities of the memory score, in the words of the specification -/

/-- The recalled value of a unit: `ActM` of `Output`. -/
def recalled {D : Type} (E : Engine D) (ss : Sim D) (ni : Nat) : ℚ :=
  E.UnitVal1D ss.Dyn "Output" "ActM" ni

/-- The target value of a unit: `Targ` of `ECin`. -/
def target {D : Type} (E : Engine D) (ss : Sim D) (ni : Nat) : ℚ :=
  E.UnitVal1D ss.Dyn "ECin" "Targ" ni

/-- The value of a unit in the cue: `ActQ1` of `ECin`. -/
def cue {D : Type} (E : Engine D) (ss : Sim D) (ni : Nat) : ℚ :=
  E.UnitVal1D ss.Dyn "ECin" "ActQ1" ni

/-- The number of units among `idx` that satisfy `p`. -/
def nUnits (idx : List Nat) (p : Nat → Prop) [DecidablePred p] : Nat :=
  idx.countP (fun ni => decide (p ni))

/-- A unit is TargetOn when its target is at least 0.5. -/
def TargetOn {D : Type} (E : Engine D) (ss : Sim D) (ni : Nat) : Prop := half ≤ target E ss ni

/-- A unit is TargetOff when its target is below 0.5. -/
def TargetOff {D : Type} (E : Engine D) (ss : Sim D) (ni : Nat) : Prop := target E ss ni < half

/-- A Completion unit is a TargetOn unit that is below 0.5 in the cue. -/
def Completion {D : Type} (E : Engine D) (ss : Sim D) (ni : Nat) : Prop :=
  half ≤ target E ss ni ∧ cue E ss ni < half

instance {D : Type} (E : Engine D) (ss : Sim D) : DecidablePred (TargetOn E ss) :=
  fun ni => inferInstanceAs (Decidable (half ≤ target E ss ni))

instance {D : Type} (E : Engine D) (ss : Sim D) : DecidablePred (TargetOff E ss) :=
  fun ni => inferInstanceAs (Decidable (target E ss ni < half))

instance {D : Type} (E : Engine D) (ss : Sim D) : DecidablePred (Completion E ss) :=
  fun ni => inferInstanceAs (Decidable (half ≤ target E ss ni ∧ cue E ss ni < half))

/-- Miss-rate over the TargetOn units among `idx`: those recalled below 0.5, divided by
their number. -/
def missRate {D : Type} (E : Engine D) (ss : Sim D) (idx : List Nat) : Flt :=
  fdiv (nUnits idx (fun ni => TargetOn E ss ni ∧ recalled E ss ni < half))
    (nUnits idx (TargetOn E ss))

/-- Miss-rate over the Completion units among `idx`. -/
def missRateCmp {D : Type} (E : Engine D) (ss : Sim D) (idx : List Nat) : Flt :=
  fdiv (nUnits idx (fun ni => Completion E ss ni ∧ recalled E ss ni < half))
    (nUnits idx (Completion E ss))

/-- False-alarm rate of the code over the TargetOff units among `idx`: those recalled
above 0.5, divided by their number. -/
def faRate {D : Type} (E : Engine D) (ss : Sim D) (idx : List Nat) : Flt :=
  fdiv (nUnits idx (fun ni => TargetOff E ss ni ∧ half < recalled E ss ni))
    (nUnits idx (TargetOff E ss))

/-- False-alarm rate in the words of the specification: the TargetOff units recalled at 0.5
or above, divided by their number. -/
def faRateSpec {D : Type} (E : Engine D) (ss : Sim D) (idx : List Nat) : Flt :=
  fdiv (nUnits idx (fun ni => TargetOff E ss ni ∧ half ≤ recalled E ss ni))
    (nUnits idx (TargetOff E ss))

/-- The pool of a unit, with pools laid out as consecutive blocks of 49 flat indices. -/
def poolOf (ni : Nat) : Nat := ni / 49

/-- The recalled value is the logical complement of a binary target on the units below
`nn`. -/
def IsComplement {D : Type} (E : Engine D) (ss : Sim D) (nn : Nat) : Prop :=
  ∀ ni, ni < nn →
    (target E ss ni = 1 ∧ recalled E ss ni = 0) ∨ (target E ss ni = 0 ∧ recalled E ss ni = 1)


/-! ## The statements of a whole call, as a list

The lists below spell out, for given values of `train`, `ss.ViewOn`, `viewUpdt` and
`ss.Time.CycPerQtr`, the statements that the loops execute.  The theorems of the section
"Histories" show that a call executes exactly these statements. -/

/-- The names and projection types of a layer: what a lookup can observe. -/
def Layer.sig (ly : Layer) : String × List (String × PrjnKind) :=
  (ly.Nm, ly.RcvPrjns.map (fun pj => (pj.Send, pj.Kind)))

/-- The names and projection types of a network. -/
def Network.sig (net : Network) : List (String × List (String × PrjnKind)) :=
  net.Layers.map Layer.sig

/-- The fields that no statement of an alpha cycle assigns are the same in two states. -/
def sameFrame {D : Type} (ss ss1 : Sim D) : Prop :=
  ss1.ViewOn = ss.ViewOn ∧ ss1.Time.CycPerQtr = ss.Time.CycPerQtr ∧
  ss1.LayStatNms = ss.LayStatNms ∧ ss1.TrainUpdt = ss.TrainUpdt ∧
  ss1.TestUpdt = ss.TestUpdt ∧ ss1.SemWake = ss.SemWake ∧
  ss1.Outecback = ss.Outecback ∧ ss1.Net.sig = ss.Net.sig

/-- State `ss1` is reached from `ss` by executing exactly the statements `l`. -/
def Ran {D : Type} (ss ss1 : Sim D) (l : List Act) : Prop :=
  (∃ ext : List (Event D), ss1.trace = ss.trace ++ ext ∧ ext.map (fun e => e.act) = l) ∧
  sameFrame ss ss1

/-- The procedure `f` returns from `ss`, having executed exactly the statements `l`. -/
def Runs {D : Type} (f : Sim D → Except (Sim D) (Sim D)) (ss : Sim D) (l : List Act) : Prop :=
  ∃ ss1, f ss = Except.ok ss1 ∧ Ran ss ss1 l

/-- The statements of one iteration of the cycle loop. -/
def cycActs (train viewOn : Bool) (viewUpdt : TimeScales) (cpq : Int) (cyc : Nat) : List Act :=
  [Act.Cycle] ++ (if train then [] else [Act.LogTstCyc]) ++ [Act.CycleInc] ++
  (if viewOn then
    match viewUpdt with
    | TimeScales.Cycle => if (cyc : Int) ≠ cpq - 1 then [Act.UpdateView] else []
    | TimeScales.FastSpike => if (cyc + 1) % 10 = 0 then [Act.UpdateView] else []
    | _ => []
   else [])

/-- The statements of the cycle loop. -/
def cycLoopActs (train viewOn : Bool) (viewUpdt : TimeScales) (cpq : Int) : List Act :=
  (List.range' 0 cpq.toNat).flatMap (cycActs train viewOn viewUpdt cpq)

/-- The statements after `QuarterFinal` and the call of `MemStats`, at the end of quarter
`qtr`. -/
def qtrTailActs (viewOn : Bool) (viewUpdt : TimeScales) (qtr : Nat) : List Act :=
  [Act.QuarterInc] ++
  (if viewOn then
    if viewUpdt.ord ≤ TimeScales.Quarter.ord then [Act.UpdateView]
    else if viewUpdt = TimeScales.Phase then (if qtr ≥ 2 then [Act.UpdateView] else [])
    else []
   else [])

/-- The statements of the end of quarter `qtr`. -/
def qtrEndActs (viewOn : Bool) (viewUpdt : TimeScales) (qtr : Nat) : List Act :=
  [Act.QuarterFinal] ++ (if qtr + 1 = 3 then [Act.MemStats] else []) ++
  qtrTailActs viewOn viewUpdt qtr

/-- The statements of quarter `qtr`. -/
def qtrActs (train viewOn : Bool) (viewUpdt : TimeScales) (cpq : Int) (sw : Nat → List Act)
    (qtr : Nat) : List Act :=
  cycLoopActs train viewOn viewUpdt cpq ++ sw (qtr + 1) ++ qtrEndActs viewOn viewUpdt qtr

/-- The statements of the quarter loop. -/
def qtrLoopActs (train viewOn : Bool) (viewUpdt : TimeScales) (cpq : Int)
    (sw : Nat → List Act) : List Act :=
  (List.range' 0 4).flatMap (qtrActs train viewOn viewUpdt cpq sw)

/-- The statements of the end of a procedure. -/
def alphaEndActs (train viewOn : Bool) (viewUpdt : TimeScales) : List Act :=
  (if viewOn && decide (viewUpdt = TimeScales.AlphaCycle) then [Act.UpdateView] else []) ++
  (if train then [] else [Act.TstCycPlotGoUpdate])

/-- The common shape of the seven procedures: lookups, assignments, the read of
`dgwtscale`, the start of the alpha cycle, the quarter loop, the statements after the loop
and the end. -/
def alphaShape {D : Type} (E : Engine D) (train : Bool) (look : List Act)
    (cfg : Sim D → List Act) (start : List Act) (sw : ℚ → Nat → List Act)
    (post : ℚ → List Act) (ss : Sim D) : Except (Sim D) (Sim D) := do
  let viewUpdt := viewUpdtOf train ss
  let ss ← execs E train look ss
  let ss ← execs E train (cfg ss) ss
  let dgwtscale := ss.Net.prjnRel "CA3" "DG"
  let ss ← execs E train start ss
  let ss ← qtrLoop E train viewUpdt (sw dgwtscale) ss
  let ss ← execs E train (post dgwtscale) ss
  alphaEnd E train viewUpdt ss

/-- The statements of a call of the common shape, for a value `dg` of `dgwtscale`. -/
def alphaActs {D : Type} (train : Bool) (look : List Act) (cfg : Sim D → List Act)
    (start : List Act) (sw : ℚ → Nat → List Act) (post : ℚ → List Act) (ss : Sim D)
    (dg : ℚ) : List Act :=
  look ++ cfg ss ++ start ++
  qtrLoopActs train ss.ViewOn (viewUpdtOf train ss) ss.Time.CycPerQtr (sw dg) ++
  post dg ++ alphaEndActs train ss.ViewOn (viewUpdtOf train ss)

/-- The statements that are neither lookups, nor `LogTstCyc`, nor `MemStats`: they cannot
panic. -/
def Act.plain : Act → Bool
  | .LayerByName _ => false
  | .SendName _ _ _ => false
  | .LogTstCyc => false
  | .MemStats => false
  | _ => true

/-- The statements of the schedule: the cycle steps, the ends of quarters and the memory
score. -/
def Act.sched : Act → Bool
  | .Cycle => true
  | .QuarterFinal => true
  | .MemStats => true
  | _ => false

/-- The projection types received by the layer `recv`, read off the names of a network. -/
def sigLayer (sg : List (String × List (String × PrjnKind))) (recv : String) :
    Option (List (String × PrjnKind)) :=
  (sg.find? (fun s => s.1 == recv)).map (fun s => s.2)

/-- The type of the projection from `send`, read off the names of a layer. -/
def sigKind (ps : List (String × PrjnKind)) (send : String) : Option PrjnKind :=
  (ps.find? (fun x => x.1 == send)).map (fun x => x.2)

/-- The success of a projection lookup, read off the names of a network. -/
def sigHasPrjn (sg : List (String × List (String × PrjnKind))) (recv send : String)
    (kind : Option PrjnKind) : Bool :=
  match sigLayer sg recv with
  | none => false
  | some ps =>
    match sigKind ps send with
    | none => false
    | some kd =>
      match kind with
      | none => true
      | some k => kd == k

/-- The statements of a call of the procedure of mode `m`, for a value `dg` of
`dgwtscale`. -/
def Mode.acts {D : Type} (m : Mode) (train : Bool) (ss : Sim D) (dg : ℚ) : List Act :=
  alphaActs train (m.look train) (m.cfg train) m.start (m.sw train) (m.post train) ss dg

/-- A statement that cannot panic or that is one of the lookups of mode `m`. -/
def Mode.admits (m : Mode) (a : Act) : Bool := a.plain || m.lookups.contains a

/-- A cycle step or the end of a quarter. -/
def Act.tick (a : Act) : Bool := decide (a = Act.Cycle ∨ a = Act.QuarterFinal)

/-! ## The end state of a call and the value of `dgwtscale` -/

/-- The state in which a call ends: the state it returns, or the state at the panic. -/
def outcome {D : Type} : Except (Sim D) (Sim D) → Sim D
  | Except.ok s => s
  | Except.error s => s

/-- The value that a procedure of the common shape reads into `dgwtscale` after its lookups
and first assignments (0 if the call panics before the read). -/
def dgRead {D : Type} (E : Engine D) (train : Bool) (l : List Act) (ss : Sim D) : ℚ :=
  match execs E train l ss with
  | Except.ok s => s.Net.prjnRel "CA3" "DG"
  | Except.error _ => 0

/-- The value that a call of mode `m` reads into `dgwtscale`. -/
def Mode.dgwtscale {D : Type} (m : Mode) (E : Engine D) (train : Bool) (ss : Sim D) : ℚ :=
  dgRead E train (m.look train ++ m.cfg train ss) ss

/-- The statements that the loops and the end of every procedure can execute, the
statements of `switch qtr + 1` apart. -/
def loopActs : List Act :=
  [Act.Cycle, Act.LogTstCyc, Act.CycleInc, Act.UpdateView, Act.QuarterFinal, Act.MemStats,
   Act.QuarterInc, Act.TstCycPlotGoUpdate]

/-- The two learning calls of the engine: `Net.DWt()` and `Net.WtFmDWt()`. -/
def Act.isLearn : Act → Bool
  | .DWt => true
  | .WtFmDWt => true
  | _ => false

/-- A clamp: `ApplyExt1D32` on some layer. -/
def Act.isClamp : Act → Bool
  | .ApplyExt1D32 _ => true
  | _ => false

/-- The statements of a call from its entry to the end of the quarter loop. -/
def Mode.toLoopEnd {D : Type} (m : Mode) (train : Bool) (ss : Sim D) (dg : ℚ) : List Act :=
  m.look train ++ m.cfg train ss ++ m.start ++
  qtrLoopActs train ss.ViewOn (viewUpdtOf train ss) ss.Time.CycPerQtr (m.sw train dg)

/-- An assignment to `WtScale.Rel` of the projection from `send` to `recv`. -/
def Act.isSetRel (recv send : String) : Act → Bool
  | .SetRel r s _ => decide (r = recv ∧ s = send)
  | _ => false

/-- What a statement of `AlphaCycSleep` becomes in `AlphaCycDaydream`: the lookup of the
projection from `DG` to `CA3` and the assignments to its `WtScale.Rel` are dropped, the
values assigned to `WtScale.Rel` of the projections from `Semantic` and from `Output` to
`ECin` are `SemWake / 100` and `Outecback` instead of 2 and 1, every other statement is
kept. -/
def daydreamOf (semWake : Int) (outecback : ℚ) (a : Act) : Option Act :=
  match a with
  | .SendName r s _ => if r = "CA3" ∧ s = "DG" then none else some a
  | .SetRel r s _ =>
    if r = "CA3" ∧ s = "DG" then none
    else if r = "ECin" ∧ s = "Semantic" then some (Act.SetRel r s ((semWake : ℚ) / 100))
    else if r = "ECin" ∧ s = "Output" then some (Act.SetRel r s outecback)
    else some a
  | _ => some a

/-! ## The configuration as seen through the lookups by name -/

/-- The projection that `LayerByName(recv).RcvPrjns.SendName(send)` returns. -/
def Network.getPrjn (net : Network) (recv send : String) : Option Prjn :=
  (net.LayerByName recv).bind (fun ly => ly.SendName send)

/-- The attributes that the procedures assign: for a layer, its `Off` flag and its type;
for a projection, its `Off` flag, `Learn.Learn`, `WtScale.Rel` and `WtScale.Abs`. -/
inductive Attr where
  | layOff (lay : String)
  | layTyp (lay : String)
  | prjnOff (recv send : String)
  | prjnLearn (recv send : String)
  | prjnRel (recv send : String)
  | prjnAbs (recv send : String)
  deriving DecidableEq

/-- The value of an attribute. -/
inductive Val where
  | flag (b : Bool)
  | num (q : ℚ)
  | typ (t : LayerType)
  deriving DecidableEq

/-- The value of an attribute in a network, read through the lookups by name (`none` if
the lookup fails). -/
def Network.attr (net : Network) : Attr → Option Val
  | .layOff lay => (net.LayerByName lay).map (fun ly => Val.flag ly.Off)
  | .layTyp lay => (net.LayerByName lay).map (fun ly => Val.typ ly.Typ)
  | .prjnOff recv send => (net.getPrjn recv send).map (fun pj => Val.flag pj.Off)
  | .prjnLearn recv send => (net.getPrjn recv send).map (fun pj => Val.flag pj.Learn)
  | .prjnRel recv send => (net.getPrjn recv send).map (fun pj => Val.num pj.Rel)
  | .prjnAbs recv send => (net.getPrjn recv send).map (fun pj => Val.num pj.Abs)

/-- The attribute that a statement assigns, with the value assigned. -/
def Act.write : Act → Option (Attr × Val)
  | .SetLearn recv send b => some (Attr.prjnLearn recv send, Val.flag b)
  | .SetPrjnOff recv send b => some (Attr.prjnOff recv send, Val.flag b)
  | .SetRel recv send v => some (Attr.prjnRel recv send, Val.num v)
  | .SetAbs recv send v => some (Attr.prjnAbs recv send, Val.num v)
  | .SetLayOff lay b => some (Attr.layOff lay, Val.flag b)
  | .SetType lay t => some (Attr.layTyp lay, Val.typ t)
  | _ => none

/-- The value that a statement assigns to the attribute `k`, if it assigns it. -/
def Act.writeTo (k : Attr) (a : Act) : Option Val :=
  match a.write with
  | some (k1, v) => if k1 = k then some v else none
  | none => none

/-- The value of an attribute after an assignment `w` (`none`: no assignment): an
assignment through a failed lookup cannot happen, so a missing attribute stays missing. -/
def setTo (w : Option Val) (x : Option Val) : Option Val :=
  match w with
  | none => x
  | some v => x.map (fun _ => v)

/-- The last value that a sequence of statements assigns to the attribute `k`. -/
def lastWrite (k : Attr) : List Act → Option Val
  | [] => none
  | a :: l =>
    match lastWrite k l with
    | some v => some v
    | none => a.writeTo k

/-- The off and learn flags, as opposed to the strengths and the layer types. -/
def Attr.isFlag : Attr → Bool
  | .layOff _ => true
  | .prjnOff _ _ => true
  | .prjnLearn _ _ => true
  | _ => false

/-- The effect of a statement on the counter `Time.Quarter`. -/
def Act.onQuarter (a : Act) (q : Int) : Int :=
  match a with
  | .AlphaCycStart => 0
  | .QuarterInc => q + 1
  | _ => q

/-! ## Observing two attributes along a call -/

/-- The value of `Time.Quarter` and of two attributes. -/
abbrev Obs := Int × Option Val × Option Val

/-- The observation of a configuration and a time. -/
def obsOf (k1 k2 : Attr) (net : Network) (tm : Time) : Obs :=
  (tm.Quarter, net.attr k1, net.attr k2)

/-- The observation of the snapshot held by an event. -/
def Event.obs {D : Type} (k1 k2 : Attr) (e : Event D) : Obs := obsOf k1 k2 e.net e.time

/-- The observation after a statement. -/
def obsStep (k1 k2 : Attr) (a : Act) (t : Obs) : Obs :=
  (a.onQuarter t.1, setTo (a.writeTo k1) t.2.1, setTo (a.writeTo k2) t.2.2)

/-- The observation after a sequence of statements. -/
def obsRun (k1 k2 : Attr) : List Act → Obs → Obs
  | [], t => t
  | a :: l, t => obsRun k1 k2 l (obsStep k1 k2 a t)

/-- The observations at the cycle steps of a sequence of statements, in order. -/
def cycleObs (k1 k2 : Attr) : List Act → Obs → List Obs
  | [], _ => []
  | a :: l, t =>
    (if a = Act.Cycle then [obsStep k1 k2 a t] else []) ++ cycleObs k1 k2 l (obsStep k1 k2 a t)

/-- The events of the cycle steps among the events appended to the history by a call. -/
def cycleEvents {D : Type} (ss ss1 : Sim D) : List (Event D) :=
  (ss1.trace.drop ss.trace.length).filter (fun e => decide (e.act = Act.Cycle))

/-- The absolute strength of the projection from `ECin` to `CA1`. -/
def absEcin : Attr := Attr.prjnAbs "CA1" "ECin"

/-- The absolute strength of the projection from `CA3` to `CA1`. -/
def absCa3 : Attr := Attr.prjnAbs "CA1" "CA3"

/-- The observation after the end of a quarter: `Time.Quarter` is advanced by one. -/
def bump (t : Obs) : Obs := (t.1 + 1, t.2.1, t.2.2)

/-- The relative strength of the projection from `DG` to `CA3`. -/
def relDg : Attr := Attr.prjnRel "CA3" "DG"

/-- The number held by an attribute (0 if the attribute is missing or is not a number). -/
def valNum : Option Val → ℚ
  | some (Val.num v) => v
  | _ => 0

/-- A statement that assigns no off or learn flag. -/
def Act.noFlag (a : Act) : Bool :=
  match a.write with
  | some (k, _) => !k.isFlag
  | none => true

/-- A statement that assigns no off or learn flag other than flags that the statements `l`
assign too. -/
def Act.flagsWithin (l : List Act) (a : Act) : Bool :=
  match a.write with
  | some (k, _) => !k.isFlag || (lastWrite k l).isSome
  | none => true

/-- The `Off` flag of the projection from `ECout` to `Output`. -/
def offOutput : Attr := Attr.prjnOff "Output" "ECout"

/-! ## The gating of `AlphaCycSem` -/

/-- A lookup that reaches the object of the attribute `k`: the layer, or the projection by
the names of its receiving and sending layers. -/
def Attr.reachedBy (k : Attr) (a : Act) : Bool :=
  match k, a with
  | .layOff lay, .LayerByName l => lay == l
  | .layTyp lay, .LayerByName l => lay == l
  | .prjnOff r s, .SendName r1 s1 _ => r == r1 && s == s1
  | .prjnLearn r s, .SendName r1 s1 _ => r == r1 && s == s1
  | .prjnRel r s, .SendName r1 s1 _ => r == r1 && s == s1
  | .prjnAbs r s, .SendName r1 s1 _ => r == r1 && s == s1
  | _, _ => false

/-- The projection and the value of an assignment to `Learn.Learn`. -/
def Act.learnSet : Act → Option (String × String × Bool)
  | .SetLearn recv send b => some (recv, send, b)
  | _ => none

/-- The gating that the specification states for `AlphaCycSem`: six layers are off, the
three projections of `Semantic` learn, eleven other projections do not. -/
def semGatingSpec : List (Attr × Val) :=
  [(Attr.layOff "CA1", Val.flag true), (Attr.layOff "CA3", Val.flag true),
   (Attr.layOff "DG", Val.flag true), (Attr.layOff "ECout", Val.flag true),
   (Attr.layOff "Cortex", Val.flag true), (Attr.layOff "Letter", Val.flag true),
   (Attr.prjnLearn "ECin" "Semantic", Val.flag true),
   (Attr.prjnLearn "Semantic" "Input", Val.flag true),
   (Attr.prjnLearn "Semantic" "ECin", Val.flag true),
   (Attr.prjnLearn "Letter" "Output", Val.flag false),
   (Attr.prjnLearn "Cortex" "Output", Val.flag false),
   (Attr.prjnLearn "Output" "Cortex", Val.flag false),
   (Attr.prjnLearn "Output" "Letter", Val.flag false),
   (Attr.prjnLearn "CA1" "ECout", Val.flag false),
   (Attr.prjnLearn "CA3" "CA3", Val.flag false),
   (Attr.prjnLearn "CA1" "CA3", Val.flag false),
   (Attr.prjnLearn "ECout" "CA1", Val.flag false),
   (Attr.prjnLearn "CA3" "ECin", Val.flag false),
   (Attr.prjnLearn "DG" "ECin", Val.flag false),
   (Attr.prjnLearn "CA1" "ECin", Val.flag false)]

/-- The assignments to `Learn.Learn` that the specification states for `AlphaCycSem`, as
(receiving layer, sending layer, value). -/
def semLearnSpec : List (String × String × Bool) :=
  [("ECin", "Semantic", true), ("Semantic", "Input", true), ("Semantic", "ECin", true),
   ("Letter", "Output", false), ("Cortex", "Output", false), ("Output", "Cortex", false),
   ("Output", "Letter", false), ("CA1", "ECout", false), ("CA3", "CA3", false),
   ("CA1", "CA3", false), ("ECout", "CA1", false), ("CA3", "ECin", false),
   ("DG", "ECin", false), ("CA1", "ECin", false)]

/-! ## The unit values that `MemStats` reads -/

/-- One call `ly.UnitVal1D(vr, idx)` on the layer named `lay`. -/
structure UnitRead where
  lay : String
  vr : String
  idx : Nat
  deriving DecidableEq

/-- The calls of `UnitVal1D` in `MemStats`, in order: three in each iteration of the loop
over all units (source lines 2230-2232), two in each iteration of the two sub-pool loops
(source lines 2255-2256 and 2271-2272). -/
def memStatsReads (nn : Nat) : List UnitRead :=
  (upto 0 nn).flatMap
    (fun ni => [⟨"Output", "ActM", ni⟩, ⟨"ECin", "Targ", ni⟩, ⟨"ECin", "ActQ1", ni⟩]) ++
  poolBIdx.flatMap (fun ni => [⟨"Output", "ActM", ni⟩, ⟨"ECin", "Targ", ni⟩]) ++
  poolCIdx.flatMap (fun ni => [⟨"Output", "ActM", ni⟩, ⟨"ECin", "Targ", ni⟩])

/-- The index of a read is below the number of units of the layer it reads. -/
def UnitRead.inside (net : Network) (r : UnitRead) : Bool :=
  match net.LayerByName r.lay with
  | some ly => decide (r.idx < ly.Len)
  | none => false

/-! ## The state apart from the view -/

/-- A statement other than the notification of the view. -/
def Act.notView : Act → Bool
  | .UpdateView => false
  | _ => true

/-- A state without what concerns the view: the switch `ViewOn`, the two update scales and
the `NetView` are set to fixed values, and the notifications of the view are removed from
the history. -/
def Sim.dropView {D : Type} (ss : Sim D) : Sim D :=
  { ss with
    ViewOn := false,
    TrainUpdt := TimeScales.AlphaCycle,
    TestUpdt := TimeScales.AlphaCycle,
    NetView := none,
    trace := ss.trace.filter (fun e => e.act.notView) }

/-- Applies `f` to the state in which a call ends, returned or not. -/
def onOutcome {D : Type} (f : Sim D → Sim D) : Except (Sim D) (Sim D) → Except (Sim D) (Sim D)
  | Except.ok s => Except.ok (f s)
  | Except.error s => Except.error (f s)

/-! ## The statistics of a run and of a trial -/

/-- `Sim.InitStats()` (source lines 2180-2200). -/
def InitStats {D : Type} (ss : Sim D) : Sim D :=
  { ss with
    SumSSE := Flt.fin 0,
    SumAvgSSE := Flt.fin 0,
    SumCosDiff := Flt.fin 0,
    CntErr := 0,
    FirstZero := -1,
    Mem := Flt.fin 0,
    TrgOnWasOffAll := Flt.fin 0,
    TrgOnWasOffCmp := Flt.fin 0,
    TrgOffWasOn := Flt.fin 0,
    TrlSSEB := Flt.fin 0,
    TrlAvgSSEB := Flt.fin 0,
    TrlSSEC := Flt.fin 0,
    TrlAvgSSEC := Flt.fin 0,
    EpcSSE := Flt.fin 0,
    EpcAvgSSE := Flt.fin 0,
    EpcPctErr := Flt.fin 0,
    EpcCosDiff := Flt.fin 0 }

/-- Every statistic holds its initial value, in the words of the specification:
`FirstZero` is -1 and every accumulator, statistic of a trial (with the B and C pool rates
and `TrlCosDiff`) and statistic of an epoch (with `EpcPctCor`) is 0. -/
def statsInitialSpec {D : Type} (ss : Sim D) : Prop :=
  ss.FirstZero = -1 ∧ ss.SumSSE = Flt.fin 0 ∧ ss.SumAvgSSE = Flt.fin 0 ∧
  ss.SumCosDiff = Flt.fin 0 ∧ ss.CntErr = 0 ∧ ss.Mem = Flt.fin 0 ∧
  ss.TrgOnWasOffAll = Flt.fin 0 ∧ ss.TrgOnWasOffCmp = Flt.fin 0 ∧ ss.TrgOffWasOn = Flt.fin 0 ∧
  ss.TrgOnWasOffB = Flt.fin 0 ∧ ss.TrgOnWasOffC = Flt.fin 0 ∧
  ss.TrgOffWasOnB = Flt.fin 0 ∧ ss.TrgOffWasOnC = Flt.fin 0 ∧
  ss.TrlSSEB = Flt.fin 0 ∧ ss.TrlAvgSSEB = Flt.fin 0 ∧ ss.TrlSSEC = Flt.fin 0 ∧
  ss.TrlAvgSSEC = Flt.fin 0 ∧ ss.TrlCosDiff = Flt.fin 0 ∧
  ss.EpcSSE = Flt.fin 0 ∧ ss.EpcAvgSSE = Flt.fin 0 ∧ ss.EpcPctErr = Flt.fin 0 ∧
  ss.EpcPctCor = Flt.fin 0 ∧ ss.EpcCosDiff = Flt.fin 0

/-- The statistics of a layer that `TrialStats` asks the engine for: the cosine difference
`CosDiff.Cos` and the two pairs (sum, average) of squared errors `MSEB(tol)` and
`MSEC(tol)`. -/
structure LayerStats (D : Type) where
  CosDiff : D → String → Flt
  MSEB : D → String → ℚ → Flt × Flt
  MSEC : D → String → ℚ → Flt × Flt

/-- Go `a + b` on `float64`: `NaN` propagates and the sum of the two infinities is `NaN`. -/
def Flt.add : Flt → Flt → Flt
  | .nan, _ => .nan
  | _, .nan => .nan
  | .pinf, .ninf => .nan
  | .ninf, .pinf => .nan
  | .pinf, _ => .pinf
  | _, .pinf => .pinf
  | .ninf, _ => .ninf
  | _, .ninf => .ninf
  | .fin a, .fin b => .fin (a + b)

/-- Go `a != 0` on `float64`: true for `NaN` and for the infinities. -/
def Flt.nonzero : Flt → Bool
  | .fin q => decide (q ≠ 0)
  | _ => true

/-- The five results of `TrialStats`: `(sse, avgsse, ssec, avgssec, cosdiff)`. -/
structure TrialResult where
  sse : Flt
  avgsse : Flt
  ssec : Flt
  avgssec : Flt
  cosdiff : Flt
  deriving DecidableEq

/-- `Sim.TrialStats(accum)` (source lines 2323-2337).  The five named results are declared
in the signature and never assigned: the bare `return` returns their zero values.  Panics
when `Output` is not a layer of the network. -/
def TrialStats {D : Type} (L : LayerStats D) (accum : Bool) (ss : Sim D) :
    Except (Sim D) (Sim D × TrialResult) :=
  match ss.Net.LayerByName "Output" with
  | none => Except.error ss
  | some _ =>
    let ss := { ss with TrlCosDiff := L.CosDiff ss.Dyn "Output" }
    let ss := { ss with TrlSSEB := (L.MSEB ss.Dyn "Output" half).1,
                        TrlAvgSSEB := (L.MSEB ss.Dyn "Output" half).2 }
    let ss := { ss with TrlSSEC := (L.MSEC ss.Dyn "Output" half).1,
                        TrlAvgSSEC := (L.MSEC ss.Dyn "Output" half).2 }
    let ss :=
      if accum then
        let ss := { ss with SumSSE := ss.SumSSE.add ss.TrlSSEB }
        let ss := { ss with SumAvgSSE := ss.SumAvgSSE.add ss.TrlAvgSSEB }
        let ss := { ss with SumCosDiff := ss.SumCosDiff.add ss.TrlCosDiff }
        if ss.TrlSSEB.nonzero then { ss with CntErr := ss.CntErr + 1 } else ss
      else ss
    Except.ok (ss, ⟨Flt.fin 0, Flt.fin 0, Flt.fin 0, Flt.fin 0, Flt.fin 0⟩)

/-- The statistics of a trial that the state holds after `TrialStats`. -/
def Sim.trialResult {D : Type} (ss : Sim D) : TrialResult :=
  ⟨ss.TrlSSEB, ss.TrlAvgSSEB, ss.TrlSSEC, ss.TrlAvgSSEC, ss.TrlCosDiff⟩

/-! ## Trials, runs and the choice of the patterns

The procedures of this section call the environments (`env.FixedTable`, a library), the
alpha-cycle procedures, the statistics and the logs.  The environments are an abstract
state `V` with a record `EnvOps V` of the operations called on them; the table of patterns
that an environment draws from is a field of `Sim` here, because the simulation assigns it.
Every call of another procedure is recorded in `calls`, in order. -/

/-- The two sets of patterns of `Sim`: `TrainClose` with `TestClose`, `TrainFar` with
`TestFar`. -/
inductive PatSet where
  | Close | Far
  deriving DecidableEq

/-- The two environments of `Sim`. -/
inductive EnvId where
  | TrainEnv | TestEnv
  deriving DecidableEq

/-- The five procedures that apply the patterns of an environment: `ApplyInputs`,
`ApplyInputsSem`, `ApplyInputsRP`, `ApplyInputsHip`, `ApplyInputsCor`. -/
inductive InputsKind where
  | All | Sem | RP | Hip | Cor
  deriving DecidableEq

/-- The layers to which each of the five procedures applies patterns (source lines
1850, 1864, 1878, 1892, 1906). -/
def InputsKind.lays : InputsKind → List String
  | .All => ["Input", "ECout", "ECin"]
  | .Sem => ["Input", "ECin"]
  | .RP => ["Input", "ECout"]
  | .Hip => ["Input", "ECout"]
  | .Cor => ["Input", "Output"]

/-- A call recorded by a trial-level procedure.  `ResetRun` stands for the statements of
`NewRun` after the two `Init` (`Time.Reset`, `InitWts`, `InitStats`, three `SetNumRows`);
`Step en tbl` is `Step()` on the environment `en` while its table is `tbl`. -/
inductive Call where
  | ResetRun
  | Step (en : EnvId) (tbl : PatSet)
  | LogTrnEpc
  | UpdateView (train : Bool)
  | NewTstTrlLog
  | ConfigTstTrlLog
  | LogTstEpc
  | RunEnd
  | ApplyInputs (k : InputsKind) (en : EnvId)
  | AlphaCyc (m : Mode) (train : Bool)
  | TrialStats (accum : Bool)
  | LogTrnTrl
  | LogTstTrl
  deriving DecidableEq

/-- The operations of `env.FixedTable` that the simulation calls.  `Step`, `Init` and
`Validate` read the table of the environment; `Epoch` is `Counter(env.Epoch)` without the
previous value: the current value and the changed flag; `RunIncr` is `Run.Incr()`, whose
result tells that the counter reached its maximum. -/
structure EnvOps (V : Type) where
  Step : PatSet → V → V
  Epoch : V → Int × Bool
  RunCur : V → Int
  RunIncr : V → V × Bool
  Init : PatSet → Int → V → V
  SetTrialCur : Int → V → V
  Validate : PatSet → V → V
  SetRunMax : Int → V → V

/-- The fields of `Sim` that the trial-level procedures use, plus `calls`, the record of
the calls made (not a field of the source).  `TrainTable` and `TestTable` are
`TrainEnv.Table` and `TestEnv.Table`. -/
structure TrialSim (V : Type) where
  Net : Network
  TrainEnv : V
  TestEnv : V
  TrainTable : PatSet
  TestTable : PatSet
  TestNm : String
  MaxRuns : Int
  MaxEpcs : Int
  MaxSubs : Int
  TestInterval : Int
  NeedsNewRun : Bool
  StopNow : Bool
  IsRunning : Bool
  ViewOn : Bool
  TrainUpdt : TimeScales
  TestUpdt : TimeScales
  calls : List Call

/-- Why a procedure did not return: a Go panic, or a loop that is still running when the
bound on its iterations is reached. -/
inductive Halt where
  | panic | spin
  deriving DecidableEq

/-- The result of a trial-level procedure: the state on return, or the state at the halt. -/
abbrev Res (V : Type) := Except (Halt × TrialSim V) (TrialSim V)

/-- Records a call. -/
def TrialSim.call {V : Type} (ss : TrialSim V) (c : Call) : TrialSim V :=
  { ss with calls := ss.calls ++ [c] }

/-- The state in which a procedure ends, returned or not. -/
def Res.final {V : Type} : Res V → TrialSim V
  | Except.ok s => s
  | Except.error e => e.2

/-- The calls recorded during a procedure that started in `ss` and ended in `ss1`. -/
def newCalls {V : Type} (ss ss1 : TrialSim V) : List Call :=
  ss1.calls.drop ss.calls.length

/-- `Sim.ConfigEnv()` (source lines 383-410); the names, descriptions and `Sequential`
flags of the environments are not modelled. -/
def ConfigEnv {V : Type} (O : EnvOps V) (ss : TrialSim V) : TrialSim V :=
  let ss := if ss.MaxRuns = 0 then { ss with MaxRuns := 1 } else ss
  let ss := if ss.MaxEpcs = 0 then { ss with MaxEpcs := 50 } else ss
  let ss := if ss.MaxSubs = 0 then { ss with MaxSubs := 5 } else ss
  let ss := { ss with TrainTable := PatSet.Close }
  let ss := { ss with TrainEnv := O.Validate ss.TrainTable ss.TrainEnv }
  let ss := { ss with TrainEnv := O.SetRunMax ss.MaxRuns ss.TrainEnv }
  let ss := { ss with TestNm := "Close" }
  let ss := { ss with TestTable := PatSet.Close }
  let ss := { ss with TestEnv := O.Validate ss.TestTable ss.TestEnv }
  let ss := { ss with TrainEnv := O.Init ss.TrainTable 0 ss.TrainEnv }
  { ss with TestEnv := O.Init ss.TestTable 0 ss.TestEnv }

/-- `Sim.SetEnv(TrainFar)` (source lines 413-424). -/
def SetEnv {V : Type} (O : EnvOps V) (trainFar : Bool) (ss : TrialSim V) : TrialSim V :=
  let ss :=
    if trainFar then
      { ss with TrainTable := PatSet.Far, TestNm := "Far", TestTable := PatSet.Far }
    else
      { ss with TrainTable := PatSet.Close, TestNm := "Close", TestTable := PatSet.Close }
  { ss with TrainEnv := O.Init ss.TrainTable 0 ss.TrainEnv }

/-- `Sim.NewRun()` (source lines 2165-2176). -/
def NewRun {V : Type} (O : EnvOps V) (ss : TrialSim V) : TrialSim V :=
  let run := O.RunCur ss.TrainEnv
  let ss := { ss with TrainEnv := O.Init ss.TrainTable run ss.TrainEnv }
  let ss := { ss with TestEnv := O.Init ss.TestTable run ss.TestEnv }
  let ss := ss.call Call.ResetRun
  { ss with NeedsNewRun := false }

/-- The statements of `TestTrialSem` after the epoch test (source lines 2485-2489). -/
def testTail {V : Type} (ss : TrialSim V) : TrialSim V :=
  (((ss.call (Call.ApplyInputs InputsKind.Sem EnvId.TestEnv)).call
    (Call.AlphaCyc Mode.Sem false)).call (Call.TrialStats false)).call Call.LogTstTrl

/-- `Sim.TestTrialSem(returnOnChg)` (source lines 2470-2490). -/
def TestTrialSem {V : Type} (O : EnvOps V) (returnOnChg : Bool) (ss : TrialSim V) :
    TrialSim V :=
  let ss := { ss with TestEnv := O.Step ss.TestTable ss.TestEnv }.call
    (Call.Step EnvId.TestEnv ss.TestTable)
  if (O.Epoch ss.TestEnv).2 then
    let ss :=
      if ss.ViewOn && decide (TimeScales.AlphaCycle.ord < ss.TestUpdt.ord) then
        ss.call (Call.UpdateView false)
      else ss
    if returnOnChg then ss else testTail ss
  else testTail ss

/-- The loop of `TestAll` (source lines 2572-2578), with a bound on its iterations. -/
def testLoop {V : Type} (O : EnvOps V) : Nat → TrialSim V → Res V
  | 0, ss => Except.error (Halt.spin, ss)
  | n + 1, ss =>
    let ss := TestTrialSem O true ss
    if (O.Epoch ss.TestEnv).2 || ss.StopNow then Except.ok ss else testLoop O n ss

/-- The statements of `TestAll` before its loop (source lines 2569-2571). -/
def testStart {V : Type} (O : EnvOps V) (ss : TrialSim V) : TrialSim V :=
  let ss := ss.call Call.NewTstTrlLog
  let ss := { ss with TestEnv := O.Init ss.TestTable (O.RunCur ss.TrainEnv) ss.TestEnv }
  ss.call Call.ConfigTstTrlLog

/-- `Sim.TestAll()` (source lines 2568-2582); `fuel` bounds the iterations of its loop. -/
def TestAll {V : Type} (O : EnvOps V) (fuel : Nat) (ss : TrialSim V) : Res V :=
  match testLoop O fuel (testStart O ss) with
  | Except.ok ss => Except.ok (ss.call Call.LogTstEpc)
  | Except.error e => Except.error e

/-- The six procedures `TrainTrialHip`, `TrainTrialCor`, `TrainTrialSleep`,
`TrainTrialDaydream`, `TrainTrialSem` and `TrainTrialRetrievalPractice`. -/
inductive TrialKind where
  | Hip | Cor | Sleep | Daydream | Sem | RetrievalPractice
  deriving DecidableEq

/-- Whether the procedure looks up `ECin` after the step of the environment (source lines
2072 and 2110). -/
def TrialKind.ecin : TrialKind → Bool
  | .Sem => true
  | .RetrievalPractice => true
  | _ => false

/-- The type that the procedure gives to `ECin` before it applies the inputs (source lines
2095 and 2135). -/
def TrialKind.typ : TrialKind → Option LayerType
  | .Sem => some LayerType.Target
  | .RetrievalPractice => some LayerType.Hidden
  | _ => none

/-- The procedure with which the trial applies its inputs (source lines 1947, 1984, 2021,
2058, 2096, 2136). -/
def TrialKind.inputs : TrialKind → InputsKind
  | .Hip => InputsKind.Hip
  | .Cor => InputsKind.Cor
  | .Sleep => InputsKind.Hip
  | .Daydream => InputsKind.Hip
  | .Sem => InputsKind.Sem
  | .RetrievalPractice => InputsKind.RP

/-- The alpha-cycle procedure of the trial (source lines 1948, 1985, 2022, 2059, 2099,
2137). -/
def TrialKind.mode : TrialKind → Mode
  | .Hip => Mode.Hip
  | .Cor => Mode.Cor
  | .Sleep => Mode.Sleep
  | .Daydream => Mode.Daydream
  | .Sem => Mode.Sem
  | .RetrievalPractice => Mode.Full

/-- The statements of a training trial after the epoch block: the type of `ECin` (in two
of the six procedures), the inputs, the alpha cycle, the statistics and the log. -/
def trainTail {V : Type} (k : TrialKind) (ss : TrialSim V) : TrialSim V :=
  let ss :=
    match k.typ with
    | some t => { ss with Net := ss.Net.modLayer "ECin" (fun ly => { ly with Typ := t }) }
    | none => ss
  (((ss.call (Call.ApplyInputs k.inputs EnvId.TrainEnv)).call
    (Call.AlphaCyc k.mode true)).call (Call.TrialStats true)).call Call.LogTrnTrl

/-- The statements of `if epc >= ss.MaxEpcs { ... }` (source lines 1936-1945): both
branches return from the trial. -/
def epochEnd {V : Type} (O : EnvOps V) (ss : TrialSim V) : TrialSim V :=
  let ss := ss.call Call.RunEnd
  let r := O.RunIncr ss.TrainEnv
  let ss := { ss with TrainEnv := r.1 }
  if r.2 then { ss with StopNow := true } else { ss with NeedsNewRun := true }

/-- The first statements of a training trial: `if ss.NeedsNewRun { ss.NewRun() }` and
`ss.TrainEnv.Step()`. -/
def afterStep {V : Type} (O : EnvOps V) (ss : TrialSim V) : TrialSim V :=
  let ss := if ss.NeedsNewRun then NewRun O ss else ss
  { ss with TrainEnv := O.Step ss.TrainTable ss.TrainEnv }.call
    (Call.Step EnvId.TrainEnv ss.TrainTable)

/-- The first statements of `if chg { ... }` in a training trial: the log of the epoch and
the update of the view. -/
def epochLog {V : Type} (ss : TrialSim V) : TrialSim V :=
  let ss := ss.call Call.LogTrnEpc
  if ss.ViewOn && decide (TimeScales.AlphaCycle.ord < ss.TrainUpdt.ord) then
    ss.call (Call.UpdateView true)
  else ss

/-- The statement `if epc%ss.TestInterval == 0 { ss.TestAll() }` of a training trial, for a
`TestInterval` that is not 0. -/
def epochTest {V : Type} (O : EnvOps V) (fuel : Nat) (epc : Int) (ss : TrialSim V) : Res V :=
  if epc.tmod ss.TestInterval = 0 then TestAll O fuel ss else Except.ok ss

/-- The common text of the six training trials (source lines 1918-1953, 1955-1990,
1992-2027, 2029-2064, 2066-2102, 2104-2151), which differ in `ecin`, `typ`, `inputs` and
`mode` only.  `fuel` bounds the loop of `TestAll`.  The remainder `epc % ss.TestInterval`
panics when `TestInterval` is 0. -/
def trainTrial {V : Type} (O : EnvOps V) (fuel : Nat) (k : TrialKind) (ss : TrialSim V) :
    Res V :=
  let ss := afterStep O ss
  if k.ecin && (ss.Net.LayerByName "ECin").isNone then Except.error (Halt.panic, ss)
  else
    let epc := (O.Epoch ss.TrainEnv).1
    if (O.Epoch ss.TrainEnv).2 then
      let ss := epochLog ss
      if ss.TestInterval = 0 then Except.error (Halt.panic, ss)
      else
        match epochTest O fuel epc ss with
        | Except.error e => Except.error e
        | Except.ok ss =>
          if epc ≥ ss.MaxEpcs then Except.ok (epochEnd O ss) else Except.ok (trainTail k ss)
    else Except.ok (trainTail k ss)

/-- `Sim.TrainTrialHip()` (source lines 1918-1953). -/
def TrainTrialHip {V : Type} (O : EnvOps V) (fuel : Nat) (ss : TrialSim V) : Res V :=
  trainTrial O fuel TrialKind.Hip ss

/-- `Sim.TrainTrialCor()` (source lines 1955-1990). -/
def TrainTrialCor {V : Type} (O : EnvOps V) (fuel : Nat) (ss : TrialSim V) : Res V :=
  trainTrial O fuel TrialKind.Cor ss

/-- `Sim.TrainTrialSleep()` (source lines 1992-2027). -/
def TrainTrialSleep {V : Type} (O : EnvOps V) (fuel : Nat) (ss : TrialSim V) : Res V :=
  trainTrial O fuel TrialKind.Sleep ss

/-- `Sim.TrainTrialDaydream()` (source lines 2029-2064). -/
def TrainTrialDaydream {V : Type} (O : EnvOps V) (fuel : Nat) (ss : TrialSim V) : Res V :=
  trainTrial O fuel TrialKind.Daydream ss

/-- `Sim.TrainTrialSem()` (source lines 2066-2102). -/
def TrainTrialSem {V : Type} (O : EnvOps V) (fuel : Nat) (ss : TrialSim V) : Res V :=
  trainTrial O fuel TrialKind.Sem ss

/-- `Sim.TrainTrialRetrievalPractice()` (source lines 2104-2151). -/
def TrainTrialRetrievalPractice {V : Type} (O : EnvOps V) (fuel : Nat) (ss : TrialSim V) :
    Res V :=
  trainTrial O fuel TrialKind.RetrievalPractice ss

/-- The loop `for { ss.TrainTrial...(); if ss.StopNow { break } }` of the `Train...`
procedures, with the bound `n` on its iterations. -/
def trainLoop {V : Type} (O : EnvOps V) (fuel : Nat) (k : TrialKind) :
    Nat → TrialSim V → Res V
  | 0, ss => Except.error (Halt.spin, ss)
  | n + 1, ss =>
    match trainTrial O fuel k ss with
    | Except.error e => Except.error e
    | Except.ok ss => if ss.StopNow then Except.ok ss else trainLoop O fuel k n ss

/-- The common text of `TrainHip`, `TrainCor`, `TrainSleep`, `TrainDaydream`, `TrainSem`
(source lines 2367-2425) and `TrainRetrievalPractice` (source lines 2427-2438), which alone
starts with `ss.ConfigEnv()`.  `Stopped()` clears `IsRunning`. -/
def train {V : Type} (O : EnvOps V) (fuel n : Nat) (k : TrialKind) (ss : TrialSim V) : Res V :=
  let ss := if k = TrialKind.RetrievalPractice then ConfigEnv O ss else ss
  let ss := { ss with TrainEnv := O.SetTrialCur (-1) ss.TrainEnv }
  let ss := { ss with StopNow := false }
  match trainLoop O fuel k n ss with
  | Except.error e => Except.error e
  | Except.ok ss => Except.ok { ss with IsRunning := false }

/-- `Sim.TrainHip()` (source lines 2367-2377). -/
def TrainHip {V : Type} (O : EnvOps V) (fuel n : Nat) (ss : TrialSim V) : Res V :=
  train O fuel n TrialKind.Hip ss

/-- `Sim.TrainCor()` (source lines 2379-2389). -/
def TrainCor {V : Type} (O : EnvOps V) (fuel n : Nat) (ss : TrialSim V) : Res V :=
  train O fuel n TrialKind.Cor ss

/-- `Sim.TrainSleep()` (source lines 2391-2401). -/
def TrainSleep {V : Type} (O : EnvOps V) (fuel n : Nat) (ss : TrialSim V) : Res V :=
  train O fuel n TrialKind.Sleep ss

/-- `Sim.TrainDaydream()` (source lines 2403-2413). -/
def TrainDaydream {V : Type} (O : EnvOps V) (fuel n : Nat) (ss : TrialSim V) : Res V :=
  train O fuel n TrialKind.Daydream ss

/-- `Sim.TrainSem()` (source lines 2415-2425). -/
def TrainSem {V : Type} (O : EnvOps V) (fuel n : Nat) (ss : TrialSim V) : Res V :=
  train O fuel n TrialKind.Sem ss

/-- `Sim.TrainRetrievalPractice()` (source lines 2427-2438). -/
def TrainRetrievalPractice {V : Type} (O : EnvOps V) (fuel n : Nat) (ss : TrialSim V) :
    Res V :=
  train O fuel n TrialKind.RetrievalPractice ss

/-- A call that applies the patterns of the training environment or runs an alpha cycle
with `train = true`. -/
def Call.isTraining : Call → Bool
  | .ApplyInputs _ EnvId.TrainEnv => true
  | .AlphaCyc _ true => true
  | _ => false

/-- A call that applies patterns or runs an alpha cycle. -/
def Call.isTrial : Call → Bool
  | .ApplyInputs _ _ => true
  | .AlphaCyc _ _ => true
  | _ => false

/-- An alpha cycle with `train = true`. -/
def Call.isTrainCycle : Call → Bool
  | .AlphaCyc _ true => true
  | _ => false

/-- A call that `TestAll` can make while the table of the test environment is `te`. -/
def Call.isTest (te : PatSet) : Call → Bool
  | .NewTstTrlLog => true
  | .ConfigTstTrlLog => true
  | .Step EnvId.TestEnv t => decide (t = te)
  | .UpdateView false => true
  | .ApplyInputs InputsKind.Sem EnvId.TestEnv => true
  | .AlphaCyc Mode.Sem false => true
  | .TrialStats false => true
  | .LogTstTrl => true
  | .LogTstEpc => true
  | _ => false

/-- A step of an environment is a step on the table `tr` (training) or `te` (test). -/
def Call.stepsOn (tr te : PatSet) : Call → Bool
  | .Step EnvId.TrainEnv t => decide (t = tr)
  | .Step EnvId.TestEnv t => decide (t = te)
  | _ => true

/-- The calls recorded from `ss` to `ss1` extend the record and all satisfy `p`. -/
def Adds {V : Type} (p : Call → Bool) (ss ss1 : TrialSim V) : Prop :=
  ∃ ext, ss1.calls = ss.calls ++ ext ∧ ext.all p = true

/-- The choice of the patterns is the same in `ss1` as in `ss`. -/
def samePats {V : Type} (ss ss1 : TrialSim V) : Prop :=
  ss1.TrainTable = ss.TrainTable ∧ ss1.TestTable = ss.TestTable ∧ ss1.TestNm = ss.TestNm

/-- From `ss` to `ss1` the choice of the patterns is kept and every step of an environment
is a step on the table chosen in `ss`. -/
def Keeps {V : Type} (ss ss1 : TrialSim V) : Prop :=
  samePats ss ss1 ∧ Adds (Call.stepsOn ss.TrainTable ss.TestTable) ss ss1

/-- State `ss1` differs from `ss` in the test environment and in the record of the calls
only. -/
def onlyTest {V : Type} (ss ss1 : TrialSim V) : Prop :=
  ss1 = { ss with TestEnv := ss1.TestEnv, calls := ss1.calls }

/-- A call that a training trial makes outside `TestAll` and outside its last four
statements: the reset of a run, the step of the training environment, the log of the epoch,
the update of the view and the end of the run. -/
def Call.isAdmin : Call → Bool
  | .ResetRun => true
  | .Step EnvId.TrainEnv _ => true
  | .LogTrnEpc => true
  | .UpdateView true => true
  | .RunEnd => true
  | _ => false

/-! ## The configured network and a recorded trial

`configNet` is the topology built by `ConfigNet` (source lines 426-550): the ten layers in
the order of their creation, each with its receiving projections in the order of the
`ConnectLayers` calls.  A recorded trial gives the three unit variables that `MemStats`
reads.  They instantiate the theorems below. -/

/-- A projection as `ConnectLayers` leaves it: on, learning, both strengths 1. -/
def mkPrjn (send : String) (kind : PrjnKind) : Prjn := ⟨send, kind, false, true, 1, 1⟩

/-- The layer `ECin` of `ConfigNet`. -/
def ecinLayer : Layer :=
  ⟨"ECin", [3, 2, 7, 7], LayerType.Hidden, false,
    [mkPrjn "Input" PrjnKind.Prjn, mkPrjn "ECout" PrjnKind.Prjn,
     mkPrjn "Output" PrjnKind.Prjn, mkPrjn "Semantic" PrjnKind.Prjn]⟩

/-- The layer `Output` of `ConfigNet`. -/
def outputLayer : Layer :=
  ⟨"Output", [3, 2, 7, 7], LayerType.Target, false,
    [mkPrjn "ECout" PrjnKind.Prjn, mkPrjn "Cortex" PrjnKind.Prjn,
     mkPrjn "Letter" PrjnKind.Prjn]⟩

/-- The network of `ConfigNet`. -/
def configNet : Network :=
  ⟨[⟨"Input", [3, 2, 7, 7], LayerType.Input, false, []⟩,
    ⟨"Cortex", [20, 20], LayerType.Hidden, false,
      [mkPrjn "Input" PrjnKind.Prjn, mkPrjn "Output" PrjnKind.Prjn]⟩,
    ⟨"Semantic", [14, 14], LayerType.Hidden, false,
      [mkPrjn "Input" PrjnKind.Prjn, mkPrjn "ECin" PrjnKind.Prjn]⟩,
    ⟨"Letter", [14, 14], LayerType.Hidden, false,
      [mkPrjn "Input" PrjnKind.Prjn, mkPrjn "Output" PrjnKind.Prjn]⟩,
    ecinLayer,
    ⟨"ECout", [3, 2, 7, 7], LayerType.Target, false, [mkPrjn "CA1" PrjnKind.EcCa1Prjn]⟩,
    ⟨"CA1", [3, 2, 30, 35], LayerType.Hidden, false,
      [mkPrjn "ECin" PrjnKind.EcCa1Prjn, mkPrjn "ECout" PrjnKind.EcCa1Prjn,
       mkPrjn "CA3" PrjnKind.CHLPrjn]⟩,
    ⟨"DG", [70, 70], LayerType.Hidden, false, [mkPrjn "ECin" PrjnKind.CHLPrjn]⟩,
    ⟨"CA3", [50, 50], LayerType.Hidden, false,
      [mkPrjn "ECin" PrjnKind.EcCa1Prjn, mkPrjn "CA3" PrjnKind.EcCa1Prjn,
       mkPrjn "DG" PrjnKind.CHLPrjn]⟩,
    outputLayer]⟩

/-- The unit variables of a recorded trial, by flat unit index: `ActM` of `Output`, `Targ`
of `ECin` and `ActQ1` of `ECin`. -/
structure Pat where
  recalled : Nat → ℚ
  target : Nat → ℚ
  cue : Nat → ℚ

/-- An engine whose state is a recorded trial: it serves the three unit variables and its
other operations leave the state as it is. -/
def patEngine : Engine Pat where
  UnitVal1D := fun d lay var ni =>
    if lay = "Output" ∧ var = "ActM" then d.recalled ni
    else if lay = "ECin" ∧ var = "Targ" then d.target ni
    else if lay = "ECin" ∧ var = "ActQ1" then d.cue ni
    else 0
  UnitVals := fun _ _ _ => []
  ApplyExt1D32 := fun _ _ _ d => d
  UpdateExtFlags := fun _ _ d => d
  GScaleFmAvgAct := fun _ d => d
  InitGInc := fun _ d => d
  AlphaCycInit := fun _ d => d
  Cycle := fun _ _ d => d
  QuarterFinal := fun _ _ d => d
  DWt := fun _ d => d
  WtFmDWt := fun _ d => d

/-- The state of `Sim` after `New` and `Config` (`MemThr` is 0.34, `ViewOn` is true, the
view is updated per alpha cycle when training and per cycle when testing, `LayStatNms` is
`ECin, DG, CA3, CA1`), holding a recorded trial, with a given previous value of `Mem` and a
given `CycPerQtr`. -/
def configSim (d : Pat) (mem : Flt) (cycPerQtr : Int) : Sim Pat where
  Net := configNet
  Dyn := d
  Time := ⟨0, 0, cycPerQtr⟩
  ViewOn := true
  TrainUpdt := TimeScales.AlphaCycle
  TestUpdt := TimeScales.Cycle
  NetView := none
  SemWake := 0
  Outecback := 0
  MemThr := Flt.fin (34 / 100)
  Mem := mem
  TrgOnWasOffAll := Flt.fin 0
  TrgOnWasOffCmp := Flt.fin 0
  TrgOffWasOn := Flt.fin 0
  TrgOnWasOffB := Flt.fin 0
  TrgOnWasOffC := Flt.fin 0
  TrgOffWasOnB := Flt.fin 0
  TrgOffWasOnC := Flt.fin 0
  TrlSSEB := Flt.fin 0
  TrlSSEC := Flt.fin 0
  TrlAvgSSEB := Flt.fin 0
  TrlAvgSSEC := Flt.fin 0
  TrlCosDiff := Flt.fin 0
  EpcSSE := Flt.fin 0
  EpcAvgSSE := Flt.fin 0
  EpcPctErr := Flt.fin 0
  EpcPctCor := Flt.fin 0
  EpcCosDiff := Flt.fin 0
  FirstZero := -1
  SumSSE := Flt.fin 0
  SumAvgSSE := Flt.fin 0
  SumCosDiff := Flt.fin 0
  CntErr := 0
  TmpVals := []
  LayStatNms := ["ECin", "DG", "CA3", "CA1"]
  trace := []

/-- A pattern with every second unit on: units 0, 2, 4, ... have target 1, the others 0. -/
def altTarget (ni : Nat) : ℚ := if ni % 2 = 0 then 1 else 0

/-- The complement of `altTarget`. -/
def altComplement (ni : Nat) : ℚ := if ni % 2 = 0 then 0 else 1

/-- A constant pattern. -/
def constPat (v : ℚ) (_ : Nat) : ℚ := v

/-- A pattern with a single unit on. -/
def onePat (k ni : Nat) : ℚ := if ni = k then 1 else 0

/-- The configured simulation at the start of a trial, with 25 cycles per quarter. -/
def trialSim : Sim Pat := configSim ⟨altTarget, altTarget, altTarget⟩ (Flt.fin 0) 25

/-- The configured simulation with a name in `LayStatNms` that is not a layer of the
network. -/
def badLogSim : Sim Pat := { trialSim with LayStatNms := ["ECin", "Hippocampus"] }

/-- The configured simulation with the layer `Semantic` missing from the network. -/
def noSemanticSim : Sim Pat :=
  { trialSim with Net := ⟨configNet.Layers.filter (fun ly => ly.Nm != "Semantic")⟩ }

/-- A state after an earlier trial: the B pool miss-rate is 1, the cosine difference of the
trial is 1/2 and the last epoch's percent correct is 1. -/
def staleSim : Sim Pat :=
  { trialSim with TrgOnWasOffB := Flt.fin 1, TrlCosDiff := Flt.fin (1 / 2),
                  EpcPctCor := Flt.fin 1 }

/-- Layer statistics of a trial with one wrong unit: squared error 1 (average 1/294) in
both pools and cosine difference 1/2. -/
def oneErrStats : LayerStats Pat :=
  ⟨fun _ _ => Flt.fin (1 / 2), fun _ _ _ => (Flt.fin 1, Flt.fin (1 / 294)),
    fun _ _ _ => (Flt.fin 1, Flt.fin (1 / 294))⟩

/-- The counters of a table environment. -/
structure TableEnv where
  run : Int
  runMax : Int
  epoch : Int
  chg : Bool
  trial : Int
  deriving DecidableEq

/-- A table environment in which both tables have `len` rows: a step goes to the next
trial, and to the first trial of the next epoch after the last one; `Run.Incr()` goes back
to 0 and reports the end when the maximum is reached. -/
def tableOps (len : Int) : EnvOps TableEnv :=
  { Step := fun _ v =>
      if 0 < len ∧ len ≤ v.trial + 1 then { v with trial := 0, epoch := v.epoch + 1, chg := true }
      else { v with trial := v.trial + 1, chg := false },
    Epoch := fun v => (v.epoch, v.chg),
    RunCur := fun v => v.run,
    RunIncr := fun v =>
      if 0 < v.runMax ∧ v.runMax ≤ v.run + 1 then ({ v with run := 0 }, true)
      else ({ v with run := v.run + 1 }, false),
    Init := fun _ run v => { v with run := run, epoch := 0, trial := -1, chg := false },
    SetTrialCur := fun c v => { v with trial := c },
    Validate := fun _ v => v,
    SetRunMax := fun m v => { v with runMax := m } }

/-- A state at the last trial of epoch 1 of the only run, with two trials per epoch,
`MaxEpcs = 2` and a test every `testInterval` epochs. -/
def lastTrialSim (testInterval : Int) : TrialSim TableEnv :=
  { Net := configNet,
    TrainEnv := ⟨0, 1, 1, false, 1⟩,
    TestEnv := ⟨0, 0, 0, false, -1⟩,
    TrainTable := PatSet.Close,
    TestTable := PatSet.Close,
    TestNm := "Close",
    MaxRuns := 1,
    MaxEpcs := 2,
    MaxSubs := 5,
    TestInterval := testInterval,
    NeedsNewRun := false,
    StopNow := false,
    IsRunning := true,
    ViewOn := false,
    TrainUpdt := TimeScales.AlphaCycle,
    TestUpdt := TimeScales.Cycle,
    calls := [] }

/-! ## Lemmas on the counters of `MemStats` -/

/-- The value 0 or 1 added to a counter. -/
theorem memStep_eq (a t q : ℚ) (c : MemCnt) :
    memStep a t q c =
      ⟨c.trgOnWasOffAll + (if half ≤ t ∧ a < half then 1 else 0),
       c.trgOnWasOffCmp + (if half ≤ t ∧ q < half ∧ a < half then 1 else 0),
       c.trgOffWasOn + (if t < half ∧ half < a then 1 else 0),
       c.cmpN + (if half ≤ t ∧ q < half then 1 else 0),
       c.trgOnN + (if half ≤ t then 1 else 0),
       c.trgOffN + (if t < half then 1 else 0)⟩ := by
  unfold memStep
  by_cases h1 : t < half
  · have h1' : ¬ half ≤ t := not_le.mpr h1
    by_cases h4 : a > half
    · have h4' : half < a := h4
      simp [h1, h1', h4']
    · have h4' : ¬ half < a := h4
      simp [h1, h1', h4']
  · have h1' : half ≤ t := not_lt.mp h1
    by_cases h3 : q < half <;> by_cases h2 : a < half <;> simp [h1, h1', h2, h3]

theorem poolStep_eq (a t : ℚ) (c : PoolCnt) :
    poolStep a t c =
      ⟨c.trgOffWasOn + (if t < half ∧ half < a then 1 else 0),
       c.trgOnWasOff + (if half ≤ t ∧ a < half then 1 else 0),
       c.trgOnN + (if half ≤ t then 1 else 0),
       c.trgOffN + (if t < half then 1 else 0)⟩ := by
  unfold poolStep
  by_cases h1 : t < half
  · have h1' : ¬ half ≤ t := not_le.mpr h1
    by_cases h4 : a > half
    · have h4' : half < a := h4
      simp [h1, h1', h4']
    · have h4' : ¬ half < a := h4
      simp [h1, h1', h4']
  · have h1' : half ≤ t := not_lt.mp h1
    by_cases h2 : a < half <;> simp [h1, h1', h2]

theorem memStep_fold (actm trg inact : Nat → ℚ) (l : List Nat) (c : MemCnt) :
    l.foldl (fun c ni => memStep (actm ni) (trg ni) (inact ni) c) c =
      ⟨c.trgOnWasOffAll + l.countP (fun ni => decide (half ≤ trg ni ∧ actm ni < half)),
       c.trgOnWasOffCmp +
         l.countP (fun ni => decide (half ≤ trg ni ∧ inact ni < half ∧ actm ni < half)),
       c.trgOffWasOn + l.countP (fun ni => decide (trg ni < half ∧ half < actm ni)),
       c.cmpN + l.countP (fun ni => decide (half ≤ trg ni ∧ inact ni < half)),
       c.trgOnN + l.countP (fun ni => decide (half ≤ trg ni)),
       c.trgOffN + l.countP (fun ni => decide (trg ni < half))⟩ := by
  induction l generalizing c with
  | nil => simp
  | cons a l ih =>
    rw [List.foldl_cons, ih, memStep_eq]
    simp only [List.countP_cons, decide_eq_true_eq, MemCnt.mk.injEq]
    refine ⟨?_, ?_, ?_, ?_, ?_, ?_⟩ <;> omega

theorem poolStep_fold (actm trg : Nat → ℚ) (l : List Nat) (c : PoolCnt) :
    l.foldl (fun c ni => poolStep (actm ni) (trg ni) c) c =
      ⟨c.trgOffWasOn + l.countP (fun ni => decide (trg ni < half ∧ half < actm ni)),
       c.trgOnWasOff + l.countP (fun ni => decide (half ≤ trg ni ∧ actm ni < half)),
       c.trgOnN + l.countP (fun ni => decide (half ≤ trg ni)),
       c.trgOffN + l.countP (fun ni => decide (trg ni < half))⟩ := by
  induction l generalizing c with
  | nil => simp
  | cons a l ih =>
    rw [List.foldl_cons, ih, poolStep_eq]
    simp only [List.countP_cons, decide_eq_true_eq, PoolCnt.mk.injEq]
    refine ⟨?_, ?_, ?_, ?_⟩ <;> omega

/-- The counters of the all-units loop are the sizes of the corresponding sets of units. -/
theorem memLoop_eq (actm trg inact : Nat → ℚ) (l : List Nat) :
    memLoop actm trg inact l =
      ⟨l.countP (fun ni => decide (half ≤ trg ni ∧ actm ni < half)),
       l.countP (fun ni => decide (half ≤ trg ni ∧ inact ni < half ∧ actm ni < half)),
       l.countP (fun ni => decide (trg ni < half ∧ half < actm ni)),
       l.countP (fun ni => decide (half ≤ trg ni ∧ inact ni < half)),
       l.countP (fun ni => decide (half ≤ trg ni)),
       l.countP (fun ni => decide (trg ni < half))⟩ := by
  unfold memLoop
  rw [memStep_fold]
  simp

/-- The counters of a sub-pool loop are the sizes of the corresponding sets of units. -/
theorem poolLoop_eq (actm trg : Nat → ℚ) (l : List Nat) :
    poolLoop actm trg l =
      ⟨l.countP (fun ni => decide (trg ni < half ∧ half < actm ni)),
       l.countP (fun ni => decide (half ≤ trg ni ∧ actm ni < half)),
       l.countP (fun ni => decide (half ≤ trg ni)),
       l.countP (fun ni => decide (trg ni < half))⟩ := by
  unfold poolLoop
  rw [poolStep_fold]
  simp

theorem upto_zero (n : Nat) : upto 0 n = List.range n := by
  simp [upto, List.range_eq_range']

theorem mem_upto {lo hi ni : Nat} : ni ∈ upto lo hi ↔ lo ≤ ni ∧ ni < hi := by
  rw [upto, List.mem_range'_1]
  omega

/-- `MemStats` returns when both layers exist. -/
theorem MemStats_ok {D : Type} (E : Engine D) (train : Bool) (ss : Sim D) (ecin out : Layer)
    (hE : ss.Net.LayerByName "ECin" = some ecin)
    (hO : ss.Net.LayerByName "Output" = some out) :
    MemStats E train ss = Except.ok (memStatsBody E train ss ecin.Len) := by
  simp [MemStats, hE, hO]

/-! ## The fields written by `MemStats` -/

theorem fdiv_zero_left {b : Nat} (h : 0 < b) : fdiv 0 b = Flt.fin 0 := by
  have hb : b ≠ 0 := Nat.pos_iff_ne_zero.mp h
  simp [fdiv, hb]

theorem fdiv_self {b : Nat} (h : 0 < b) : fdiv b b = Flt.fin 1 := by
  have hb : b ≠ 0 := Nat.pos_iff_ne_zero.mp h
  have hq : (b : ℚ) ≠ 0 := Nat.cast_ne_zero.mpr hb
  simp [fdiv, hb, div_self hq]

theorem fdiv_pos {a b : Nat} (h : 0 < b) : fdiv a b = Flt.fin ((a : ℚ) / (b : ℚ)) := by
  have hb : b ≠ 0 := Nat.pos_iff_ne_zero.mp h
  simp [fdiv, hb]

theorem nUnits_pos {idx : List Nat} {p : Nat → Prop} [DecidablePred p] :
    0 < nUnits idx p ↔ ∃ ni, ni ∈ idx ∧ p ni := by
  simp [nUnits, List.countP_pos_iff]

theorem nUnits_eq_zero {idx : List Nat} {p : Nat → Prop} [DecidablePred p] :
    nUnits idx p = 0 ↔ ∀ ni, ni ∈ idx → ¬ p ni := by
  simp [nUnits, List.countP_eq_zero]

theorem nUnits_congr {idx : List Nat} {p q : Nat → Prop} [DecidablePred p] [DecidablePred q]
    (h : ∀ ni, ni ∈ idx → (p ni ↔ q ni)) : nUnits idx p = nUnits idx q := by
  unfold nUnits
  apply List.countP_congr
  intro ni hni
  simp [h ni hni]

theorem body_TrgOnWasOffAll {D : Type} (E : Engine D) (train : Bool) (ss : Sim D) (nn : Nat) :
    (memStatsBody E train ss nn).TrgOnWasOffAll = missRate E ss (List.range nn) := by
  simp [memStatsBody, memLoop_eq, upto_zero, missRate, nUnits, TargetOn, target, recalled]

theorem body_TrgOffWasOn {D : Type} (E : Engine D) (train : Bool) (ss : Sim D) (nn : Nat) :
    (memStatsBody E train ss nn).TrgOffWasOn = faRate E ss (List.range nn) := by
  simp [memStatsBody, memLoop_eq, upto_zero, faRate, nUnits, TargetOff, target, recalled]

theorem body_TrgOnWasOffB {D : Type} (E : Engine D) (train : Bool) (ss : Sim D) (nn : Nat) :
    (memStatsBody E train ss nn).TrgOnWasOffB = missRate E ss poolBIdx := by
  simp [memStatsBody, poolLoop_eq, missRate, nUnits, TargetOn, target, recalled]

theorem body_TrgOffWasOnB {D : Type} (E : Engine D) (train : Bool) (ss : Sim D) (nn : Nat) :
    (memStatsBody E train ss nn).TrgOffWasOnB = faRate E ss poolBIdx := by
  simp [memStatsBody, poolLoop_eq, faRate, nUnits, TargetOff, target, recalled]

theorem body_TrgOnWasOffC {D : Type} (E : Engine D) (train : Bool) (ss : Sim D) (nn : Nat) :
    (memStatsBody E train ss nn).TrgOnWasOffC = missRate E ss poolCIdx := by
  simp [memStatsBody, poolLoop_eq, missRate, nUnits, TargetOn, target, recalled]

theorem body_TrgOffWasOnC {D : Type} (E : Engine D) (train : Bool) (ss : Sim D) (nn : Nat) :
    (memStatsBody E train ss nn).TrgOffWasOnC = faRate E ss poolCIdx := by
  simp [memStatsBody, poolLoop_eq, faRate, nUnits, TargetOff, target, recalled]

/-- The value stored in `TrgOnWasOffCmp`: the count of missed Completion units, divided by
the number of Completion units only when testing and when that number is positive. -/
theorem body_TrgOnWasOffCmp {D : Type} (E : Engine D) (train : Bool) (ss : Sim D) (nn : Nat) :
    (memStatsBody E train ss nn).TrgOnWasOffCmp =
      if train = false ∧ 0 < nUnits (List.range nn) (Completion E ss) then
        missRateCmp E ss (List.range nn)
      else
        Flt.fin (nUnits (List.range nn)
          (fun ni => Completion E ss ni ∧ recalled E ss ni < half) : ℚ) := by
  cases train <;>
    simp [memStatsBody, memLoop_eq, upto_zero, missRateCmp, nUnits, Completion, target,
      recalled, cue, and_assoc]

/-- The value stored in `Mem`. -/
theorem body_Mem {D : Type} (E : Engine D) (train : Bool) (ss : Sim D) (nn : Nat) :
    (memStatsBody E train ss nn).Mem =
      if train = true then
        memFlag (missRate E ss (List.range nn)) (faRate E ss (List.range nn)) ss.MemThr
      else if 0 < nUnits (List.range nn) (Completion E ss) then
        memFlag (missRateCmp E ss (List.range nn)) (faRate E ss (List.range nn)) ss.MemThr
      else ss.Mem := by
  cases train
  · simp only [memStatsBody, memLoop_eq, upto_zero, missRateCmp, faRate, nUnits,
      Completion, TargetOff, target, recalled, cue, and_assoc, Bool.false_eq_true, if_false]
    split_ifs <;> rfl
  · simp [memStatsBody, memLoop_eq, upto_zero, missRate, faRate, nUnits,
      TargetOn, TargetOff, target, recalled]

/-! ## Facts about the configured network and the recorded trials -/

theorem configSim_ecin (d : Pat) (mem : Flt) (c : Int) :
    (configSim d mem c).Net.LayerByName "ECin" = some ecinLayer := by
  rfl

theorem configSim_output (d : Pat) (mem : Flt) (c : Int) :
    (configSim d mem c).Net.LayerByName "Output" = some outputLayer := by
  rfl

theorem ecinLayer_len : ecinLayer.Len = 294 := by rfl

theorem pat_recalled (ss : Sim Pat) (ni : Nat) :
    recalled patEngine ss ni = ss.Dyn.recalled ni := by
  rfl

theorem pat_target (ss : Sim Pat) (ni : Nat) : target patEngine ss ni = ss.Dyn.target ni := by
  rfl

theorem pat_cue (ss : Sim Pat) (ni : Nat) : cue patEngine ss ni = ss.Dyn.cue ni := by
  rfl

theorem half_pos : (0 : ℚ) < half := by norm_num [half]

theorem half_lt_one : half < (1 : ℚ) := by norm_num [half]

theorem altTarget_on (ni : Nat) : half ≤ altTarget ni ↔ ni % 2 = 0 := by
  unfold altTarget
  split_ifs with h
  · simp [h, half_lt_one.le]
  · simp [h, not_le.mpr half_pos]

theorem altTarget_off (ni : Nat) : altTarget ni < half ↔ ni % 2 = 1 := by
  unfold altTarget
  split_ifs with h
  · simp [h, not_lt.mpr half_lt_one.le]
  · simp [half_pos]
    omega

theorem altComplement_low (ni : Nat) : altComplement ni < half ↔ ni % 2 = 0 := by
  unfold altComplement
  split_ifs with h
  · simp [h, half_pos]
  · simp [h, not_lt.mpr half_lt_one.le]

theorem altComplement_high (ni : Nat) : half < altComplement ni ↔ ni % 2 = 1 := by
  unfold altComplement
  split_ifs with h
  · simp [h, not_lt.mpr half_pos.le]
  · simp [half_lt_one]
    omega

/-! ## The memory criterion -/

theorem memFlag_eq (miss fa thr : Flt) :
    memFlag miss fa thr =
      if Flt.lt miss thr = true ∧ Flt.lt fa thr = true then Flt.fin 1 else Flt.fin 0 := by
  unfold memFlag
  cases Flt.lt miss thr <;> cases Flt.lt fa thr <;> simp

theorem mem_range_iff {n ni : Nat} : ni ∈ List.range n ↔ ni < n := List.mem_range

/-- No unit of a trial whose cue equals its target is a Completion unit. -/
theorem no_completion_of_cue_eq_target (ss : Sim Pat) (h : ss.Dyn.cue = ss.Dyn.target)
    (idx : List Nat) : nUnits idx (Completion patEngine ss) = 0 := by
  rw [nUnits_eq_zero]
  intro ni _ hc
  unfold Completion at hc
  rw [pat_cue, pat_target, h] at hc
  exact absurd hc.2 (not_lt.mpr hc.1)

/-- C1 (the code at the failing input): on the configured network, a test trial whose cue
already holds every target bit and whose recall is the complement of the target, entered
with `Mem = 1`, leaves `MemStats` with `Mem = 1` although the false-alarm rate is 1, not
below `MemThr` (0.34); the same trial entered with `Mem = 0` leaves `Mem = 0`: the flag is
the one of an earlier trial. -/
theorem MemStats_Mem_counterexample :
    ∃ ss1, MemStats patEngine false
        (configSim ⟨altComplement, altTarget, altTarget⟩ (Flt.fin 1) 25) = Except.ok ss1 ∧
      ss1.Mem = Flt.fin 1 ∧
      faRate patEngine (configSim ⟨altComplement, altTarget, altTarget⟩ (Flt.fin 1) 25)
        (List.range 294) = Flt.fin 1 ∧
      Flt.lt (Flt.fin 1) (configSim ⟨altComplement, altTarget, altTarget⟩ (Flt.fin 1) 25).MemThr
        = false ∧
      ∃ ss0, MemStats patEngine false
          (configSim ⟨altComplement, altTarget, altTarget⟩ (Flt.fin 0) 25) = Except.ok ss0 ∧
        ss0.Mem = Flt.fin 0 := by
  refine ⟨_, MemStats_ok patEngine false _ ecinLayer outputLayer rfl rfl, ?_, ?_, ?_,
    _, MemStats_ok patEngine false _ ecinLayer outputLayer rfl rfl, ?_⟩
  rotate_right
  · rw [body_Mem, no_completion_of_cue_eq_target _ rfl]
    simp [configSim]
  · rw [body_Mem, no_completion_of_cue_eq_target _ rfl]
    simp [configSim]
  · unfold faRate
    have h : nUnits (List.range 294) (fun ni =>
        TargetOff patEngine (configSim ⟨altComplement, altTarget, altTarget⟩ (Flt.fin 1) 25) ni ∧
        half < recalled patEngine
          (configSim ⟨altComplement, altTarget, altTarget⟩ (Flt.fin 1) 25) ni) =
        nUnits (List.range 294)
          (TargetOff patEngine (configSim ⟨altComplement, altTarget, altTarget⟩ (Flt.fin 1) 25)) := by
      apply nUnits_congr
      intro ni _
      simp only [TargetOff, pat_target, pat_recalled, configSim, altTarget_off,
        altComplement_high, and_self]
    rw [h]
    apply fdiv_self
    rw [nUnits_pos]
    exact ⟨1, by simp, by simp [TargetOff, pat_target, configSim, altTarget_off]⟩
  · simp [configSim, Flt.lt]
    norm_num

/-- The value of `Mem` after `MemStats`, as the code computes it.  `MemStats` returns when
both layers exist; when training, `Mem` is 1 if the miss-rate over all
TargetOn units and the false-alarm rate are both strictly below `MemThr` and 0 otherwise;
when testing with a non-empty Completion set, `Mem` is 1 if the miss-rate over the
Completion units and the false-alarm rate are both strictly below `MemThr` and 0 otherwise;
when testing with an empty Completion set, `Mem` keeps the value it had before the call. -/
theorem MemStats_Mem_criterion {D : Type} (E : Engine D) (train : Bool) (ss : Sim D)
    (ecin out : Layer) (hE : ss.Net.LayerByName "ECin" = some ecin)
    (hO : ss.Net.LayerByName "Output" = some out) :
    ∃ ss1, MemStats E train ss = Except.ok ss1 ∧
      (train = true →
        ss1.Mem =
          if Flt.lt (missRate E ss (List.range ecin.Len)) ss.MemThr = true ∧
              Flt.lt (faRate E ss (List.range ecin.Len)) ss.MemThr = true
          then Flt.fin 1 else Flt.fin 0) ∧
      (train = false → (∃ ni, ni < ecin.Len ∧ Completion E ss ni) →
        ss1.Mem =
          if Flt.lt (missRateCmp E ss (List.range ecin.Len)) ss.MemThr = true ∧
              Flt.lt (faRate E ss (List.range ecin.Len)) ss.MemThr = true
          then Flt.fin 1 else Flt.fin 0) ∧
      (train = false → (¬ ∃ ni, ni < ecin.Len ∧ Completion E ss ni) → ss1.Mem = ss.Mem) := by
  refine ⟨_, MemStats_ok E train ss ecin out hE hO, ?_, ?_, ?_⟩
  · intro ht
    rw [body_Mem, if_pos ht, memFlag_eq]
  · intro ht hc
    have hpos : 0 < nUnits (List.range ecin.Len) (Completion E ss) := by
      rw [nUnits_pos]
      obtain ⟨ni, hlt, hni⟩ := hc
      exact ⟨ni, List.mem_range.mpr hlt, hni⟩
    rw [body_Mem, if_neg (by simp [ht]), if_pos hpos, memFlag_eq]
  · intro ht hc
    have hzero : ¬ 0 < nUnits (List.range ecin.Len) (Completion E ss) := by
      rw [nUnits_pos]
      rintro ⟨ni, hmem, hni⟩
      exact hc ⟨ni, List.mem_range.mp hmem, hni⟩
    rw [body_Mem, if_neg (by simp [ht]), if_neg hzero]

/-- An instance of `MemStats_Mem_criterion` on the configured network, for a test trial
with a complete cue: both layers are found and `Mem` keeps its previous value. -/
theorem MemStats_Mem_criterion_witness :
    (configSim ⟨altComplement, altTarget, altTarget⟩ (Flt.fin 1) 25).Net.LayerByName "ECin"
        = some ecinLayer ∧
      (configSim ⟨altComplement, altTarget, altTarget⟩ (Flt.fin 1) 25).Net.LayerByName "Output"
        = some outputLayer ∧
      ∃ ss1, MemStats patEngine false
          (configSim ⟨altComplement, altTarget, altTarget⟩ (Flt.fin 1) 25) = Except.ok ss1 ∧
        ss1.Mem = Flt.fin 1 :=
  ⟨rfl, rfl,
    (MemStats_Mem_criterion patEngine false
      (configSim ⟨altComplement, altTarget, altTarget⟩ (Flt.fin 1) 25)
      ecinLayer outputLayer rfl rfl).imp
      (fun _ h => ⟨h.1, h.2.2.2 rfl (by
        rintro ⟨ni, _, hc⟩
        unfold Completion at hc
        rw [pat_cue, pat_target] at hc
        exact absurd hc.2 (not_lt.mpr hc.1))⟩)⟩

/-! ## Exact recall (C2) -/

/-- When the recalled value equals the target on the units of `idx`, no TargetOn unit of
`idx` is missed. -/
theorem no_miss_of_exact {D : Type} (E : Engine D) (ss : Sim D) (idx : List Nat)
    (h : ∀ ni, ni ∈ idx → recalled E ss ni = target E ss ni) :
    nUnits idx (fun ni => TargetOn E ss ni ∧ recalled E ss ni < half) = 0 := by
  rw [nUnits_eq_zero]
  intro ni hni hc
  rw [h ni hni] at hc
  exact absurd hc.2 (not_lt.mpr hc.1)

/-- When the recalled value equals the target on the units of `idx`, no TargetOff unit of
`idx` is a false alarm. -/
theorem no_fa_of_exact {D : Type} (E : Engine D) (ss : Sim D) (idx : List Nat)
    (h : ∀ ni, ni ∈ idx → recalled E ss ni = target E ss ni) :
    nUnits idx (fun ni => TargetOff E ss ni ∧ half < recalled E ss ni) = 0 := by
  rw [nUnits_eq_zero]
  intro ni hni hc
  rw [h ni hni] at hc
  exact absurd hc.2 (not_lt.mpr (le_of_lt hc.1))

/-- When the recalled value equals the target on the units of `idx`, no Completion unit of
`idx` is missed. -/
theorem no_cmp_miss_of_exact {D : Type} (E : Engine D) (ss : Sim D) (idx : List Nat)
    (h : ∀ ni, ni ∈ idx → recalled E ss ni = target E ss ni) :
    nUnits idx (fun ni => Completion E ss ni ∧ recalled E ss ni < half) = 0 := by
  rw [nUnits_eq_zero]
  intro ni hni hc
  rw [h ni hni] at hc
  exact absurd hc.2 (not_lt.mpr hc.1.1)

theorem missRate_exact {D : Type} (E : Engine D) (ss : Sim D) (idx : List Nat)
    (h : ∀ ni, ni ∈ idx → recalled E ss ni = target E ss ni)
    (hOn : ∃ ni, ni ∈ idx ∧ TargetOn E ss ni) : missRate E ss idx = Flt.fin 0 := by
  unfold missRate
  rw [no_miss_of_exact E ss idx h]
  exact fdiv_zero_left (nUnits_pos.mpr hOn)

theorem faRate_exact {D : Type} (E : Engine D) (ss : Sim D) (idx : List Nat)
    (h : ∀ ni, ni ∈ idx → recalled E ss ni = target E ss ni)
    (hOff : ∃ ni, ni ∈ idx ∧ TargetOff E ss ni) : faRate E ss idx = Flt.fin 0 := by
  unfold faRate
  rw [no_fa_of_exact E ss idx h]
  exact fdiv_zero_left (nUnits_pos.mpr hOff)

theorem missRateCmp_exact {D : Type} (E : Engine D) (ss : Sim D) (idx : List Nat)
    (h : ∀ ni, ni ∈ idx → recalled E ss ni = target E ss ni)
    (hC : ∃ ni, ni ∈ idx ∧ Completion E ss ni) : missRateCmp E ss idx = Flt.fin 0 := by
  unfold missRateCmp
  rw [no_cmp_miss_of_exact E ss idx h]
  exact fdiv_zero_left (nUnits_pos.mpr hC)

theorem fdiv_zero_zero : fdiv 0 0 = Flt.nan := by
  simp [fdiv]

/-- C2 (counterexample): three trials on the configured network in which the recalled value
equals the target on every unit.  (1) A test trial with a complete cue, entered with
`Mem = 0`: `Mem` is still 0.  (2) A training trial whose only TargetOn unit is unit 0: the
B-pool miss-rate is `NaN`, not 0.  (3) A training trial with `MemThr = 0`: `Mem` is 0. -/
theorem MemStats_exact_counterexample :
    (∃ ss1, MemStats patEngine false
        (configSim ⟨altTarget, altTarget, altTarget⟩ (Flt.fin 0) 25) = Except.ok ss1 ∧
      ss1.Mem = Flt.fin 0) ∧
    (∃ ss1, MemStats patEngine true
        (configSim ⟨onePat 0, onePat 0, constPat 0⟩ (Flt.fin 0) 25) = Except.ok ss1 ∧
      ss1.TrgOnWasOffB = Flt.nan) ∧
    (∃ ss1, MemStats patEngine true
        { configSim ⟨altTarget, altTarget, constPat 0⟩ (Flt.fin 0) 25 with MemThr := Flt.fin 0 }
          = Except.ok ss1 ∧
      ss1.Mem = Flt.fin 0) := by
  refine ⟨⟨_, MemStats_ok patEngine false _ ecinLayer outputLayer rfl rfl, ?_⟩,
    ⟨_, MemStats_ok patEngine true _ ecinLayer outputLayer rfl rfl, ?_⟩,
    ⟨_, MemStats_ok patEngine true _ ecinLayer outputLayer rfl rfl, ?_⟩⟩
  · rw [body_Mem, no_completion_of_cue_eq_target _ rfl]
    simp [configSim]
  · rw [body_TrgOnWasOffB]
    unfold missRate
    have h0 : ∀ idx : List Nat, (∀ ni, ni ∈ idx → ni ≠ 0) →
        nUnits idx (TargetOn patEngine
          (configSim ⟨onePat 0, onePat 0, constPat 0⟩ (Flt.fin 0) 25)) = 0 := by
      intro idx hidx
      rw [nUnits_eq_zero]
      intro ni hni hc
      unfold TargetOn at hc
      rw [pat_target] at hc
      simp only [configSim, onePat, if_neg (hidx ni hni)] at hc
      exact absurd hc (not_le.mpr half_pos)
    have hB : ∀ ni, ni ∈ poolBIdx → ni ≠ 0 := by
      intro ni hni
      have := (mem_upto.mp hni).1
      omega
    rw [h0 poolBIdx hB, no_miss_of_exact patEngine
      (configSim ⟨onePat 0, onePat 0, constPat 0⟩ (Flt.fin 0) 25) poolBIdx (fun _ _ => rfl)]
    exact fdiv_zero_zero
  · rw [body_Mem, if_pos rfl, memFlag_eq,
      missRate_exact patEngine
        { configSim ⟨altTarget, altTarget, constPat 0⟩ (Flt.fin 0) 25 with MemThr := Flt.fin 0 }
        (List.range ecinLayer.Len) (fun _ _ => rfl)
        ⟨0, List.mem_range.mpr (by norm_num [ecinLayer_len]),
          by simp [TargetOn, pat_target, configSim, altTarget_on]⟩]
    simp [Flt.lt]

/-- C2 (amended): for every trial in which the recalled value equals the target on every
unit, in which there are a TargetOn and a TargetOff unit among all units, among the units
visited by the B loop and among the units visited by the C loop, with `MemThr` above 0, and
with `train` true or a non-empty Completion set, `MemStats` returns with `Mem = 1` and the
seven rates equal to 0. -/
theorem MemStats_exact_recall {D : Type} (E : Engine D) (train : Bool) (ss : Sim D)
    (ecin out : Layer) (hE : ss.Net.LayerByName "ECin" = some ecin)
    (hO : ss.Net.LayerByName "Output" = some out)
    (hEq : ∀ ni, recalled E ss ni = target E ss ni)
    (hOn : ∃ ni, ni < ecin.Len ∧ TargetOn E ss ni)
    (hOff : ∃ ni, ni < ecin.Len ∧ TargetOff E ss ni)
    (hBOn : ∃ ni, ni ∈ poolBIdx ∧ TargetOn E ss ni)
    (hBOff : ∃ ni, ni ∈ poolBIdx ∧ TargetOff E ss ni)
    (hCOn : ∃ ni, ni ∈ poolCIdx ∧ TargetOn E ss ni)
    (hCOff : ∃ ni, ni ∈ poolCIdx ∧ TargetOff E ss ni)
    (hThr : Flt.lt (Flt.fin 0) ss.MemThr = true)
    (hMode : train = true ∨ ∃ ni, ni < ecin.Len ∧ Completion E ss ni) :
    ∃ ss1, MemStats E train ss = Except.ok ss1 ∧
      ss1.Mem = Flt.fin 1 ∧
      ss1.TrgOnWasOffAll = Flt.fin 0 ∧ ss1.TrgOnWasOffCmp = Flt.fin 0 ∧
      ss1.TrgOffWasOn = Flt.fin 0 ∧ ss1.TrgOnWasOffB = Flt.fin 0 ∧
      ss1.TrgOffWasOnB = Flt.fin 0 ∧ ss1.TrgOnWasOffC = Flt.fin 0 ∧
      ss1.TrgOffWasOnC = Flt.fin 0 := by
  have hOn1 : ∃ ni, ni ∈ List.range ecin.Len ∧ TargetOn E ss ni :=
    hOn.imp (fun _ h => ⟨List.mem_range.mpr h.1, h.2⟩)
  have hOff1 : ∃ ni, ni ∈ List.range ecin.Len ∧ TargetOff E ss ni :=
    hOff.imp (fun _ h => ⟨List.mem_range.mpr h.1, h.2⟩)
  have hAll := missRate_exact E ss (List.range ecin.Len) (fun ni _ => hEq ni) hOn1
  have hFa := faRate_exact E ss (List.range ecin.Len) (fun ni _ => hEq ni) hOff1
  refine ⟨_, MemStats_ok E train ss ecin out hE hO, ?_, ?_, ?_, ?_, ?_, ?_, ?_, ?_⟩
  · rw [body_Mem, hAll, hFa]
    cases train with
    | true => simp [memFlag, hThr]
    | false =>
      rcases hMode with h | hC
      · exact absurd h (by simp)
      · have hC1 : ∃ ni, ni ∈ List.range ecin.Len ∧ Completion E ss ni :=
          hC.imp (fun _ h => ⟨List.mem_range.mpr h.1, h.2⟩)
        rw [missRateCmp_exact E ss _ (fun ni _ => hEq ni) hC1]
        simp [memFlag, hThr, nUnits_pos.mpr hC1]
  · rw [body_TrgOnWasOffAll, hAll]
  · rw [body_TrgOnWasOffCmp]
    split_ifs with h
    · exact missRateCmp_exact E ss _ (fun ni _ => hEq ni) (nUnits_pos.mp h.2)
    · rw [no_cmp_miss_of_exact E ss _ (fun ni _ => hEq ni)]
      simp
  · rw [body_TrgOffWasOn, hFa]
  · rw [body_TrgOnWasOffB]
    exact missRate_exact E ss _ (fun ni _ => hEq ni) hBOn
  · rw [body_TrgOffWasOnB]
    exact faRate_exact E ss _ (fun ni _ => hEq ni) hBOff
  · rw [body_TrgOnWasOffC]
    exact missRate_exact E ss _ (fun ni _ => hEq ni) hCOn
  · rw [body_TrgOffWasOnC]
    exact faRate_exact E ss _ (fun ni _ => hEq ni) hCOff

/-- C2 (witness): a training trial on the configured network whose recall equals the
alternating target: `Mem = 1` and the seven rates are 0. -/
theorem MemStats_exact_recall_witness :
    ∃ ss1, MemStats patEngine true
        (configSim ⟨altTarget, altTarget, constPat 0⟩ (Flt.fin 0) 25) = Except.ok ss1 ∧
      ss1.Mem = Flt.fin 1 ∧
      ss1.TrgOnWasOffAll = Flt.fin 0 ∧ ss1.TrgOnWasOffCmp = Flt.fin 0 ∧
      ss1.TrgOffWasOn = Flt.fin 0 ∧ ss1.TrgOnWasOffB = Flt.fin 0 ∧
      ss1.TrgOffWasOnB = Flt.fin 0 ∧ ss1.TrgOnWasOffC = Flt.fin 0 ∧
      ss1.TrgOffWasOnC = Flt.fin 0 :=
  MemStats_exact_recall patEngine true
    (configSim ⟨altTarget, altTarget, constPat 0⟩ (Flt.fin 0) 25) ecinLayer outputLayer
    rfl rfl (fun _ => rfl)
    ⟨0, by decide, by simp [TargetOn, pat_target, configSim, altTarget_on]⟩
    ⟨1, by decide, by simp [TargetOff, pat_target, configSim, altTarget_off]⟩
    ⟨98, by decide, by simp [TargetOn, pat_target, configSim, altTarget_on]⟩
    ⟨97, by decide, by simp [TargetOff, pat_target, configSim, altTarget_off]⟩
    ⟨146, by decide, by simp [TargetOn, pat_target, configSim, altTarget_on]⟩
    ⟨147, by decide, by simp [TargetOff, pat_target, configSim, altTarget_off]⟩
    (by simp [configSim, Flt.lt]) (Or.inl rfl)

/-! ## Complemented recall (C3) -/

theorem half_nonneg_not_le_zero : ¬ half ≤ (0 : ℚ) := not_le.mpr half_pos

theorem all_missed_of_complement {D : Type} (E : Engine D) (ss : Sim D) (nn : Nat)
    (h : IsComplement E ss nn) :
    nUnits (List.range nn) (fun ni => TargetOn E ss ni ∧ recalled E ss ni < half) =
      nUnits (List.range nn) (TargetOn E ss) := by
  apply nUnits_congr
  intro ni hni
  constructor
  · exact fun hc => hc.1
  · intro hc
    refine ⟨hc, ?_⟩
    unfold TargetOn at hc
    rcases h ni (List.mem_range.mp hni) with ⟨_, hr⟩ | ⟨ht, _⟩
    · rw [hr]
      exact half_pos
    · rw [ht] at hc
      exact absurd hc half_nonneg_not_le_zero

theorem all_fa_of_complement {D : Type} (E : Engine D) (ss : Sim D) (nn : Nat)
    (h : IsComplement E ss nn) :
    nUnits (List.range nn) (fun ni => TargetOff E ss ni ∧ half < recalled E ss ni) =
      nUnits (List.range nn) (TargetOff E ss) := by
  apply nUnits_congr
  intro ni hni
  constructor
  · exact fun hc => hc.1
  · intro hc
    refine ⟨hc, ?_⟩
    unfold TargetOff at hc
    rcases h ni (List.mem_range.mp hni) with ⟨ht, _⟩ | ⟨_, hr⟩
    · rw [ht] at hc
      exact absurd hc (not_lt.mpr half_lt_one.le)
    · rw [hr]
      exact half_lt_one

theorem all_cmp_missed_of_complement {D : Type} (E : Engine D) (ss : Sim D) (nn : Nat)
    (h : IsComplement E ss nn) :
    nUnits (List.range nn) (fun ni => Completion E ss ni ∧ recalled E ss ni < half) =
      nUnits (List.range nn) (Completion E ss) := by
  apply nUnits_congr
  intro ni hni
  constructor
  · exact fun hc => hc.1
  · intro hc
    refine ⟨hc, ?_⟩
    have hOn : half ≤ target E ss ni := hc.1
    rcases h ni (List.mem_range.mp hni) with ⟨_, hr⟩ | ⟨ht, _⟩
    · rw [hr]
      exact half_pos
    · rw [ht] at hOn
      exact absurd hOn half_nonneg_not_le_zero

theorem altComplement_isComplement (mem : Flt) (c : Int) (q : Nat → ℚ) (nn : Nat) :
    IsComplement patEngine (configSim ⟨altComplement, altTarget, q⟩ mem c) nn := by
  intro ni _
  rw [pat_target, pat_recalled]
  simp only [configSim, altTarget, altComplement]
  by_cases h : ni % 2 = 0 <;> simp [h]

/-- C3 (counterexample): three trials on the configured network in which the recalled value
is the complement of a binary target on every unit.  (1) A test trial with a complete cue,
entered with `Mem = 1`: `Mem` is still 1.  (2) A training trial with no TargetOn unit:
the miss-rate `TrgOnWasOffAll` is `NaN`, not 1.  (3) A training trial with `MemThr = 2`:
`Mem` is 1. -/
theorem MemStats_complement_counterexample :
    (IsComplement patEngine (configSim ⟨altComplement, altTarget, altTarget⟩ (Flt.fin 1) 25) 294 ∧
      ∃ ss1, MemStats patEngine false
          (configSim ⟨altComplement, altTarget, altTarget⟩ (Flt.fin 1) 25) = Except.ok ss1 ∧
        ss1.Mem = Flt.fin 1) ∧
    (IsComplement patEngine (configSim ⟨constPat 1, constPat 0, constPat 0⟩ (Flt.fin 0) 25) 294 ∧
      ∃ ss1, MemStats patEngine true
          (configSim ⟨constPat 1, constPat 0, constPat 0⟩ (Flt.fin 0) 25) = Except.ok ss1 ∧
        ss1.TrgOnWasOffAll = Flt.nan) ∧
    (IsComplement patEngine
        { configSim ⟨altComplement, altTarget, constPat 0⟩ (Flt.fin 0) 25 with
          MemThr := Flt.fin 2 } 294 ∧
      ∃ ss1, MemStats patEngine true
          { configSim ⟨altComplement, altTarget, constPat 0⟩ (Flt.fin 0) 25 with
            MemThr := Flt.fin 2 } = Except.ok ss1 ∧
        ss1.Mem = Flt.fin 1) := by
  refine ⟨⟨altComplement_isComplement _ _ _ _,
      _, MemStats_ok patEngine false _ ecinLayer outputLayer rfl rfl, ?_⟩,
    ⟨?_, _, MemStats_ok patEngine true _ ecinLayer outputLayer rfl rfl, ?_⟩,
    ⟨altComplement_isComplement (Flt.fin 0) 25 (constPat 0) 294,
      _, MemStats_ok patEngine true _ ecinLayer outputLayer rfl rfl, ?_⟩⟩
  · rw [body_Mem, no_completion_of_cue_eq_target _ rfl]
    simp [configSim]
  · intro ni _
    right
    exact ⟨rfl, rfl⟩
  · rw [body_TrgOnWasOffAll]
    unfold missRate
    have h0 : ∀ p : Nat → Prop, ∀ _ : DecidablePred p,
        nUnits (List.range ecinLayer.Len) (fun ni =>
          TargetOn patEngine (configSim ⟨constPat 1, constPat 0, constPat 0⟩ (Flt.fin 0) 25) ni
            ∧ p ni) = 0 := by
      intro p _
      rw [nUnits_eq_zero]
      intro ni _ hc
      exact absurd hc.1 half_nonneg_not_le_zero
    have h1 : nUnits (List.range ecinLayer.Len)
        (TargetOn patEngine (configSim ⟨constPat 1, constPat 0, constPat 0⟩ (Flt.fin 0) 25))
          = 0 := by
      rw [nUnits_eq_zero]
      intro ni _ hc
      exact absurd hc half_nonneg_not_le_zero
    rw [h0, h1]
    exact fdiv_zero_zero
  · have hc := altComplement_isComplement (Flt.fin 0) 25 (constPat 0) ecinLayer.Len
    have hOn : 0 < nUnits (List.range ecinLayer.Len)
        (TargetOn patEngine (configSim ⟨altComplement, altTarget, constPat 0⟩ (Flt.fin 0) 25)) :=
      nUnits_pos.mpr ⟨0, List.mem_range.mpr (by norm_num [ecinLayer_len]),
        by simp [TargetOn, pat_target, configSim, altTarget_on]⟩
    have hOff : 0 < nUnits (List.range ecinLayer.Len)
        (TargetOff patEngine (configSim ⟨altComplement, altTarget, constPat 0⟩ (Flt.fin 0) 25)) :=
      nUnits_pos.mpr ⟨1, List.mem_range.mpr (by norm_num [ecinLayer_len]),
        by simp [TargetOff, pat_target, configSim, altTarget_off]⟩
    have hm := all_missed_of_complement _ _ _ hc
    have hf := all_fa_of_complement _ _ _ hc
    rw [body_Mem, if_pos rfl, memFlag_eq]
    unfold missRate faRate
    erw [hm, hf, fdiv_self hOn, fdiv_self hOff]
    simp [Flt.lt]

/-- C3 (amended): for every trial in which the recalled value is the complement of a binary
target on every unit, with at least one TargetOn and one TargetOff unit, with `MemThr` not
above 1, and with `train` true or a non-empty Completion set, `MemStats` returns with
`Mem = 0`, `TrgOnWasOffAll = 1` and `TrgOffWasOn = 1`. -/
theorem MemStats_complement_recall {D : Type} (E : Engine D) (train : Bool) (ss : Sim D)
    (ecin out : Layer) (hE : ss.Net.LayerByName "ECin" = some ecin)
    (hO : ss.Net.LayerByName "Output" = some out)
    (hComp : IsComplement E ss ecin.Len)
    (hOn : ∃ ni, ni < ecin.Len ∧ TargetOn E ss ni)
    (hOff : ∃ ni, ni < ecin.Len ∧ TargetOff E ss ni)
    (hThr : Flt.lt (Flt.fin 1) ss.MemThr = false)
    (hMode : train = true ∨ ∃ ni, ni < ecin.Len ∧ Completion E ss ni) :
    ∃ ss1, MemStats E train ss = Except.ok ss1 ∧
      ss1.Mem = Flt.fin 0 ∧ ss1.TrgOnWasOffAll = Flt.fin 1 ∧ ss1.TrgOffWasOn = Flt.fin 1 := by
  have hOn1 : 0 < nUnits (List.range ecin.Len) (TargetOn E ss) :=
    nUnits_pos.mpr (hOn.imp (fun _ h => ⟨List.mem_range.mpr h.1, h.2⟩))
  have hOff1 : 0 < nUnits (List.range ecin.Len) (TargetOff E ss) :=
    nUnits_pos.mpr (hOff.imp (fun _ h => ⟨List.mem_range.mpr h.1, h.2⟩))
  have hAll : missRate E ss (List.range ecin.Len) = Flt.fin 1 := by
    unfold missRate
    rw [all_missed_of_complement E ss _ hComp]
    exact fdiv_self hOn1
  have hFa : faRate E ss (List.range ecin.Len) = Flt.fin 1 := by
    unfold faRate
    rw [all_fa_of_complement E ss _ hComp]
    exact fdiv_self hOff1
  refine ⟨_, MemStats_ok E train ss ecin out hE hO, ?_, ?_, ?_⟩
  · rw [body_Mem, hAll, hFa]
    cases train with
    | true => simp [memFlag, hThr]
    | false =>
      rcases hMode with h | hC
      · exact absurd h (by simp)
      · have hC1 : 0 < nUnits (List.range ecin.Len) (Completion E ss) :=
          nUnits_pos.mpr (hC.imp (fun _ h => ⟨List.mem_range.mpr h.1, h.2⟩))
        have hCmp : missRateCmp E ss (List.range ecin.Len) = Flt.fin 1 := by
          unfold missRateCmp
          rw [all_cmp_missed_of_complement E ss _ hComp]
          exact fdiv_self hC1
        rw [hCmp]
        simp [memFlag, hThr, hC1]
  · rw [body_TrgOnWasOffAll, hAll]
  · rw [body_TrgOffWasOn, hFa]

/-- C3 (witness): a training trial on the configured network whose recall is the
complement of the alternating target. -/
theorem MemStats_complement_recall_witness :
    ∃ ss1, MemStats patEngine true
        (configSim ⟨altComplement, altTarget, constPat 0⟩ (Flt.fin 1) 25) = Except.ok ss1 ∧
      ss1.Mem = Flt.fin 0 ∧ ss1.TrgOnWasOffAll = Flt.fin 1 ∧ ss1.TrgOffWasOn = Flt.fin 1 :=
  MemStats_complement_recall patEngine true
    (configSim ⟨altComplement, altTarget, constPat 0⟩ (Flt.fin 1) 25) ecinLayer outputLayer
    rfl rfl (altComplement_isComplement _ _ _ _)
    ⟨0, by decide, by simp [TargetOn, pat_target, configSim, altTarget_on]⟩
    ⟨1, by decide, by simp [TargetOff, pat_target, configSim, altTarget_off]⟩
    (by simp [configSim, Flt.lt]; norm_num) (Or.inl rfl)

/-! ## The completion miss-rate (C4, C5) -/

/-- C4 (counterexample): a test trial on the configured network whose cue already holds
every target bit: `MemStats` stores the number 0 in `TrgOnWasOffCmp`, which is what it
stores for a trial whose Completion units were all recalled. -/
theorem MemStats_empty_completion_counterexample :
    (∀ ni, TargetOn patEngine (configSim ⟨altComplement, altTarget, altTarget⟩ (Flt.fin 0) 25) ni →
        half ≤ cue patEngine (configSim ⟨altComplement, altTarget, altTarget⟩ (Flt.fin 0) 25) ni) ∧
      ∃ ss1, MemStats patEngine false
          (configSim ⟨altComplement, altTarget, altTarget⟩ (Flt.fin 0) 25) = Except.ok ss1 ∧
        ss1.TrgOnWasOffCmp = Flt.fin 0 := by
  refine ⟨fun ni h => h, _, MemStats_ok patEngine false _ ecinLayer outputLayer rfl rfl, ?_⟩
  rw [body_TrgOnWasOffCmp, no_completion_of_cue_eq_target _ rfl]
  have h : nUnits (List.range ecinLayer.Len) (fun ni =>
      Completion patEngine (configSim ⟨altComplement, altTarget, altTarget⟩ (Flt.fin 0) 25) ni ∧
      recalled patEngine (configSim ⟨altComplement, altTarget, altTarget⟩ (Flt.fin 0) 25) ni
        < half) = 0 := by
    rw [nUnits_eq_zero]
    intro ni _ hc
    have h1 := hc.1
    unfold Completion at h1
    rw [pat_cue, pat_target] at h1
    exact absurd h1.2 (not_lt.mpr h1.1)
  rw [h]
  simp

/-- C4 (amended): for every trial whose Completion set is empty and for both values of
`train`, `MemStats` returns (a division of floats by zero does not panic) and stores the
number 0 in `TrgOnWasOffCmp`. -/
theorem MemStats_empty_completion {D : Type} (E : Engine D) (train : Bool) (ss : Sim D)
    (ecin out : Layer) (hE : ss.Net.LayerByName "ECin" = some ecin)
    (hO : ss.Net.LayerByName "Output" = some out)
    (hEmpty : ∀ ni, ni < ecin.Len → TargetOn E ss ni → half ≤ cue E ss ni) :
    ∃ ss1, MemStats E train ss = Except.ok ss1 ∧ ss1.TrgOnWasOffCmp = Flt.fin 0 := by
  have hnone : ∀ ni, ni ∈ List.range ecin.Len → ¬ Completion E ss ni := by
    intro ni hni hc
    exact absurd hc.2 (not_lt.mpr (hEmpty ni (List.mem_range.mp hni) hc.1))
  have h0 : nUnits (List.range ecin.Len) (Completion E ss) = 0 := nUnits_eq_zero.mpr hnone
  have h1 : nUnits (List.range ecin.Len)
      (fun ni => Completion E ss ni ∧ recalled E ss ni < half) = 0 :=
    nUnits_eq_zero.mpr (fun ni hni hc => hnone ni hni hc.1)
  refine ⟨_, MemStats_ok E train ss ecin out hE hO, ?_⟩
  rw [body_TrgOnWasOffCmp, h0, h1]
  simp

/-- C4 (witness): a test trial on the configured network with a complete cue. -/
theorem MemStats_empty_completion_witness :
    ∃ ss1, MemStats patEngine false
        (configSim ⟨altTarget, altTarget, altTarget⟩ (Flt.fin 0) 25) = Except.ok ss1 ∧
      ss1.TrgOnWasOffCmp = Flt.fin 0 :=
  MemStats_empty_completion patEngine false
    (configSim ⟨altTarget, altTarget, altTarget⟩ (Flt.fin 0) 25) ecinLayer outputLayer rfl rfl
    (fun _ _ h => h)

set_option maxRecDepth 100000 in
theorem evens_below_294 : nUnits (List.range 294) (fun ni => ni % 2 = 0) = 147 := by
  decide

/-- C5 (the code at the failing input): a training trial on the configured network with
an empty cue, the alternating target and nothing recalled.  Its 147 TargetOn units are
all Completion units and all missed, so the miss-rate over the Completion units is 1, but
`MemStats` stores the count 147 in `TrgOnWasOffCmp`. -/
theorem MemStats_train_stores_count :
    missRateCmp patEngine (configSim ⟨constPat 0, altTarget, constPat 0⟩ (Flt.fin 0) 25)
        (List.range 294) = Flt.fin 1 ∧
      ∃ ss1, MemStats patEngine true
          (configSim ⟨constPat 0, altTarget, constPat 0⟩ (Flt.fin 0) 25) = Except.ok ss1 ∧
        ss1.TrgOnWasOffCmp = Flt.fin 147 := by
  have hc : nUnits (List.range 294)
      (Completion patEngine (configSim ⟨constPat 0, altTarget, constPat 0⟩ (Flt.fin 0) 25))
        = 147 := by
    rw [← evens_below_294]
    apply nUnits_congr
    intro ni _
    simp [Completion, pat_target, pat_cue, configSim, altTarget_on, constPat, half_pos]
  have hm : nUnits (List.range 294) (fun ni =>
      Completion patEngine (configSim ⟨constPat 0, altTarget, constPat 0⟩ (Flt.fin 0) 25) ni ∧
      recalled patEngine (configSim ⟨constPat 0, altTarget, constPat 0⟩ (Flt.fin 0) 25) ni
        < half) = 147 := by
    rw [← evens_below_294]
    apply nUnits_congr
    intro ni _
    simp [Completion, pat_target, pat_cue, pat_recalled, configSim, altTarget_on, constPat,
      half_pos]
  refine ⟨?_, _, MemStats_ok patEngine true _ ecinLayer outputLayer rfl rfl, ?_⟩
  · unfold missRateCmp
    rw [hc, hm]
    exact fdiv_self (by decide)
  · rw [body_TrgOnWasOffCmp, if_neg (by simp)]
    erw [hm]
    simp

/-! ## The false-alarm rate and the miss-rate (C6, C7) -/

/-- C6 (counterexample): a training trial on the configured network, with the alternating
target, in which every unit is recalled at exactly 0.5.  The false-alarm rate in the words
of the specification is 1, but `MemStats` stores 0 in `TrgOffWasOn`. -/
theorem MemStats_false_alarm_counterexample :
    faRateSpec patEngine (configSim ⟨constPat half, altTarget, constPat 0⟩ (Flt.fin 0) 25)
        (List.range 294) = Flt.fin 1 ∧
      ∃ ss1, MemStats patEngine true
          (configSim ⟨constPat half, altTarget, constPat 0⟩ (Flt.fin 0) 25) = Except.ok ss1 ∧
        ss1.TrgOffWasOn = Flt.fin 0 := by
  have hOff : 0 < nUnits (List.range 294)
      (TargetOff patEngine (configSim ⟨constPat half, altTarget, constPat 0⟩ (Flt.fin 0) 25)) :=
    nUnits_pos.mpr ⟨1, List.mem_range.mpr (by decide),
      by simp [TargetOff, pat_target, configSim, altTarget_off]⟩
  refine ⟨?_, _, MemStats_ok patEngine true _ ecinLayer outputLayer rfl rfl, ?_⟩
  · unfold faRateSpec
    have h : nUnits (List.range 294) (fun ni =>
        TargetOff patEngine (configSim ⟨constPat half, altTarget, constPat 0⟩ (Flt.fin 0) 25) ni ∧
        half ≤ recalled patEngine
          (configSim ⟨constPat half, altTarget, constPat 0⟩ (Flt.fin 0) 25) ni) =
        nUnits (List.range 294)
          (TargetOff patEngine
            (configSim ⟨constPat half, altTarget, constPat 0⟩ (Flt.fin 0) 25)) := by
      apply nUnits_congr
      intro ni _
      simp [pat_recalled, configSim, constPat]
    rw [h]
    exact fdiv_self hOff
  · rw [body_TrgOffWasOn]
    unfold faRate
    have h : nUnits (List.range ecinLayer.Len) (fun ni =>
        TargetOff patEngine (configSim ⟨constPat half, altTarget, constPat 0⟩ (Flt.fin 0) 25) ni ∧
        half < recalled patEngine
          (configSim ⟨constPat half, altTarget, constPat 0⟩ (Flt.fin 0) 25) ni) = 0 := by
      rw [nUnits_eq_zero]
      intro ni _ hc
      have h2 := hc.2
      rw [pat_recalled] at h2
      exact absurd h2 (lt_irrefl _)
    rw [h]
    exact fdiv_zero_left hOff

/-- C6 (amended): for every trial with at least one TargetOff unit, the false-alarm rate
`TrgOffWasOn` stored by `MemStats` is the number of units with target below 0.5 whose
recalled value is strictly above 0.5, divided by the number of units with target below
0.5; a TargetOff unit recalled at exactly 0.5 is not among the false alarms. -/
theorem MemStats_false_alarm_rate {D : Type} (E : Engine D) (train : Bool) (ss : Sim D)
    (ecin out : Layer) (hE : ss.Net.LayerByName "ECin" = some ecin)
    (hO : ss.Net.LayerByName "Output" = some out)
    (hOff : ∃ ni, ni < ecin.Len ∧ TargetOff E ss ni) :
    ∃ ss1, MemStats E train ss = Except.ok ss1 ∧
      ss1.TrgOffWasOn = Flt.fin
        ((nUnits (List.range ecin.Len)
            (fun ni => target E ss ni < half ∧ half < recalled E ss ni) : ℚ) /
          (nUnits (List.range ecin.Len) (fun ni => target E ss ni < half) : ℚ)) ∧
      (∀ ni, recalled E ss ni = half → ¬ (target E ss ni < half ∧ half < recalled E ss ni)) := by
  refine ⟨_, MemStats_ok E train ss ecin out hE hO, ?_, ?_⟩
  · rw [body_TrgOffWasOn]
    unfold faRate
    exact fdiv_pos (nUnits_pos.mpr (hOff.imp (fun _ h => ⟨List.mem_range.mpr h.1, h.2⟩)))
  · intro ni h hc
    rw [h] at hc
    exact absurd hc.2 (lt_irrefl _)

/-- C6 (witness): a training trial on the configured network with the alternating target. -/
theorem MemStats_false_alarm_rate_witness :
    (∃ ni, ni < ecinLayer.Len ∧
        TargetOff patEngine (configSim ⟨constPat half, altTarget, constPat 0⟩ (Flt.fin 0) 25) ni) ∧
      ∃ ss1, MemStats patEngine true
          (configSim ⟨constPat half, altTarget, constPat 0⟩ (Flt.fin 0) 25) = Except.ok ss1 ∧
        ss1.TrgOffWasOn = Flt.fin
          ((nUnits (List.range ecinLayer.Len) (fun ni =>
              target patEngine
                (configSim ⟨constPat half, altTarget, constPat 0⟩ (Flt.fin 0) 25) ni < half ∧
              half < recalled patEngine
                (configSim ⟨constPat half, altTarget, constPat 0⟩ (Flt.fin 0) 25) ni) : ℚ) /
            (nUnits (List.range ecinLayer.Len) (fun ni =>
              target patEngine
                (configSim ⟨constPat half, altTarget, constPat 0⟩ (Flt.fin 0) 25) ni < half)
              : ℚ)) :=
  ⟨⟨1, by decide, by simp [TargetOff, pat_target, configSim, altTarget_off]⟩,
    (MemStats_false_alarm_rate patEngine true
      (configSim ⟨constPat half, altTarget, constPat 0⟩ (Flt.fin 0) 25) ecinLayer outputLayer
      rfl rfl
      ⟨1, by decide, by simp [TargetOff, pat_target, configSim, altTarget_off]⟩).imp
      (fun _ h => ⟨h.1, h.2.1⟩)⟩

/-- C7: for every trial with at least one TargetOn unit, the miss-rate `TrgOnWasOffAll`
stored by `MemStats` is the number of units with target at least 0.5 whose recalled value
is below 0.5, divided by the number of units with target at least 0.5; every unit is
TargetOn or TargetOff and not both; the counters `trgOnN` and `trgOffN` of the loop are the
sizes of the two classes and sum to the unit count. -/
theorem MemStats_miss_rate {D : Type} (E : Engine D) (train : Bool) (ss : Sim D)
    (ecin out : Layer) (hE : ss.Net.LayerByName "ECin" = some ecin)
    (hO : ss.Net.LayerByName "Output" = some out)
    (hOn : ∃ ni, ni < ecin.Len ∧ half ≤ target E ss ni) :
    ∃ ss1, MemStats E train ss = Except.ok ss1 ∧
      ss1.TrgOnWasOffAll = Flt.fin
        ((nUnits (List.range ecin.Len)
            (fun ni => half ≤ target E ss ni ∧ recalled E ss ni < half) : ℚ) /
          (nUnits (List.range ecin.Len) (fun ni => half ≤ target E ss ni) : ℚ)) ∧
      (∀ ni, (half ≤ target E ss ni ∧ ¬ target E ss ni < half) ∨
        (target E ss ni < half ∧ ¬ half ≤ target E ss ni)) ∧
      (memLoop (recalled E ss) (target E ss) (cue E ss) (upto 0 ecin.Len)).trgOnN =
        nUnits (List.range ecin.Len) (fun ni => half ≤ target E ss ni) ∧
      (memLoop (recalled E ss) (target E ss) (cue E ss) (upto 0 ecin.Len)).trgOffN =
        nUnits (List.range ecin.Len) (fun ni => target E ss ni < half) ∧
      nUnits (List.range ecin.Len) (fun ni => half ≤ target E ss ni) +
        nUnits (List.range ecin.Len) (fun ni => target E ss ni < half) = ecin.Len := by
  refine ⟨_, MemStats_ok E train ss ecin out hE hO, ?_, ?_, ?_, ?_, ?_⟩
  · rw [body_TrgOnWasOffAll]
    unfold missRate
    exact fdiv_pos (nUnits_pos.mpr (hOn.imp (fun _ h => ⟨List.mem_range.mpr h.1, h.2⟩)))
  · intro ni
    rcases lt_or_le (target E ss ni) half with h | h
    · exact Or.inr ⟨h, not_le.mpr h⟩
    · exact Or.inl ⟨h, not_lt.mpr h⟩
  · rw [memLoop_eq, upto_zero]
    rfl
  · rw [memLoop_eq, upto_zero]
    rfl
  · have h := List.length_eq_countP_add_countP
      (fun ni => decide (half ≤ target E ss ni)) (List.range ecin.Len)
    rw [List.length_range] at h
    have h2 : List.countP (fun a => decide ¬(fun ni => decide (half ≤ target E ss ni)) a = true)
        (List.range ecin.Len) =
        nUnits (List.range ecin.Len) (fun ni => target E ss ni < half) := by
      unfold nUnits
      apply List.countP_congr
      intro ni _
      simp
    rw [h2] at h
    exact h.symm

/-- C7 (witness): a training trial on the configured network with the alternating target;
its 294 units split into the two classes. -/
theorem MemStats_miss_rate_witness :
    (∃ ni, ni < ecinLayer.Len ∧
        half ≤ target patEngine
          (configSim ⟨constPat 0, altTarget, constPat 0⟩ (Flt.fin 0) 25) ni) ∧
      nUnits (List.range ecinLayer.Len) (fun ni =>
          half ≤ target patEngine
            (configSim ⟨constPat 0, altTarget, constPat 0⟩ (Flt.fin 0) 25) ni) +
        nUnits (List.range ecinLayer.Len) (fun ni =>
          target patEngine
            (configSim ⟨constPat 0, altTarget, constPat 0⟩ (Flt.fin 0) 25) ni < half)
        = ecinLayer.Len :=
  ⟨⟨0, by decide, by simp [pat_target, configSim, altTarget_on]⟩,
    (MemStats_miss_rate patEngine true
      (configSim ⟨constPat 0, altTarget, constPat 0⟩ (Flt.fin 0) 25) ecinLayer outputLayer
      rfl rfl ⟨0, by decide, by simp [pat_target, configSim, altTarget_on]⟩).elim
      (fun _ h => h.2.2.2.2.2)⟩

/-! ## The two sub-pool loops (C8) -/

/-- C8 (the code at the failing input): the loop for pool B visits the 50 indices 97..146
and the loop for pool C the 50 indices 146..195; unit 97 is in pool 1 and unit 98 in pool
2, so the B loop crosses a pool boundary, and unit 146 is visited by both loops.  On the
configured network, a training trial whose only TargetOn unit is unit 97 (the last unit of
pool 1), with nothing recalled, gets a B miss-rate of 1 although no unit of pool 2 is
TargetOn. -/
theorem pool_loops_off_by_one :
    poolBIdx = List.range' 97 50 ∧ poolCIdx = List.range' 146 50 ∧
      poolBIdx.length = 50 ∧ poolCIdx.length = 50 ∧
      (97 ∈ poolBIdx ∧ poolOf 97 = 1) ∧ (98 ∈ poolBIdx ∧ poolOf 98 = 2) ∧
      (146 ∈ poolCIdx ∧ poolOf 146 = 2) ∧ (147 ∈ poolCIdx ∧ poolOf 147 = 3) ∧
      (146 ∈ poolBIdx ∧ 146 ∈ poolCIdx) ∧
      (∀ ni, poolOf ni = 2 →
        ¬ TargetOn patEngine (configSim ⟨constPat 0, onePat 97, constPat 0⟩ (Flt.fin 0) 25) ni) ∧
      ∃ ss1, MemStats patEngine true
          (configSim ⟨constPat 0, onePat 97, constPat 0⟩ (Flt.fin 0) 25) = Except.ok ss1 ∧
        ss1.TrgOnWasOffB = Flt.fin 1 := by
  refine ⟨by decide, by decide, by decide, by decide, by decide, by decide, by decide,
    by decide, by decide, ?_, _, MemStats_ok patEngine true _ ecinLayer outputLayer rfl rfl, ?_⟩
  · intro ni hp hc
    unfold TargetOn at hc
    rw [pat_target] at hc
    have hne : ni ≠ 97 := by
      intro h
      rw [h] at hp
      exact absurd hp (by decide)
    simp only [configSim, onePat, if_neg hne] at hc
    exact absurd hc half_nonneg_not_le_zero
  · rw [body_TrgOnWasOffB]
    unfold missRate
    have h : nUnits poolBIdx (fun ni =>
        TargetOn patEngine (configSim ⟨constPat 0, onePat 97, constPat 0⟩ (Flt.fin 0) 25) ni ∧
        recalled patEngine (configSim ⟨constPat 0, onePat 97, constPat 0⟩ (Flt.fin 0) 25) ni
          < half) =
        nUnits poolBIdx
          (TargetOn patEngine
            (configSim ⟨constPat 0, onePat 97, constPat 0⟩ (Flt.fin 0) 25)) := by
      apply nUnits_congr
      intro ni _
      simp [pat_recalled, configSim, constPat, half_pos]
    rw [h]
    apply fdiv_self
    rw [nUnits_pos]
    refine ⟨97, by decide, ?_⟩
    unfold TargetOn
    rw [pat_target]
    simp [configSim, onePat, half_lt_one.le]

/-! ## Histories: the statements a call executes -/

theorem modifyFirst_map {α β : Type} (p : α → Bool) (f : α → α) (g : α → β)
    (h : ∀ a, g (f a) = g a) (l : List α) : (modifyFirst p f l).map g = l.map g := by
  induction l with
  | nil => rfl
  | cons a l ih =>
    unfold modifyFirst
    split_ifs
    · simp [h]
    · simp [ih]

theorem sig_modLayer (net : Network) (nm : String) (f : Layer → Layer)
    (h : ∀ ly, (f ly).sig = ly.sig) : (net.modLayer nm f).sig = net.sig := by
  unfold Network.modLayer Network.sig
  exact modifyFirst_map _ f Layer.sig h net.Layers

theorem sig_modPrjn (net : Network) (recv send : String) (f : Prjn → Prjn)
    (h : ∀ pj, ((f pj).Send, (f pj).Kind) = (pj.Send, pj.Kind)) :
    (net.modPrjn recv send f).sig = net.sig := by
  unfold Network.modPrjn
  apply sig_modLayer
  intro ly
  unfold Layer.sig
  simp only [Prod.mk.injEq, true_and]
  exact modifyFirst_map _ f _ h ly.RcvPrjns

theorem layerByName_sig (net : Network) (nm : String) :
    (net.LayerByName nm).map (fun ly => ly.sig.2) = sigLayer net.sig nm := by
  unfold Network.LayerByName Network.sig sigLayer
  induction net.Layers with
  | nil => rfl
  | cons a l ih =>
    simp only [List.find?_cons, List.map_cons]
    by_cases h : a.Nm == nm
    · simp [h, Layer.sig]
    · simp [h, Layer.sig]
      simpa [Layer.sig] using ih

theorem sendName_sig (ly : Layer) (send : String) :
    (ly.SendName send).map (fun pj => pj.Kind) = sigKind ly.sig.2 send := by
  unfold Layer.SendName Layer.sig sigKind
  induction ly.RcvPrjns with
  | nil => rfl
  | cons a l ih =>
    simp only [List.find?_cons, List.map_cons]
    by_cases h : a.Send == send
    · simp [h]
    · simp [h]
      simpa using ih

theorem layerByName_isSome_sig (net : Network) (nm : String) :
    (net.LayerByName nm).isSome = (sigLayer net.sig nm).isSome := by
  rw [← layerByName_sig]
  cases net.LayerByName nm <;> rfl

theorem hasPrjn_sig (net : Network) (recv send : String) (kind : Option PrjnKind) :
    net.hasPrjn recv send kind = sigHasPrjn net.sig recv send kind := by
  unfold Network.hasPrjn sigHasPrjn
  rw [← layerByName_sig]
  cases net.LayerByName recv with
  | none => rfl
  | some ly =>
    simp only [Option.map_some']
    rw [← sendName_sig]
    cases ly.SendName send with
    | none => rfl
    | some pj => rfl

theorem sameFrame_refl {D : Type} (ss : Sim D) : sameFrame ss ss :=
  ⟨rfl, rfl, rfl, rfl, rfl, rfl, rfl, rfl⟩

theorem sameFrame_trans {D : Type} {ss ss1 ss2 : Sim D} (h1 : sameFrame ss ss1)
    (h2 : sameFrame ss1 ss2) : sameFrame ss ss2 := by
  obtain ⟨a1, a2, a3, a4, a5, a6, a7, a8⟩ := h1
  obtain ⟨b1, b2, b3, b4, b5, b6, b7, b8⟩ := h2
  exact ⟨b1.trans a1, b2.trans a2, b3.trans a3, b4.trans a4, b5.trans a5, b6.trans a6,
    b7.trans a7, b8.trans a8⟩

theorem safe_frame {D : Type} (a : Act) {ss ss1 : Sim D} (h : sameFrame ss ss1) :
    a.safe ss1 = a.safe ss := by
  obtain ⟨_, _, h3, _, _, _, _, h8⟩ := h
  cases a <;> simp [Act.safe, hasPrjn_sig, layerByName_isSome_sig, h3, h8]

theorem viewUpdtOf_frame {D : Type} (train : Bool) {ss ss1 : Sim D} (h : sameFrame ss ss1) :
    viewUpdtOf train ss1 = viewUpdtOf train ss := by
  obtain ⟨_, _, _, h4, h5, _, _, _⟩ := h
  simp [viewUpdtOf, h4, h5]

theorem Ran_refl {D : Type} (ss : Sim D) : Ran ss ss [] :=
  ⟨⟨[], by simp, rfl⟩, sameFrame_refl ss⟩

theorem Ran_trans {D : Type} {ss ss1 ss2 : Sim D} {l1 l2 : List Act} (h1 : Ran ss ss1 l1)
    (h2 : Ran ss1 ss2 l2) : Ran ss ss2 (l1 ++ l2) := by
  obtain ⟨⟨e1, ht1, hm1⟩, f1⟩ := h1
  obtain ⟨⟨e2, ht2, hm2⟩, f2⟩ := h2
  refine ⟨⟨e1 ++ e2, ?_, ?_⟩, sameFrame_trans f1 f2⟩
  · rw [ht2, ht1, List.append_assoc]
  · rw [List.map_append, hm1, hm2]

theorem Ran_newActs {D : Type} {ss ss1 : Sim D} {l : List Act} (h : Ran ss ss1 l) :
    newActs ss ss1 = l := by
  obtain ⟨⟨e, ht, hm⟩, _⟩ := h
  unfold newActs
  rw [ht, List.drop_left, hm]

theorem Runs_ok {D : Type} (ss : Sim D) : Runs (fun s => Except.ok s) ss [] :=
  ⟨ss, rfl, Ran_refl ss⟩

/-- Sequencing: `f` and then `g`. -/
theorem Runs_bind {D : Type} {f g : Sim D → Except (Sim D) (Sim D)} {ss : Sim D}
    {l1 l2 : List Act} (h1 : Runs f ss l1) (h2 : ∀ ss1, Ran ss ss1 l1 → Runs g ss1 l2) :
    Runs (fun s => f s >>= g) ss (l1 ++ l2) := by
  obtain ⟨ss1, hf, r1⟩ := h1
  obtain ⟨ss2, hg, r2⟩ := h2 ss1 r1
  refine ⟨ss2, ?_, Ran_trans r1 r2⟩
  simp only [hf, bind, Except.bind, hg]

theorem log_ran {D : Type} (a : Act) (ss ss1 : Sim D) (ht : ss1.trace = ss.trace)
    (hf : sameFrame ss ss1) : Ran ss (ss1.log a) [a] := by
  refine ⟨⟨[⟨a, ss1.Net, ss1.Time, ss1.TmpVals, ss1.Dyn⟩], ?_, rfl⟩, ?_⟩
  · simp [Sim.log, ht]
  · exact hf

theorem memStatsBody_frame {D : Type} (E : Engine D) (train : Bool) (ss : Sim D) (nn : Nat) :
    (memStatsBody E train ss nn).trace = ss.trace ∧ sameFrame ss (memStatsBody E train ss nn) :=
  ⟨rfl, rfl, rfl, rfl, rfl, rfl, rfl, rfl, rfl⟩

/-- A safe statement is executed and recorded. -/
theorem exec_runs {D : Type} (E : Engine D) (train : Bool) (a : Act) (ss : Sim D)
    (h : a.safe ss = true) : Runs (exec E train a) ss [a] := by
  unfold Runs exec
  rw [if_pos h]
  cases a with
  | MemStats =>
    simp only [Act.safe, Bool.and_eq_true, Option.isSome_iff_exists] at h
    obtain ⟨⟨ecin, hE⟩, ⟨out, hO⟩⟩ := h
    simp only [Act.effect, MemStats_ok E train ss ecin out hE hO]
    exact ⟨_, rfl, log_ran _ _ _ (memStatsBody_frame E train ss _).1
      (memStatsBody_frame E train ss _).2⟩
  | SetLearn r s b =>
    exact ⟨_, rfl, log_ran _ _ _ rfl ⟨rfl, rfl, rfl, rfl, rfl, rfl, rfl,
      sig_modPrjn _ _ _ _ (fun _ => rfl)⟩⟩
  | SetPrjnOff r s b =>
    exact ⟨_, rfl, log_ran _ _ _ rfl ⟨rfl, rfl, rfl, rfl, rfl, rfl, rfl,
      sig_modPrjn _ _ _ _ (fun _ => rfl)⟩⟩
  | SetRel r s b =>
    exact ⟨_, rfl, log_ran _ _ _ rfl ⟨rfl, rfl, rfl, rfl, rfl, rfl, rfl,
      sig_modPrjn _ _ _ _ (fun _ => rfl)⟩⟩
  | SetAbs r s b =>
    exact ⟨_, rfl, log_ran _ _ _ rfl ⟨rfl, rfl, rfl, rfl, rfl, rfl, rfl,
      sig_modPrjn _ _ _ _ (fun _ => rfl)⟩⟩
  | SetLayOff l b =>
    exact ⟨_, rfl, log_ran _ _ _ rfl ⟨rfl, rfl, rfl, rfl, rfl, rfl, rfl,
      sig_modLayer _ _ _ (fun _ => rfl)⟩⟩
  | SetType l b =>
    exact ⟨_, rfl, log_ran _ _ _ rfl ⟨rfl, rfl, rfl, rfl, rfl, rfl, rfl,
      sig_modLayer _ _ _ (fun _ => rfl)⟩⟩
  | _ => exact ⟨_, rfl, log_ran _ _ _ rfl (sameFrame_refl ss)⟩

theorem execIf_runs {D : Type} (E : Engine D) (train : Bool) (c : Bool) (a : Act) (ss : Sim D)
    (h : c = true → a.safe ss = true) :
    Runs (execIf E train c a) ss (if c then [a] else []) := by
  unfold execIf
  cases c with
  | true => exact exec_runs E train a ss (h rfl)
  | false => exact Runs_ok ss

/-- A sequence of safe statements is executed and recorded. -/
theorem execs_runs {D : Type} (E : Engine D) (train : Bool) (l : List Act) (ss : Sim D)
    (h : ∀ a, a ∈ l → a.safe ss = true) : Runs (execs E train l) ss l := by
  induction l generalizing ss with
  | nil => exact Runs_ok ss
  | cons a l ih =>
    obtain ⟨ss1, h1, r1⟩ := exec_runs E train a ss (h a (List.mem_cons_self a l))
    have h2 : ∀ b, b ∈ l → b.safe ss1 = true := by
      intro b hb
      rw [safe_frame b r1.2]
      exact h b (List.mem_cons_of_mem a hb)
    obtain ⟨ss2, h3, r2⟩ := ih ss1 h2
    refine ⟨ss2, ?_, Ran_trans r1 r2⟩
    simp only [execs, h1, h3]

/-- A loop whose body executes the statements `L i` in iteration `i`. -/
theorem forLoop_runs {D : Type} (body : Nat → Sim D → Except (Sim D) (Sim D))
    (L : Nat → List Act) (ss0 : Sim D)
    (hbody : ∀ i ss, sameFrame ss0 ss → Runs (body i) ss (L i)) (n i : Nat) (ss : Sim D)
    (hf : sameFrame ss0 ss) :
    Runs (forLoop body n i) ss ((List.range' i n).flatMap L) := by
  induction n generalizing i ss with
  | zero => exact Runs_ok ss
  | succ n ih =>
    obtain ⟨ss1, h1, r1⟩ := hbody i ss hf
    obtain ⟨ss2, h2, r2⟩ := ih (i + 1) ss1 (sameFrame_trans hf r1.2)
    refine ⟨ss2, ?_, ?_⟩
    · simp only [forLoop, h1, h2]
    · rw [List.range'_succ, List.flatMap_cons]
      exact Ran_trans r1 r2

theorem Ran_cast {D : Type} {ss ss1 : Sim D} {l l1 : List Act} (h : Ran ss ss1 l)
    (e : l = l1) : Ran ss ss1 l1 := e ▸ h

/-- One iteration of the cycle loop executes `cycActs`. -/
theorem cycBody_runs {D : Type} (E : Engine D) (train : Bool) (vu : TimeScales) (cyc : Nat)
    (ss : Sim D) (h : train = true ∨ Act.LogTstCyc.safe ss = true) :
    Runs (cycBody E train vu cyc) ss (cycActs train ss.ViewOn vu ss.Time.CycPerQtr cyc) := by
  obtain ⟨s1, h1, r1⟩ := exec_runs E train Act.Cycle ss rfl
  obtain ⟨s2, h2, r2⟩ := execIf_runs E train (!train) Act.LogTstCyc s1 (by
    intro ht
    rw [safe_frame _ r1.2]
    rcases h with h | h
    · simp [h] at ht
    · exact h)
  obtain ⟨s3, h3, r3⟩ := exec_runs E train Act.CycleInc s2 rfl
  have r := Ran_trans (Ran_trans r1 r2) r3
  have hv : s3.ViewOn = ss.ViewOn := r.2.1
  have hc : s3.Time.CycPerQtr = ss.Time.CycPerQtr := r.2.2.1
  have h4 : Runs (fun s : Sim D =>
      if s.ViewOn then
        match vu with
        | TimeScales.Cycle =>
            execIf E train (decide ((cyc : Int) ≠ s.Time.CycPerQtr - 1)) Act.UpdateView s
        | TimeScales.FastSpike =>
            execIf E train (decide ((cyc + 1) % 10 = 0)) Act.UpdateView s
        | _ => pure s
      else pure s) s3
      (if ss.ViewOn then
        match vu with
        | TimeScales.Cycle => if (cyc : Int) ≠ ss.Time.CycPerQtr - 1 then [Act.UpdateView] else []
        | TimeScales.FastSpike => if (cyc + 1) % 10 = 0 then [Act.UpdateView] else []
        | _ => []
       else []) := by
    rw [← hv, ← hc]
    unfold Runs
    by_cases hview : s3.ViewOn = true
    · simp only [hview, if_true]
      cases vu with
      | Cycle =>
        have := execIf_runs E train (decide ((cyc : Int) ≠ s3.Time.CycPerQtr - 1))
          Act.UpdateView s3 (fun _ => rfl)
        simpa [Runs] using this
      | FastSpike =>
        have := execIf_runs E train (decide ((cyc + 1) % 10 = 0)) Act.UpdateView s3
          (fun _ => rfl)
        simpa [Runs] using this
      | _ => exact Runs_ok s3
    · simp only [hview]
      exact Runs_ok s3
  obtain ⟨s4, h5, r4⟩ := h4
  refine ⟨s4, ?_, ?_⟩
  · simp only [cycBody, h1, h2, h3, bind, Except.bind]
    exact h5
  · refine Ran_cast (Ran_trans r r4) ?_
    unfold cycActs
    cases train <;> simp

/-- The cycle loop executes `cycLoopActs`. -/
theorem cycLoop_runs {D : Type} (E : Engine D) (train : Bool) (vu : TimeScales) (ss : Sim D)
    (h : train = true ∨ Act.LogTstCyc.safe ss = true) :
    Runs (cycLoop E train vu) ss (cycLoopActs train ss.ViewOn vu ss.Time.CycPerQtr) := by
  unfold cycLoop cycLoopActs
  apply forLoop_runs (cycBody E train vu) _ ss _ _ _ ss (sameFrame_refl ss)
  intro i s hs
  have := cycBody_runs E train vu i s (by
    rcases h with h | h
    · exact Or.inl h
    · exact Or.inr (by rw [safe_frame _ hs]; exact h))
  rw [hs.1, hs.2.1] at this
  exact this

/-- The end of a quarter executes `qtrEndActs`. -/
theorem qtrEnd_runs {D : Type} (E : Engine D) (train : Bool) (vu : TimeScales) (qtr : Nat)
    (ss : Sim D) (h : Act.MemStats.safe ss = true) :
    Runs (qtrEnd E train vu qtr) ss (qtrEndActs ss.ViewOn vu qtr) := by
  obtain ⟨s1, h1, r1⟩ := exec_runs E train Act.QuarterFinal ss rfl
  obtain ⟨s2, h2, r2⟩ := execIf_runs E train (decide (qtr + 1 = 3)) Act.MemStats s1 (by
    intro _
    rw [safe_frame _ r1.2]
    exact h)
  obtain ⟨s3, h3, r3⟩ := exec_runs E train Act.QuarterInc s2 rfl
  have r := Ran_trans (Ran_trans r1 r2) r3
  have hv : s3.ViewOn = ss.ViewOn := r.2.1
  have h4 : Runs (fun s : Sim D =>
      if s.ViewOn then
        if vu.ord ≤ TimeScales.Quarter.ord then exec E train Act.UpdateView s
        else if vu = TimeScales.Phase then
          execIf E train (decide (qtr ≥ 2)) Act.UpdateView s
        else pure s
      else pure s) s3
      (if ss.ViewOn then
        if vu.ord ≤ TimeScales.Quarter.ord then [Act.UpdateView]
        else if vu = TimeScales.Phase then (if qtr ≥ 2 then [Act.UpdateView] else [])
        else []
       else []) := by
    rw [← hv]
    unfold Runs
    by_cases hview : s3.ViewOn = true
    · simp only [hview, if_true]
      by_cases hq : vu.ord ≤ TimeScales.Quarter.ord
      · simp only [hq, if_true]
        exact exec_runs E train Act.UpdateView s3 rfl
      · simp only [hq, if_false]
        by_cases hp : vu = TimeScales.Phase
        · simp only [hp, if_true]
          have := execIf_runs E train (decide (qtr ≥ 2)) Act.UpdateView s3 (fun _ => rfl)
          simpa [Runs] using this
        · simp only [hp, if_false]
          exact Runs_ok s3
    · simp only [hview]
      exact Runs_ok s3
  obtain ⟨s4, h5, r4⟩ := h4
  refine ⟨s4, ?_, ?_⟩
  · simp only [qtrEnd, h1, h2, h3, bind, Except.bind]
    exact h5
  · refine Ran_cast (Ran_trans r r4) ?_
    unfold qtrEndActs qtrTailActs
    simp

theorem plain_safe {D : Type} (a : Act) (ss : Sim D) (h : a.plain = true) :
    a.safe ss = true := by
  cases a <;> first | rfl | (simp [Act.plain] at h)

/-- The quarter loop executes `qtrLoopActs`. -/
theorem qtrLoop_runs {D : Type} (E : Engine D) (train : Bool) (vu : TimeScales)
    (sw : Nat → List Act) (ss : Sim D) (hsw : ∀ q a, a ∈ sw q → a.plain = true)
    (hlog : train = true ∨ Act.LogTstCyc.safe ss = true)
    (hmem : Act.MemStats.safe ss = true) :
    Runs (qtrLoop E train vu sw) ss
      (qtrLoopActs train ss.ViewOn vu ss.Time.CycPerQtr sw) := by
  unfold qtrLoop qtrLoopActs
  apply forLoop_runs _ _ ss _ _ _ ss (sameFrame_refl ss)
  intro qtr s hs
  have hlog1 : train = true ∨ Act.LogTstCyc.safe s = true := by
    rcases hlog with h | h
    · exact Or.inl h
    · exact Or.inr (by rw [safe_frame _ hs]; exact h)
  obtain ⟨s1, h1, r1⟩ := cycLoop_runs E train vu s hlog1
  obtain ⟨s2, h2, r2⟩ := execs_runs E train (sw (qtr + 1)) s1
    (fun a ha => plain_safe a s1 (hsw _ a ha))
  have r12 := Ran_trans r1 r2
  obtain ⟨s3, h3, r3⟩ := qtrEnd_runs E train vu qtr s2 (by
    rw [safe_frame _ r12.2, safe_frame _ hs]
    exact hmem)
  refine ⟨s3, ?_, ?_⟩
  · simp only [h1, h2, bind, Except.bind]
    exact h3
  · have hv2 : s2.ViewOn = ss.ViewOn := r12.2.1.trans hs.1
    rw [hv2] at r3
    rw [hs.1, hs.2.1] at r1
    exact Ran_cast (Ran_trans (Ran_trans r1 r2) r3) (by simp [qtrActs])

/-- The end of a procedure executes `alphaEndActs`. -/
theorem alphaEnd_runs {D : Type} (E : Engine D) (train : Bool) (vu : TimeScales) (ss : Sim D) :
    Runs (alphaEnd E train vu) ss (alphaEndActs train ss.ViewOn vu) := by
  obtain ⟨s1, h1, r1⟩ := execIf_runs E train (ss.ViewOn && decide (vu = TimeScales.AlphaCycle))
    Act.UpdateView ss (fun _ => rfl)
  obtain ⟨s2, h2, r2⟩ := execIf_runs E train (!train) Act.TstCycPlotGoUpdate s1 (fun _ => rfl)
  refine ⟨s2, ?_, ?_⟩
  · simp only [alphaEnd, h1, bind, Except.bind]
    exact h2
  · refine Ran_cast (Ran_trans r1 r2) ?_
    unfold alphaEndActs
    cases train <;> simp

theorem execs_append {D : Type} (E : Engine D) (train : Bool) (l1 l2 : List Act) (ss : Sim D) :
    execs E train (l1 ++ l2) ss = (execs E train l1 ss >>= execs E train l2) := by
  induction l1 generalizing ss with
  | nil => rfl
  | cons a l ih =>
    simp only [List.cons_append, execs]
    cases exec E train a ss with
    | error e => rfl
    | ok s => exact ih s

/-- A call of the common shape executes `alphaActs`, where `dg` is the value of
`WtScale.Rel` of the projection from `DG` to `CA3` after the lookups and the first
assignments. -/
theorem alphaShape_runs {D : Type} (E : Engine D) (train : Bool) (look : List Act)
    (cfg : Sim D → List Act) (start : List Act) (sw : ℚ → Nat → List Act)
    (post : ℚ → List Act) (ss : Sim D)
    (hlook : ∀ a, a ∈ look → a.safe ss = true)
    (hcfgF : ∀ s, sameFrame ss s → cfg s = cfg ss)
    (hcfg : ∀ a, a ∈ cfg ss → a.safe ss = true)
    (hstart : ∀ a, a ∈ start → a.plain = true)
    (hsw : ∀ dg q a, a ∈ sw dg q → a.plain = true)
    (hpost : ∀ dg a, a ∈ post dg → a.plain = true)
    (hlog : train = true ∨ Act.LogTstCyc.safe ss = true)
    (hmem : Act.MemStats.safe ss = true) :
    ∃ ss1 ssc, alphaShape E train look cfg start sw post ss = Except.ok ss1 ∧
      execs E train (look ++ cfg ss) ss = Except.ok ssc ∧
      Ran ss ss1 (alphaActs train look cfg start sw post ss (ssc.Net.prjnRel "CA3" "DG")) := by
  obtain ⟨s1, h1, r1⟩ := execs_runs E train look ss hlook
  obtain ⟨s2, h2, r2⟩ := execs_runs E train (cfg s1) s1 (by
    intro a ha
    rw [hcfgF s1 r1.2] at ha
    rw [safe_frame _ r1.2]
    exact hcfg a ha)
  rw [hcfgF s1 r1.2] at r2
  have r12 := Ran_trans r1 r2
  obtain ⟨s3, h3, r3⟩ := execs_runs E train start s2 (fun a ha => plain_safe a s2 (hstart a ha))
  have r13 := Ran_trans r12 r3
  obtain ⟨s4, h4, r4⟩ := qtrLoop_runs E train (viewUpdtOf train ss)
    (sw (s2.Net.prjnRel "CA3" "DG")) s3 (hsw _)
    (by
      rcases hlog with h | h
      · exact Or.inl h
      · exact Or.inr (by rw [safe_frame _ r13.2]; exact h))
    (by rw [safe_frame _ r13.2]; exact hmem)
  rw [r13.2.1, r13.2.2.1] at r4
  have r14 := Ran_trans r13 r4
  obtain ⟨s5, h5, r5⟩ := execs_runs E train (post (s2.Net.prjnRel "CA3" "DG")) s4
    (fun a ha => plain_safe a s4 (hpost _ a ha))
  have r15 := Ran_trans r14 r5
  obtain ⟨s6, h6, r6⟩ := alphaEnd_runs E train (viewUpdtOf train ss) s5
  rw [r15.2.1] at r6
  refine ⟨s6, s2, ?_, ?_, ?_⟩
  · simp only [alphaShape, h1, h2, h3, h4, h5, bind, Except.bind]
    exact h6
  · rw [execs_append, h1]
    simp only [bind, Except.bind]
    rw [← hcfgF s1 r1.2]
    exact h2
  · exact Ran_cast (Ran_trans r15 r6) (by simp [alphaActs])

/-- Each procedure has the common shape. -/
theorem Mode.run_eq {D : Type} (m : Mode) (E : Engine D) (train : Bool) (ss : Sim D) :
    m.run E train ss =
      alphaShape E train (m.look train) (m.cfg train) m.start (m.sw train) (m.post train)
        ss := by
  cases m <;> rfl

/-! ## The seven procedures run to their end -/

theorem Mode.look_admits (m : Mode) (train : Bool) :
    (m.look train).all m.admits = true := by
  cases m <;> cases train <;> rfl

theorem Mode.cfg_admits {D : Type} (m : Mode) (train : Bool) (ss : Sim D) :
    (m.cfg train ss).all m.admits = true := by
  cases m <;> cases train <;> rfl

theorem Mode.start_plain (m : Mode) : m.start.all Act.plain = true := by
  cases m <;> rfl

theorem Mode.sw_plain (m : Mode) (train : Bool) (dg : ℚ) (q : Nat) :
    (m.sw train dg q).all Act.plain = true := by
  cases m <;> cases train <;>
    simp only [Mode.sw, hipSwitch, sleepSwitch, daydreamSwitch, pureRetSwitch, fullSwitch,
      sleepClamp] <;>
    first | rfl | (split_ifs <;> rfl)

theorem Mode.post_plain (m : Mode) (train : Bool) (dg : ℚ) :
    (m.post train dg).all Act.plain = true := by
  cases m <;> cases train <;> rfl

theorem Mode.cfg_frame {D : Type} (m : Mode) (train : Bool) {ss s : Sim D}
    (h : sameFrame ss s) : m.cfg train s = m.cfg train ss := by
  obtain ⟨_, _, _, _, _, h6, h7, _⟩ := h
  cases m <;> simp only [Mode.cfg, h6, h7]

theorem Mode.lookups_ecin (m : Mode) :
    m.lookups.contains (Act.LayerByName "ECin") = true ∧
      m.lookups.contains (Act.LayerByName "Output") = true := by
  cases m <;> exact ⟨by rfl, by rfl⟩

theorem Mode.safe_of_admits {D : Type} (m : Mode) (train : Bool) (ss : Sim D)
    (hr : m.ready train ss = true) (l : List Act) (hl : l.all m.admits = true) :
    ∀ a, a ∈ l → a.safe ss = true := by
  intro a ha
  have h1 := List.all_eq_true.mp hl a ha
  unfold Mode.admits at h1
  rcases Bool.or_eq_true_iff.mp h1 with h | h
  · exact plain_safe a ss h
  · unfold Mode.ready at hr
    have h2 := (Bool.and_eq_true_iff.mp hr).1
    exact List.all_eq_true.mp h2 a (List.mem_of_elem_eq_true h)

/-- A ready call of a procedure returns, having executed exactly the statements of
`Mode.acts`. -/
theorem Mode.run_runs {D : Type} (m : Mode) (E : Engine D) (train : Bool) (ss : Sim D)
    (hr : m.ready train ss = true) :
    ∃ ss1 ssc, m.run E train ss = Except.ok ss1 ∧
      execs E train (m.look train ++ m.cfg train ss) ss = Except.ok ssc ∧
      Ran ss ss1 (m.acts train ss (ssc.Net.prjnRel "CA3" "DG")) := by
  rw [Mode.run_eq]
  have hmem : Act.MemStats.safe ss = true := by
    have h2 := (Bool.and_eq_true_iff.mp hr).1
    have hE := List.all_eq_true.mp h2 _ (List.mem_of_elem_eq_true m.lookups_ecin.1)
    have hO := List.all_eq_true.mp h2 _ (List.mem_of_elem_eq_true m.lookups_ecin.2)
    simp only [Act.safe] at hE hO
    simp [Act.safe, hE, hO]
  have hlog : train = true ∨ Act.LogTstCyc.safe ss = true := by
    have h2 := (Bool.and_eq_true_iff.mp hr).2
    exact Bool.or_eq_true_iff.mp h2
  exact alphaShape_runs E train (m.look train) (m.cfg train) m.start (m.sw train)
    (m.post train) ss
    (m.safe_of_admits train ss hr _ (m.look_admits train))
    (fun s hs => m.cfg_frame train hs)
    (m.safe_of_admits train ss hr _ (m.cfg_admits train ss))
    (fun a ha => List.all_eq_true.mp m.start_plain a ha)
    (fun dg q a ha => List.all_eq_true.mp (m.sw_plain train dg q) a ha)
    (fun dg a ha => List.all_eq_true.mp (m.post_plain train dg) a ha)
    hlog hmem

/-! ## The schedule of a call: cycle steps, ends of quarters, memory score -/

theorem not_mem_of_quiet {l : List Act} (h : l.all (fun a => !a.sched) = true) (a : Act)
    (ha : a.sched = true) : a ∉ l := by
  intro hm
  have := List.all_eq_true.mp h a hm
  simp [ha] at this

theorem count_of_quiet {l : List Act} (h : l.all (fun a => !a.sched) = true) :
    l.count Act.Cycle = 0 ∧ l.count Act.QuarterFinal = 0 ∧ l.count Act.MemStats = 0 :=
  ⟨List.count_eq_zero.mpr (not_mem_of_quiet h _ rfl),
    List.count_eq_zero.mpr (not_mem_of_quiet h _ rfl),
    List.count_eq_zero.mpr (not_mem_of_quiet h _ rfl)⟩

theorem tick_of_quiet {l : List Act} (h : l.all (fun a => !a.sched) = true) :
    l.filter Act.tick = [] := by
  rw [List.filter_eq_nil_iff]
  intro a ha
  have h1 := List.all_eq_true.mp h a ha
  cases a <;> first | (simp [Act.sched] at h1; done) | (simp [Act.tick])

theorem Mode.look_quiet (m : Mode) (train : Bool) :
    (m.look train).all (fun a => !a.sched) = true := by
  cases m <;> cases train <;> rfl

theorem Mode.cfg_quiet {D : Type} (m : Mode) (train : Bool) (ss : Sim D) :
    (m.cfg train ss).all (fun a => !a.sched) = true := by
  cases m <;> cases train <;> rfl

theorem Mode.start_quiet (m : Mode) : m.start.all (fun a => !a.sched) = true := by
  cases m <;> rfl

theorem Mode.sw_quiet (m : Mode) (train : Bool) (dg : ℚ) (q : Nat) :
    (m.sw train dg q).all (fun a => !a.sched) = true := by
  cases m <;> cases train <;>
    simp only [Mode.sw, hipSwitch, sleepSwitch, daydreamSwitch, pureRetSwitch, fullSwitch,
      sleepClamp] <;>
    first | rfl | (split_ifs <;> rfl)

theorem Mode.post_quiet (m : Mode) (train : Bool) (dg : ℚ) :
    (m.post train dg).all (fun a => !a.sched) = true := by
  cases m <;> cases train <;> rfl

theorem alphaEndActs_quiet (train viewOn : Bool) (vu : TimeScales) :
    (alphaEndActs train viewOn vu).all (fun a => !a.sched) = true := by
  unfold alphaEndActs
  cases train <;> split_ifs <;> rfl

theorem qtrTailActs_quiet (viewOn : Bool) (vu : TimeScales) (qtr : Nat) :
    (qtrTailActs viewOn vu qtr).all (fun a => !a.sched) = true := by
  unfold qtrTailActs
  split_ifs <;> rfl

/-- The statements of one iteration of the cycle loop after the cycle step. -/
theorem cycActs_eq (train viewOn : Bool) (vu : TimeScales) (cpq : Int) (cyc : Nat) :
    ∃ rest : List Act, cycActs train viewOn vu cpq cyc = Act.Cycle :: rest ∧
      rest.all (fun a => !a.sched) = true := by
  refine ⟨_, rfl, ?_⟩
  cases train <;> cases viewOn <;> cases vu <;>
    simp only [List.append_eq, List.nil_append, List.cons_append, if_true, if_false,
      Bool.false_eq_true] <;>
    first | rfl | (split_ifs <;> rfl)

theorem cycActs_count (train viewOn : Bool) (vu : TimeScales) (cpq : Int) (cyc : Nat) :
    (cycActs train viewOn vu cpq cyc).count Act.Cycle = 1 ∧
      (cycActs train viewOn vu cpq cyc).count Act.QuarterFinal = 0 ∧
      (cycActs train viewOn vu cpq cyc).count Act.MemStats = 0 ∧
      (cycActs train viewOn vu cpq cyc).filter Act.tick = [Act.Cycle] := by
  obtain ⟨rest, he, hq⟩ := cycActs_eq train viewOn vu cpq cyc
  obtain ⟨h1, h2, h3⟩ := count_of_quiet hq
  rw [he]
  refine ⟨?_, ?_, ?_, ?_⟩
  · rw [List.count_cons_self, h1]
  · rw [List.count_cons_of_ne (by decide), h2]
  · rw [List.count_cons_of_ne (by decide), h3]
  · rw [List.filter_cons_of_pos (by rfl), tick_of_quiet hq]

theorem flatMap_count (L : Nat → List Act) (a : Act) (k : Nat) (h : ∀ i, (L i).count a = k)
    (s n : Nat) : ((List.range' s n).flatMap L).count a = n * k := by
  induction n generalizing s with
  | zero => simp
  | succ n ih =>
    rw [List.range'_succ, List.flatMap_cons, List.count_append, h, ih]
    rw [Nat.succ_mul, Nat.add_comm]

theorem flatMap_tick (L : Nat → List Act) (h : ∀ i, (L i).filter Act.tick = [Act.Cycle])
    (s n : Nat) :
    ((List.range' s n).flatMap L).filter Act.tick = List.replicate n Act.Cycle := by
  induction n generalizing s with
  | zero => simp
  | succ n ih =>
    rw [List.range'_succ, List.flatMap_cons, List.filter_append, h, ih, List.replicate_succ]
    rfl

theorem cycLoopActs_count (train viewOn : Bool) (vu : TimeScales) (cpq : Int) :
    (cycLoopActs train viewOn vu cpq).count Act.Cycle = cpq.toNat ∧
      (cycLoopActs train viewOn vu cpq).count Act.QuarterFinal = 0 ∧
      (cycLoopActs train viewOn vu cpq).count Act.MemStats = 0 ∧
      (cycLoopActs train viewOn vu cpq).filter Act.tick = List.replicate cpq.toNat Act.Cycle := by
  unfold cycLoopActs
  refine ⟨?_, ?_, ?_, ?_⟩
  · rw [flatMap_count _ _ 1 (fun i => (cycActs_count train viewOn vu cpq i).1), Nat.mul_one]
  · rw [flatMap_count _ _ 0 (fun i => (cycActs_count train viewOn vu cpq i).2.1), Nat.mul_zero]
  · rw [flatMap_count _ _ 0 (fun i => (cycActs_count train viewOn vu cpq i).2.2.1),
      Nat.mul_zero]
  · exact flatMap_tick _ (fun i => (cycActs_count train viewOn vu cpq i).2.2.2) _ _

theorem qtrLoopActs_eq (train viewOn : Bool) (vu : TimeScales) (cpq : Int)
    (sw : Nat → List Act) :
    qtrLoopActs train viewOn vu cpq sw =
      qtrActs train viewOn vu cpq sw 0 ++ (qtrActs train viewOn vu cpq sw 1 ++
        (qtrActs train viewOn vu cpq sw 2 ++ qtrActs train viewOn vu cpq sw 3)) := by
  unfold qtrLoopActs
  simp [List.range', List.flatMap_cons]

/-- The three counts of a quarter other than quarter 2, and its cycle steps and end. -/
theorem qtrActs_count (m : Mode) (train viewOn : Bool) (vu : TimeScales) (cpq : Int) (dg : ℚ)
    (qtr : Nat) (hq : qtr + 1 ≠ 3) :
    (qtrActs train viewOn vu cpq (m.sw train dg) qtr).count Act.Cycle = cpq.toNat ∧
      (qtrActs train viewOn vu cpq (m.sw train dg) qtr).count Act.QuarterFinal = 1 ∧
      (qtrActs train viewOn vu cpq (m.sw train dg) qtr).count Act.MemStats = 0 := by
  obtain ⟨c1, c2, c3, _⟩ := cycLoopActs_count train viewOn vu cpq
  obtain ⟨s1, s2, s3⟩ := count_of_quiet (m.sw_quiet train dg (qtr + 1))
  obtain ⟨t1, t2, t3⟩ := count_of_quiet (qtrTailActs_quiet viewOn vu qtr)
  unfold qtrActs qtrEndActs
  simp only [if_neg hq, List.count_append, c1, c2, c3, s1, s2, s3, t1, t2, t3]
  refine ⟨?_, ?_, ?_⟩ <;> simp

theorem qtrActs_tick (m : Mode) (train viewOn : Bool) (vu : TimeScales) (cpq : Int) (dg : ℚ)
    (qtr : Nat) :
    (qtrActs train viewOn vu cpq (m.sw train dg) qtr).filter Act.tick =
      List.replicate cpq.toNat Act.Cycle ++ [Act.QuarterFinal] := by
  obtain ⟨_, _, _, c4⟩ := cycLoopActs_count train viewOn vu cpq
  unfold qtrActs qtrEndActs
  simp only [List.filter_append, c4, tick_of_quiet (m.sw_quiet train dg (qtr + 1)),
    tick_of_quiet (qtrTailActs_quiet viewOn vu qtr)]
  split_ifs <;> simp [List.filter, Act.tick]

theorem qtrActs_two (train viewOn : Bool) (vu : TimeScales) (cpq : Int) (sw : Nat → List Act) :
    qtrActs train viewOn vu cpq sw 2 =
      cycLoopActs train viewOn vu cpq ++ sw 3 ++ [Act.QuarterFinal, Act.MemStats] ++
        qtrTailActs viewOn vu 2 := by
  simp [qtrActs, qtrEndActs]

theorem configSim_ready (m : Mode) (train : Bool) (d : Pat) (mem : Flt) (c : Int) :
    m.ready train (configSim d mem c) = true := by
  cases m <;> cases train <;> rfl

/-- C9: a ready call of any of the seven procedures, for both values of `train`, returns
and calls `MemStats` exactly once; the call follows immediately a `QuarterFinal`, which is
the third one: before it there are two `QuarterFinal` and the cycle steps of three quarters,
after the call of `MemStats` come the cycle steps of one quarter and the last
`QuarterFinal`. -/
theorem alphaCyc_memStats_once {D : Type} (m : Mode) (E : Engine D) (train : Bool)
    (ss : Sim D) (hr : m.ready train ss = true) :
    ∃ ss1, m.run E train ss = Except.ok ss1 ∧
      (newActs ss ss1).count Act.MemStats = 1 ∧
      ∃ pre post, newActs ss ss1 = pre ++ [Act.QuarterFinal, Act.MemStats] ++ post ∧
        pre.count Act.QuarterFinal = 2 ∧
        pre.count Act.Cycle = 3 * ss.Time.CycPerQtr.toNat ∧
        pre.count Act.MemStats = 0 ∧
        post.count Act.Cycle = ss.Time.CycPerQtr.toNat ∧
        post.count Act.QuarterFinal = 1 ∧
        post.count Act.MemStats = 0 := by
  obtain ⟨ss1, ssc, hrun, _, hran⟩ := m.run_runs E train ss hr
  refine ⟨ss1, hrun, ?_⟩
  rw [Ran_newActs hran]
  generalize ssc.Net.prjnRel "CA3" "DG" = dg
  obtain ⟨l1, l2, l3⟩ := count_of_quiet (m.look_quiet train)
  obtain ⟨g1, g2, g3⟩ := count_of_quiet (m.cfg_quiet train ss)
  obtain ⟨a1, a2, a3⟩ := count_of_quiet m.start_quiet
  obtain ⟨p1, p2, p3⟩ := count_of_quiet (m.post_quiet train dg)
  obtain ⟨e1, e2, e3⟩ :=
    count_of_quiet (alphaEndActs_quiet train ss.ViewOn (viewUpdtOf train ss))
  obtain ⟨t1, t2, t3⟩ :=
    count_of_quiet (qtrTailActs_quiet ss.ViewOn (viewUpdtOf train ss) 2)
  obtain ⟨s1, s2, s3⟩ := count_of_quiet (m.sw_quiet train dg 3)
  obtain ⟨c1, c2, c3, _⟩ :=
    cycLoopActs_count train ss.ViewOn (viewUpdtOf train ss) ss.Time.CycPerQtr
  obtain ⟨q01, q02, q03⟩ := qtrActs_count m train ss.ViewOn (viewUpdtOf train ss)
    ss.Time.CycPerQtr dg 0 (by decide)
  obtain ⟨q11, q12, q13⟩ := qtrActs_count m train ss.ViewOn (viewUpdtOf train ss)
    ss.Time.CycPerQtr dg 1 (by decide)
  obtain ⟨q31, q32, q33⟩ := qtrActs_count m train ss.ViewOn (viewUpdtOf train ss)
    ss.Time.CycPerQtr dg 3 (by decide)
  have hsplit : m.acts train ss dg =
      (m.look train ++ m.cfg train ss ++ m.start ++
        qtrActs train ss.ViewOn (viewUpdtOf train ss) ss.Time.CycPerQtr (m.sw train dg) 0 ++
        qtrActs train ss.ViewOn (viewUpdtOf train ss) ss.Time.CycPerQtr (m.sw train dg) 1 ++
        cycLoopActs train ss.ViewOn (viewUpdtOf train ss) ss.Time.CycPerQtr ++
        m.sw train dg 3) ++ [Act.QuarterFinal, Act.MemStats] ++
      (qtrTailActs ss.ViewOn (viewUpdtOf train ss) 2 ++
        qtrActs train ss.ViewOn (viewUpdtOf train ss) ss.Time.CycPerQtr (m.sw train dg) 3 ++
        m.post train dg ++ alphaEndActs train ss.ViewOn (viewUpdtOf train ss)) := by
    unfold Mode.acts alphaActs
    rw [qtrLoopActs_eq, qtrActs_two]
    simp only [List.append_assoc]
  refine ⟨?_, _, _, hsplit, ?_, ?_, ?_, ?_, ?_, ?_⟩
  · rw [hsplit]
    simp only [List.count_append, l3, g3, a3, q03, q13, c3, s3, t3, q33, p3, e3]
    simp
  · simp only [List.count_append, l2, g2, a2, q02, q12, c2, s2]
  · simp only [List.count_append, l1, g1, a1, q01, q11, c1, s1]
    omega
  · simp only [List.count_append, l3, g3, a3, q03, q13, c3, s3]
  · simp only [List.count_append, t1, q31, p1, e1]
    omega
  · simp only [List.count_append, t2, q32, p2, e2]
  · simp only [List.count_append, t3, q33, p3, e3]

/-- C9 (witness): a training trial of `AlphaCycHip` on the configured network with 25 cycles
per quarter. -/
theorem alphaCyc_memStats_once_witness :
    Mode.Hip.ready true (configSim ⟨altTarget, altTarget, altTarget⟩ (Flt.fin 0) 25) = true ∧
      ∃ ss1, Mode.Hip.run patEngine true
          (configSim ⟨altTarget, altTarget, altTarget⟩ (Flt.fin 0) 25) = Except.ok ss1 ∧
        (newActs (configSim ⟨altTarget, altTarget, altTarget⟩ (Flt.fin 0) 25) ss1).count
          Act.MemStats = 1 :=
  ⟨configSim_ready _ _ _ _ _,
    (alphaCyc_memStats_once Mode.Hip patEngine true
      (configSim ⟨altTarget, altTarget, altTarget⟩ (Flt.fin 0) 25)
      (configSim_ready _ _ _ _ _)).imp (fun _ h => ⟨h.1, h.2.1⟩)⟩

/-- C10: a ready call of any of the seven procedures, for both values of `train` and every
`CycPerQtr ≥ 0`, returns; its cycle steps and ends of quarters are, in order, four times
`CycPerQtr` cycle steps followed by one `QuarterFinal`; so it performs `4 * CycPerQtr`
cycle steps and 4 `QuarterFinal`, whatever the mode. -/
theorem alphaCyc_cycle_count {D : Type} (m : Mode) (E : Engine D) (train : Bool)
    (ss : Sim D) (hr : m.ready train ss = true) (hc : 0 ≤ ss.Time.CycPerQtr) :
    ∃ ss1, m.run E train ss = Except.ok ss1 ∧
      (newActs ss ss1).filter Act.tick =
        (List.replicate ss.Time.CycPerQtr.toNat Act.Cycle ++ [Act.QuarterFinal]) ++
        (List.replicate ss.Time.CycPerQtr.toNat Act.Cycle ++ [Act.QuarterFinal]) ++
        (List.replicate ss.Time.CycPerQtr.toNat Act.Cycle ++ [Act.QuarterFinal]) ++
        (List.replicate ss.Time.CycPerQtr.toNat Act.Cycle ++ [Act.QuarterFinal]) ∧
      ((newActs ss ss1).count Act.Cycle : Int) = 4 * ss.Time.CycPerQtr ∧
      (newActs ss ss1).count Act.QuarterFinal = 4 := by
  obtain ⟨ss1, ssc, hrun, _, hran⟩ := m.run_runs E train ss hr
  refine ⟨ss1, hrun, ?_⟩
  rw [Ran_newActs hran]
  generalize ssc.Net.prjnRel "CA3" "DG" = dg
  have htick : (m.acts train ss dg).filter Act.tick =
      (List.replicate ss.Time.CycPerQtr.toNat Act.Cycle ++ [Act.QuarterFinal]) ++
      (List.replicate ss.Time.CycPerQtr.toNat Act.Cycle ++ [Act.QuarterFinal]) ++
      (List.replicate ss.Time.CycPerQtr.toNat Act.Cycle ++ [Act.QuarterFinal]) ++
      (List.replicate ss.Time.CycPerQtr.toNat Act.Cycle ++ [Act.QuarterFinal]) := by
    unfold Mode.acts alphaActs
    rw [qtrLoopActs_eq]
    simp only [List.filter_append, tick_of_quiet (m.look_quiet train),
      tick_of_quiet (m.cfg_quiet train ss), tick_of_quiet m.start_quiet,
      tick_of_quiet (m.post_quiet train dg),
      tick_of_quiet (alphaEndActs_quiet train ss.ViewOn (viewUpdtOf train ss)),
      qtrActs_tick, List.nil_append, List.append_nil, List.append_assoc]
  have hcount : ∀ a : Act, a.tick = true →
      (m.acts train ss dg).count a = ((m.acts train ss dg).filter Act.tick).count a := by
    intro a ha
    rw [List.count_filter ha]
  refine ⟨htick, ?_, ?_⟩
  · rw [hcount Act.Cycle (by rfl), htick]
    simp only [List.count_append, List.count_replicate_self, List.count_cons_of_ne,
      List.count_nil, ne_eq, reduceCtorEq, not_false_eq_true]
    have := Int.toNat_of_nonneg hc
    omega
  · rw [hcount Act.QuarterFinal (by rfl), htick]
    simp [List.count_append, List.count_replicate]

/-- C10 (witness): a test trial of `AlphaCycFull` on the configured network with 25 cycles
per quarter performs 100 cycle steps and 4 `QuarterFinal`. -/
theorem alphaCyc_cycle_count_witness :
    Mode.Full.ready false (configSim ⟨altTarget, altTarget, altTarget⟩ (Flt.fin 0) 25) = true ∧
      (0 : Int) ≤ (configSim ⟨altTarget, altTarget, altTarget⟩ (Flt.fin 0) 25).Time.CycPerQtr ∧
      ∃ ss1, Mode.Full.run patEngine false
          (configSim ⟨altTarget, altTarget, altTarget⟩ (Flt.fin 0) 25) = Except.ok ss1 ∧
        ((newActs (configSim ⟨altTarget, altTarget, altTarget⟩ (Flt.fin 0) 25) ss1).count
          Act.Cycle : Int) = 4 * 25 ∧
        (newActs (configSim ⟨altTarget, altTarget, altTarget⟩ (Flt.fin 0) 25) ss1).count
          Act.QuarterFinal = 4 :=
  ⟨configSim_ready _ _ _ _ _, by decide,
    (alphaCyc_cycle_count Mode.Full patEngine false
      (configSim ⟨altTarget, altTarget, altTarget⟩ (Flt.fin 0) 25)
      (configSim_ready _ _ _ _ _) (by decide)).imp (fun _ h => ⟨h.1, h.2.2.1, h.2.2.2⟩)⟩

/-! ## A call is the execution of its statement list

The equalities of this section hold for every state: when a statement panics, both sides
are the same error. -/

theorem bind_congr_ok {D : Type} (x : Except (Sim D) (Sim D))
    (f g : Sim D → Except (Sim D) (Sim D)) (h : ∀ s, x = Except.ok s → f s = g s) :
    (x >>= f) = (x >>= g) := by
  cases x with
  | error e => rfl
  | ok s => exact h s rfl

theorem execs_cons_bind {D : Type} (E : Engine D) (train : Bool) (a : Act) (l : List Act)
    (ss : Sim D) : execs E train (a :: l) ss = (exec E train a ss >>= execs E train l) := by
  simp only [execs]
  cases exec E train a ss <;> rfl

theorem execs_single {D : Type} (E : Engine D) (train : Bool) (a : Act) (ss : Sim D) :
    execs E train [a] ss = exec E train a ss := by
  simp only [execs]
  cases exec E train a ss <;> rfl

theorem execIf_eq {D : Type} (E : Engine D) (train : Bool) (c : Bool) (a : Act) (ss : Sim D) :
    execIf E train c a ss = execs E train (if c then [a] else []) ss := by
  cases c
  · rfl
  · simp [execIf, execs_single]

theorem exec_ok_safe {D : Type} {E : Engine D} {train : Bool} {a : Act} {ss s1 : Sim D}
    (h : exec E train a ss = Except.ok s1) : a.safe ss = true := by
  by_contra hs
  unfold exec at h
  rw [if_neg hs] at h
  cases h

theorem exec_frame {D : Type} {E : Engine D} {train : Bool} {a : Act} {ss s1 : Sim D}
    (h : exec E train a ss = Except.ok s1) : Ran ss s1 [a] := by
  obtain ⟨s2, h2, r2⟩ := exec_runs E train a ss (exec_ok_safe h)
  rw [h] at h2
  cases h2
  exact r2

theorem execs_frame {D : Type} {E : Engine D} {train : Bool} {l : List Act} {ss s1 : Sim D}
    (h : execs E train l ss = Except.ok s1) : Ran ss s1 l := by
  induction l generalizing ss with
  | nil =>
    cases h
    exact Ran_refl _
  | cons a l ih =>
    rw [execs_cons_bind] at h
    cases h1 : exec E train a ss with
    | error e => rw [h1] at h; cases h
    | ok s2 =>
      rw [h1] at h
      exact Ran_trans (exec_frame h1) (ih h)

/-- One iteration of the cycle loop is the execution of `cycActs`. -/
theorem cycBody_eq {D : Type} (E : Engine D) (train : Bool) (vu : TimeScales) (cyc : Nat)
    (ss : Sim D) :
    cycBody E train vu cyc ss =
      execs E train (cycActs train ss.ViewOn vu ss.Time.CycPerQtr cyc) ss := by
  unfold cycBody cycActs
  simp only [List.append_assoc, List.cons_append, List.nil_append]
  rw [execs_cons_bind]
  apply bind_congr_ok
  intro s1 h1
  rw [execs_append, execIf_eq]
  have hc : (if (!train) = true then [Act.LogTstCyc] else []) =
      (if train = true then [] else [Act.LogTstCyc]) := by cases train <;> rfl
  rw [hc]
  apply bind_congr_ok
  intro s2 h2
  rw [execs_cons_bind]
  apply bind_congr_ok
  intro s3 h3
  have f := (Ran_trans (exec_frame h1) (Ran_trans (execs_frame h2) (exec_frame h3))).2
  rw [← f.1, ← f.2.1]
  cases s3.ViewOn with
  | false => rfl
  | true =>
    cases vu <;> simp only [if_true, execIf_eq, decide_eq_true_eq] <;> rfl

/-- A loop whose body is the execution of the statements `L i` in iteration `i`. -/
theorem forLoop_eq {D : Type} (E : Engine D) (train : Bool)
    (body : Nat → Sim D → Except (Sim D) (Sim D)) (L : Nat → List Act) (ss0 : Sim D)
    (hbody : ∀ i ss, sameFrame ss0 ss → body i ss = execs E train (L i) ss) (n i : Nat)
    (ss : Sim D) (hf : sameFrame ss0 ss) :
    forLoop body n i ss = execs E train ((List.range' i n).flatMap L) ss := by
  induction n generalizing i ss with
  | zero => rfl
  | succ n ih =>
    rw [List.range'_succ, List.flatMap_cons, execs_append, forLoop, hbody i ss hf]
    cases h1 : execs E train (L i) ss with
    | error e => rfl
    | ok s1 => exact ih (i + 1) s1 (sameFrame_trans hf (execs_frame h1).2)

/-- The cycle loop is the execution of `cycLoopActs`. -/
theorem cycLoop_eq {D : Type} (E : Engine D) (train : Bool) (vu : TimeScales) (ss : Sim D) :
    cycLoop E train vu ss =
      execs E train (cycLoopActs train ss.ViewOn vu ss.Time.CycPerQtr) ss := by
  unfold cycLoop cycLoopActs
  apply forLoop_eq E train _ _ ss _ _ _ ss (sameFrame_refl ss)
  intro i s hs
  rw [cycBody_eq, hs.1, hs.2.1]

/-- The end of a quarter is the execution of `qtrEndActs`. -/
theorem qtrEnd_eq {D : Type} (E : Engine D) (train : Bool) (vu : TimeScales) (qtr : Nat)
    (ss : Sim D) :
    qtrEnd E train vu qtr ss = execs E train (qtrEndActs ss.ViewOn vu qtr) ss := by
  unfold qtrEnd qtrEndActs qtrTailActs
  simp only [List.append_assoc, List.cons_append, List.nil_append]
  rw [execs_cons_bind]
  apply bind_congr_ok
  intro s1 h1
  rw [execs_append, execIf_eq]
  have hc : (if decide (qtr + 1 = 3) = true then [Act.MemStats] else []) =
      (if qtr + 1 = 3 then [Act.MemStats] else []) := by simp
  rw [hc]
  apply bind_congr_ok
  intro s2 h2
  rw [execs_cons_bind]
  apply bind_congr_ok
  intro s3 h3
  have f := (Ran_trans (exec_frame h1) (Ran_trans (execs_frame h2) (exec_frame h3))).2
  rw [← f.1]
  cases s3.ViewOn with
  | false => rfl
  | true =>
    simp only [if_true]
    by_cases hq : vu.ord ≤ TimeScales.Quarter.ord
    · simp only [hq, if_true]
      exact (execs_single E train _ s3).symm
    · simp only [hq, if_false]
      by_cases hp : vu = TimeScales.Phase
      · simp only [hp, if_true, execIf_eq, decide_eq_true_eq]
      · simp only [hp, if_false]
        rfl

/-- The quarter loop is the execution of `qtrLoopActs`. -/
theorem qtrLoop_eq {D : Type} (E : Engine D) (train : Bool) (vu : TimeScales)
    (sw : Nat → List Act) (ss : Sim D) :
    qtrLoop E train vu sw ss =
      execs E train (qtrLoopActs train ss.ViewOn vu ss.Time.CycPerQtr sw) ss := by
  unfold qtrLoop qtrLoopActs
  apply forLoop_eq E train _ _ ss _ _ _ ss (sameFrame_refl ss)
  intro qtr s hs
  unfold qtrActs
  rw [List.append_assoc, execs_append, cycLoop_eq, hs.1, hs.2.1]
  apply bind_congr_ok
  intro s1 h1
  rw [execs_append]
  apply bind_congr_ok
  intro s2 h2
  rw [qtrEnd_eq, (execs_frame h2).2.1, (execs_frame h1).2.1, hs.1]

/-- The end of a procedure is the execution of `alphaEndActs`. -/
theorem alphaEnd_eq {D : Type} (E : Engine D) (train : Bool) (vu : TimeScales) (ss : Sim D) :
    alphaEnd E train vu ss = execs E train (alphaEndActs train ss.ViewOn vu) ss := by
  unfold alphaEnd alphaEndActs
  rw [execs_append, execIf_eq]
  apply bind_congr_ok
  intro s1 h1
  rw [execIf_eq]
  cases train <;> rfl

/-- A call of the common shape is the execution of `alphaActs`. -/
theorem alphaShape_eq {D : Type} (E : Engine D) (train : Bool) (look : List Act)
    (cfg : Sim D → List Act) (start : List Act) (sw : ℚ → Nat → List Act)
    (post : ℚ → List Act) (ss : Sim D) (hcfgF : ∀ s, sameFrame ss s → cfg s = cfg ss) :
    alphaShape E train look cfg start sw post ss =
      execs E train
        (alphaActs train look cfg start sw post ss (dgRead E train (look ++ cfg ss) ss)) ss := by
  simp only [alphaShape, alphaActs, List.append_assoc]
  rw [execs_append]
  apply bind_congr_ok
  intro s1 h1
  have f1 := (execs_frame h1).2
  rw [hcfgF s1 f1, execs_append]
  apply bind_congr_ok
  intro s2 h2
  have f2 := sameFrame_trans f1 (execs_frame h2).2
  have hdg : dgRead E train (look ++ cfg ss) ss = s2.Net.prjnRel "CA3" "DG" := by
    unfold dgRead
    rw [execs_append, h1]
    simp only [bind, Except.bind, h2]
  rw [hdg, execs_append]
  apply bind_congr_ok
  intro s3 h3
  have f3 := sameFrame_trans f2 (execs_frame h3).2
  rw [execs_append, qtrLoop_eq, f3.1, f3.2.1]
  apply bind_congr_ok
  intro s4 h4
  have f4 := sameFrame_trans f3 (execs_frame h4).2
  rw [execs_append]
  apply bind_congr_ok
  intro s5 h5
  have f5 := sameFrame_trans f4 (execs_frame h5).2
  rw [alphaEnd_eq, f5.1]

/-- A call of a procedure is the execution of the statements of `Mode.acts`. -/
theorem Mode.run_execs {D : Type} (m : Mode) (E : Engine D) (train : Bool) (ss : Sim D) :
    m.run E train ss = execs E train (m.acts train ss (m.dgwtscale E train ss)) ss := by
  rw [Mode.run_eq]
  exact alphaShape_eq E train (m.look train) (m.cfg train) m.start (m.sw train) (m.post train)
    ss (fun s hs => m.cfg_frame train hs)

/-- A ready call returns the state reached by the statements of `Mode.acts`. -/
theorem Mode.run_ok {D : Type} (m : Mode) (E : Engine D) (train : Bool) (ss : Sim D)
    (hr : m.ready train ss = true) :
    ∃ ss1, m.run E train ss = Except.ok ss1 ∧
      execs E train (m.acts train ss (m.dgwtscale E train ss)) ss = Except.ok ss1 ∧
      Ran ss ss1 (m.acts train ss (m.dgwtscale E train ss)) := by
  obtain ⟨ss1, _, hrun, _, _⟩ := m.run_runs E train ss hr
  have h := m.run_execs E train ss
  rw [hrun] at h
  exact ⟨ss1, hrun, h.symm, execs_frame h.symm⟩

/-! ## Which statements a call can contain -/

theorem exec_error {D : Type} {E : Engine D} {train : Bool} {a : Act} {ss e : Sim D}
    (h : exec E train a ss = Except.error e) : e = ss ∧ a.safe ss = false := by
  by_cases hs : a.safe ss = true
  · obtain ⟨s1, h1, _⟩ := exec_runs E train a ss hs
    rw [h] at h1
    cases h1
  · unfold exec at h
    rw [if_neg hs] at h
    cases h
    exact ⟨rfl, by simpa using hs⟩

/-- Whether it returns or panics, an execution has run a prefix of its statements. -/
theorem execs_outcome {D : Type} (E : Engine D) (train : Bool) (l : List Act) (ss : Sim D) :
    ∃ pre, pre <+: l ∧ Ran ss (outcome (execs E train l ss)) pre := by
  induction l generalizing ss with
  | nil => exact ⟨[], List.prefix_refl _, Ran_refl ss⟩
  | cons a l ih =>
    rw [execs_cons_bind]
    cases h1 : exec E train a ss with
    | error e =>
      obtain ⟨he, _⟩ := exec_error h1
      subst he
      exact ⟨[], List.nil_prefix, Ran_refl _⟩
    | ok s1 =>
      obtain ⟨pre, hp, hr⟩ := ih s1
      exact ⟨a :: pre, (List.cons_prefix_cons).mpr ⟨rfl, hp⟩, Ran_trans (exec_frame h1) hr⟩

theorem cycActs_all (p : Act → Bool) (hp : loopActs.all p = true) (train viewOn : Bool)
    (vu : TimeScales) (cpq : Int) (cyc : Nat) :
    (cycActs train viewOn vu cpq cyc).all p = true := by
  simp only [loopActs, List.all_cons, List.all_nil, Bool.and_true, Bool.and_eq_true] at hp
  obtain ⟨h1, h2, h3, h4, _⟩ := hp
  unfold cycActs
  cases train <;> cases viewOn <;> cases vu <;>
    simp only [List.append_eq, List.nil_append, List.cons_append, if_true, if_false,
      Bool.false_eq_true] <;>
    simp [h1, h2, h3, h4]

theorem flatMap_all (p : Act → Bool) (L : Nat → List Act) (h : ∀ i, (L i).all p = true)
    (s n : Nat) : ((List.range' s n).flatMap L).all p = true := by
  induction n generalizing s with
  | zero => rfl
  | succ n ih => rw [List.range'_succ, List.flatMap_cons, List.all_append, h, ih]; rfl

theorem qtrEndActs_all (p : Act → Bool) (hp : loopActs.all p = true) (viewOn : Bool)
    (vu : TimeScales) (qtr : Nat) : (qtrEndActs viewOn vu qtr).all p = true := by
  simp only [loopActs, List.all_cons, List.all_nil, Bool.and_true, Bool.and_eq_true] at hp
  obtain ⟨_, _, _, h4, h5, h6, h7, _⟩ := hp
  unfold qtrEndActs qtrTailActs
  split_ifs <;> simp [h4, h5, h6, h7]

theorem qtrLoopActs_all (p : Act → Bool) (hp : loopActs.all p = true) (train viewOn : Bool)
    (vu : TimeScales) (cpq : Int) (sw : Nat → List Act) (hsw : ∀ q, (sw q).all p = true) :
    (qtrLoopActs train viewOn vu cpq sw).all p = true := by
  unfold qtrLoopActs
  apply flatMap_all
  intro qtr
  unfold qtrActs cycLoopActs
  rw [List.all_append, List.all_append, flatMap_all p _ (cycActs_all p hp train viewOn vu cpq),
    hsw, qtrEndActs_all p hp]
  rfl

theorem alphaEndActs_all (p : Act → Bool) (hp : loopActs.all p = true) (train viewOn : Bool)
    (vu : TimeScales) : (alphaEndActs train viewOn vu).all p = true := by
  simp only [loopActs, List.all_cons, List.all_nil, Bool.and_true, Bool.and_eq_true] at hp
  obtain ⟨_, _, _, h4, _, _, _, h8⟩ := hp
  unfold alphaEndActs
  cases train <;> split_ifs <;> simp [h4, h8]

/-- A property of the statements of the five parts of a procedure and of the statements of
the loops holds for every statement of a call. -/
theorem Mode.acts_all {D : Type} (p : Act → Bool) (hp : loopActs.all p = true) (m : Mode)
    (train : Bool) (ss : Sim D) (dg : ℚ) (hlook : (m.look train).all p = true)
    (hcfg : (m.cfg train ss).all p = true) (hstart : m.start.all p = true)
    (hsw : ∀ q, (m.sw train dg q).all p = true) (hpost : (m.post train dg).all p = true) :
    (m.acts train ss dg).all p = true := by
  unfold Mode.acts alphaActs
  simp only [List.all_append, hlook, hcfg, hstart, hpost, qtrLoopActs_all p hp _ _ _ _ _ hsw,
    alphaEndActs_all p hp, Bool.and_self]

theorem all_of_initial {p : Act → Bool} {pre l : List Act} (h : pre <+: l)
    (hl : l.all p = true) : pre.all p = true := by
  rw [List.all_eq_true] at hl ⊢
  exact fun a ha => hl a (h.subset ha)

/-! ## The learning calls -/

theorem Mode.cfg_noLearn {D : Type} (m : Mode) (train : Bool) (ss : Sim D) :
    (m.cfg train ss).all (fun a => !a.isLearn) = true := by
  cases m <;> cases train <;> rfl

theorem Mode.start_noLearn (m : Mode) : m.start.all (fun a => !a.isLearn) = true := by
  cases m <;> rfl

theorem Mode.sw_noLearn (m : Mode) (train : Bool) (dg : ℚ) (q : Nat) :
    (m.sw train dg q).all (fun a => !a.isLearn) = true := by
  cases m <;> cases train <;>
    simp only [Mode.sw, hipSwitch, sleepSwitch, daydreamSwitch, pureRetSwitch, fullSwitch,
      sleepClamp] <;>
    first | rfl | (split_ifs <;> rfl)

theorem Mode.test_noLearn {D : Type} (m : Mode) (ss : Sim D) (dg : ℚ) :
    (m.acts false ss dg).all (fun a => !a.isLearn) = true := by
  apply Mode.acts_all _ (by rfl) m false ss dg _ (m.cfg_noLearn false ss) m.start_noLearn
    (m.sw_noLearn false dg)
  · cases m <;> rfl
  · cases m <;> rfl

theorem qtrLoopActs_finals (m : Mode) (train viewOn : Bool) (vu : TimeScales) (cpq : Int)
    (dg : ℚ) : (qtrLoopActs train viewOn vu cpq (m.sw train dg)).count Act.QuarterFinal = 4 := by
  rw [← List.count_filter (show Act.tick Act.QuarterFinal = true from rfl), qtrLoopActs_eq]
  simp only [List.filter_append, qtrActs_tick]
  simp [List.count_append, List.count_replicate]

/-- The statements of a training call around the learning calls: `AlphaCycFull` starts
with `WtFmDWt` and calls `DWt` after the quarter loop; the other six call `DWt` and then
`WtFmDWt` after the quarter loop. -/
theorem Mode.learn_acts {D : Type} (m : Mode) (ss : Sim D) (dg : ℚ) :
    ∃ pre post : List Act,
      m.acts true ss dg =
        (if m = Mode.Full then Act.WtFmDWt :: pre ++ [Act.DWt] ++ post
         else pre ++ [Act.DWt, Act.WtFmDWt] ++ post) ∧
      pre.all (fun a => !a.isLearn) = true ∧ post.all (fun a => !a.isLearn) = true ∧
      pre.count Act.QuarterFinal = 4 := by
  refine ⟨(m.look true).filter (fun a => !a.isLearn) ++ m.cfg true ss ++ m.start ++
      qtrLoopActs true ss.ViewOn (viewUpdtOf true ss) ss.Time.CycPerQtr (m.sw true dg) ++
      (m.post true dg).filter (fun a => !a.isLearn),
    alphaEndActs true ss.ViewOn (viewUpdtOf true ss), ?_, ?_, ?_, ?_⟩
  · cases m <;>
      simp [Mode.acts, alphaActs, Mode.look, Mode.post, learnActs, Act.isLearn, hipLookups,
        daydreamLookups, pureRetLookups, semLookups, fullLookups, List.filter]
  · simp only [List.all_append, m.cfg_noLearn, m.start_noLearn,
      qtrLoopActs_all _ (by rfl) _ _ _ _ _ (m.sw_noLearn true dg), Bool.and_true, Bool.true_and,
      Bool.and_eq_true]
    constructor <;> simp [List.all_filter]
  · exact alphaEndActs_all _ (by rfl) _ _ _
  · have h1 := (count_of_quiet (m.look_quiet true)).2.1
    have h2 := (count_of_quiet (m.cfg_quiet true ss)).2.1
    have h3 := (count_of_quiet m.start_quiet).2.1
    have h4 := (count_of_quiet (m.post_quiet true dg)).2.1
    have h5 : ∀ l : List Act, l.count Act.QuarterFinal = 0 →
        (l.filter (fun a => !a.isLearn)).count Act.QuarterFinal = 0 := by
      intro l hl
      rw [List.count_eq_zero] at hl ⊢
      exact fun hm => hl (List.mem_of_mem_filter hm)
    simp only [List.count_append, h5 _ h1, h2, h3, h5 _ h4, qtrLoopActs_finals]

theorem trialSim_ready (m : Mode) (train : Bool) : m.ready train trialSim = true :=
  configSim_ready m train _ _ _

theorem not_isLearn_of_all {l : List Act} (h : l.all (fun a => !a.isLearn) = true) (a : Act)
    (ha : a ∈ l) : a ≠ Act.DWt ∧ a ≠ Act.WtFmDWt := by
  have h1 := List.all_eq_true.mp h a ha
  constructor <;> (intro he; subst he; simp [Act.isLearn] at h1)

/-- C11 (counterexample): a training trial of `AlphaCycFull` on the configured network
calls `WtFmDWt` as its first statement and never again, and `DWt` once, later: the deltas
computed by `DWt` are not applied when the procedure returns. -/
theorem alphaCycFull_learning_counterexample :
    ∃ ss1 rest, Mode.Full.run patEngine true trialSim = Except.ok ss1 ∧
      newActs trialSim ss1 = Act.WtFmDWt :: rest ∧ rest.count Act.WtFmDWt = 0 ∧
      rest.count Act.DWt = 1 := by
  obtain ⟨ss1, hrun, _, hran⟩ := Mode.Full.run_ok patEngine true trialSim (trialSim_ready _ _)
  obtain ⟨pre, post, he, hpre, hpost, _⟩ :=
    Mode.Full.learn_acts trialSim (Mode.Full.dgwtscale patEngine true trialSim)
  rw [if_pos rfl] at he
  refine ⟨ss1, pre ++ [Act.DWt] ++ post, hrun, ?_, ?_, ?_⟩
  · rw [Ran_newActs hran, he]
    simp
  · rw [List.count_eq_zero]
    intro hm
    simp only [List.mem_append, List.mem_singleton] at hm
    rcases hm with (hm | hm) | hm
    · exact (not_isLearn_of_all hpre _ hm).2 rfl
    · cases hm
    · exact (not_isLearn_of_all hpost _ hm).2 rfl
  · have h1 : pre.count Act.DWt = 0 :=
      List.count_eq_zero.mpr (fun hm => (not_isLearn_of_all hpre _ hm).1 rfl)
    have h2 : post.count Act.DWt = 0 :=
      List.count_eq_zero.mpr (fun hm => (not_isLearn_of_all hpost _ hm).1 rfl)
    simp [List.count_append, h1, h2]

/-- C11 (amended): with `train = true`, a ready call of any of the seven procedures
returns.  For the six procedures other than `AlphaCycFull` its statements are `pre`, then
`DWt`, then `WtFmDWt`, then `post`, where `pre` contains the four `QuarterFinal` and neither
`pre` nor `post` contains a learning call.  For `AlphaCycFull` they are `WtFmDWt` first, then
`pre` with the four `QuarterFinal`, then `DWt`, then `post`: no `WtFmDWt` follows the
`DWt`. -/
theorem alphaCyc_learning_calls {D : Type} (m : Mode) (E : Engine D) (ss : Sim D)
    (hr : m.ready true ss = true) :
    ∃ ss1 pre post, m.run E true ss = Except.ok ss1 ∧
      newActs ss ss1 =
        (if m = Mode.Full then Act.WtFmDWt :: pre ++ [Act.DWt] ++ post
         else pre ++ [Act.DWt, Act.WtFmDWt] ++ post) ∧
      pre.count Act.QuarterFinal = 4 ∧
      ∀ a, a ∈ pre ++ post → a ≠ Act.DWt ∧ a ≠ Act.WtFmDWt := by
  obtain ⟨ss1, hrun, _, hran⟩ := m.run_ok E true ss hr
  obtain ⟨pre, post, he, hpre, hpost, hq⟩ := m.learn_acts ss (m.dgwtscale E true ss)
  refine ⟨ss1, pre, post, hrun, ?_, hq, ?_⟩
  · rw [Ran_newActs hran, he]
  · intro a ha
    rcases List.mem_append.mp ha with h | h
    · exact not_isLearn_of_all hpre a h
    · exact not_isLearn_of_all hpost a h

/-- C11 (witness): a training trial of `AlphaCycHip` on the configured network. -/
theorem alphaCyc_learning_calls_witness :
    Mode.Hip.ready true trialSim = true ∧
      ∃ ss1 pre post, Mode.Hip.run patEngine true trialSim = Except.ok ss1 ∧
        newActs trialSim ss1 = pre ++ [Act.DWt, Act.WtFmDWt] ++ post ∧
        pre.count Act.QuarterFinal = 4 :=
  ⟨trialSim_ready _ _, by
    obtain ⟨ss1, pre, post, h1, h2, h3, _⟩ :=
      alphaCyc_learning_calls Mode.Hip patEngine trialSim (trialSim_ready _ _)
    exact ⟨ss1, pre, post, h1, by simpa using h2, h3⟩⟩

/-- C12: with `train = false`, whatever the state, none of the seven procedures executes
`DWt` or `WtFmDWt`, whether the call returns or panics. -/
theorem alphaCyc_test_no_learning {D : Type} (m : Mode) (E : Engine D) (ss : Sim D) :
    Act.DWt ∉ newActs ss (outcome (m.run E false ss)) ∧
      Act.WtFmDWt ∉ newActs ss (outcome (m.run E false ss)) := by
  rw [m.run_execs]
  obtain ⟨pre, hp, hr⟩ := execs_outcome E false (m.acts false ss (m.dgwtscale E false ss)) ss
  rw [Ran_newActs hr]
  have h := all_of_initial hp (m.test_noLearn ss _)
  exact ⟨fun hm => (not_isLearn_of_all h _ hm).1 rfl, fun hm => (not_isLearn_of_all h _ hm).2 rfl⟩

/-! ## Panics: where a call aborts -/

theorem Mode.lookups_sub {D : Type} (m : Mode) (train : Bool) (ss : Sim D) :
    m.lookups.all (fun a => (m.look train ++ m.cfg train ss).contains a) = true := by
  cases m <;> cases train <;> rfl

theorem Mode.safe_of_lookups {D : Type} (m : Mode) (ss : Sim D)
    (hl : m.lookups.all (fun a => a.safe ss) = true) (l : List Act)
    (h : l.all m.admits = true) : ∀ a, a ∈ l → a.safe ss = true := by
  intro a ha
  have h1 := List.all_eq_true.mp h a ha
  unfold Mode.admits at h1
  rcases Bool.or_eq_true_iff.mp h1 with h | h
  · exact plain_safe a ss h
  · exact List.all_eq_true.mp hl a (List.mem_of_elem_eq_true h)

/-- A sequence with a statement that is not safe panics, having executed a prefix of it. -/
theorem execs_unsafe {D : Type} (E : Engine D) (train : Bool) (l : List Act) (ss : Sim D)
    (h : ∃ a, a ∈ l ∧ a.safe ss = false) :
    ∃ e pre, execs E train l ss = Except.error e ∧ pre <+: l ∧ Ran ss e pre := by
  induction l generalizing ss with
  | nil =>
    obtain ⟨a, ha, _⟩ := h
    cases ha
  | cons b l ih =>
    rw [execs_cons_bind]
    cases h1 : exec E train b ss with
    | error e =>
      obtain ⟨he, _⟩ := exec_error h1
      subst he
      exact ⟨e, [], rfl, List.nil_prefix, Ran_refl _⟩
    | ok s1 =>
      have hb := exec_ok_safe h1
      have r1 := exec_frame h1
      obtain ⟨a, ha, hs⟩ := h
      have hal : a ∈ l := by
        rcases List.mem_cons.mp ha with h2 | h2
        · subst h2
          rw [hb] at hs
          cases hs
        · exact h2
      obtain ⟨e, pre, h3, hp, hr⟩ := ih s1 ⟨a, hal, by rw [safe_frame a r1.2]; exact hs⟩
      exact ⟨e, b :: pre, h3, (List.cons_prefix_cons).mpr ⟨rfl, hp⟩, Ran_trans r1 hr⟩

/-- When testing with at least one cycle per quarter, the first statements of the quarter
loop are a cycle step and the call of `LogTstCyc`. -/
theorem Mode.acts_test_head {D : Type} (m : Mode) (ss : Sim D) (dg : ℚ)
    (hc : 0 < ss.Time.CycPerQtr) :
    ∃ rest, m.acts false ss dg =
      (m.look false ++ m.cfg false ss ++ m.start) ++ Act.Cycle :: Act.LogTstCyc :: rest := by
  obtain ⟨k, hk⟩ : ∃ k, ss.Time.CycPerQtr.toNat = k + 1 :=
    ⟨ss.Time.CycPerQtr.toNat - 1, by omega⟩
  unfold Mode.acts alphaActs
  rw [qtrLoopActs_eq]
  unfold qtrActs cycLoopActs
  rw [hk, List.range'_succ, List.flatMap_cons]
  unfold cycActs
  simp only [List.append_assoc, List.cons_append, List.nil_append, if_false,
    Bool.false_eq_true]
  exact ⟨_, rfl⟩

/-- A call with a missing name among its lookups panics before any cycle step. -/
theorem Mode.panic_in_lookups {D : Type} (m : Mode) (E : Engine D) (train : Bool)
    (ss : Sim D) (h : m.lookups.all (fun a => a.safe ss) = false) :
    ∃ e pre, m.run E train ss = Except.error e ∧ Ran ss e pre ∧
      pre <+: m.look train ++ m.cfg train ss := by
  have hex : ∃ a, a ∈ m.look train ++ m.cfg train ss ∧ a.safe ss = false := by
    rw [List.all_eq_false] at h
    obtain ⟨a, ha, hs⟩ := h
    refine ⟨a, ?_, by simpa using hs⟩
    exact List.mem_of_elem_eq_true (List.all_eq_true.mp (m.lookups_sub train ss) a ha)
  obtain ⟨e, pre, h1, hp, hr⟩ := execs_unsafe E train _ ss hex
  refine ⟨e, pre, ?_, hr, hp⟩
  rw [m.run_execs]
  unfold Mode.acts alphaActs
  simp only [List.append_assoc]
  rw [← List.append_assoc, execs_append, h1]
  rfl

/-- A test call whose lookups succeed, with a missing name in `LayStatNms` and at least one
cycle per quarter, panics in `LogTstCyc`, after the first cycle step. -/
theorem Mode.panic_in_log {D : Type} (m : Mode) (E : Engine D) (ss : Sim D)
    (hl : m.lookups.all (fun a => a.safe ss) = true) (hlog : Act.LogTstCyc.safe ss = false)
    (hc : 0 < ss.Time.CycPerQtr) :
    ∃ e, m.run E false ss = Except.error e ∧
      Ran ss e (m.look false ++ m.cfg false ss ++ m.start ++ [Act.Cycle]) := by
  obtain ⟨rest, hrest⟩ := m.acts_test_head ss (m.dgwtscale E false ss) hc
  have hsafe : ∀ a, a ∈ m.look false ++ m.cfg false ss ++ m.start → a.safe ss = true := by
    intro a ha
    rcases List.mem_append.mp ha with h1 | h1
    · rcases List.mem_append.mp h1 with h2 | h2
      · exact m.safe_of_lookups ss hl _ (m.look_admits false) a h2
      · exact m.safe_of_lookups ss hl _ (m.cfg_admits false ss) a h2
    · exact plain_safe a ss (List.all_eq_true.mp m.start_plain a h1)
  obtain ⟨s3, h3, r3⟩ := execs_runs E false _ ss hsafe
  obtain ⟨s4, h4, r4⟩ := exec_runs E false Act.Cycle s3 rfl
  have h5 : exec E false Act.LogTstCyc s4 = Except.error s4 := by
    unfold exec
    rw [if_neg]
    rw [safe_frame _ (Ran_trans r3 r4).2, hlog]
    simp
  refine ⟨s4, ?_, Ran_trans r3 r4⟩
  rw [m.run_execs, hrest, execs_append, h3]
  simp only [bind, Except.bind]
  rw [execs_cons_bind, h4]
  simp only [bind, Except.bind]
  rw [execs_cons_bind, h5]
  rfl

/-- C20 (counterexample): a test trial of `AlphaCycHip` on the configured network, with a
name in `LayStatNms` that is not a layer, panics only after one cycle step has been
executed. -/
theorem alphaCyc_abort_counterexample :
    ∃ e, Mode.Hip.run patEngine false badLogSim = Except.error e ∧
      (newActs badLogSim e).count Act.Cycle = 1 := by
  obtain ⟨e, h1, hr⟩ := Mode.Hip.panic_in_log patEngine badLogSim (by rfl) (by rfl) (by decide)
  refine ⟨e, h1, ?_⟩
  rw [Ran_newActs hr]
  obtain ⟨l1, _, _⟩ := count_of_quiet (Mode.Hip.look_quiet false)
  obtain ⟨g1, _, _⟩ := count_of_quiet (Mode.Hip.cfg_quiet false badLogSim)
  obtain ⟨a1, _, _⟩ := count_of_quiet Mode.Hip.start_quiet
  simp only [List.count_append, l1, g1, a1]
  rfl

/-- C20 (amended): for each of the seven procedures and both values of `train`, a call
that is not ready (a name it looks up is missing or, when testing, a name of `LayStatNms`
is missing) panics.  If one of the names the procedure itself looks up is missing (these
include `ECin` and `Output`, the names `MemStats` reads), no cycle step has been executed.
If only a name of `LayStatNms` is missing, exactly one cycle step has been executed (with
at least one cycle per quarter). -/
theorem alphaCyc_abort {D : Type} (m : Mode) (E : Engine D) (train : Bool) (ss : Sim D)
    (h : m.ready train ss = false)
    (hc : m.lookups.all (fun a => a.safe ss) = true → 0 < ss.Time.CycPerQtr) :
    ∃ e, m.run E train ss = Except.error e ∧
      (newActs ss e).count Act.Cycle =
        (if m.lookups.all (fun a => a.safe ss) = true then 1 else 0) := by
  by_cases hl : m.lookups.all (fun a => a.safe ss) = true
  · rw [if_pos hl]
    unfold Mode.ready at h
    rw [hl, Bool.true_and, Bool.or_eq_false_iff] at h
    obtain ⟨ht, hlog⟩ := h
    subst ht
    obtain ⟨e, h1, hr⟩ := m.panic_in_log E ss hl hlog (hc hl)
    refine ⟨e, h1, ?_⟩
    rw [Ran_newActs hr]
    obtain ⟨l1, _, _⟩ := count_of_quiet (m.look_quiet false)
    obtain ⟨g1, _, _⟩ := count_of_quiet (m.cfg_quiet false ss)
    obtain ⟨a1, _, _⟩ := count_of_quiet m.start_quiet
    simp only [List.count_append, l1, g1, a1]
    rfl
  · rw [if_neg hl]
    obtain ⟨e, pre, h1, hr, hp⟩ := m.panic_in_lookups E train ss (by simpa using hl)
    refine ⟨e, h1, ?_⟩
    rw [Ran_newActs hr]
    have hq : (m.look train ++ m.cfg train ss).all (fun a => !a.sched) = true := by
      rw [List.all_append, m.look_quiet, m.cfg_quiet]
      rfl
    exact (count_of_quiet (all_of_initial hp hq)).1

/-- C20 (witness): a training trial of `AlphaCycHip` on the configured network without the
layer `Semantic` panics before any cycle step. -/
theorem alphaCyc_abort_witness :
    Mode.Hip.ready true noSemanticSim = false ∧ (0 : Int) < noSemanticSim.Time.CycPerQtr ∧
      ∃ e, Mode.Hip.run patEngine true noSemanticSim = Except.error e ∧
        (newActs noSemanticSim e).count Act.Cycle = 0 :=
  ⟨by rfl, by decide,
    alphaCyc_abort Mode.Hip patEngine true noSemanticSim (by rfl) (fun _ => by decide)⟩

/-! ## `AlphaCycDaydream` against `AlphaCycSleep` -/

theorem filterMap_id_of_all {f : Act → Option Act} {l : List Act}
    (h : l.all (fun a => decide (f a = some a)) = true) : l.filterMap f = l := by
  induction l with
  | nil => rfl
  | cons a l ih =>
    simp only [List.all_cons, Bool.and_eq_true, decide_eq_true_eq] at h
    rw [List.filterMap_cons, h.1, ih h.2]

theorem filterMap_flatMap (f : Act → Option Act) (L : Nat → List Act) (s n : Nat) :
    ((List.range' s n).flatMap L).filterMap f =
      (List.range' s n).flatMap (fun i => (L i).filterMap f) := by
  induction n generalizing s with
  | zero => rfl
  | succ n ih =>
    rw [List.range'_succ, List.flatMap_cons, List.flatMap_cons, List.filterMap_append, ih]

theorem daydreamOf_switch (semWake : Int) (outecback : ℚ) (train : Bool) (dg : ℚ) (q : Nat) :
    (sleepSwitch train dg q).filterMap (daydreamOf semWake outecback) =
      daydreamSwitch train q := by
  unfold sleepSwitch daydreamSwitch
  split_ifs <;> cases train <;> rfl

/-- The statements of `AlphaCycDaydream` up to the end of the quarter loop are those of
`AlphaCycSleep` translated by `daydreamOf`. -/
theorem daydream_toLoopEnd {D : Type} (train : Bool) (ss : Sim D) (dg dg1 : ℚ) :
    Mode.Daydream.toLoopEnd train ss dg1 =
      (Mode.Sleep.toLoopEnd train ss dg).filterMap (daydreamOf ss.SemWake ss.Outecback) := by
  unfold Mode.toLoopEnd qtrLoopActs
  simp only [List.filterMap_append, filterMap_flatMap]
  have h1 : (Mode.Sleep.look train).filterMap (daydreamOf ss.SemWake ss.Outecback) =
      Mode.Daydream.look train := by rfl
  have h2 : (Mode.Sleep.cfg train ss).filterMap (daydreamOf ss.SemWake ss.Outecback) =
      Mode.Daydream.cfg train ss := by cases train <;> rfl
  have h3 : Mode.Sleep.start.filterMap (daydreamOf ss.SemWake ss.Outecback) =
      Mode.Daydream.start := by rfl
  rw [h1, h2, h3]
  congr 1
  congr 1
  funext qtr
  unfold qtrActs cycLoopActs
  simp only [List.filterMap_append]
  rw [filterMap_id_of_all (flatMap_all _ _ (cycActs_all _ (by rfl) _ _ _ _) _ _),
    filterMap_id_of_all (qtrEndActs_all _ (by rfl) _ _ _)]
  simp only [Mode.sw, daydreamOf_switch]

theorem Mode.acts_eq_toLoopEnd {D : Type} (m : Mode) (train : Bool) (ss : Sim D) (dg : ℚ) :
    m.acts train ss dg =
      m.toLoopEnd train ss dg ++
        (m.post train dg ++ alphaEndActs train ss.ViewOn (viewUpdtOf train ss)) := by
  simp only [Mode.acts, alphaActs, Mode.toLoopEnd, List.append_assoc]

theorem daydream_ready_of_sleep {D : Type} (train : Bool) (ss : Sim D)
    (hr : Mode.Sleep.ready train ss = true) : Mode.Daydream.ready train ss = true := by
  unfold Mode.ready at hr ⊢
  rw [Bool.and_eq_true] at hr ⊢
  refine ⟨?_, hr.2⟩
  rw [List.all_eq_true] at hr ⊢
  intro a ha
  have hsub : Mode.Daydream.lookups.all (fun a => Mode.Sleep.lookups.contains a) = true := by
    rfl
  exact hr.1 a (List.mem_of_elem_eq_true (List.all_eq_true.mp hsub a ha))

theorem daydream_no_dgRel {D : Type} (train : Bool) (ss : Sim D) (dg : ℚ) :
    (Mode.Daydream.acts train ss dg).all (fun a => !a.isSetRel "CA3" "DG") = true := by
  apply Mode.acts_all _ (by rfl)
  · rfl
  · cases train <;> rfl
  · rfl
  · intro q
    simp only [Mode.sw, daydreamSwitch, sleepClamp]
    cases train <;> split_ifs <;> rfl
  · cases train <;> rfl

/-- C16 (counterexample): in a training trial on the configured network, `AlphaCycSleep`
assigns 0 to the relative strength of the projection from `DG` to `CA3` before its quarter
loop (the four `QuarterFinal` come later), and `AlphaCycDaydream` never assigns that
strength. -/
theorem daydream_sleep_counterexample :
    ∃ sS sD pre rest, AlphaCycSleep patEngine true trialSim = Except.ok sS ∧
      AlphaCycDaydream patEngine true trialSim = Except.ok sD ∧
      newActs trialSim sS = pre ++ Act.SetRel "CA3" "DG" 0 :: rest ∧
      rest.count Act.QuarterFinal = 4 ∧
      ∀ a, a ∈ newActs trialSim sD → a.isSetRel "CA3" "DG" = false := by
  obtain ⟨sS, hS, _, rS⟩ := Mode.Sleep.run_ok patEngine true trialSim (trialSim_ready _ _)
  obtain ⟨sD, hD, _, rD⟩ := Mode.Daydream.run_ok patEngine true trialSim (trialSim_ready _ _)
  refine ⟨sS, sD, Mode.Sleep.look true ++ Mode.Sleep.cfg true trialSim,
    [Act.GScaleFmAvgAct, Act.InitGInc, Act.AlphaCycInit, Act.AlphaCycStart] ++
      qtrLoopActs true trialSim.ViewOn (viewUpdtOf true trialSim) trialSim.Time.CycPerQtr
        (Mode.Sleep.sw true (Mode.Sleep.dgwtscale patEngine true trialSim)) ++
      Mode.Sleep.post true (Mode.Sleep.dgwtscale patEngine true trialSim) ++
      alphaEndActs true trialSim.ViewOn (viewUpdtOf true trialSim), hS, hD, ?_, ?_, ?_⟩
  · rw [Ran_newActs rS]
    simp only [Mode.acts, alphaActs, Mode.start, List.append_assoc, List.cons_append,
      List.nil_append]
  · have h4 := (count_of_quiet (Mode.Sleep.post_quiet true
      (Mode.Sleep.dgwtscale patEngine true trialSim))).2.1
    have h5 := (count_of_quiet (alphaEndActs_quiet true trialSim.ViewOn
      (viewUpdtOf true trialSim))).2.1
    simp only [List.count_append, h4, h5, qtrLoopActs_finals]
    rfl
  · intro a ha
    rw [Ran_newActs rD] at ha
    have := List.all_eq_true.mp (daydream_no_dgRel true trialSim _) a ha
    simpa using this

/-- C16 (amended): for every state in which `AlphaCycSleep` is ready and both values of
`train`, both procedures return.  From entry to the end of the quarter loop the statements
of `AlphaCycDaydream` are those of `AlphaCycSleep` with three differences: Daydream never
looks up the projection from `DG` to `CA3` nor assigns its relative strength (Sleep sets it
to 0 before the loop and to `dgwtscale` or 1 after quarter 0), and Daydream assigns
`SemWake / 100` and `Outecback`, where Sleep assigns 2 and 1, to the relative strengths of
the projections from `Semantic` and from `Output` to `ECin`.  After the loop Sleep restores
the relative strength of `DG` to `CA3` and sets the absolute strength of `CA3` to `CA1` to
1; Daydream does neither; the remaining statements are the same. -/
theorem daydream_as_sleep {D : Type} (E : Engine D) (train : Bool) (ss : Sim D)
    (hr : Mode.Sleep.ready train ss = true) :
    ∃ sS sD dg, AlphaCycSleep E train ss = Except.ok sS ∧
      AlphaCycDaydream E train ss = Except.ok sD ∧
      newActs ss sS = Mode.Sleep.toLoopEnd train ss dg ++
        ([Act.SetRel "CA3" "DG" dg, Act.SetAbs "CA1" "CA3" 1] ++
          (learnActs train ++ alphaEndActs train ss.ViewOn (viewUpdtOf train ss))) ∧
      newActs ss sD =
        (Mode.Sleep.toLoopEnd train ss dg).filterMap (daydreamOf ss.SemWake ss.Outecback) ++
          (learnActs train ++ alphaEndActs train ss.ViewOn (viewUpdtOf train ss)) := by
  obtain ⟨sS, hS, _, rS⟩ := Mode.Sleep.run_ok E train ss hr
  obtain ⟨sD, hD, _, rD⟩ := Mode.Daydream.run_ok E train ss (daydream_ready_of_sleep train ss hr)
  refine ⟨sS, sD, Mode.Sleep.dgwtscale E train ss, hS, hD, ?_, ?_⟩
  · rw [Ran_newActs rS, Mode.acts_eq_toLoopEnd]
    simp only [Mode.post, List.append_assoc]
  · rw [Ran_newActs rD, Mode.acts_eq_toLoopEnd,
      daydream_toLoopEnd train ss (Mode.Sleep.dgwtscale E train ss)]
    rfl

/-- C16 (witness): a test trial on the configured network. -/
theorem daydream_as_sleep_witness :
    Mode.Sleep.ready false trialSim = true ∧
      ∃ sS sD dg, AlphaCycSleep patEngine false trialSim = Except.ok sS ∧
        AlphaCycDaydream patEngine false trialSim = Except.ok sD ∧
        newActs trialSim sD =
          (Mode.Sleep.toLoopEnd false trialSim dg).filterMap
              (daydreamOf trialSim.SemWake trialSim.Outecback) ++
            (learnActs false ++
              alphaEndActs false trialSim.ViewOn (viewUpdtOf false trialSim)) :=
  ⟨trialSim_ready _ _, by
    obtain ⟨sS, sD, dg, h1, h2, _, h4⟩ :=
      daydream_as_sleep patEngine false trialSim (trialSim_ready _ _)
    exact ⟨sS, sD, dg, h1, h2, h4⟩⟩

/-! ## Attributes after an assignment -/

theorem find_modifyFirst_same {α : Type} (p : α → Bool) (f : α → α)
    (h : ∀ a, p (f a) = p a) (l : List α) :
    (modifyFirst p f l).find? p = (l.find? p).map f := by
  induction l with
  | nil => rfl
  | cons a l ih =>
    unfold modifyFirst
    by_cases hp : p a = true
    · simp [hp, h]
    · simp [hp, ih]

theorem find_modifyFirst_other {α : Type} (p q : α → Bool) (f : α → α)
    (h : ∀ a, q (f a) = q a) (hpq : ∀ a, p a = true → q a = false) (l : List α) :
    (modifyFirst p f l).find? q = l.find? q := by
  induction l with
  | nil => rfl
  | cons a l ih =>
    unfold modifyFirst
    by_cases hp : p a = true
    · simp [hp, h, hpq a hp]
    · by_cases hq : q a = true
      · simp [hp, hq]
      · simp [hp, hq, ih]

theorem layerByName_modLayer_same (net : Network) (nm : String) (g : Layer → Layer)
    (hN : ∀ ly, (g ly).Nm = ly.Nm) :
    (net.modLayer nm g).LayerByName nm = (net.LayerByName nm).map g := by
  unfold Network.modLayer Network.LayerByName
  exact find_modifyFirst_same _ g (fun a => by simp [hN]) _

theorem layerByName_modLayer_other (net : Network) (nm l : String) (g : Layer → Layer)
    (hN : ∀ ly, (g ly).Nm = ly.Nm) (hl : l ≠ nm) :
    (net.modLayer nm g).LayerByName l = net.LayerByName l := by
  unfold Network.modLayer Network.LayerByName
  apply find_modifyFirst_other _ _ g (fun a => by simp [hN])
  intro a ha
  simp only [beq_iff_eq] at ha
  simp only [beq_eq_false_iff_ne, ne_eq, ha]
  exact fun h => hl h.symm

theorem layerBind_modLayer {β : Type} (net : Network) (nm l : String) (g : Layer → Layer)
    (h : Layer → Option β) (hN : ∀ ly, (g ly).Nm = ly.Nm) (hh : ∀ ly, h (g ly) = h ly) :
    ((net.modLayer nm g).LayerByName l).bind h = (net.LayerByName l).bind h := by
  by_cases hl : l = nm
  · subst hl
    rw [layerByName_modLayer_same net l g hN]
    cases net.LayerByName l with
    | none => rfl
    | some ly => exact hh ly
  · rw [layerByName_modLayer_other net nm l g hN hl]

theorem layerMap_modLayer {β : Type} (net : Network) (nm l : String) (g : Layer → Layer)
    (h : Layer → β) (hN : ∀ ly, (g ly).Nm = ly.Nm) (hh : ∀ ly, h (g ly) = h ly) :
    ((net.modLayer nm g).LayerByName l).map h = (net.LayerByName l).map h := by
  have := layerBind_modLayer net nm l g (fun ly => some (h ly)) hN (fun ly => by simp [hh])
  simpa [Option.map_eq_bind] using this

theorem getPrjn_modLayer (net : Network) (nm r s : String) (g : Layer → Layer)
    (hN : ∀ ly, (g ly).Nm = ly.Nm) (hR : ∀ ly, (g ly).RcvPrjns = ly.RcvPrjns) :
    (net.modLayer nm g).getPrjn r s = net.getPrjn r s := by
  unfold Network.getPrjn
  exact layerBind_modLayer net nm r g _ hN (fun ly => by simp [Layer.SendName, hR])

theorem getPrjn_modPrjn (net : Network) (recv send r s : String) (f : Prjn → Prjn)
    (hS : ∀ pj, (f pj).Send = pj.Send) :
    (net.modPrjn recv send f).getPrjn r s =
      if r = recv ∧ s = send then (net.getPrjn recv send).map f else net.getPrjn r s := by
  unfold Network.modPrjn Network.getPrjn
  by_cases hr : r = recv
  · subst hr
    rw [layerByName_modLayer_same net r (fun ly =>
      { ly with RcvPrjns := modifyFirst (fun pj => pj.Send == send) f ly.RcvPrjns })
      (fun _ => rfl)]
    cases net.LayerByName r with
    | none => simp
    | some ly =>
      simp only [Option.map_some', Option.some_bind, Layer.SendName, true_and]
      by_cases hs : s = send
      · subst hs
        rw [if_pos rfl]
        exact find_modifyFirst_same _ f (fun a => by simp [hS]) _
      · rw [if_neg hs]
        apply find_modifyFirst_other _ _ f (fun a => by simp [hS])
        intro a ha
        simp only [beq_iff_eq] at ha
        simp only [beq_eq_false_iff_ne, ne_eq, ha]
        exact fun h => hs h.symm
  · rw [layerByName_modLayer_other net recv r (fun ly =>
      { ly with RcvPrjns := modifyFirst (fun pj => pj.Send == send) f ly.RcvPrjns })
      (fun _ => rfl) hr]
    simp [hr]

theorem layerMap_modPrjn {β : Type} (net : Network) (recv send l : String) (f : Prjn → Prjn)
    (h : Layer → β) (hh : ∀ (ly : Layer) (rp : List Prjn), h { ly with RcvPrjns := rp } = h ly) :
    ((net.modPrjn recv send f).LayerByName l).map h = (net.LayerByName l).map h := by
  unfold Network.modPrjn
  exact layerMap_modLayer net recv l _ h (fun _ => rfl) (fun ly => hh ly _)

theorem prjnMap_modPrjn {β : Type} (net : Network) (recv send r s : String) (f : Prjn → Prjn)
    (hS : ∀ pj, (f pj).Send = pj.Send) (h : Prjn → β) :
    ((net.modPrjn recv send f).getPrjn r s).map h =
      if r = recv ∧ s = send then (net.getPrjn recv send).map (fun pj => h (f pj))
      else (net.getPrjn r s).map h := by
  rw [getPrjn_modPrjn net recv send r s f hS]
  split_ifs
  · cases net.getPrjn recv send <;> rfl
  · rfl

theorem prjnMap_modPrjn_keep {β : Type} (net : Network) (recv send r s : String)
    (f : Prjn → Prjn) (hS : ∀ pj, (f pj).Send = pj.Send) (h : Prjn → β)
    (hk : ∀ pj, h (f pj) = h pj) :
    ((net.modPrjn recv send f).getPrjn r s).map h = (net.getPrjn r s).map h := by
  rw [prjnMap_modPrjn net recv send r s f hS h]
  split_ifs with hc
  · obtain ⟨rfl, rfl⟩ := hc
    simp only [hk]
  · rfl

theorem prjnMap_modPrjn_set (net : Network) (recv send r s : String)
    (f : Prjn → Prjn) (hS : ∀ pj, (f pj).Send = pj.Send) (h : Prjn → Val) (v : Val)
    (hv : ∀ pj, h (f pj) = v) :
    ((net.modPrjn recv send f).getPrjn r s).map h =
      setTo (if recv = r ∧ send = s then some v else none) ((net.getPrjn r s).map h) := by
  rw [prjnMap_modPrjn net recv send r s f hS h]
  by_cases hc : r = recv ∧ s = send
  · obtain ⟨rfl, rfl⟩ := hc
    simp only [and_self, if_true, hv, setTo]
    cases net.getPrjn r s <;> rfl
  · have hc2 : ¬(recv = r ∧ send = s) := fun h2 => hc ⟨h2.1.symm, h2.2.symm⟩
    rw [if_neg hc, if_neg hc2]
    rfl

theorem attr_setLearn (net : Network) (r s : String) (b : Bool) (k : Attr) :
    (net.modPrjn r s (fun pj => { pj with Learn := b })).attr k =
      setTo ((Act.SetLearn r s b).writeTo k) (net.attr k) := by
  cases k with
  | layOff l =>
    refine layerMap_modPrjn net r s l _ _ ?_
    intro _ _
    rfl
  | layTyp l =>
    refine layerMap_modPrjn net r s l _ _ ?_
    intro _ _
    rfl
  | prjnOff r1 s1 =>
    refine prjnMap_modPrjn_keep net r s r1 s1 _ ?_ _ ?_ <;> intro _ <;> rfl
  | prjnLearn r1 s1 =>
    simp only [Network.attr, Act.writeTo, Act.write, Attr.prjnLearn.injEq]
    refine prjnMap_modPrjn_set net r s r1 s1 _ ?_ _ _ ?_ <;> intro _ <;> rfl
  | prjnRel r1 s1 =>
    refine prjnMap_modPrjn_keep net r s r1 s1 _ ?_ _ ?_ <;> intro _ <;> rfl
  | prjnAbs r1 s1 =>
    refine prjnMap_modPrjn_keep net r s r1 s1 _ ?_ _ ?_ <;> intro _ <;> rfl
theorem attr_setPrjnOff (net : Network) (r s : String) (b : Bool) (k : Attr) :
    (net.modPrjn r s (fun pj => { pj with Off := b })).attr k =
      setTo ((Act.SetPrjnOff r s b).writeTo k) (net.attr k) := by
  cases k with
  | layOff l =>
    refine layerMap_modPrjn net r s l _ _ ?_
    intro _ _
    rfl
  | layTyp l =>
    refine layerMap_modPrjn net r s l _ _ ?_
    intro _ _
    rfl
  | prjnOff r1 s1 =>
    simp only [Network.attr, Act.writeTo, Act.write, Attr.prjnOff.injEq]
    refine prjnMap_modPrjn_set net r s r1 s1 _ ?_ _ _ ?_ <;> intro _ <;> rfl
  | prjnLearn r1 s1 =>
    refine prjnMap_modPrjn_keep net r s r1 s1 _ ?_ _ ?_ <;> intro _ <;> rfl
  | prjnRel r1 s1 =>
    refine prjnMap_modPrjn_keep net r s r1 s1 _ ?_ _ ?_ <;> intro _ <;> rfl
  | prjnAbs r1 s1 =>
    refine prjnMap_modPrjn_keep net r s r1 s1 _ ?_ _ ?_ <;> intro _ <;> rfl
theorem attr_setRel (net : Network) (r s : String) (b : ℚ) (k : Attr) :
    (net.modPrjn r s (fun pj => { pj with Rel := b })).attr k =
      setTo ((Act.SetRel r s b).writeTo k) (net.attr k) := by
  cases k with
  | layOff l =>
    refine layerMap_modPrjn net r s l _ _ ?_
    intro _ _
    rfl
  | layTyp l =>
    refine layerMap_modPrjn net r s l _ _ ?_
    intro _ _
    rfl
  | prjnOff r1 s1 =>
    refine prjnMap_modPrjn_keep net r s r1 s1 _ ?_ _ ?_ <;> intro _ <;> rfl
  | prjnLearn r1 s1 =>
    refine prjnMap_modPrjn_keep net r s r1 s1 _ ?_ _ ?_ <;> intro _ <;> rfl
  | prjnRel r1 s1 =>
    simp only [Network.attr, Act.writeTo, Act.write, Attr.prjnRel.injEq]
    refine prjnMap_modPrjn_set net r s r1 s1 _ ?_ _ _ ?_ <;> intro _ <;> rfl
  | prjnAbs r1 s1 =>
    refine prjnMap_modPrjn_keep net r s r1 s1 _ ?_ _ ?_ <;> intro _ <;> rfl
theorem attr_setAbs (net : Network) (r s : String) (b : ℚ) (k : Attr) :
    (net.modPrjn r s (fun pj => { pj with Abs := b })).attr k =
      setTo ((Act.SetAbs r s b).writeTo k) (net.attr k) := by
  cases k with
  | layOff l =>
    refine layerMap_modPrjn net r s l _ _ ?_
    intro _ _
    rfl
  | layTyp l =>
    refine layerMap_modPrjn net r s l _ _ ?_
    intro _ _
    rfl
  | prjnOff r1 s1 =>
    refine prjnMap_modPrjn_keep net r s r1 s1 _ ?_ _ ?_ <;> intro _ <;> rfl
  | prjnLearn r1 s1 =>
    refine prjnMap_modPrjn_keep net r s r1 s1 _ ?_ _ ?_ <;> intro _ <;> rfl
  | prjnRel r1 s1 =>
    refine prjnMap_modPrjn_keep net r s r1 s1 _ ?_ _ ?_ <;> intro _ <;> rfl
  | prjnAbs r1 s1 =>
    simp only [Network.attr, Act.writeTo, Act.write, Attr.prjnAbs.injEq]
    refine prjnMap_modPrjn_set net r s r1 s1 _ ?_ _ _ ?_ <;> intro _ <;> rfl

theorem prjnMap_modLayer {β : Type} (net : Network) (nm r s : String) (g : Layer → Layer)
    (h : Prjn → β) (hN : ∀ ly, (g ly).Nm = ly.Nm) (hR : ∀ ly, (g ly).RcvPrjns = ly.RcvPrjns) :
    ((net.modLayer nm g).getPrjn r s).map h = (net.getPrjn r s).map h := by
  rw [getPrjn_modLayer net nm r s g hN hR]

theorem layerMap_modLayer_set (net : Network) (nm l : String) (g : Layer → Layer)
    (h : Layer → Val) (v : Val) (hN : ∀ ly, (g ly).Nm = ly.Nm) (hv : ∀ ly, h (g ly) = v) :
    ((net.modLayer nm g).LayerByName l).map h =
      setTo (if nm = l then some v else none) ((net.LayerByName l).map h) := by
  by_cases hl : l = nm
  · subst hl
    rw [layerByName_modLayer_same net l g hN, if_pos rfl]
    cases net.LayerByName l with
    | none => rfl
    | some ly => simp [setTo, hv]
  · rw [layerByName_modLayer_other net nm l g hN hl, if_neg (fun h2 => hl h2.symm)]
    rfl

theorem attr_setLayOff (net : Network) (nm : String) (b : Bool) (k : Attr) :
    (net.modLayer nm (fun ly => { ly with Off := b })).attr k =
      setTo ((Act.SetLayOff nm b).writeTo k) (net.attr k) := by
  cases k with
  | layOff l =>
    simp only [Network.attr, Act.writeTo, Act.write, Attr.layOff.injEq]
    refine layerMap_modLayer_set net nm l _ _ _ ?_ ?_ <;> intro _ <;> rfl
  | layTyp l =>
    refine layerMap_modLayer net nm l _ _ ?_ ?_ <;> intro _ <;> rfl
  | prjnOff r1 s1 =>
    show Option.map _ ((net.modLayer nm _).getPrjn r1 s1) = Option.map _ (net.getPrjn r1 s1)
    refine prjnMap_modLayer net nm r1 s1 _ _ ?_ ?_ <;> intro _ <;> rfl
  | prjnLearn r1 s1 =>
    show Option.map _ ((net.modLayer nm _).getPrjn r1 s1) = Option.map _ (net.getPrjn r1 s1)
    refine prjnMap_modLayer net nm r1 s1 _ _ ?_ ?_ <;> intro _ <;> rfl
  | prjnRel r1 s1 =>
    show Option.map _ ((net.modLayer nm _).getPrjn r1 s1) = Option.map _ (net.getPrjn r1 s1)
    refine prjnMap_modLayer net nm r1 s1 _ _ ?_ ?_ <;> intro _ <;> rfl
  | prjnAbs r1 s1 =>
    show Option.map _ ((net.modLayer nm _).getPrjn r1 s1) = Option.map _ (net.getPrjn r1 s1)
    refine prjnMap_modLayer net nm r1 s1 _ _ ?_ ?_ <;> intro _ <;> rfl

theorem attr_setType (net : Network) (nm : String) (b : LayerType) (k : Attr) :
    (net.modLayer nm (fun ly => { ly with Typ := b })).attr k =
      setTo ((Act.SetType nm b).writeTo k) (net.attr k) := by
  cases k with
  | layOff l =>
    refine layerMap_modLayer net nm l _ _ ?_ ?_ <;> intro _ <;> rfl
  | layTyp l =>
    simp only [Network.attr, Act.writeTo, Act.write, Attr.layTyp.injEq]
    refine layerMap_modLayer_set net nm l _ _ _ ?_ ?_ <;> intro _ <;> rfl
  | prjnOff r1 s1 =>
    show Option.map _ ((net.modLayer nm _).getPrjn r1 s1) = Option.map _ (net.getPrjn r1 s1)
    refine prjnMap_modLayer net nm r1 s1 _ _ ?_ ?_ <;> intro _ <;> rfl
  | prjnLearn r1 s1 =>
    show Option.map _ ((net.modLayer nm _).getPrjn r1 s1) = Option.map _ (net.getPrjn r1 s1)
    refine prjnMap_modLayer net nm r1 s1 _ _ ?_ ?_ <;> intro _ <;> rfl
  | prjnRel r1 s1 =>
    show Option.map _ ((net.modLayer nm _).getPrjn r1 s1) = Option.map _ (net.getPrjn r1 s1)
    refine prjnMap_modLayer net nm r1 s1 _ _ ?_ ?_ <;> intro _ <;> rfl
  | prjnAbs r1 s1 =>
    show Option.map _ ((net.modLayer nm _).getPrjn r1 s1) = Option.map _ (net.getPrjn r1 s1)
    refine prjnMap_modLayer net nm r1 s1 _ _ ?_ ?_ <;> intro _ <;> rfl

/-- What a statement that returns has done: its effect, then the record in the history. -/
theorem exec_ok_inv {D : Type} {E : Engine D} {train : Bool} {a : Act} {ss s1 : Sim D}
    (h : exec E train a ss = Except.ok s1) :
    ∃ s0, a.effect E train ss = Except.ok s0 ∧ s1 = s0.log a ∧ s0.trace = ss.trace := by
  have hs := exec_ok_safe h
  unfold exec at h
  rw [if_pos hs] at h
  cases he : a.effect E train ss with
  | error e => rw [he] at h; cases h
  | ok s0 =>
    rw [he] at h
    cases h
    refine ⟨s0, rfl, rfl, ?_⟩
    cases a with
    | MemStats =>
      simp only [Act.safe, Bool.and_eq_true, Option.isSome_iff_exists] at hs
      obtain ⟨⟨ecin, hE⟩, ⟨out, hO⟩⟩ := hs
      simp only [Act.effect, MemStats_ok E train ss ecin out hE hO] at he
      cases he
      rfl
    | _ =>
      simp only [Act.effect] at he
      cases he
      rfl

/-- The event recorded by a statement is the snapshot of the state it leaves. -/
theorem exec_event {D : Type} {E : Engine D} {train : Bool} {a : Act} {ss s1 : Sim D}
    (h : exec E train a ss = Except.ok s1) :
    s1.trace = ss.trace ++ [⟨a, s1.Net, s1.Time, s1.TmpVals, s1.Dyn⟩] := by
  obtain ⟨s0, _, h1, h2⟩ := exec_ok_inv h
  subst h1
  simp [Sim.log, h2]

/-- The value of an attribute after a statement. -/
theorem exec_attr {D : Type} {E : Engine D} {train : Bool} {a : Act} {ss s1 : Sim D}
    (h : exec E train a ss = Except.ok s1) (k : Attr) :
    s1.Net.attr k = setTo (a.writeTo k) (ss.Net.attr k) := by
  have hs := exec_ok_safe h
  obtain ⟨s0, he, h1, _⟩ := exec_ok_inv h
  subst h1
  show s0.Net.attr k = _
  cases a with
  | MemStats =>
    simp only [Act.safe, Bool.and_eq_true, Option.isSome_iff_exists] at hs
    obtain ⟨⟨ecin, hE⟩, ⟨out, hO⟩⟩ := hs
    simp only [Act.effect, MemStats_ok E train ss ecin out hE hO] at he
    cases he
    rfl
  | SetLearn r s b => simp only [Act.effect] at he; cases he; exact attr_setLearn _ r s b k
  | SetPrjnOff r s b => simp only [Act.effect] at he; cases he; exact attr_setPrjnOff _ r s b k
  | SetRel r s b => simp only [Act.effect] at he; cases he; exact attr_setRel _ r s b k
  | SetAbs r s b => simp only [Act.effect] at he; cases he; exact attr_setAbs _ r s b k
  | SetLayOff l b => simp only [Act.effect] at he; cases he; exact attr_setLayOff _ l b k
  | SetType l b => simp only [Act.effect] at he; cases he; exact attr_setType _ l b k
  | _ =>
    simp only [Act.effect] at he
    cases he
    rfl

/-- The value of `Time.Quarter` after a statement. -/
theorem exec_quarter {D : Type} {E : Engine D} {train : Bool} {a : Act} {ss s1 : Sim D}
    (h : exec E train a ss = Except.ok s1) :
    s1.Time.Quarter = a.onQuarter ss.Time.Quarter := by
  have hs := exec_ok_safe h
  obtain ⟨s0, he, h1, _⟩ := exec_ok_inv h
  subst h1
  show s0.Time.Quarter = _
  cases a with
  | MemStats =>
    simp only [Act.safe, Bool.and_eq_true, Option.isSome_iff_exists] at hs
    obtain ⟨⟨ecin, hE⟩, ⟨out, hO⟩⟩ := hs
    simp only [Act.effect, MemStats_ok E train ss ecin out hE hO] at he
    cases he
    rfl
  | _ =>
    simp only [Act.effect] at he
    cases he
    rfl

/-! ## Observations along a call -/

theorem setTo_lastWrite (k : Attr) (a : Act) (l : List Act) (x : Option Val) :
    setTo (lastWrite k l) (setTo (a.writeTo k) x) = setTo (lastWrite k (a :: l)) x := by
  simp only [lastWrite]
  cases lastWrite k l with
  | some v =>
    cases a.writeTo k <;> cases x <;> rfl
  | none => rfl

/-- The value of an attribute after a sequence of statements is the last value assigned to
it, or its former value. -/
theorem execs_attr {D : Type} {E : Engine D} {train : Bool} {l : List Act} {ss s1 : Sim D}
    (h : execs E train l ss = Except.ok s1) (k : Attr) :
    s1.Net.attr k = setTo (lastWrite k l) (ss.Net.attr k) := by
  induction l generalizing ss with
  | nil =>
    cases h
    rfl
  | cons a l ih =>
    rw [execs_cons_bind] at h
    cases h1 : exec E train a ss with
    | error e => rw [h1] at h; cases h
    | ok s2 =>
      rw [h1] at h
      rw [ih h, exec_attr h1, setTo_lastWrite]

theorem exec_obs {D : Type} {E : Engine D} {train : Bool} {a : Act} {ss s1 : Sim D}
    (h : exec E train a ss = Except.ok s1) (k1 k2 : Attr) :
    obsOf k1 k2 s1.Net s1.Time = obsStep k1 k2 a (obsOf k1 k2 ss.Net ss.Time) := by
  simp only [obsOf, obsStep, exec_attr h, exec_quarter h]

/-- The observations at the cycle events of an execution are those computed from its
statements. -/
theorem execs_cycleObs {D : Type} {E : Engine D} {train : Bool} {l : List Act}
    {ss s1 : Sim D} (h : execs E train l ss = Except.ok s1) (k1 k2 : Attr) :
    (cycleEvents ss s1).map (Event.obs k1 k2) = cycleObs k1 k2 l (obsOf k1 k2 ss.Net ss.Time) ∧
      obsOf k1 k2 s1.Net s1.Time = obsRun k1 k2 l (obsOf k1 k2 ss.Net ss.Time) := by
  induction l generalizing ss with
  | nil =>
    cases h
    simp [cycleEvents, cycleObs, obsRun]
  | cons a l ih =>
    rw [execs_cons_bind] at h
    cases h1 : exec E train a ss with
    | error e => rw [h1] at h; cases h
    | ok s2 =>
      rw [h1] at h
      obtain ⟨ih1, ih2⟩ := ih h
      have ht := exec_event h1
      obtain ⟨⟨ext, hext, _⟩, _⟩ := execs_frame h
      refine ⟨?_, ?_⟩
      · have hc : cycleEvents ss s1 =
            (if a = Act.Cycle then [⟨a, s2.Net, s2.Time, s2.TmpVals, s2.Dyn⟩] else []) ++
              cycleEvents s2 s1 := by
          have d1 : s1.trace.drop ss.trace.length =
              [⟨a, s2.Net, s2.Time, s2.TmpVals, s2.Dyn⟩] ++ ext := by
            rw [hext, ht, List.append_assoc, List.drop_left]
          have d2 : s1.trace.drop s2.trace.length = ext := by
            rw [hext, List.drop_left]
          unfold cycleEvents
          rw [d1, d2, List.filter_append]
          congr 1
          by_cases hc : a = Act.Cycle <;> simp [hc]
        rw [hc, List.map_append, ih1, cycleObs, ← exec_obs h1]
        congr 1
        by_cases hc : a = Act.Cycle <;> simp [hc, Event.obs]
      · rw [ih2, obsRun, ← exec_obs h1]

theorem obsRun_append (k1 k2 : Attr) (l1 l2 : List Act) (t : Obs) :
    obsRun k1 k2 (l1 ++ l2) t = obsRun k1 k2 l2 (obsRun k1 k2 l1 t) := by
  induction l1 generalizing t with
  | nil => rfl
  | cons a l ih => exact ih _

theorem cycleObs_append (k1 k2 : Attr) (l1 l2 : List Act) (t : Obs) :
    cycleObs k1 k2 (l1 ++ l2) t = cycleObs k1 k2 l1 t ++ cycleObs k1 k2 l2 (obsRun k1 k2 l1 t) := by
  induction l1 generalizing t with
  | nil => rfl
  | cons a l ih =>
    rw [List.cons_append, cycleObs, cycleObs, obsRun, ih, List.append_assoc]

theorem cycleObs_quiet (k1 k2 : Attr) {l : List Act} (h : l.all (fun a => !a.sched) = true)
    (t : Obs) : cycleObs k1 k2 l t = [] := by
  induction l generalizing t with
  | nil => rfl
  | cons a l ih =>
    simp only [List.all_cons, Bool.and_eq_true] at h
    have ha : a ≠ Act.Cycle := by
      intro he
      subst he
      simp [Act.sched] at h
    rw [cycleObs, if_neg ha, ih h.2]
    rfl

theorem cycActs_obs (k1 k2 : Attr) (train viewOn : Bool) (vu : TimeScales) (cpq : Int)
    (cyc : Nat) (t : Obs) :
    cycleObs k1 k2 (cycActs train viewOn vu cpq cyc) t = [t] ∧
      obsRun k1 k2 (cycActs train viewOn vu cpq cyc) t = t := by
  unfold cycActs
  cases train <;> cases viewOn <;> cases vu <;>
    simp only [List.append_eq, List.nil_append, List.cons_append, if_true, if_false,
      Bool.false_eq_true] <;>
    first
      | exact ⟨rfl, rfl⟩
      | (split_ifs <;> exact ⟨rfl, rfl⟩)

theorem flatMap_obs (k1 k2 : Attr) (L : Nat → List Act)
    (h : ∀ i t, cycleObs k1 k2 (L i) t = [t] ∧ obsRun k1 k2 (L i) t = t) (s n : Nat) (t : Obs) :
    cycleObs k1 k2 ((List.range' s n).flatMap L) t = List.replicate n t ∧
      obsRun k1 k2 ((List.range' s n).flatMap L) t = t := by
  induction n generalizing s with
  | zero => exact ⟨rfl, rfl⟩
  | succ n ih =>
    rw [List.range'_succ, List.flatMap_cons, cycleObs_append, obsRun_append, (h s t).1,
      (h s t).2, (ih (s + 1)).1, (ih (s + 1)).2]
    exact ⟨rfl, rfl⟩

theorem qtrEndActs_obs (k1 k2 : Attr) (viewOn : Bool) (vu : TimeScales) (qtr : Nat) (t : Obs) :
    cycleObs k1 k2 (qtrEndActs viewOn vu qtr) t = [] ∧
      obsRun k1 k2 (qtrEndActs viewOn vu qtr) t = bump t := by
  unfold qtrEndActs qtrTailActs
  cases viewOn <;>
    simp only [List.append_eq, List.nil_append, List.cons_append, if_true, if_false,
      Bool.false_eq_true, List.append_nil] <;>
    split_ifs <;> exact ⟨rfl, rfl⟩

/-- The observations at the cycle steps of a quarter, and the observation after it. -/
theorem qtrActs_obs (k1 k2 : Attr) (train viewOn : Bool) (vu : TimeScales) (cpq : Int)
    (sw : Nat → List Act) (qtr : Nat) (hq : (sw (qtr + 1)).all (fun a => !a.sched) = true)
    (t : Obs) :
    cycleObs k1 k2 (qtrActs train viewOn vu cpq sw qtr) t = List.replicate cpq.toNat t ∧
      obsRun k1 k2 (qtrActs train viewOn vu cpq sw qtr) t =
        bump (obsRun k1 k2 (sw (qtr + 1)) t) := by
  obtain ⟨c1, c2⟩ := flatMap_obs k1 k2 _ (cycActs_obs k1 k2 train viewOn vu cpq) 0 cpq.toNat t
  unfold qtrActs cycLoopActs
  simp only [cycleObs_append, obsRun_append, c1, c2, cycleObs_quiet k1 k2 hq,
    (qtrEndActs_obs k1 k2 viewOn vu qtr _).1, (qtrEndActs_obs k1 k2 viewOn vu qtr _).2,
    List.append_nil, and_self]

/-- The observations at the cycle steps of a call, from the observations after the
statements before the quarter loop and after each quarter. -/
theorem Mode.acts_cycleObs {D : Type} (k1 k2 : Attr) (m : Mode) (train : Bool) (ss : Sim D)
    (dg : ℚ) (t0 u0 u1 u2 : Obs)
    (hA : obsRun k1 k2 (m.look train ++ m.cfg train ss ++ m.start) t0 = u0)
    (h1 : bump (obsRun k1 k2 (m.sw train dg 1) u0) = u1)
    (h2 : bump (obsRun k1 k2 (m.sw train dg 2) u1) = u2) :
    cycleObs k1 k2 (m.acts train ss dg) t0 =
      List.replicate ss.Time.CycPerQtr.toNat u0 ++ List.replicate ss.Time.CycPerQtr.toNat u1 ++
      List.replicate ss.Time.CycPerQtr.toNat u2 ++
      List.replicate ss.Time.CycPerQtr.toNat (bump (obsRun k1 k2 (m.sw train dg 3) u2)) := by
  have hA1 : obsRun k1 k2 m.start (obsRun k1 k2 (m.cfg train ss)
      (obsRun k1 k2 (m.look train) t0)) = u0 := by
    rw [← obsRun_append, ← obsRun_append, ← List.append_assoc]
    exact hA
  unfold Mode.acts alphaActs
  rw [qtrLoopActs_eq]
  simp only [cycleObs_append, obsRun_append, cycleObs_quiet k1 k2 (m.look_quiet train),
    cycleObs_quiet k1 k2 (m.cfg_quiet train ss), cycleObs_quiet k1 k2 m.start_quiet, hA1,
    (qtrActs_obs k1 k2 _ _ _ _ _ _ (m.sw_quiet train dg _) _).1,
    (qtrActs_obs k1 k2 _ _ _ _ _ _ (m.sw_quiet train dg _) _).2, Nat.reduceAdd, h1, h2,
    cycleObs_quiet k1 k2 (m.post_quiet train dg),
    cycleObs_quiet k1 k2 (alphaEndActs_quiet _ _ _), List.nil_append, List.append_nil,
    List.append_assoc]

/-! ## The statements of a call around the switch of quarter 2 -/

theorem qtrActs_all (p : Act → Bool) (hp : loopActs.all p = true) (train viewOn : Bool)
    (vu : TimeScales) (cpq : Int) (sw : Nat → List Act) (qtr : Nat)
    (hsw : (sw (qtr + 1)).all p = true) : (qtrActs train viewOn vu cpq sw qtr).all p = true := by
  unfold qtrActs cycLoopActs
  rw [List.all_append, List.all_append, flatMap_all p _ (cycActs_all p hp train viewOn vu cpq),
    hsw, qtrEndActs_all p hp]
  rfl

/-- The statements of a call, split at a point of the switch of quarter 2: before the
point come the cycle steps of three quarters and two `QuarterFinal`, right after the switch
comes the third `QuarterFinal`. -/
theorem Mode.acts_split3 {D : Type} (m : Mode) (train : Bool) (ss : Sim D) (dg : ℚ)
    (b c : List Act) (h3 : m.sw train dg 3 = b ++ c) :
    ∃ P Q, m.acts train ss dg = P ++ c ++ Q ∧
      P.count Act.Cycle = 3 * ss.Time.CycPerQtr.toNat ∧ P.count Act.QuarterFinal = 2 ∧
      Q.head? = some Act.QuarterFinal ∧
      ∀ p : Act → Bool, loopActs.all p = true → (m.look train).all p = true →
        (m.cfg train ss).all p = true → m.start.all p = true →
        (m.sw train dg 1).all p = true → (m.sw train dg 2).all p = true → b.all p = true →
        (m.sw train dg 4).all p = true → (m.post train dg).all p = true →
        P.all p = true ∧ Q.all p = true := by
  have hb : b.all (fun a => !a.sched) = true := by
    have := m.sw_quiet train dg 3
    rw [h3, List.all_append, Bool.and_eq_true] at this
    exact this.1
  obtain ⟨l1, l2, _⟩ := count_of_quiet (m.look_quiet train)
  obtain ⟨g1, g2, _⟩ := count_of_quiet (m.cfg_quiet train ss)
  obtain ⟨a1, a2, _⟩ := count_of_quiet m.start_quiet
  obtain ⟨b1, b2, _⟩ := count_of_quiet hb
  obtain ⟨c1, c2, _, _⟩ :=
    cycLoopActs_count train ss.ViewOn (viewUpdtOf train ss) ss.Time.CycPerQtr
  obtain ⟨q01, q02, _⟩ := qtrActs_count m train ss.ViewOn (viewUpdtOf train ss)
    ss.Time.CycPerQtr dg 0 (by decide)
  obtain ⟨q11, q12, _⟩ := qtrActs_count m train ss.ViewOn (viewUpdtOf train ss)
    ss.Time.CycPerQtr dg 1 (by decide)
  refine ⟨m.look train ++ m.cfg train ss ++ m.start ++
      qtrActs train ss.ViewOn (viewUpdtOf train ss) ss.Time.CycPerQtr (m.sw train dg) 0 ++
      qtrActs train ss.ViewOn (viewUpdtOf train ss) ss.Time.CycPerQtr (m.sw train dg) 1 ++
      cycLoopActs train ss.ViewOn (viewUpdtOf train ss) ss.Time.CycPerQtr ++ b,
    qtrEndActs ss.ViewOn (viewUpdtOf train ss) 2 ++
      qtrActs train ss.ViewOn (viewUpdtOf train ss) ss.Time.CycPerQtr (m.sw train dg) 3 ++
      m.post train dg ++ alphaEndActs train ss.ViewOn (viewUpdtOf train ss), ?_, ?_, ?_, ?_, ?_⟩
  · unfold Mode.acts alphaActs
    rw [qtrLoopActs_eq]
    have : qtrActs train ss.ViewOn (viewUpdtOf train ss) ss.Time.CycPerQtr (m.sw train dg) 2 =
        cycLoopActs train ss.ViewOn (viewUpdtOf train ss) ss.Time.CycPerQtr ++ (b ++ c) ++
          qtrEndActs ss.ViewOn (viewUpdtOf train ss) 2 := by
      rw [← h3]
      rfl
    rw [this]
    simp only [List.append_assoc]
  · simp only [List.count_append, l1, g1, a1, q01, q11, c1, b1]
    omega
  · simp only [List.count_append, l2, g2, a2, q02, q12, c2, b2]
  · rfl
  · intro p hp hl hg ha h1 h2 hbp h4 hpost
    constructor
    · have hcl : (cycLoopActs train ss.ViewOn (viewUpdtOf train ss) ss.Time.CycPerQtr).all p =
          true := flatMap_all p _ (cycActs_all p hp _ _ _ _) _ _
      simp only [List.all_append, hl, hg, ha, hbp, hcl, qtrActs_all p hp _ _ _ _ _ 0 h1,
        qtrActs_all p hp _ _ _ _ _ 1 h2, Bool.and_self]
    · simp only [List.all_append, hpost, qtrEndActs_all p hp, qtrActs_all p hp _ _ _ _ _ 3 h4,
        alphaEndActs_all p hp, Bool.and_self]

theorem execs_split {D : Type} {E : Engine D} {train : Bool} {l1 l2 : List Act}
    {ss s2 : Sim D} (h : execs E train (l1 ++ l2) ss = Except.ok s2) :
    ∃ s1, execs E train l1 ss = Except.ok s1 ∧ execs E train l2 s1 = Except.ok s2 := by
  rw [execs_append] at h
  cases h1 : execs E train l1 ss with
  | error e => rw [h1] at h; cases h
  | ok s1 =>
    rw [h1] at h
    exact ⟨s1, rfl, h⟩

theorem exec_unitVals {D : Type} {E : Engine D} {train : Bool} {lay var : String}
    {ss s1 : Sim D} (h : exec E train (Act.UnitVals lay var) ss = Except.ok s1) :
    s1.TmpVals = E.UnitVals ss.Dyn lay var ∧ s1.Dyn = ss.Dyn ∧ s1.Net = ss.Net := by
  simp only [exec, Act.safe, Act.effect, if_true] at h
  cases h
  exact ⟨rfl, rfl, rfl⟩

theorem exec_applyExt {D : Type} {E : Engine D} {train : Bool} {lay : String}
    {ss s1 : Sim D} (h : exec E train (Act.ApplyExt1D32 lay) ss = Except.ok s1) :
    s1.Dyn = E.ApplyExt1D32 ss.Net lay ss.TmpVals ss.Dyn ∧ s1.Net = ss.Net := by
  simp only [exec, Act.safe, Act.effect, if_true] at h
  cases h
  exact ⟨rfl, rfl⟩

/-! ## The strengths of the two projections to `CA1` during the cycle steps -/

theorem getPrjn_of_hasPrjn (net : Network) (r s : String) (kind : Option PrjnKind)
    (h : net.hasPrjn r s kind = true) : ∃ pj, net.getPrjn r s = some pj := by
  unfold Network.hasPrjn at h
  unfold Network.getPrjn
  cases hL : net.LayerByName r with
  | none => simp [hL] at h
  | some ly =>
    cases hS : ly.SendName s with
    | none => simp [hL, hS] at h
    | some pj => exact ⟨pj, by simp [hS]⟩

theorem Mode.lookups_ca1 (m : Mode) :
    m.lookups.contains (Act.SendName "CA1" "ECin" (some PrjnKind.EcCa1Prjn)) = true ∧
      m.lookups.contains (Act.SendName "CA1" "CA3" (some PrjnKind.CHLPrjn)) = true := by
  cases m <;> exact ⟨by rfl, by rfl⟩

/-- In a ready state the two projections to `CA1` exist, so their absolute strengths can be
read. -/
theorem Mode.abs_exists {D : Type} (m : Mode) (train : Bool) (ss : Sim D)
    (hr : m.ready train ss = true) :
    ∃ x y, ss.Net.attr absEcin = some (Val.num x) ∧ ss.Net.attr absCa3 = some (Val.num y) := by
  have h2 := (Bool.and_eq_true_iff.mp hr).1
  have hE := List.all_eq_true.mp h2 _ (List.mem_of_elem_eq_true m.lookups_ca1.1)
  have hC := List.all_eq_true.mp h2 _ (List.mem_of_elem_eq_true m.lookups_ca1.2)
  obtain ⟨p1, hp1⟩ := getPrjn_of_hasPrjn ss.Net "CA1" "ECin" (some PrjnKind.EcCa1Prjn) hE
  obtain ⟨p2, hp2⟩ := getPrjn_of_hasPrjn ss.Net "CA1" "CA3" (some PrjnKind.CHLPrjn) hC
  exact ⟨p1.Abs, p2.Abs, by simp [absEcin, Network.attr, hp1], by simp [absCa3, Network.attr, hp2]⟩

/-- The observations of `Time.Quarter` and of the two absolute strengths at the cycle steps
of `AlphaCycHip`. -/
theorem hip_cycleObs {D : Type} (train : Bool) (ss : Sim D) (dg : ℚ) (q0 : Int) (x y : ℚ) :
    cycleObs absEcin absCa3 (Mode.Hip.acts train ss dg) (q0, some (Val.num x), some (Val.num y)) =
      List.replicate ss.Time.CycPerQtr.toNat (0, some (Val.num 1), some (Val.num 0)) ++
      List.replicate ss.Time.CycPerQtr.toNat (1, some (Val.num 0), some (Val.num 1)) ++
      List.replicate ss.Time.CycPerQtr.toNat (2, some (Val.num 0), some (Val.num 1)) ++
      List.replicate ss.Time.CycPerQtr.toNat (3, some (Val.num 1), some (Val.num 0)) := by
  rw [Mode.acts_cycleObs absEcin absCa3 Mode.Hip train ss dg _
    (0, some (Val.num 1), some (Val.num 0)) (1, some (Val.num 0), some (Val.num 1))
    (2, some (Val.num 0), some (Val.num 1))
    (by cases train <;> rfl) (by cases train <;> rfl) (by cases train <;> rfl)]
  congr 2
  cases train <;> rfl

/-- C14: a ready call of `AlphaCycHip` returns, for both values of `train`; at its cycle
steps, in order, the value of `Time.Quarter` and the absolute strengths of the projections
from `ECin` and from `CA3` to `CA1` are: `CycPerQtr` times (0, 1, 0), then `CycPerQtr` times
(1, 0, 1), then `CycPerQtr` times (2, 0, 1), then `CycPerQtr` times (3, 1, 0). -/
theorem hip_strength_schedule {D : Type} (E : Engine D) (train : Bool) (ss : Sim D)
    (hr : Mode.Hip.ready train ss = true) :
    ∃ ss1, AlphaCycHip E train ss = Except.ok ss1 ∧
      (cycleEvents ss ss1).map (Event.obs absEcin absCa3) =
        List.replicate ss.Time.CycPerQtr.toNat (0, some (Val.num 1), some (Val.num 0)) ++
        List.replicate ss.Time.CycPerQtr.toNat (1, some (Val.num 0), some (Val.num 1)) ++
        List.replicate ss.Time.CycPerQtr.toNat (2, some (Val.num 0), some (Val.num 1)) ++
        List.replicate ss.Time.CycPerQtr.toNat (3, some (Val.num 1), some (Val.num 0)) := by
  obtain ⟨ss1, hrun, hex, _⟩ := Mode.Hip.run_ok E train ss hr
  obtain ⟨x, y, hx, hy⟩ := Mode.Hip.abs_exists train ss hr
  refine ⟨ss1, hrun, ?_⟩
  rw [(execs_cycleObs hex absEcin absCa3).1, obsOf, hx, hy]
  exact hip_cycleObs train ss _ _ x y

/-- C14 (witness): a test trial of `AlphaCycHip` on the configured network, 25 cycles per
quarter. -/
theorem hip_strength_schedule_witness :
    Mode.Hip.ready false trialSim = true ∧
      ∃ ss1, AlphaCycHip patEngine false trialSim = Except.ok ss1 ∧
        (cycleEvents trialSim ss1).map (Event.obs absEcin absCa3) =
          List.replicate 25 (0, some (Val.num 1), some (Val.num 0)) ++
          List.replicate 25 (1, some (Val.num 0), some (Val.num 1)) ++
          List.replicate 25 (2, some (Val.num 0), some (Val.num 1)) ++
          List.replicate 25 (3, some (Val.num 1), some (Val.num 0)) :=
  ⟨trialSim_ready _ _, hip_strength_schedule patEngine false trialSim (trialSim_ready _ _)⟩

/-- The observations at the cycle steps of `AlphaCycFull` and `AlphaCycHipPureRet`. -/
theorem ret_cycleObs {D : Type} (m : Mode) (hm : m = Mode.Full ∨ m = Mode.HipPureRet)
    (train : Bool) (ss : Sim D) (dg : ℚ) (q0 : Int) (x y : ℚ) :
    cycleObs absEcin absCa3 (m.acts train ss dg) (q0, some (Val.num x), some (Val.num y)) =
      List.replicate ss.Time.CycPerQtr.toNat (0, some (Val.num 0), some (Val.num 1)) ++
      List.replicate ss.Time.CycPerQtr.toNat (1, some (Val.num 0), some (Val.num 1)) ++
      List.replicate ss.Time.CycPerQtr.toNat (2, some (Val.num 0), some (Val.num 1)) ++
      List.replicate ss.Time.CycPerQtr.toNat (3, some (Val.num 0), some (Val.num 1)) := by
  rw [Mode.acts_cycleObs absEcin absCa3 m train ss dg _
    (0, some (Val.num 0), some (Val.num 1)) (1, some (Val.num 0), some (Val.num 1))
    (2, some (Val.num 0), some (Val.num 1))
    (by rcases hm with rfl | rfl <;> cases train <;> rfl)
    (by rcases hm with rfl | rfl <;> cases train <;> rfl)
    (by rcases hm with rfl | rfl <;> cases train <;> rfl)]
  congr 2
  rcases hm with rfl | rfl <;> cases train <;> rfl

theorem ret_noClamp {D : Type} (m : Mode) (hm : m = Mode.Full ∨ m = Mode.HipPureRet)
    (train : Bool) (ss : Sim D) (dg : ℚ) :
    (m.look train).all (fun a => !a.isClamp) = true ∧
      (m.cfg train ss).all (fun a => !a.isClamp) = true ∧
      m.start.all (fun a => !a.isClamp) = true ∧
      (m.sw train dg 1).all (fun a => !a.isClamp) = true ∧
      (m.sw train dg 2).all (fun a => !a.isClamp) = true ∧
      (m.sw train dg 4).all (fun a => !a.isClamp) = true ∧
      (m.post train dg).all (fun a => !a.isClamp) = true := by
  rcases hm with rfl | rfl <;> cases train <;>
    exact ⟨by rfl, by rfl, by rfl, by rfl, by rfl, by rfl, by rfl⟩

/-- C15: a ready call of `AlphaCycFull` or `AlphaCycHipPureRet` returns, for both values of
`train`; at every cycle step of the four quarters the absolute strength of the projection
from `ECin` to `CA1` is 0 and that of the projection from `CA3` to `CA1` is 1.  The
statements of the call are `pre`, then, when `train` is true, one `ApplyExt1D32` (on
`Output` in `AlphaCycFull`, on `ECout` in `AlphaCycHipPureRet`), then `post`; `pre` has the
cycle steps of three quarters and two `QuarterFinal`, `post` starts with the third
`QuarterFinal`, and neither contains an `ApplyExt1D32`. -/
theorem ret_strengths_and_clamp {D : Type} (m : Mode) (hm : m = Mode.Full ∨ m = Mode.HipPureRet)
    (E : Engine D) (train : Bool) (ss : Sim D) (hr : m.ready train ss = true) :
    ∃ ss1 pre post, m.run E train ss = Except.ok ss1 ∧
      (cycleEvents ss ss1).map (Event.obs absEcin absCa3) =
        List.replicate ss.Time.CycPerQtr.toNat (0, some (Val.num 0), some (Val.num 1)) ++
        List.replicate ss.Time.CycPerQtr.toNat (1, some (Val.num 0), some (Val.num 1)) ++
        List.replicate ss.Time.CycPerQtr.toNat (2, some (Val.num 0), some (Val.num 1)) ++
        List.replicate ss.Time.CycPerQtr.toNat (3, some (Val.num 0), some (Val.num 1)) ∧
      newActs ss ss1 =
        pre ++ (if train = true then
          [Act.ApplyExt1D32 (if m = Mode.Full then "Output" else "ECout")] else []) ++ post ∧
      (∀ a, a ∈ pre ++ post → a.isClamp = false) ∧
      pre.count Act.Cycle = 3 * ss.Time.CycPerQtr.toNat ∧
      pre.count Act.QuarterFinal = 2 ∧ post.head? = some Act.QuarterFinal := by
  obtain ⟨ss1, hrun, hex, hran⟩ := m.run_ok E train ss hr
  obtain ⟨x, y, hx, hy⟩ := m.abs_exists train ss hr
  obtain ⟨P, Q, hacts, hc, hq, hhead, hall⟩ := m.acts_split3 train ss (m.dgwtscale E train ss)
    (if m = Mode.Full then
      [Act.SetAbs "CA1" "ECin" 0, Act.SetAbs "CA1" "CA3" 1] ++
        (if train = true then [Act.UnitVals "ECout" "Act"] else [])
     else [Act.UnitVals "ECin" "Act"])
    (if train = true then [Act.ApplyExt1D32 (if m = Mode.Full then "Output" else "ECout")]
     else [])
    (by rcases hm with rfl | rfl <;> cases train <;> rfl)
  obtain ⟨n1, n2, n3, n4, n5, n6, n7⟩ := ret_noClamp m hm train ss (m.dgwtscale E train ss)
  obtain ⟨hPall, hQall⟩ := hall (fun a => !a.isClamp) (by rfl) n1 n2 n3 n4 n5
    (by rcases hm with rfl | rfl <;> cases train <;> rfl) n6 n7
  refine ⟨ss1, P, Q, hrun, ?_, ?_, ?_, hc, hq, hhead⟩
  · rw [(execs_cycleObs hex absEcin absCa3).1, obsOf, hx, hy]
    exact ret_cycleObs m hm train ss _ _ x y
  · rw [Ran_newActs hran, hacts]
  · intro a ha
    have hPQ : (P ++ Q).all (fun a => !a.isClamp) = true := by
      rw [List.all_append, hPall, hQall]
      rfl
    simpa using List.all_eq_true.mp hPQ _ ha

/-- C15 (witness): a training trial of `AlphaCycFull` on the configured network. -/
theorem ret_strengths_and_clamp_witness :
    (Mode.Full = Mode.Full ∨ Mode.Full = Mode.HipPureRet) ∧
      Mode.Full.ready true trialSim = true ∧
      ∃ ss1 pre post, Mode.Full.run patEngine true trialSim = Except.ok ss1 ∧
        (cycleEvents trialSim ss1).map (Event.obs absEcin absCa3) =
          List.replicate 25 (0, some (Val.num 0), some (Val.num 1)) ++
          List.replicate 25 (1, some (Val.num 0), some (Val.num 1)) ++
          List.replicate 25 (2, some (Val.num 0), some (Val.num 1)) ++
          List.replicate 25 (3, some (Val.num 0), some (Val.num 1)) ∧
        newActs trialSim ss1 = pre ++ [Act.ApplyExt1D32 "Output"] ++ post :=
  ⟨Or.inl rfl, trialSim_ready _ _, by
    obtain ⟨ss1, pre, post, h1, h2, h3, _⟩ :=
      ret_strengths_and_clamp Mode.Full (Or.inl rfl) patEngine true trialSim (trialSim_ready _ _)
    exact ⟨ss1, pre, post, h1, h2, h3⟩⟩

/-! ## The clamp of `AlphaCycHip` -/

theorem hip_noClamp {D : Type} (train : Bool) (ss : Sim D) (dg : ℚ) :
    (Mode.Hip.look train).all (fun a => !a.isClamp) = true ∧
      (Mode.Hip.cfg train ss).all (fun a => !a.isClamp) = true ∧
      Mode.Hip.start.all (fun a => !a.isClamp) = true ∧
      (Mode.Hip.sw train dg 1).all (fun a => !a.isClamp) = true ∧
      (Mode.Hip.sw train dg 2).all (fun a => !a.isClamp) = true ∧
      (Mode.Hip.sw train dg 4).all (fun a => !a.isClamp) = true ∧
      (Mode.Hip.post train dg).all (fun a => !a.isClamp) = true := by
  cases train <;> exact ⟨by rfl, by rfl, by rfl, by rfl, by rfl, by rfl, by rfl⟩

/-- C13: a ready call of `AlphaCycHip` returns.  Its history has one read of the `Act`
values of `ECin` into `TmpVals`, after the cycle steps of three quarters and two
`QuarterFinal`; what follows the read and the writes `wrs` is the third `QuarterFinal`.
With `train = true`, `wrs` is one `ApplyExt1D32` on `ECout`, and the vector it applies is
the vector read, applied to the engine state of the read; with `train = false`, `wrs` is
empty.  No other statement of the call is an `ApplyExt1D32`, on any layer. -/
theorem hip_clamp {D : Type} (E : Engine D) (train : Bool) (ss : Sim D)
    (hr : Mode.Hip.ready train ss = true) :
    ∃ ss1 pre rd wrs post, AlphaCycHip E train ss = Except.ok ss1 ∧
      ss1.trace = ss.trace ++ (pre ++ rd :: wrs ++ post) ∧
      rd.act = Act.UnitVals "ECin" "Act" ∧ rd.tmp = E.UnitVals rd.dyn "ECin" "Act" ∧
      (if train = true then
        ∃ wr, wrs = [wr] ∧ wr.act = Act.ApplyExt1D32 "ECout" ∧
          wr.dyn = E.ApplyExt1D32 wr.net "ECout" rd.tmp rd.dyn
       else wrs = []) ∧
      (∀ e, e ∈ pre ++ post → e.act.isClamp = false) ∧
      (pre.map (fun e => e.act)).count Act.Cycle = 3 * ss.Time.CycPerQtr.toNat ∧
      (pre.map (fun e => e.act)).count Act.QuarterFinal = 2 ∧
      (post.map (fun e => e.act)).head? = some Act.QuarterFinal := by
  obtain ⟨ss1, hrun, hex, _⟩ := Mode.Hip.run_ok E train ss hr
  obtain ⟨P, Q, hacts, hc, hq, hhead, hall⟩ := Mode.Hip.acts_split3 train ss
    (Mode.Hip.dgwtscale E train ss)
    [Act.SetAbs "CA1" "ECin" 1, Act.SetAbs "CA1" "CA3" 0, Act.GScaleFmAvgAct, Act.InitGInc]
    (Act.UnitVals "ECin" "Act" :: (if train = true then [Act.ApplyExt1D32 "ECout"] else []))
    (by cases train <;> rfl)
  obtain ⟨n1, n2, n3, n4, n5, n6, n7⟩ := hip_noClamp train ss (Mode.Hip.dgwtscale E train ss)
  obtain ⟨hPall, hQall⟩ := hall (fun a => !a.isClamp) (by rfl) n1 n2 n3 n4 n5 (by rfl) n6 n7
  rw [hacts] at hex
  obtain ⟨s2, hPc, hQ⟩ := execs_split hex
  obtain ⟨s0, hP, hcx⟩ := execs_split hPc
  rw [execs_cons_bind] at hcx
  cases h1 : exec E train (Act.UnitVals "ECin" "Act") s0 with
  | error e => rw [h1] at hcx; cases hcx
  | ok s1 =>
    rw [h1] at hcx
    have hW : execs E train (if train = true then [Act.ApplyExt1D32 "ECout"] else []) s1 =
        Except.ok s2 := hcx
    obtain ⟨⟨extP, tP, mP⟩, _⟩ := execs_frame hP
    obtain ⟨⟨extQ, tQ, mQ⟩, _⟩ := execs_frame hQ
    obtain ⟨⟨extW, tW, mW⟩, _⟩ := execs_frame hW
    have t1 := exec_event h1
    obtain ⟨u1, u2, _⟩ := exec_unitVals h1
    refine ⟨ss1, extP, ⟨_, s1.Net, s1.Time, s1.TmpVals, s1.Dyn⟩, extW, extQ, hrun, ?_, rfl,
      ?_, ?_, ?_, ?_, ?_, ?_⟩
    · rw [tQ, tW, t1, tP]
      simp only [List.append_assoc, List.singleton_append, List.cons_append, List.nil_append]
    · show s1.TmpVals = E.UnitVals s1.Dyn "ECin" "Act"
      rw [u1, u2]
    · cases train with
      | false =>
        simp only [Bool.false_eq_true, if_false, List.map_eq_nil_iff] at mW ⊢
        exact mW
      | true =>
        simp only [if_true] at hW ⊢
        rw [execs_single] at hW
        have t2 := exec_event hW
        obtain ⟨v1, v2⟩ := exec_applyExt hW
        rw [tW] at t2
        have hext := List.append_cancel_left t2
        refine ⟨_, hext, rfl, ?_⟩
        show s2.Dyn = E.ApplyExt1D32 s2.Net "ECout" s1.TmpVals s1.Dyn
        rw [v1, v2]
    · intro e he
      have hmem : e.act ∈ P ++ Q := by
        rw [← mP, ← mQ, ← List.map_append]
        exact List.mem_map_of_mem _ he
      have hPQ : (P ++ Q).all (fun a => !a.isClamp) = true := by
        rw [List.all_append, hPall, hQall]
        rfl
      simpa using List.all_eq_true.mp hPQ _ hmem
    · rw [mP]
      exact hc
    · rw [mP]
      exact hq
    · rw [mQ]
      exact hhead

/-- C13 (witness): a training trial of `AlphaCycHip` on the configured network. -/
theorem hip_clamp_witness :
    Mode.Hip.ready true trialSim = true ∧
      ∃ ss1 pre rd wr post, AlphaCycHip patEngine true trialSim = Except.ok ss1 ∧
        ss1.trace = trialSim.trace ++ (pre ++ rd :: [wr] ++ post) ∧
        rd.act = Act.UnitVals "ECin" "Act" ∧ wr.act = Act.ApplyExt1D32 "ECout" ∧
        wr.dyn = patEngine.ApplyExt1D32 wr.net "ECout" rd.tmp rd.dyn :=
  ⟨trialSim_ready _ _, by
    obtain ⟨ss1, pre, rd, wrs, post, h1, h2, h3, _, h5, _⟩ :=
      hip_clamp patEngine true trialSim (trialSim_ready _ _)
    rw [if_pos rfl] at h5
    obtain ⟨wr, hw, h6, h7⟩ := h5
    subst hw
    exact ⟨ss1, pre, rd, wr, post, h1, h2, h3, h6, h7⟩⟩

/-! ## The last assignment to an attribute -/

theorem lastWrite_append (k : Attr) (l1 l2 : List Act) :
    lastWrite k (l1 ++ l2) =
      (match lastWrite k l2 with
       | some v => some v
       | none => lastWrite k l1) := by
  induction l1 with
  | nil =>
    rw [List.nil_append]
    cases lastWrite k l2 <;> rfl
  | cons a l ih =>
    rw [List.cons_append, lastWrite, ih, lastWrite]
    cases lastWrite k l2 <;> rfl

theorem lastWrite_none_of_all (k : Attr) {l : List Act}
    (h : l.all (fun a => (a.writeTo k).isNone) = true) : lastWrite k l = none := by
  induction l with
  | nil => rfl
  | cons a l ih =>
    simp only [List.all_cons, Bool.and_eq_true, Option.isNone_iff_eq_none] at h
    simp only [lastWrite, ih h.2, h.1]

theorem lastWrite_some_mem (k : Attr) {l : List Act} {v : Val} (h : lastWrite k l = some v) :
    ∃ a, a ∈ l ∧ a.writeTo k = some v := by
  induction l with
  | nil => cases h
  | cons a l ih =>
    simp only [lastWrite] at h
    cases hl : lastWrite k l with
    | some w =>
      rw [hl] at h
      obtain ⟨b, hb, hw⟩ := ih (hl.trans (by simpa using h))
      exact ⟨b, List.mem_cons_of_mem a hb, hw⟩
    | none =>
      rw [hl] at h
      exact ⟨a, List.mem_cons_self a l, h⟩

theorem writeTo_of_write_none (k : Attr) {a : Act} (h : a.write = none) : a.writeTo k = none := by
  simp [Act.writeTo, h]

theorem setTo_setTo (w : Option Val) (x : Option Val) : setTo w (setTo w x) = setTo w x := by
  cases w <;> cases x <;> rfl

theorem setTo_some_setTo (v : Val) (w : Option Val) (x : Option Val) :
    setTo (some v) (setTo w x) = setTo (some v) x := by
  cases w <;> cases x <;> rfl

theorem obsRun_attr (k1 k2 : Attr) (l : List Act) (t : Obs) :
    (obsRun k1 k2 l t).2.1 = setTo (lastWrite k1 l) t.2.1 := by
  induction l generalizing t with
  | nil => rfl
  | cons a l ih =>
    rw [obsRun, ih, ← setTo_lastWrite]
    rfl

/-- The statements of the loops and of the end of a procedure assign no attribute. -/
theorem loopActs_noWrite (k : Attr) :
    loopActs.all (fun a => (a.writeTo k).isNone) = true := by
  rfl

theorem learnActs_noWrite (k : Attr) (train : Bool) :
    (learnActs train).all (fun a => (a.writeTo k).isNone) = true := by
  cases train <;> rfl

/-- The value of an attribute at the cycle steps of a ready call: in quarter 0 its value
after the statements that precede the quarter loop, in each following quarter its value
after the switch that ends the quarter before. -/
theorem Mode.cycle_attrs {D : Type} (m : Mode) (E : Engine D) (train : Bool) (ss : Sim D)
    (hr : m.ready train ss = true) (k : Attr) :
    ∃ ss1, m.run E train ss = Except.ok ss1 ∧
      (cycleEvents ss ss1).map (fun e => e.net.attr k) =
        List.replicate ss.Time.CycPerQtr.toNat
          (setTo (lastWrite k (m.look train ++ m.cfg train ss ++ m.start)) (ss.Net.attr k)) ++
        List.replicate ss.Time.CycPerQtr.toNat
          (setTo (lastWrite k (m.sw train (m.dgwtscale E train ss) 1))
            (setTo (lastWrite k (m.look train ++ m.cfg train ss ++ m.start)) (ss.Net.attr k))) ++
        List.replicate ss.Time.CycPerQtr.toNat
          (setTo (lastWrite k (m.sw train (m.dgwtscale E train ss) 2))
            (setTo (lastWrite k (m.sw train (m.dgwtscale E train ss) 1))
              (setTo (lastWrite k (m.look train ++ m.cfg train ss ++ m.start))
                (ss.Net.attr k)))) ++
        List.replicate ss.Time.CycPerQtr.toNat
          (setTo (lastWrite k (m.sw train (m.dgwtscale E train ss) 3))
            (setTo (lastWrite k (m.sw train (m.dgwtscale E train ss) 2))
              (setTo (lastWrite k (m.sw train (m.dgwtscale E train ss) 1))
                (setTo (lastWrite k (m.look train ++ m.cfg train ss ++ m.start))
                  (ss.Net.attr k))))) := by
  obtain ⟨ss1, hrun, hex, _⟩ := m.run_ok E train ss hr
  refine ⟨ss1, hrun, ?_⟩
  have h1 := (execs_cycleObs hex k k).1
  have h2 := Mode.acts_cycleObs k k m train ss (m.dgwtscale E train ss)
    (obsOf k k ss.Net ss.Time) _ _ _ rfl rfl rfl
  have h3 : (cycleEvents ss ss1).map (fun e => e.net.attr k) =
      ((cycleEvents ss ss1).map (Event.obs k k)).map (fun t => t.2.1) := by
    rw [List.map_map]
    rfl
  rw [h3, h1, h2]
  simp only [List.map_append, List.map_replicate, bump, obsRun_attr]
  rfl

/-! ## Calling a procedure twice -/

theorem Mode.ready_frame {D : Type} (m : Mode) (train : Bool) {ss s : Sim D}
    (h : sameFrame ss s) : m.ready train s = m.ready train ss := by
  simp only [Mode.ready, safe_frame _ h]

theorem Mode.acts_frame {D : Type} (m : Mode) (train : Bool) {ss s : Sim D}
    (h : sameFrame ss s) (dg : ℚ) : m.acts train s dg = m.acts train ss dg := by
  unfold Mode.acts alphaActs
  rw [m.cfg_frame train h, viewUpdtOf_frame train h, h.1, h.2.1]

theorem prjnRel_attr (net : Network) (r s : String) :
    net.prjnRel r s = valNum (net.attr (Attr.prjnRel r s)) := by
  simp only [Network.prjnRel, Network.attr, Network.getPrjn]
  cases hL : net.LayerByName r with
  | none => rfl
  | some ly =>
    simp only [Option.some_bind]
    cases hS : ly.SendName s <;> rfl

/-- The value read into `dgwtscale` by a ready call of a procedure that does not assign
the strength before the read is the value of the strength at entry. -/
theorem Mode.dgwtscale_eq {D : Type} (m : Mode) (E : Engine D) (train : Bool) (ss : Sim D)
    (hr : m.ready train ss = true)
    (hw : lastWrite relDg (m.look train ++ m.cfg train ss) = none) :
    m.dgwtscale E train ss = valNum (ss.Net.attr relDg) := by
  obtain ⟨_, ssc, _, hc, _⟩ := m.run_runs E train ss hr
  unfold Mode.dgwtscale dgRead
  rw [hc]
  simp only
  rw [prjnRel_attr]
  show valNum (ssc.Net.attr relDg) = _
  rw [execs_attr hc, hw]
  rfl

theorem lastWrite_acts_post {D : Type} (m : Mode) (train : Bool) (ss : Sim D) (dg : ℚ)
    (k : Attr) (v : Val) (h : lastWrite k (m.post train dg) = some v) :
    lastWrite k (m.acts train ss dg) = some v := by
  rw [Mode.acts_eq_toLoopEnd, lastWrite_append, lastWrite_append,
    lastWrite_none_of_all k (alphaEndActs_all _ (loopActs_noWrite k) _ _ _), h]

/-- A second call of `AlphaCycHip` or `AlphaCycSleep` reads the same `dgwtscale`. -/
theorem Mode.dgwtscale_again {D : Type} (m : Mode) (hm : m = Mode.Hip ∨ m = Mode.Sleep)
    (E : Engine D) (train : Bool) (ss s1 : Sim D) (hr : m.ready train ss = true)
    (h1 : execs E train (m.acts train ss (m.dgwtscale E train ss)) ss = Except.ok s1) :
    m.dgwtscale E train s1 = m.dgwtscale E train ss := by
  have hf := (execs_frame h1).2
  have hr1 : m.ready train s1 = true := by rw [m.ready_frame train hf]; exact hr
  have hw : ∀ s : Sim D, lastWrite relDg (m.look train ++ m.cfg train s) = none := by
    intro s
    rcases hm with rfl | rfl <;> cases train <;> rfl
  have hp : ∀ dg : ℚ, lastWrite relDg (m.post train dg) = some (Val.num dg) := by
    intro dg
    rcases hm with rfl | rfl <;> cases train <;> rfl
  have hex : ∃ pj, ss.Net.getPrjn "CA3" "DG" = some pj := by
    have h2 := (Bool.and_eq_true_iff.mp hr).1
    have hc : m.lookups.contains (Act.SendName "CA3" "DG" none) = true := by
      rcases hm with rfl | rfl <;> rfl
    exact getPrjn_of_hasPrjn ss.Net "CA3" "DG" none
      (List.all_eq_true.mp h2 _ (List.mem_of_elem_eq_true hc))
  obtain ⟨pj, hpj⟩ := hex
  rw [m.dgwtscale_eq E train s1 hr1 (hw s1), execs_attr h1,
    lastWrite_acts_post m train ss _ relDg _ (hp _)]
  generalize m.dgwtscale E train ss = dg
  simp [relDg, Network.attr, hpj, setTo, valNum]

/-- Only `AlphaCycHip` and `AlphaCycSleep` use the value of `dgwtscale`. -/
theorem Mode.acts_dg {D : Type} (m : Mode) (hm : ¬(m = Mode.Hip ∨ m = Mode.Sleep))
    (train : Bool) (ss : Sim D) (dg dg1 : ℚ) : m.acts train ss dg = m.acts train ss dg1 := by
  cases m with
  | Hip => exact absurd (Or.inl rfl) hm
  | Sleep => exact absurd (Or.inr rfl) hm
  | _ => rfl

/-- The statements of a second call are those of the first. -/
theorem Mode.acts_again {D : Type} (m : Mode) (E : Engine D) (train : Bool) (ss s1 : Sim D)
    (hr : m.ready train ss = true)
    (h1 : execs E train (m.acts train ss (m.dgwtscale E train ss)) ss = Except.ok s1) :
    m.acts train s1 (m.dgwtscale E train s1) = m.acts train ss (m.dgwtscale E train ss) := by
  rw [m.acts_frame train (execs_frame h1).2]
  by_cases hm : m = Mode.Hip ∨ m = Mode.Sleep
  · rw [m.dgwtscale_again hm E train ss s1 hr h1]
  · exact m.acts_dg hm train ss _ _

/-- C19: for each of the seven procedures and each value of `train`, a ready call returns
in a state from which a second call returns, and every attribute seen through the lookups
by name (layer types and `Off` flags, projection `Off`, `Learn`, relative and absolute
strengths) has after the second call the value it had after the first. -/
theorem alphaCyc_idempotent {D : Type} (m : Mode) (E : Engine D) (train : Bool) (ss : Sim D)
    (hr : m.ready train ss = true) :
    ∃ s1 s2, m.run E train ss = Except.ok s1 ∧ m.run E train s1 = Except.ok s2 ∧
      ∀ k, s2.Net.attr k = s1.Net.attr k := by
  obtain ⟨s1, hrun1, hex1, hran1⟩ := m.run_ok E train ss hr
  have hr1 : m.ready train s1 = true := by rw [m.ready_frame train hran1.2]; exact hr
  obtain ⟨s2, hrun2, hex2, _⟩ := m.run_ok E train s1 hr1
  refine ⟨s1, s2, hrun1, hrun2, ?_⟩
  intro k
  rw [execs_attr hex2, m.acts_again E train ss s1 hr hex1, execs_attr hex1, setTo_setTo]

/-- C19 (witness): two training trials of `AlphaCycSleep` on the configured network. -/
theorem alphaCyc_idempotent_witness :
    Mode.Sleep.ready true trialSim = true ∧
      ∃ s1 s2, Mode.Sleep.run patEngine true trialSim = Except.ok s1 ∧
        Mode.Sleep.run patEngine true s1 = Except.ok s2 ∧ ∀ k, s2.Net.attr k = s1.Net.attr k :=
  ⟨trialSim_ready _ _, alphaCyc_idempotent Mode.Sleep patEngine true trialSim (trialSim_ready _ _)⟩

/-! ## One procedure after another -/

theorem writeTo_setRel_dg (k : Attr) (hk : k ≠ relDg) (v : ℚ) :
    (Act.SetRel "CA3" "DG" v).writeTo k = none := by
  simp only [Act.writeTo, Act.write]
  rw [if_neg]
  exact fun h => hk h.symm

/-- The value read into `dgwtscale` matters only for the relative strength of the
projection from `DG` to `CA3`. -/
theorem Mode.sw_lastWrite (m : Mode) (train : Bool) (dg dg1 : ℚ) (q : Nat) (k : Attr)
    (hk : k ≠ relDg) : lastWrite k (m.sw train dg q) = lastWrite k (m.sw train dg1 q) := by
  cases m with
  | Hip =>
    simp only [Mode.sw, hipSwitch]
    split_ifs <;> first | rfl | simp only [lastWrite, writeTo_setRel_dg k hk]
  | Sleep =>
    simp only [Mode.sw, sleepSwitch]
    split_ifs <;> first | rfl | simp only [lastWrite, writeTo_setRel_dg k hk]
  | _ => rfl

/-- The values of an attribute at the cycle steps of a procedure are the same from two
states with the same names, as soon as they are the same after the statements that precede
the quarter loop. -/
theorem Mode.cycle_attrs_agree {D : Type} (m : Mode) (E : Engine D) (train : Bool)
    (ss sp : Sim D) (hr : m.ready train ss = true) (hf : sameFrame ss sp) (k : Attr)
    (hk : k ≠ relDg)
    (h0 : setTo (lastWrite k (m.look train ++ m.cfg train ss ++ m.start)) (sp.Net.attr k) =
      setTo (lastWrite k (m.look train ++ m.cfg train ss ++ m.start)) (ss.Net.attr k)) :
    ∃ s1 s2, m.run E train ss = Except.ok s1 ∧ m.run E train sp = Except.ok s2 ∧
      (cycleEvents sp s2).map (fun e => e.net.attr k) =
        (cycleEvents ss s1).map (fun e => e.net.attr k) := by
  have hrp : m.ready train sp = true := by rw [m.ready_frame train hf]; exact hr
  obtain ⟨s1, h1, e1⟩ := m.cycle_attrs E train ss hr k
  obtain ⟨s2, h2, e2⟩ := m.cycle_attrs E train sp hrp k
  refine ⟨s1, s2, h1, h2, ?_⟩
  rw [e1, e2, m.cfg_frame train hf, hf.2.1, h0,
    m.sw_lastWrite train (m.dgwtscale E train sp) (m.dgwtscale E train ss) 1 k hk,
    m.sw_lastWrite train (m.dgwtscale E train sp) (m.dgwtscale E train ss) 2 k hk,
    m.sw_lastWrite train (m.dgwtscale E train sp) (m.dgwtscale E train ss) 3 k hk]

theorem writeTo_some_iff (k : Attr) (a : Act) (v : Val) :
    a.writeTo k = some v ↔ a.write = some (k, v) := by
  unfold Act.writeTo
  cases h : a.write with
  | none => simp
  | some kv =>
    obtain ⟨k1, v1⟩ := kv
    by_cases hk : k1 = k
    · subst hk
      simp
    · simp [hk]

theorem writeTo_none_of_noFlag (k : Attr) (hk : k.isFlag = true) {a : Act}
    (h : a.noFlag = true) : a.writeTo k = none := by
  cases hw : a.writeTo k with
  | none => rfl
  | some v =>
    rw [writeTo_some_iff] at hw
    simp [Act.noFlag, hw, hk] at h

theorem all_writeTo_none_of_noFlag (k : Attr) (hk : k.isFlag = true) {l : List Act}
    (h : l.all Act.noFlag = true) : l.all (fun a => (a.writeTo k).isNone) = true := by
  rw [List.all_eq_true] at h ⊢
  intro a ha
  rw [writeTo_none_of_noFlag k hk (h a ha)]
  rfl

theorem Mode.sw_noFlag (m : Mode) (train : Bool) (dg : ℚ) (q : Nat) :
    (m.sw train dg q).all Act.noFlag = true := by
  cases m <;> cases train <;>
    simp only [Mode.sw, hipSwitch, sleepSwitch, daydreamSwitch, pureRetSwitch, fullSwitch,
      sleepClamp] <;>
    first | rfl | (split_ifs <;> rfl)

theorem Mode.post_noFlag (m : Mode) (train : Bool) (dg : ℚ) :
    (m.post train dg).all Act.noFlag = true := by
  cases m <;> cases train <;> rfl

/-- The last value assigned to a flag by a call is assigned before the quarter loop. -/
theorem Mode.lastWrite_flag {D : Type} (m : Mode) (train : Bool) (ss : Sim D) (dg : ℚ)
    (k : Attr) (hk : k.isFlag = true) :
    lastWrite k (m.acts train ss dg) =
      lastWrite k (m.look train ++ m.cfg train ss ++ m.start) := by
  have hloop : lastWrite k (qtrLoopActs train ss.ViewOn (viewUpdtOf train ss)
      ss.Time.CycPerQtr (m.sw train dg)) = none :=
    lastWrite_none_of_all k (qtrLoopActs_all _ (loopActs_noWrite k) _ _ _ _ _
      (fun q => all_writeTo_none_of_noFlag k hk (m.sw_noFlag train dg q)))
  rw [Mode.acts_eq_toLoopEnd, lastWrite_append, lastWrite_append,
    lastWrite_none_of_all k (alphaEndActs_all _ (loopActs_noWrite k) _ _ _),
    lastWrite_none_of_all k (all_writeTo_none_of_noFlag k hk (m.post_noFlag train dg))]
  simp only [Mode.toLoopEnd]
  rw [lastWrite_append, hloop]

/-- C18 (counterexample): on the configured network, at every cycle step of a test trial
of `AlphaCycSem` the projection from `ECout` to `Output` is on (`Off` is false); after a
training trial of `AlphaCycSleep`, at every cycle step of the same test trial of
`AlphaCycSem` it is off (`Off` is true). -/
theorem mode_isolation_counterexample :
    ∃ sA sB sAB, Mode.Sleep.run patEngine true trialSim = Except.ok sA ∧
      Mode.Sem.run patEngine false trialSim = Except.ok sB ∧
      Mode.Sem.run patEngine false sA = Except.ok sAB ∧
      (cycleEvents trialSim sB).map (fun e => e.net.attr offOutput) =
        List.replicate 25 (some (Val.flag false)) ++ List.replicate 25 (some (Val.flag false)) ++
        List.replicate 25 (some (Val.flag false)) ++ List.replicate 25 (some (Val.flag false)) ∧
      (cycleEvents sA sAB).map (fun e => e.net.attr offOutput) =
        List.replicate 25 (some (Val.flag true)) ++ List.replicate 25 (some (Val.flag true)) ++
        List.replicate 25 (some (Val.flag true)) ++ List.replicate 25 (some (Val.flag true)) := by
  obtain ⟨sA, hA, hexA, hranA⟩ := Mode.Sleep.run_ok patEngine true trialSim (trialSim_ready _ _)
  have hf := hranA.2
  have hrA : Mode.Sem.ready false sA = true := by
    rw [Mode.Sem.ready_frame false hf]
    exact trialSim_ready _ _
  obtain ⟨sB, hB, eB⟩ := Mode.Sem.cycle_attrs patEngine false trialSim (trialSim_ready _ _)
    offOutput
  obtain ⟨sAB, hAB, eAB⟩ := Mode.Sem.cycle_attrs patEngine false sA hrA offOutput
  have hA0 : sA.Net.attr offOutput = some (Val.flag true) := by
    rw [execs_attr hexA, Mode.Sleep.lastWrite_flag true trialSim _ offOutput rfl]
    rfl
  have hw : ∀ s : Sim Pat,
      lastWrite offOutput (Mode.Sem.look false ++ Mode.Sem.cfg false s ++ Mode.Sem.start) =
        none := fun _ => rfl
  have hs : ∀ (dg : ℚ) (q : Nat), lastWrite offOutput (Mode.Sem.sw false dg q) = none :=
    fun _ _ => rfl
  refine ⟨sA, sB, sAB, hA, hB, hAB, ?_, ?_⟩
  · rw [eB, hw, hs, hs, hs]
    rfl
  · rw [eAB, hw, hs, hs, hs, hA0, hf.2.1]
    rfl

/-- C18 (amended): for every ordered pair of procedures `(A, B)`, all values of the two
`train` flags and every state in which both are ready, the three calls (`A`, `B`, and `B`
after `A`) return, and every attribute that `B` assigns before its quarter loop, other than
the relative strength of the projection from `DG` to `CA3`, has at every cycle step of `B`
the same value whether or not the trial of `A` was run before. -/
theorem mode_isolation {D : Type} (A B : Mode) (E : Engine D) (trA trB : Bool) (ss : Sim D)
    (hA : A.ready trA ss = true) (hB : B.ready trB ss = true) :
    ∃ sA sB sAB, A.run E trA ss = Except.ok sA ∧ B.run E trB ss = Except.ok sB ∧
      B.run E trB sA = Except.ok sAB ∧
      ∀ k, k ≠ relDg →
        (lastWrite k (B.look trB ++ B.cfg trB ss ++ B.start)).isSome = true →
        (cycleEvents sA sAB).map (fun e => e.net.attr k) =
          (cycleEvents ss sB).map (fun e => e.net.attr k) := by
  obtain ⟨sA, hrunA, hexA, hranA⟩ := A.run_ok E trA ss hA
  have hf := hranA.2
  have hBA : B.ready trB sA = true := by rw [B.ready_frame trB hf]; exact hB
  obtain ⟨sB, hrunB, _, _⟩ := B.run_ok E trB ss hB
  obtain ⟨sAB, hrunAB, _, _⟩ := B.run_ok E trB sA hBA
  refine ⟨sA, sB, sAB, hrunA, hrunB, hrunAB, ?_⟩
  intro k hk hw
  obtain ⟨v, hv⟩ := Option.isSome_iff_exists.mp hw
  obtain ⟨s1, s2, h1, h2, he⟩ := B.cycle_attrs_agree E trB ss sA hB hf k hk (by
    rw [hv, execs_attr hexA, setTo_some_setTo])
  rw [hrunB] at h1
  rw [hrunAB] at h2
  cases h1
  cases h2
  exact he

/-- C18 (witness): a test trial of `AlphaCycHip` after a training trial of `AlphaCycSleep`
on the configured network: the `Off` flag of the projection from `ECout` to `Output`, which
`AlphaCycHip` assigns, is the same at its cycle steps. -/
theorem mode_isolation_witness :
    Mode.Sleep.ready true trialSim = true ∧ Mode.Hip.ready false trialSim = true ∧
      ∃ sA sB sAB, Mode.Sleep.run patEngine true trialSim = Except.ok sA ∧
        Mode.Hip.run patEngine false trialSim = Except.ok sB ∧
        Mode.Hip.run patEngine false sA = Except.ok sAB ∧
        (cycleEvents sA sAB).map (fun e => e.net.attr offOutput) =
          (cycleEvents trialSim sB).map (fun e => e.net.attr offOutput) :=
  ⟨trialSim_ready _ _, trialSim_ready _ _, by
    obtain ⟨sA, sB, sAB, h1, h2, h3, h4⟩ := mode_isolation Mode.Sleep Mode.Hip patEngine true
      false trialSim (trialSim_ready _ _) (trialSim_ready _ _)
    exact ⟨sA, sB, sAB, h1, h2, h3, h4 offOutput (by decide) (by rfl)⟩⟩

/-- Every off or learn flag that a statement of `AlphaCycCor` assigns is assigned by
`AlphaCycHip` before its quarter loop. -/
theorem cor_flags_within {D : Type} (trC trH : Bool) (ss : Sim D) (dg : ℚ) :
    (Mode.Cor.acts trC ss dg).all
      (Act.flagsWithin (Mode.Hip.look trH ++ Mode.Hip.cfg trH ss ++ Mode.Hip.start)) = true := by
  apply Mode.acts_all _ (by rfl)
  · rfl
  · cases trH <;> rfl
  · rfl
  · intro q
    rfl
  · cases trC <;> rfl

/-- C17: for every state in which `AlphaCycCor` and `AlphaCycHip` are ready and every
combination of the two `train` flags, the three calls (`AlphaCycCor`, `AlphaCycHip`, and
`AlphaCycHip` after `AlphaCycCor`) return; every layer `Off` flag and projection `Off` or
`Learn` flag has at every cycle step of `AlphaCycHip` the same value whether or not
`AlphaCycCor` was run before; and every such flag that a statement of `AlphaCycCor` assigns
is assigned by `AlphaCycHip` before its quarter loop. -/
theorem cor_then_hip {D : Type} (E : Engine D) (trC trH : Bool) (ss : Sim D)
    (hC : Mode.Cor.ready trC ss = true) (hH : Mode.Hip.ready trH ss = true) :
    ∃ sC sH sCH, AlphaCycCor E trC ss = Except.ok sC ∧ AlphaCycHip E trH ss = Except.ok sH ∧
      AlphaCycHip E trH sC = Except.ok sCH ∧
      (∀ k, k.isFlag = true →
        (cycleEvents sC sCH).map (fun e => e.net.attr k) =
          (cycleEvents ss sH).map (fun e => e.net.attr k)) ∧
      ∀ a k v, a ∈ newActs ss sC → a.write = some (k, v) → k.isFlag = true →
        (lastWrite k (Mode.Hip.look trH ++ Mode.Hip.cfg trH ss ++ Mode.Hip.start)).isSome =
          true := by
  obtain ⟨sC, hrunC, hexC, hranC⟩ := Mode.Cor.run_ok E trC ss hC
  have hf := hranC.2
  have hHC : Mode.Hip.ready trH sC = true := by rw [Mode.Hip.ready_frame trH hf]; exact hH
  obtain ⟨sH, hrunH, _, _⟩ := Mode.Hip.run_ok E trH ss hH
  obtain ⟨sCH, hrunCH, _, _⟩ := Mode.Hip.run_ok E trH sC hHC
  have hwithin : ∀ a k v, a ∈ Mode.Cor.acts trC ss (Mode.Cor.dgwtscale E trC ss) →
      a.write = some (k, v) → k.isFlag = true →
      (lastWrite k (Mode.Hip.look trH ++ Mode.Hip.cfg trH ss ++ Mode.Hip.start)).isSome =
        true := by
    intro a k v ha hw hk
    have h := List.all_eq_true.mp (cor_flags_within trC trH ss _) a ha
    simpa [Act.flagsWithin, hw, hk] using h
  refine ⟨sC, sH, sCH, hrunC, hrunH, hrunCH, ?_, ?_⟩
  · intro k hk
    have hne : k ≠ relDg := by
      intro he
      subst he
      cases hk
    obtain ⟨s1, s2, h1, h2, he⟩ := Mode.Hip.cycle_attrs_agree E trH ss sC hH hf k hne (by
      rw [execs_attr hexC]
      cases hA : lastWrite k (Mode.Hip.look trH ++ Mode.Hip.cfg trH ss ++ Mode.Hip.start) with
      | some v => rw [setTo_some_setTo]
      | none =>
        cases hW : lastWrite k (Mode.Cor.acts trC ss (Mode.Cor.dgwtscale E trC ss)) with
        | none => rfl
        | some w =>
          obtain ⟨a, ha, haw⟩ := lastWrite_some_mem k hW
          have := hwithin a k w ha ((writeTo_some_iff k a w).mp haw) hk
          rw [hA] at this
          cases this)
    have e1 : Mode.Hip.run E trH ss = Except.ok sH := hrunH
    have e2 : Mode.Hip.run E trH sC = Except.ok sCH := hrunCH
    rw [e1] at h1
    rw [e2] at h2
    cases h1
    cases h2
    exact he
  · intro a k v ha
    rw [Ran_newActs hranC] at ha
    exact hwithin a k v ha

/-- C17 (witness): a training trial of `AlphaCycCor` and a test trial of `AlphaCycHip` on
the configured network. -/
theorem cor_then_hip_witness :
    Mode.Cor.ready true trialSim = true ∧ Mode.Hip.ready false trialSim = true ∧
      ∃ sC sH sCH, AlphaCycCor patEngine true trialSim = Except.ok sC ∧
        AlphaCycHip patEngine false trialSim = Except.ok sH ∧
        AlphaCycHip patEngine false sC = Except.ok sCH ∧
        ∀ k, k.isFlag = true →
          (cycleEvents sC sCH).map (fun e => e.net.attr k) =
            (cycleEvents trialSim sH).map (fun e => e.net.attr k) :=
  ⟨trialSim_ready _ _, trialSim_ready _ _, by
    obtain ⟨sC, sH, sCH, h1, h2, h3, h4, _⟩ :=
      cor_then_hip patEngine true false trialSim (trialSim_ready _ _) (trialSim_ready _ _)
    exact ⟨sC, sH, sCH, h1, h2, h3, h4⟩⟩

/-! ## The relative strength of the projection from `DG` to `CA3` -/

/-- C29: a ready call of `AlphaCycHip` or `AlphaCycSleep` returns, for both values of
`train`; the relative strength of the projection from `DG` to `CA3` has on return the value
`x` it had on entry; at the cycle steps of quarter 0 it is 0, and at the cycle steps of
quarters 1, 2 and 3 it is `x` when training and 1 when testing. -/
theorem dg_strength_preserved {D : Type} (m : Mode) (hm : m = Mode.Hip ∨ m = Mode.Sleep)
    (E : Engine D) (train : Bool) (ss : Sim D) (hr : m.ready train ss = true) :
    ∃ ss1 x, m.run E train ss = Except.ok ss1 ∧
      ss.Net.attr relDg = some (Val.num x) ∧ ss1.Net.attr relDg = some (Val.num x) ∧
      ss1.Net.prjnRel "CA3" "DG" = ss.Net.prjnRel "CA3" "DG" ∧
      (cycleEvents ss ss1).map (fun e => e.net.attr relDg) =
        List.replicate ss.Time.CycPerQtr.toNat (some (Val.num 0)) ++
        List.replicate ss.Time.CycPerQtr.toNat (some (Val.num (if train = true then x else 1))) ++
        List.replicate ss.Time.CycPerQtr.toNat (some (Val.num (if train = true then x else 1))) ++
        List.replicate ss.Time.CycPerQtr.toNat
          (some (Val.num (if train = true then x else 1))) := by
  obtain ⟨ss1, hrun, hcyc⟩ := m.cycle_attrs E train ss hr relDg
  obtain ⟨s1, hrun1, hex, _⟩ := m.run_ok E train ss hr
  rw [hrun] at hrun1
  cases hrun1
  have hw : lastWrite relDg (m.look train ++ m.cfg train ss) = none := by
    rcases hm with rfl | rfl <;> cases train <;> rfl
  have hp : ∀ dg : ℚ, lastWrite relDg (m.post train dg) = some (Val.num dg) := by
    intro dg
    rcases hm with rfl | rfl <;> cases train <;> rfl
  have h0 : lastWrite relDg (m.look train ++ m.cfg train ss ++ m.start) =
      some (Val.num 0) := by
    rcases hm with rfl | rfl <;> cases train <;> rfl
  have hs1 : ∀ dg : ℚ, lastWrite relDg (m.sw train dg 1) =
      some (Val.num (if train = true then dg else 1)) := by
    intro dg
    rcases hm with rfl | rfl <;> cases train <;> rfl
  have hs2 : ∀ dg : ℚ, lastWrite relDg (m.sw train dg 2) = none := by
    intro dg
    rcases hm with rfl | rfl <;> cases train <;> rfl
  have hs3 : ∀ dg : ℚ, lastWrite relDg (m.sw train dg 3) = none := by
    intro dg
    rcases hm with rfl | rfl <;> cases train <;> rfl
  have hpj : ∃ pj, ss.Net.getPrjn "CA3" "DG" = some pj := by
    have h2 := (Bool.and_eq_true_iff.mp hr).1
    have hc : m.lookups.contains (Act.SendName "CA3" "DG" none) = true := by
      rcases hm with rfl | rfl <;> rfl
    exact getPrjn_of_hasPrjn ss.Net "CA3" "DG" none
      (List.all_eq_true.mp h2 _ (List.mem_of_elem_eq_true hc))
  obtain ⟨pj, hpj⟩ := hpj
  have hx : ss.Net.attr relDg = some (Val.num pj.Rel) := by
    simp [relDg, Network.attr, hpj]
  have hdg : m.dgwtscale E train ss = pj.Rel := by
    rw [m.dgwtscale_eq E train ss hr hw, hx]
    rfl
  have hend : ss1.Net.attr relDg = some (Val.num pj.Rel) := by
    rw [execs_attr hex, lastWrite_acts_post m train ss _ relDg _ (hp _), hdg, hx]
    rfl
  refine ⟨ss1, pj.Rel, hrun, hx, hend, ?_, ?_⟩
  · rw [prjnRel_attr, prjnRel_attr]
    exact congrArg valNum (hend.trans hx.symm)
  · rw [hcyc, h0, hs1, hs2, hs3, hdg, hx]
    rfl

/-- C29 (witness): a test trial of `AlphaCycSleep` on the configured network. -/
theorem dg_strength_preserved_witness :
    Mode.Sleep.ready false trialSim = true ∧
      ∃ ss1 x, Mode.Sleep.run patEngine false trialSim = Except.ok ss1 ∧
        trialSim.Net.attr relDg = some (Val.num x) ∧ ss1.Net.attr relDg = some (Val.num x) ∧
        (cycleEvents trialSim ss1).map (fun e => e.net.attr relDg) =
          List.replicate 25 (some (Val.num 0)) ++ List.replicate 25 (some (Val.num 1)) ++
          List.replicate 25 (some (Val.num 1)) ++ List.replicate 25 (some (Val.num 1)) :=
  ⟨trialSim_ready _ _, by
    obtain ⟨ss1, x, h1, h2, h3, _, h5⟩ :=
      dg_strength_preserved Mode.Sleep (Or.inr rfl) patEngine false trialSim (trialSim_ready _ _)
    exact ⟨ss1, x, h1, h2, h3, h5⟩⟩

/-! ## The two clamps of `AlphaCycSleep` and `AlphaCycDaydream` -/

theorem sleep_noClamp {D : Type} (m : Mode) (hm : m = Mode.Sleep ∨ m = Mode.Daydream)
    (train : Bool) (ss : Sim D) (dg : ℚ) :
    (m.look train).all (fun a => !a.isClamp) = true ∧
      (m.cfg train ss).all (fun a => !a.isClamp) = true ∧
      m.start.all (fun a => !a.isClamp) = true ∧
      (m.sw train dg 1).all (fun a => !a.isClamp) = true ∧
      (m.sw train dg 2).all (fun a => !a.isClamp) = true ∧
      (m.sw train dg 4).all (fun a => !a.isClamp) = true ∧
      (m.post train dg).all (fun a => !a.isClamp) = true := by
  rcases hm with rfl | rfl <;> cases train <;>
    exact ⟨by rfl, by rfl, by rfl, by rfl, by rfl, by rfl, by rfl⟩

/-- The states between four statements that run to their end. -/
theorem execs_four {D : Type} {E : Engine D} {train : Bool} {a b c d : Act} {s0 s4 : Sim D}
    (h : execs E train [a, b, c, d] s0 = Except.ok s4) :
    ∃ s1 s2 s3, exec E train a s0 = Except.ok s1 ∧ exec E train b s1 = Except.ok s2 ∧
      exec E train c s2 = Except.ok s3 ∧ exec E train d s3 = Except.ok s4 := by
  obtain ⟨s1, h1, r1⟩ := execs_split (show execs E train ([a] ++ [b, c, d]) s0 = _ from h)
  obtain ⟨s2, h2, r2⟩ := execs_split (show execs E train ([b] ++ [c, d]) s1 = _ from r1)
  obtain ⟨s3, h3, r3⟩ := execs_split (show execs E train ([c] ++ [d]) s2 = _ from r2)
  rw [execs_single] at h1 h2 h3 r3
  exact ⟨s1, s2, s3, h1, h2, h3, r3⟩

/-- C26: a ready call of `AlphaCycSleep` or `AlphaCycDaydream` returns.  Its history is
`pre`, then the events `cl`, then `post`; `pre` has the cycle steps of three quarters and
two `QuarterFinal`, `post` starts with the third `QuarterFinal`, and neither contains an
`ApplyExt1D32`.  With `train = true`, `cl` is four events: a read of the `Act` values of
`ECout` into `TmpVals`; an `ApplyExt1D32` on `Output` of the vector read, applied to the
engine state of the read; a read of the `Act` values of `ECin` in the engine state that the
first clamp left; an `ApplyExt1D32` on `ECout` of that second vector.  With `train = false`,
`cl` is empty. -/
theorem sleep_clamp {D : Type} (m : Mode) (hm : m = Mode.Sleep ∨ m = Mode.Daydream)
    (E : Engine D) (train : Bool) (ss : Sim D) (hr : m.ready train ss = true) :
    ∃ ss1 pre cl post, m.run E train ss = Except.ok ss1 ∧
      ss1.trace = ss.trace ++ (pre ++ cl ++ post) ∧
      (if train = true then
        ∃ rd1 wr1 rd2 wr2, cl = [rd1, wr1, rd2, wr2] ∧
          rd1.act = Act.UnitVals "ECout" "Act" ∧ rd1.tmp = E.UnitVals rd1.dyn "ECout" "Act" ∧
          wr1.act = Act.ApplyExt1D32 "Output" ∧
          wr1.dyn = E.ApplyExt1D32 wr1.net "Output" rd1.tmp rd1.dyn ∧
          rd2.act = Act.UnitVals "ECin" "Act" ∧ rd2.dyn = wr1.dyn ∧
          rd2.tmp = E.UnitVals wr1.dyn "ECin" "Act" ∧
          wr2.act = Act.ApplyExt1D32 "ECout" ∧
          wr2.dyn = E.ApplyExt1D32 wr2.net "ECout" rd2.tmp rd2.dyn
       else cl = []) ∧
      (∀ e, e ∈ pre ++ post → e.act.isClamp = false) ∧
      (pre.map (fun e => e.act)).count Act.Cycle = 3 * ss.Time.CycPerQtr.toNat ∧
      (pre.map (fun e => e.act)).count Act.QuarterFinal = 2 ∧
      (post.map (fun e => e.act)).head? = some Act.QuarterFinal := by
  obtain ⟨ss1, hrun, hex, _⟩ := m.run_ok E train ss hr
  obtain ⟨P, Q, hacts, hc, hq, hhead, hall⟩ := m.acts_split3 train ss
    (m.dgwtscale E train ss)
    [Act.SetAbs "CA1" "ECin" 1, Act.SetAbs "CA1" "CA3" 0, Act.GScaleFmAvgAct, Act.InitGInc]
    (sleepClamp train)
    (by rcases hm with rfl | rfl <;> cases train <;> rfl)
  obtain ⟨n1, n2, n3, n4, n5, n6, n7⟩ := sleep_noClamp m hm train ss (m.dgwtscale E train ss)
  obtain ⟨hPall, hQall⟩ := hall (fun a => !a.isClamp) (by rfl) n1 n2 n3 n4 n5 (by rfl) n6 n7
  rw [hacts] at hex
  obtain ⟨s2, hPc, hQ⟩ := execs_split hex
  obtain ⟨s0, hP, hW⟩ := execs_split hPc
  obtain ⟨⟨extP, tP, mP⟩, _⟩ := execs_frame hP
  obtain ⟨⟨extQ, tQ, mQ⟩, _⟩ := execs_frame hQ
  obtain ⟨⟨extW, tW, mW⟩, _⟩ := execs_frame hW
  refine ⟨ss1, extP, extW, extQ, hrun, ?_, ?_, ?_, ?_, ?_, ?_⟩
  · rw [tQ, tW, tP]
    simp only [List.append_assoc]
  · cases train with
    | false =>
      simp only [Bool.false_eq_true, if_false]
      have : extW.map (fun e => e.act) = [] := mW
      exact List.map_eq_nil_iff.mp this
    | true =>
      simp only [if_true]
      obtain ⟨a1, a2, a3, e1, e2, e3, e4⟩ := execs_four
        (show execs E true [Act.UnitVals "ECout" "Act", Act.ApplyExt1D32 "Output",
          Act.UnitVals "ECin" "Act", Act.ApplyExt1D32 "ECout"] s0 = Except.ok s2 from hW)
      have t1 := exec_event e1
      have t2 := exec_event e2
      have t3 := exec_event e3
      have t4 := exec_event e4
      obtain ⟨u1, u2, _⟩ := exec_unitVals e1
      obtain ⟨v1, v2⟩ := exec_applyExt e2
      obtain ⟨u3, u4, _⟩ := exec_unitVals e3
      obtain ⟨v3, v4⟩ := exec_applyExt e4
      rw [t3, t2, t1, tW] at t4
      simp only [List.append_assoc, List.singleton_append] at t4
      have hext := List.append_cancel_left t4
      refine ⟨_, _, _, _, hext, rfl, ?_, rfl, ?_, rfl, ?_, ?_, rfl, ?_⟩
      · show a1.TmpVals = E.UnitVals a1.Dyn "ECout" "Act"
        rw [u1, u2]
      · show a2.Dyn = E.ApplyExt1D32 a2.Net "Output" a1.TmpVals a1.Dyn
        rw [v1, v2]
      · exact u4
      · exact u3
      · show s2.Dyn = E.ApplyExt1D32 s2.Net "ECout" a3.TmpVals a3.Dyn
        rw [v3, v4]
  · intro e he
    have hmem : e.act ∈ P ++ Q := by
      rw [← mP, ← mQ, ← List.map_append]
      exact List.mem_map_of_mem _ he
    have hPQ : (P ++ Q).all (fun a => !a.isClamp) = true := by
      rw [List.all_append, hPall, hQall]
      rfl
    simpa using List.all_eq_true.mp hPQ _ hmem
  · rw [mP]
    exact hc
  · rw [mP]
    exact hq
  · rw [mQ]
    exact hhead

/-- C26 (witness): a training trial of `AlphaCycSleep` on the configured network. -/
theorem sleep_clamp_witness :
    Mode.Sleep.ready true trialSim = true ∧
      ∃ ss1 pre rd1 wr1 rd2 wr2 post, Mode.Sleep.run patEngine true trialSim = Except.ok ss1 ∧
        ss1.trace = trialSim.trace ++ (pre ++ [rd1, wr1, rd2, wr2] ++ post) ∧
        rd1.act = Act.UnitVals "ECout" "Act" ∧ wr1.act = Act.ApplyExt1D32 "Output" ∧
        wr1.dyn = patEngine.ApplyExt1D32 wr1.net "Output" rd1.tmp rd1.dyn ∧
        rd2.act = Act.UnitVals "ECin" "Act" ∧ wr2.act = Act.ApplyExt1D32 "ECout" ∧
        wr2.dyn = patEngine.ApplyExt1D32 wr2.net "ECout" rd2.tmp rd2.dyn :=
  ⟨trialSim_ready _ _, by
    obtain ⟨ss1, pre, cl, post, h1, h2, h3, _⟩ :=
      sleep_clamp Mode.Sleep (Or.inl rfl) patEngine true trialSim (trialSim_ready _ _)
    rw [if_pos rfl] at h3
    obtain ⟨rd1, wr1, rd2, wr2, hcl, g1, _, g3, g4, g5, _, _, g8, g9⟩ := h3
    subst hcl
    exact ⟨ss1, pre, rd1, wr1, rd2, wr2, post, h1, h2, g1, g3, g4, g5, g8, g9⟩⟩

/-! ## The gating of `AlphaCycSem` -/

/-- An attribute whose object a successful lookup reaches has a value. -/
theorem attr_isSome_of_reached {D : Type} (ss : Sim D) (k : Attr) (a : Act)
    (hs : a.safe ss = true) (hk : k.reachedBy a = true) : (ss.Net.attr k).isSome = true := by
  cases a with
  | LayerByName l =>
    cases k <;> simp only [Attr.reachedBy, beq_iff_eq, Bool.false_eq_true] at hk
    all_goals subst hk
    all_goals simp only [Act.safe] at hs
    all_goals simp only [Network.attr, Option.isSome_map', hs]
  | SendName r1 s1 kind =>
    cases k <;>
      simp only [Attr.reachedBy, Bool.and_eq_true, beq_iff_eq, Bool.false_eq_true] at hk
    all_goals obtain ⟨h1, h2⟩ := hk
    all_goals subst h1
    all_goals subst h2
    all_goals simp only [Act.safe] at hs
    all_goals obtain ⟨pj, hpj⟩ := getPrjn_of_hasPrjn ss.Net _ _ kind hs
    all_goals simp only [Network.attr, hpj, Option.map_some', Option.isSome_some]
  | _ => cases k <;> simp [Attr.reachedBy] at hk

theorem setTo_some_of_isSome (v : Val) (x : Option Val) (h : x.isSome = true) :
    setTo (some v) x = some v := by
  cases x with
  | none => cases h
  | some y => rfl

theorem filterMap_learnSet_of_noWrite {l : List Act} (h : ∀ a, a ∈ l → a.write = none) :
    l.filterMap Act.learnSet = [] := by
  rw [List.filterMap_eq_nil_iff]
  intro a ha
  have := h a ha
  cases a <;> first | rfl | cases this

/-- C22: a ready call of `AlphaCycSem` returns, for both values of `train`.  At every cycle
step of the call and on return, the layers `CA1`, `CA3`, `DG`, `ECout`, `Cortex` and
`Letter` are off, `Learn` is true for the projections `ECin<-Semantic`, `Semantic<-Input`
and `Semantic<-ECin` and false for eleven others.  The statements of the call are the
lookups, assignments and start of the alpha cycle, followed by `rest`, which contains all
cycle steps and in which no statement assigns an attribute of a layer or of a projection.
The assignments to `Learn` of the call are the three with the value true and the eleven
with the value false. -/
theorem sem_gating {D : Type} (E : Engine D) (train : Bool) (ss : Sim D)
    (hr : Mode.Sem.ready train ss = true) :
    ∃ ss1 rest, AlphaCycSem E train ss = Except.ok ss1 ∧
      (∀ k v, (k, v) ∈ semGatingSpec →
        ss1.Net.attr k = some v ∧ ∀ e, e ∈ cycleEvents ss ss1 → e.net.attr k = some v) ∧
      newActs ss ss1 =
        semLookups ++ semConfig ss.Outecback ++ [Act.AlphaCycInit, Act.AlphaCycStart] ++ rest ∧
      (∀ a, a ∈ rest → a.write = none) ∧
      rest.count Act.Cycle = (newActs ss ss1).count Act.Cycle ∧
      (newActs ss ss1).filterMap Act.learnSet = semLearnSpec := by
  obtain ⟨ss1, hrun, hex, hran⟩ := Mode.Sem.run_ok E train ss hr
  generalize hdg : Mode.Sem.dgwtscale E train ss = dg at hex hran
  have hnew := Ran_newActs hran
  have hq : ∀ (k : Attr) (q : Nat), lastWrite k (Mode.Sem.sw train dg q) = none :=
    fun _ _ => rfl
  have hrest : ∀ a, a ∈ qtrLoopActs train ss.ViewOn (viewUpdtOf train ss) ss.Time.CycPerQtr
      (Mode.Sem.sw train dg) ++ (Mode.Sem.post train dg ++
        alphaEndActs train ss.ViewOn (viewUpdtOf train ss)) → a.write = none := by
    have hp : loopActs.all (fun a => a.write.isNone) = true := by rfl
    have h1 := qtrLoopActs_all (fun a => a.write.isNone) hp train ss.ViewOn
      (viewUpdtOf train ss) ss.Time.CycPerQtr (Mode.Sem.sw train dg) (fun _ => rfl)
    have h2 : (Mode.Sem.post train dg).all (fun a => a.write.isNone) = true := by
      cases train <;> rfl
    have h3 := alphaEndActs_all (fun a => a.write.isNone) hp train ss.ViewOn
      (viewUpdtOf train ss)
    intro a ha
    have hall : (qtrLoopActs train ss.ViewOn (viewUpdtOf train ss) ss.Time.CycPerQtr
        (Mode.Sem.sw train dg) ++ (Mode.Sem.post train dg ++
          alphaEndActs train ss.ViewOn (viewUpdtOf train ss))).all
        (fun a => a.write.isNone) = true := by
      rw [List.all_append, List.all_append, h1, h2, h3]
      rfl
    exact Option.isNone_iff_eq_none.mp (List.all_eq_true.mp hall a ha)
  have hsplit : Mode.Sem.acts train ss dg =
      semLookups ++ semConfig ss.Outecback ++ [Act.AlphaCycInit, Act.AlphaCycStart] ++
        (qtrLoopActs train ss.ViewOn (viewUpdtOf train ss) ss.Time.CycPerQtr
          (Mode.Sem.sw train dg) ++ (Mode.Sem.post train dg ++
            alphaEndActs train ss.ViewOn (viewUpdtOf train ss))) := by
    simp only [Mode.acts, alphaActs, Mode.look, Mode.cfg, Mode.start, List.append_assoc]
  have hlw : ∀ k, lastWrite k (Mode.Sem.acts train ss dg) =
      lastWrite k (semLookups ++ semConfig ss.Outecback ++
        [Act.AlphaCycInit, Act.AlphaCycStart]) := by
    intro k
    rw [hsplit, lastWrite_append, lastWrite_none_of_all k]
    apply List.all_eq_true.mpr
    intro a ha
    rw [writeTo_of_write_none k (hrest a ha)]
    rfl
  have hval : ∀ k v, (k, v) ∈ semGatingSpec →
      lastWrite k (semLookups ++ semConfig ss.Outecback ++
        [Act.AlphaCycInit, Act.AlphaCycStart]) = some v ∧
      semLookups.any (fun a => k.reachedBy a) = true := by
    have hall : semGatingSpec.all (fun kv =>
        decide (lastWrite kv.1 (semLookups ++ semConfig ss.Outecback ++
          [Act.AlphaCycInit, Act.AlphaCycStart]) = some kv.2) &&
        semLookups.any (fun a => kv.1.reachedBy a)) = true := by rfl
    intro k v hkv
    have := List.all_eq_true.mp hall (k, v) hkv
    simpa using this
  have hsome : ∀ k v, (k, v) ∈ semGatingSpec → (ss.Net.attr k).isSome = true := by
    intro k v hkv
    obtain ⟨a, ha, hka⟩ := List.any_eq_true.mp (hval k v hkv).2
    have h2 := (Bool.and_eq_true_iff.mp hr).1
    exact attr_isSome_of_reached ss k a (List.all_eq_true.mp h2 a ha) hka
  refine ⟨ss1, _, hrun, ?_, hnew.trans hsplit, hrest, ?_, ?_⟩
  · intro k v hkv
    constructor
    · rw [execs_attr hex, hlw, (hval k v hkv).1]
      exact setTo_some_of_isSome v _ (hsome k v hkv)
    · intro e he
      obtain ⟨s1, hrun1, hc⟩ := Mode.Sem.cycle_attrs E train ss hr k
      have hh : Except.ok s1 = Except.ok ss1 := hrun1.symm.trans hrun
      cases hh
      rw [hdg, hq, hq, hq] at hc
      have h0 : setTo (lastWrite k (Mode.Sem.look train ++ Mode.Sem.cfg train ss ++
          Mode.Sem.start)) (ss.Net.attr k) = some v := by
        have := (hval k v hkv).1
        simp only [Mode.look, Mode.cfg, Mode.start]
        rw [this]
        exact setTo_some_of_isSome v _ (hsome k v hkv)
      have hn : ∀ x : Option Val, setTo none x = x := fun _ => rfl
      simp only [hn, h0] at hc
      have hm : e.net.attr k ∈ (cycleEvents ss ss1).map (fun e => e.net.attr k) :=
        List.mem_map_of_mem _ he
      rw [hc] at hm
      simp only [List.mem_append, List.mem_replicate] at hm
      rcases hm with ((h | h) | h) | h <;> exact h.2
  · have h0 : (semLookups ++ semConfig ss.Outecback ++
        [Act.AlphaCycInit, Act.AlphaCycStart]).count Act.Cycle = 0 := by rfl
    have hc : ∀ r : List Act, (semLookups ++ semConfig ss.Outecback ++
        [Act.AlphaCycInit, Act.AlphaCycStart] ++ r).count Act.Cycle = r.count Act.Cycle := by
      intro r
      rw [List.count_append, h0, Nat.zero_add]
    rw [hnew, hsplit, hc]
  · rw [hnew, hsplit, List.filterMap_append, filterMap_learnSet_of_noWrite hrest,
      List.append_nil]
    rfl

/-- C22 (witness): a training trial of `AlphaCycSem` on the configured network: `CA1` is
off and the projection from `Semantic` to `ECin` learns at every cycle step. -/
theorem sem_gating_witness :
    Mode.Sem.ready true trialSim = true ∧
      ∃ ss1, AlphaCycSem patEngine true trialSim = Except.ok ss1 ∧
        (∀ e, e ∈ cycleEvents trialSim ss1 →
          e.net.attr (Attr.layOff "CA1") = some (Val.flag true) ∧
          e.net.attr (Attr.prjnLearn "ECin" "Semantic") = some (Val.flag true)) ∧
        (newActs trialSim ss1).filterMap Act.learnSet = semLearnSpec :=
  ⟨trialSim_ready _ _, by
    obtain ⟨ss1, rest, h1, h2, _, _, _, h6⟩ :=
      sem_gating patEngine true trialSim (trialSim_ready _ _)
    exact ⟨ss1, h1, fun e he =>
      ⟨(h2 _ _ (by decide)).2 e he, (h2 _ _ (by decide)).2 e he⟩, h6⟩⟩

/-! ## The score of a test trial without Completion units -/

theorem memFlag_cases (miss fa thr : Flt) :
    memFlag miss fa thr = Flt.fin 0 ∨ memFlag miss fa thr = Flt.fin 1 := by
  unfold memFlag
  split_ifs
  · exact Or.inr rfl
  · exact Or.inl rfl

/-- C27: `MemStats` returns when both layers exist.  When testing a trial without
Completion units, `Mem` keeps the value it had before the call; in every other case `Mem`
is 0 or 1.  In all cases the seven rate fields are overwritten with values computed from
the unit values of the trial: the miss-rates and false-alarm rates over all units and over
the two sub-pool loops, and, without Completion units, the number 0 in `TrgOnWasOffCmp`. -/
theorem MemStats_keeps_Mem {D : Type} (E : Engine D) (train : Bool) (ss : Sim D)
    (ecin out : Layer) (hE : ss.Net.LayerByName "ECin" = some ecin)
    (hO : ss.Net.LayerByName "Output" = some out) :
    ∃ ss1, MemStats E train ss = Except.ok ss1 ∧
      (train = false → nUnits (List.range ecin.Len) (Completion E ss) = 0 →
        ss1.Mem = ss.Mem ∧ ss1.TrgOnWasOffCmp = Flt.fin 0) ∧
      (¬(train = false ∧ nUnits (List.range ecin.Len) (Completion E ss) = 0) →
        ss1.Mem = Flt.fin 0 ∨ ss1.Mem = Flt.fin 1) ∧
      ss1.TrgOnWasOffAll = missRate E ss (List.range ecin.Len) ∧
      ss1.TrgOffWasOn = faRate E ss (List.range ecin.Len) ∧
      ss1.TrgOnWasOffB = missRate E ss poolBIdx ∧ ss1.TrgOffWasOnB = faRate E ss poolBIdx ∧
      ss1.TrgOnWasOffC = missRate E ss poolCIdx ∧ ss1.TrgOffWasOnC = faRate E ss poolCIdx ∧
      ss1.TrgOnWasOffCmp =
        (if train = false ∧ 0 < nUnits (List.range ecin.Len) (Completion E ss) then
          missRateCmp E ss (List.range ecin.Len)
         else Flt.fin (nUnits (List.range ecin.Len)
          (fun ni => Completion E ss ni ∧ recalled E ss ni < half) : ℚ)) := by
  refine ⟨_, MemStats_ok E train ss ecin out hE hO, ?_, ?_, body_TrgOnWasOffAll _ _ _ _,
    body_TrgOffWasOn _ _ _ _, body_TrgOnWasOffB _ _ _ _, body_TrgOffWasOnB _ _ _ _,
    body_TrgOnWasOffC _ _ _ _, body_TrgOffWasOnC _ _ _ _, body_TrgOnWasOffCmp _ _ _ _⟩
  · intro ht h0
    have h1 : nUnits (List.range ecin.Len)
        (fun ni => Completion E ss ni ∧ recalled E ss ni < half) = 0 :=
      nUnits_eq_zero.mpr (fun ni hni hc => nUnits_eq_zero.mp h0 ni hni hc.1)
    constructor
    · rw [body_Mem, ht, h0]
      simp
    · rw [body_TrgOnWasOffCmp, h0, h1]
      simp
  · intro hn
    rw [body_Mem]
    cases train with
    | true =>
      simp only [if_true]
      exact memFlag_cases _ _ _
    | false =>
      have hpos : 0 < nUnits (List.range ecin.Len) (Completion E ss) :=
        Nat.pos_of_ne_zero (fun h => hn ⟨rfl, h⟩)
      simp only [Bool.false_eq_true, if_false, hpos, if_true]
      exact memFlag_cases _ _ _

/-- C27 (witness): a test trial on the configured network with a complete cue and the
previous score 1: the score stays 1. -/
theorem MemStats_keeps_Mem_witness :
    ∃ ss1, MemStats patEngine false
        ({ configSim ⟨altTarget, altTarget, altTarget⟩ (Flt.fin 0) 25 with Mem := Flt.fin 1 }) =
          Except.ok ss1 ∧
      ss1.Mem = Flt.fin 1 := by
  obtain ⟨ss1, h1, h2, _⟩ := MemStats_keeps_Mem patEngine false
    ({ configSim ⟨altTarget, altTarget, altTarget⟩ (Flt.fin 0) 25 with Mem := Flt.fin 1 })
    ecinLayer outputLayer rfl rfl
  refine ⟨ss1, h1, (h2 rfl ?_).1⟩
  rw [nUnits_eq_zero]
  intro ni _ hc
  have h1 := hc
  unfold Completion at h1
  rw [pat_cue, pat_target] at h1
  exact absurd h1.2 (not_lt.mpr h1.1)

/-! ## The indices that `MemStats` reads -/

theorem mem_memStatsReads (nn : Nat) (r : UnitRead) :
    r ∈ memStatsReads nn ↔
      (r.idx < nn ∧ (r = ⟨"Output", "ActM", r.idx⟩ ∨ r = ⟨"ECin", "Targ", r.idx⟩ ∨
        r = ⟨"ECin", "ActQ1", r.idx⟩)) ∨
      (97 ≤ r.idx ∧ r.idx < 196 ∧
        (r = ⟨"Output", "ActM", r.idx⟩ ∨ r = ⟨"ECin", "Targ", r.idx⟩)) := by
  obtain ⟨lay, vr, idx⟩ := r
  simp only [memStatsReads, poolBIdx, poolCIdx, List.mem_append, List.mem_flatMap, mem_upto,
    List.mem_cons, List.mem_singleton, List.not_mem_nil, or_false, UnitRead.mk.injEq]
  constructor
  · rintro ((⟨ni, ⟨_, h⟩, h1⟩ | ⟨ni, ⟨h0, h⟩, h1⟩) | ⟨ni, ⟨h0, h⟩, h1⟩)
    · rcases h1 with ⟨rfl, rfl, rfl⟩ | ⟨rfl, rfl, rfl⟩ | ⟨rfl, rfl, rfl⟩ <;> simp [h]
    · rcases h1 with ⟨rfl, rfl, rfl⟩ | ⟨rfl, rfl, rfl⟩ <;>
        exact Or.inr ⟨by omega, by omega, by simp⟩
    · rcases h1 with ⟨rfl, rfl, rfl⟩ | ⟨rfl, rfl, rfl⟩ <;>
        exact Or.inr ⟨by omega, by omega, by simp⟩
  · rintro (⟨h, h1⟩ | ⟨h0, h, h1⟩)
    · exact Or.inl (Or.inl ⟨idx, ⟨Nat.zero_le _, h⟩, by simpa using h1⟩)
    · by_cases hb : idx < 147
      · exact Or.inl (Or.inr ⟨idx, ⟨by omega, by omega⟩, by simpa using h1⟩)
      · exact Or.inr ⟨idx, ⟨by omega, by omega⟩, by simpa using h1⟩

/-- The counters of the loop over all units depend on the unit values at the indices of
the loop only. -/
theorem memLoop_congr (actm trg inact actm1 trg1 inact1 : Nat → ℚ) (l : List Nat)
    (h : ∀ ni, ni ∈ l → actm ni = actm1 ni ∧ trg ni = trg1 ni ∧ inact ni = inact1 ni) :
    memLoop actm trg inact l = memLoop actm1 trg1 inact1 l := by
  rw [memLoop_eq, memLoop_eq]
  simp only [MemCnt.mk.injEq]
  refine ⟨?_, ?_, ?_, ?_, ?_, ?_⟩ <;>
    · apply List.countP_congr
      intro ni hni
      obtain ⟨h1, h2, h3⟩ := h ni hni
      simp only [h1, h2, h3]

/-- The counters of a sub-pool loop depend on the unit values at the indices of the loop
only. -/
theorem poolLoop_congr (actm trg actm1 trg1 : Nat → ℚ) (l : List Nat)
    (h : ∀ ni, ni ∈ l → actm ni = actm1 ni ∧ trg ni = trg1 ni) :
    poolLoop actm trg l = poolLoop actm1 trg1 l := by
  rw [poolLoop_eq, poolLoop_eq]
  simp only [PoolCnt.mk.injEq]
  refine ⟨?_, ?_, ?_, ?_⟩ <;>
    · apply List.countP_congr
      intro ni hni
      obtain ⟨h1, h2⟩ := h ni hni
      simp only [h1, h2]

/-- The state that `MemStats` leaves depends on the engine only through the unit values
listed in `memStatsReads`. -/
theorem memStatsBody_reads {D : Type} (E E1 : Engine D) (train : Bool) (ss : Sim D) (nn : Nat)
    (h : ∀ r, r ∈ memStatsReads nn →
      E.UnitVal1D ss.Dyn r.lay r.vr r.idx = E1.UnitVal1D ss.Dyn r.lay r.vr r.idx) :
    memStatsBody E train ss nn = memStatsBody E1 train ss nn := by
  have hA : memLoop (E.UnitVal1D ss.Dyn "Output" "ActM") (E.UnitVal1D ss.Dyn "ECin" "Targ")
      (E.UnitVal1D ss.Dyn "ECin" "ActQ1") (upto 0 nn) =
      memLoop (E1.UnitVal1D ss.Dyn "Output" "ActM") (E1.UnitVal1D ss.Dyn "ECin" "Targ")
      (E1.UnitVal1D ss.Dyn "ECin" "ActQ1") (upto 0 nn) := by
    apply memLoop_congr
    intro ni hni
    have hlt := (mem_upto.mp hni).2
    exact ⟨h ⟨"Output", "ActM", ni⟩ ((mem_memStatsReads _ _).mpr (Or.inl ⟨hlt, Or.inl rfl⟩)),
      h ⟨"ECin", "Targ", ni⟩ ((mem_memStatsReads _ _).mpr (Or.inl ⟨hlt, Or.inr (Or.inl rfl)⟩)),
      h ⟨"ECin", "ActQ1", ni⟩ ((mem_memStatsReads _ _).mpr (Or.inl ⟨hlt, Or.inr (Or.inr rfl)⟩))⟩
  have hP : ∀ l : List Nat, (∀ ni, ni ∈ l → 97 ≤ ni ∧ ni < 196) →
      poolLoop (E.UnitVal1D ss.Dyn "Output" "ActM") (E.UnitVal1D ss.Dyn "ECin" "Targ") l =
      poolLoop (E1.UnitVal1D ss.Dyn "Output" "ActM") (E1.UnitVal1D ss.Dyn "ECin" "Targ") l := by
    intro l hl
    apply poolLoop_congr
    intro ni hni
    obtain ⟨h0, h1⟩ := hl ni hni
    exact ⟨h ⟨"Output", "ActM", ni⟩ ((mem_memStatsReads _ _).mpr (Or.inr ⟨h0, h1, Or.inl rfl⟩)),
      h ⟨"ECin", "Targ", ni⟩ ((mem_memStatsReads _ _).mpr (Or.inr ⟨h0, h1, Or.inr rfl⟩))⟩
  have hB := hP poolBIdx (fun ni hni => by
    have := mem_upto.mp hni
    omega)
  have hC := hP poolCIdx (fun ni hni => by
    have := mem_upto.mp hni
    omega)
  simp only [memStatsBody, hA, hB, hC]

/-- C28: when `ECin` and `Output` exist, every index that `MemStats` passes to `UnitVal1D`
(in the loop over all units and in the two sub-pool loops) is below the number of units of
the layer it is read from exactly when both layers have at least 196 units and `Output` has
at least as many units as `ECin`. -/
theorem MemStats_reads_inside {D : Type} (ss : Sim D) (ecin out : Layer)
    (hE : ss.Net.LayerByName "ECin" = some ecin)
    (hO : ss.Net.LayerByName "Output" = some out) :
    (∀ r, r ∈ memStatsReads ecin.Len → r.inside ss.Net = true) ↔
      196 ≤ ecin.Len ∧ 196 ≤ out.Len ∧ ecin.Len ≤ out.Len := by
  have hinE : ∀ vr idx, (UnitRead.mk "ECin" vr idx).inside ss.Net = true ↔ idx < ecin.Len := by
    intro vr idx
    simp [UnitRead.inside, hE]
  have hinO : ∀ vr idx, (UnitRead.mk "Output" vr idx).inside ss.Net = true ↔
      idx < out.Len := by
    intro vr idx
    simp [UnitRead.inside, hO]
  constructor
  · intro h
    have h1 := (hinE _ _).mp (h ⟨"ECin", "Targ", 195⟩
      ((mem_memStatsReads _ _).mpr (Or.inr ⟨by decide, by decide, Or.inr rfl⟩)))
    have h2 := (hinO _ _).mp (h ⟨"Output", "ActM", 195⟩
      ((mem_memStatsReads _ _).mpr (Or.inr ⟨by decide, by decide, Or.inl rfl⟩)))
    have h3 := (hinO _ _).mp (h ⟨"Output", "ActM", ecin.Len - 1⟩
      ((mem_memStatsReads _ _).mpr (Or.inl ⟨by show ecin.Len - 1 < ecin.Len; omega,
        Or.inl rfl⟩)))
    omega
  · rintro ⟨h1, h2, h3⟩ r hr
    rcases (mem_memStatsReads _ _).mp hr with ⟨hlt, hk | hk | hk⟩ | ⟨_, hlt, hk | hk⟩ <;>
      rw [hk] <;> first
      | exact (hinE _ _).mpr (by omega)
      | exact (hinO _ _).mpr (by omega)

/-- C28 (witness): in the configured network `ECin` and `Output` have 3 x 2 x 7 x 7 = 294
units each, and every index that `MemStats` reads is inside its layer. -/
theorem MemStats_reads_inside_witness :
    ecinLayer.Len = 294 ∧ outputLayer.Len = 294 ∧
      ∀ r, r ∈ memStatsReads ecinLayer.Len → r.inside trialSim.Net = true :=
  ⟨rfl, rfl, (MemStats_reads_inside trialSim ecinLayer outputLayer rfl rfl).mpr
    ⟨by decide, by decide, by decide⟩⟩

/-! ## The view does not influence a trial -/

theorem dropView_idem {D : Type} (ss : Sim D) : ss.dropView.dropView = ss.dropView := by
  simp [Sim.dropView, List.filter_filter]

theorem exec_dropView {D : Type} (E : Engine D) (train : Bool) (a : Act) (ss : Sim D)
    (ha : a.notView = true) :
    onOutcome Sim.dropView (exec E train a ss.dropView) =
      onOutcome Sim.dropView (exec E train a ss) := by
  have hsafe : a.safe ss.dropView = a.safe ss := by cases a <;> rfl
  unfold exec
  rw [hsafe]
  by_cases hs : a.safe ss = true
  · rw [if_pos hs, if_pos hs]
    cases a with
    | UpdateView => exact absurd ha (by decide)
    | MemStats =>
      simp only [Act.safe, Bool.and_eq_true, Option.isSome_iff_exists] at hs
      obtain ⟨⟨ecin, hE⟩, ⟨out, hO⟩⟩ := hs
      simp only [Act.effect]
      rw [MemStats_ok E train ss ecin out hE hO,
        MemStats_ok E train ss.dropView ecin out hE hO]
      simp [onOutcome, Sim.dropView, Sim.log, memStatsBody, List.filter_filter, Act.notView]
    | _ =>
      simp [Act.effect, onOutcome, Sim.dropView, Sim.log, Sim.setNet, Sim.setDyn,
        List.filter_filter, Act.notView]
  · rw [if_neg hs, if_neg hs]
    simp only [onOutcome, dropView_idem]

theorem exec_view_congr {D : Type} (E : Engine D) (train : Bool) (a : Act) (s s1 : Sim D)
    (h : s.dropView = s1.dropView) (ha : a.notView = true) :
    onOutcome Sim.dropView (exec E train a s) = onOutcome Sim.dropView (exec E train a s1) := by
  rw [← exec_dropView E train a s ha, ← exec_dropView E train a s1 ha, h]

theorem exec_updateView {D : Type} (E : Engine D) (train : Bool) (s : Sim D) :
    exec E train Act.UpdateView s = Except.ok (s.log Act.UpdateView) := rfl

theorem dropView_log_view {D : Type} (s : Sim D) :
    (s.log Act.UpdateView).dropView = s.dropView := by
  simp [Sim.dropView, Sim.log, Act.notView]

/-- The statements of a list other than the notifications of the view lead, from two states
that differ in what concerns the view only, to two such states. -/
theorem execs_view_congr {D : Type} (E : Engine D) (train : Bool) (l : List Act) (s s1 : Sim D)
    (h : s.dropView = s1.dropView) :
    onOutcome Sim.dropView (execs E train l s) =
      onOutcome Sim.dropView (execs E train (l.filter Act.notView) s1) := by
  induction l generalizing s s1 with
  | nil => simp only [List.filter_nil, execs, onOutcome, h]
  | cons a l ih =>
    by_cases ha : a.notView = true
    · rw [List.filter_cons_of_pos ha, execs_cons_bind, execs_cons_bind]
      have hA := exec_view_congr E train a s s1 h ha
      cases h1 : exec E train a s with
      | error e =>
        cases h2 : exec E train a s1 with
        | error e1 =>
          rw [h1, h2] at hA
          exact hA
        | ok t1 =>
          rw [h1, h2] at hA
          cases hA
      | ok t =>
        cases h2 : exec E train a s1 with
        | error e1 =>
          rw [h1, h2] at hA
          cases hA
        | ok t1 =>
          rw [h1, h2] at hA
          simp only [onOutcome, Except.ok.injEq] at hA
          exact ih t t1 hA
    · have hv : a = Act.UpdateView := by
        cases a <;> first | rfl | exact absurd rfl ha
      subst hv
      rw [List.filter_cons_of_neg ha, execs_cons_bind, exec_updateView]
      exact ih _ s1 ((dropView_log_view s).trans h)

theorem filter_notView_of_all {l : List Act} (h : l.all Act.notView = true) :
    l.filter Act.notView = l :=
  List.filter_eq_self.mpr (fun a ha => List.all_eq_true.mp h a ha)

theorem filter_flatMap_range (f g : Nat → List Act) (h : ∀ i, (f i).filter Act.notView = g i)
    (s n : Nat) :
    ((List.range' s n).flatMap f).filter Act.notView = (List.range' s n).flatMap g := by
  induction n generalizing s with
  | zero => rfl
  | succ n ih =>
    rw [List.range'_succ, List.flatMap_cons, List.flatMap_cons, List.filter_append, h, ih]

theorem cycActs_filter (train viewOn : Bool) (vu : TimeScales) (cpq : Int) (cyc : Nat) :
    (cycActs train viewOn vu cpq cyc).filter Act.notView =
      cycActs train false TimeScales.AlphaCycle cpq cyc := by
  unfold cycActs
  cases train <;> cases viewOn <;> cases vu <;>
    simp only [Bool.false_eq_true, if_false, if_true, List.append_nil] <;>
    first | rfl | (split_ifs <;> rfl)

theorem qtrEndActs_filter (viewOn : Bool) (vu : TimeScales) (qtr : Nat) :
    (qtrEndActs viewOn vu qtr).filter Act.notView =
      qtrEndActs false TimeScales.AlphaCycle qtr := by
  unfold qtrEndActs qtrTailActs
  cases viewOn <;>
    simp only [Bool.false_eq_true, if_false, if_true, List.append_nil] <;>
    split_ifs <;> rfl

theorem alphaEndActs_filter (train viewOn : Bool) (vu : TimeScales) :
    (alphaEndActs train viewOn vu).filter Act.notView =
      alphaEndActs train false TimeScales.AlphaCycle := by
  unfold alphaEndActs
  cases train <;> cases viewOn <;>
    simp only [Bool.false_and, Bool.true_and, Bool.false_eq_true, if_false, if_true,
      List.append_nil] <;>
    first | rfl | (split_ifs <;> rfl)

theorem Mode.parts_notView {D : Type} (m : Mode) (train : Bool) (ss : Sim D) (dg : ℚ) :
    (m.look train).all Act.notView = true ∧ (m.cfg train ss).all Act.notView = true ∧
      m.start.all Act.notView = true ∧ (∀ q, (m.sw train dg q).all Act.notView = true) ∧
      (m.post train dg).all Act.notView = true := by
  refine ⟨by cases m <;> cases train <;> rfl, by cases m <;> cases train <;> rfl,
    by cases m <;> rfl, ?_, by cases m <;> cases train <;> rfl⟩
  intro q
  cases m <;> cases train <;>
    simp only [Mode.sw, hipSwitch, sleepSwitch, daydreamSwitch, pureRetSwitch, fullSwitch,
      sleepClamp] <;>
    first | rfl | (split_ifs <;> rfl)

/-- The statements of a call other than the notifications of the view are the statements
of the call from the state without the view. -/
theorem Mode.acts_filter {D : Type} (m : Mode) (train : Bool) (ss : Sim D) (dg : ℚ) :
    (m.acts train ss dg).filter Act.notView = m.acts train ss.dropView dg := by
  obtain ⟨h1, h2, h3, h4, h5⟩ := m.parts_notView train ss dg
  have hcfg : m.cfg train ss.dropView = m.cfg train ss := by cases m <;> rfl
  have hvu : viewUpdtOf train ss.dropView = TimeScales.AlphaCycle := by cases train <;> rfl
  simp only [Mode.acts, alphaActs, List.filter_append, filter_notView_of_all h1,
    filter_notView_of_all h2, filter_notView_of_all h3, filter_notView_of_all h5,
    alphaEndActs_filter, hcfg, hvu]
  congr 3
  unfold qtrLoopActs
  apply filter_flatMap_range
  intro qtr
  unfold qtrActs cycLoopActs
  rw [List.filter_append, List.filter_append, filter_notView_of_all (h4 _),
    qtrEndActs_filter, filter_flatMap_range _ _ (cycActs_filter train ss.ViewOn _ _)]
  rfl

theorem dgRead_view {D : Type} (E : Engine D) (train : Bool) (l : List Act) (s s1 : Sim D)
    (h : onOutcome Sim.dropView (execs E train l s) =
      onOutcome Sim.dropView (execs E train l s1)) :
    dgRead E train l s = dgRead E train l s1 := by
  unfold dgRead
  cases h1 : execs E train l s with
  | error e =>
    cases h2 : execs E train l s1 with
    | error e1 => rfl
    | ok t =>
      rw [h1, h2] at h
      cases h
  | ok t =>
    cases h2 : execs E train l s1 with
    | error e1 =>
      rw [h1, h2] at h
      cases h
    | ok t1 =>
      rw [h1, h2] at h
      simp only [onOutcome, Except.ok.injEq] at h
      have hn : t.dropView.Net = t1.dropView.Net := by rw [h]
      exact congrArg (fun n => n.prjnRel "CA3" "DG") hn

theorem Mode.dgwtscale_view {D : Type} (m : Mode) (E : Engine D) (train : Bool) (s s1 : Sim D)
    (h : s.dropView = s1.dropView) : m.dgwtscale E train s = m.dgwtscale E train s1 := by
  have hc : ∀ t : Sim D, m.cfg train t.dropView = m.cfg train t := by
    intro t
    cases m <;> rfl
  have hcfg : m.cfg train s = m.cfg train s1 := by rw [← hc s, ← hc s1, h]
  unfold Mode.dgwtscale
  rw [hcfg]
  apply dgRead_view
  have hl : (m.look train ++ m.cfg train s1).filter Act.notView =
      m.look train ++ m.cfg train s1 := by
    obtain ⟨h1, h2, _⟩ := m.parts_notView train s1 0
    rw [List.filter_append, filter_notView_of_all h1, filter_notView_of_all h2]
  have := execs_view_congr E train (m.look train ++ m.cfg train s1) s s1 h
  rw [hl] at this
  exact this

/-- A call from two states that differ in what concerns the view only ends in two such
states, and returns from both or panics from both. -/
theorem Mode.run_view {D : Type} (m : Mode) (E : Engine D) (train : Bool) (s s1 : Sim D)
    (h : s.dropView = s1.dropView) :
    onOutcome Sim.dropView (m.run E train s) = onOutcome Sim.dropView (m.run E train s1) := by
  rw [m.run_execs E train s, m.run_execs E train s1, m.dgwtscale_view E train s s1 h]
  generalize m.dgwtscale E train s1 = dg
  rw [execs_view_congr E train _ s s.dropView (dropView_idem s).symm,
    execs_view_congr E train _ s1 s1.dropView (dropView_idem s1).symm,
    Mode.acts_filter, Mode.acts_filter, h]

/-- C21: for each of the seven procedures, each value of `train` and every state, a call
from the state with other values of `ViewOn`, `TrainUpdt`, `TestUpdt` and `NetView` returns
if and only if the call from the state returns, and the two calls end in states that are
equal apart from these four fields and from the notifications of the view in the history:
the same statements other than `UpdateView` were executed in the same order, each leaving
the same network attributes, time counters, buffer and engine state, and `Mem` and the
other statistics are the same. -/
theorem view_no_influence {D : Type} (m : Mode) (E : Engine D) (train : Bool) (ss : Sim D)
    (v : Bool) (tu su : TimeScales) (nv : Option Bool) :
    onOutcome Sim.dropView
        (m.run E train { ss with ViewOn := v, TrainUpdt := tu, TestUpdt := su, NetView := nv }) =
      onOutcome Sim.dropView (m.run E train ss) :=
  m.run_view E train _ ss rfl

/-! ## The statistics that `InitStats` resets -/

/-- C25 (the code): `InitStats` resets seventeen fields and leaves `TrgOnWasOffB`,
`TrgOnWasOffC`, `TrgOffWasOnB`, `TrgOffWasOnC`, `TrlCosDiff` and `EpcPctCor` as they were:
every statistic holds its initial value after the call exactly when these six fields were
0 before it.  From the state `staleSim` (B pool miss-rate 1, cosine difference 1/2, percent
correct 1) the three values survive the call. -/
theorem InitStats_leaves_six :
    (∀ (D : Type) (ss : Sim D),
      (InitStats ss).TrgOnWasOffB = ss.TrgOnWasOffB ∧
      (InitStats ss).TrgOnWasOffC = ss.TrgOnWasOffC ∧
      (InitStats ss).TrgOffWasOnB = ss.TrgOffWasOnB ∧
      (InitStats ss).TrgOffWasOnC = ss.TrgOffWasOnC ∧
      (InitStats ss).TrlCosDiff = ss.TrlCosDiff ∧
      (InitStats ss).EpcPctCor = ss.EpcPctCor ∧
      (statsInitialSpec (InitStats ss) ↔
        ss.TrgOnWasOffB = Flt.fin 0 ∧ ss.TrgOnWasOffC = Flt.fin 0 ∧
        ss.TrgOffWasOnB = Flt.fin 0 ∧ ss.TrgOffWasOnC = Flt.fin 0 ∧
        ss.TrlCosDiff = Flt.fin 0 ∧ ss.EpcPctCor = Flt.fin 0)) ∧
      (InitStats staleSim).TrgOnWasOffB = Flt.fin 1 ∧
      (InitStats staleSim).TrlCosDiff = Flt.fin (1 / 2) ∧
      (InitStats staleSim).EpcPctCor = Flt.fin 1 ∧
      ¬ statsInitialSpec (InitStats staleSim) := by
  refine ⟨fun D ss => ⟨rfl, rfl, rfl, rfl, rfl, rfl, ?_⟩, rfl, rfl, rfl, ?_⟩
  · simp only [statsInitialSpec, InitStats, true_and, and_true]
  · intro h
    have hB : (InitStats staleSim).TrgOnWasOffB = Flt.fin 0 := h.2.2.2.2.2.2.2.2.2.1
    have h1 : (InitStats staleSim).TrgOnWasOffB = Flt.fin 1 := rfl
    rw [h1] at hB
    have : (1 : ℚ) = 0 := Flt.fin.inj hB
    exact one_ne_zero this

/-! ## The results of `TrialStats` -/

/-- C23 (the code): when `Output` exists, `TrialStats` returns; the state it leaves holds
the statistics of the trial as the engine computed them, and the tuple it returns is
(0, 0, 0, 0, 0), whatever these statistics are. -/
theorem TrialStats_returns_zeros {D : Type} (L : LayerStats D) (accum : Bool) (ss : Sim D)
    (out : Layer) (hO : ss.Net.LayerByName "Output" = some out) :
    ∃ ss1, TrialStats L accum ss =
        Except.ok (ss1, ⟨Flt.fin 0, Flt.fin 0, Flt.fin 0, Flt.fin 0, Flt.fin 0⟩) ∧
      ss1.trialResult =
        ⟨(L.MSEB ss.Dyn "Output" half).1, (L.MSEB ss.Dyn "Output" half).2,
          (L.MSEC ss.Dyn "Output" half).1, (L.MSEC ss.Dyn "Output" half).2,
          L.CosDiff ss.Dyn "Output"⟩ := by
  unfold TrialStats
  rw [hO]
  refine ⟨_, rfl, ?_⟩
  cases accum
  · rfl
  · simp only [if_true, Sim.trialResult]
    split_ifs <;> rfl

/-- C23 (at the failing input): a trial on the configured network with squared error 1
and cosine difference 1/2: the returned tuple is all zeros and differs from the statistics
stored in the state. -/
theorem TrialStats_returns_zeros_witness :
    ∃ ss1, TrialStats oneErrStats true trialSim =
        Except.ok (ss1, ⟨Flt.fin 0, Flt.fin 0, Flt.fin 0, Flt.fin 0, Flt.fin 0⟩) ∧
      ss1.trialResult =
        ⟨Flt.fin 1, Flt.fin (1 / 294), Flt.fin 1, Flt.fin (1 / 294), Flt.fin (1 / 2)⟩ :=
  TrialStats_returns_zeros oneErrStats true trialSim outputLayer rfl

/-! ## Trials, runs and the choice of the patterns -/

/-- The six training trials and the six training procedures of the source are the common
texts `trainTrial` and `train` at their kind. -/
theorem train_named {V : Type} (O : EnvOps V) (fuel n : Nat) (ss : TrialSim V) :
    TrainTrialHip O fuel ss = trainTrial O fuel TrialKind.Hip ss ∧
      TrainTrialCor O fuel ss = trainTrial O fuel TrialKind.Cor ss ∧
      TrainTrialSleep O fuel ss = trainTrial O fuel TrialKind.Sleep ss ∧
      TrainTrialDaydream O fuel ss = trainTrial O fuel TrialKind.Daydream ss ∧
      TrainTrialSem O fuel ss = trainTrial O fuel TrialKind.Sem ss ∧
      TrainTrialRetrievalPractice O fuel ss =
        trainTrial O fuel TrialKind.RetrievalPractice ss ∧
      TrainHip O fuel n ss = train O fuel n TrialKind.Hip ss ∧
      TrainCor O fuel n ss = train O fuel n TrialKind.Cor ss ∧
      TrainSleep O fuel n ss = train O fuel n TrialKind.Sleep ss ∧
      TrainDaydream O fuel n ss = train O fuel n TrialKind.Daydream ss ∧
      TrainSem O fuel n ss = train O fuel n TrialKind.Sem ss ∧
      TrainRetrievalPractice O fuel n ss = train O fuel n TrialKind.RetrievalPractice ss :=
  ⟨rfl, rfl, rfl, rfl, rfl, rfl, rfl, rfl, rfl, rfl, rfl, rfl⟩

theorem Adds_refl {V : Type} (p : Call → Bool) (ss : TrialSim V) : Adds p ss ss :=
  ⟨[], (List.append_nil _).symm, rfl⟩

theorem Adds_trans {V : Type} {p : Call → Bool} {a b c : TrialSim V} (h1 : Adds p a b)
    (h2 : Adds p b c) : Adds p a c := by
  obtain ⟨e1, h1, p1⟩ := h1
  obtain ⟨e2, h2, p2⟩ := h2
  refine ⟨e1 ++ e2, ?_, ?_⟩
  · rw [h2, h1, List.append_assoc]
  · rw [List.all_append, p1, p2]
    rfl

theorem Adds_mono {V : Type} {p q : Call → Bool} {a b : TrialSim V} (h : Adds p a b)
    (hpq : ∀ c, p c = true → q c = true) : Adds q a b := by
  obtain ⟨e, h1, p1⟩ := h
  exact ⟨e, h1, List.all_eq_true.mpr (fun c hc => hpq c (List.all_eq_true.mp p1 c hc))⟩

theorem Adds_call {V : Type} {p : Call → Bool} (ss : TrialSim V) (c : Call)
    (h : p c = true) : Adds p ss (ss.call c) :=
  ⟨[c], rfl, by simp [h]⟩

theorem Adds_of_calls_eq {V : Type} {p : Call → Bool} {a b : TrialSim V}
    (h : b.calls = a.calls) : Adds p a b :=
  ⟨[], by rw [h, List.append_nil], rfl⟩

theorem Adds_newCalls {V : Type} {p : Call → Bool} {a b : TrialSim V} (h : Adds p a b) :
    (newCalls a b).all p = true := by
  obtain ⟨e, h1, p1⟩ := h
  unfold newCalls
  rw [h1, List.drop_left]
  exact p1

theorem newCalls_append {V : Type} {a b : TrialSim V} {e : List Call}
    (h : b.calls = a.calls ++ e) : newCalls a b = e := by
  unfold newCalls
  rw [h, List.drop_left]

theorem onlyTest_refl {V : Type} (ss : TrialSim V) : onlyTest ss ss := rfl

theorem onlyTest_trans {V : Type} {a b c : TrialSim V} (h1 : onlyTest a b)
    (h2 : onlyTest b c) : onlyTest a c := by
  unfold onlyTest at *
  rw [h2, h1]

theorem onlyTest_call {V : Type} (ss : TrialSim V) (c : Call) : onlyTest ss (ss.call c) := rfl

theorem samePats_refl {V : Type} (ss : TrialSim V) : samePats ss ss := ⟨rfl, rfl, rfl⟩

theorem samePats_trans {V : Type} {a b c : TrialSim V} (h1 : samePats a b)
    (h2 : samePats b c) : samePats a c :=
  ⟨h2.1.trans h1.1, h2.2.1.trans h1.2.1, h2.2.2.trans h1.2.2⟩

theorem samePats_of_onlyTest {V : Type} {a b : TrialSim V} (h : onlyTest a b) :
    samePats a b := by
  unfold onlyTest at h
  rw [h]
  exact ⟨rfl, rfl, rfl⟩

theorem Keeps_refl {V : Type} (ss : TrialSim V) : Keeps ss ss :=
  ⟨samePats_refl ss, Adds_refl _ ss⟩

theorem Keeps_trans {V : Type} {a b c : TrialSim V} (h1 : Keeps a b) (h2 : Keeps b c) :
    Keeps a c := by
  refine ⟨samePats_trans h1.1 h2.1, Adds_trans h1.2 ?_⟩
  have := h2.2
  rw [h1.1.1, h1.1.2.1] at this
  exact this

theorem isTest_stepsOn (tr te : PatSet) (c : Call) (h : c.isTest te = true) :
    c.stepsOn tr te = true := by
  cases c with
  | Step en t =>
    cases en
    · cases h
    · exact h
  | _ => rfl

theorem isTest_not_training (te : PatSet) (c : Call) (h : c.isTest te = true) :
    (!c.isTraining) = true := by
  cases c with
  | ApplyInputs k en =>
    cases en
    · cases k <;> cases h
    · rfl
  | AlphaCyc m train =>
    cases train
    · rfl
    · cases m <;> cases h
  | _ => rfl

/-! ### The test of all the patterns -/

theorem testTail_rel {V : Type} (ss : TrialSim V) :
    onlyTest ss (testTail ss) ∧ Adds (Call.isTest ss.TestTable) ss (testTail ss) :=
  ⟨rfl, ⟨[Call.ApplyInputs InputsKind.Sem EnvId.TestEnv, Call.AlphaCyc Mode.Sem false,
    Call.TrialStats false, Call.LogTstTrl], by
      simp [testTail, TrialSim.call], rfl⟩⟩

theorem TestTrialSem_rel {V : Type} (O : EnvOps V) (b : Bool) (ss : TrialSim V) :
    onlyTest ss (TestTrialSem O b ss) ∧
      Adds (Call.isTest ss.TestTable) ss (TestTrialSem O b ss) := by
  have h1 : onlyTest ss ({ ss with TestEnv := O.Step ss.TestTable ss.TestEnv }.call
      (Call.Step EnvId.TestEnv ss.TestTable)) := rfl
  have a1 : Adds (Call.isTest ss.TestTable) ss
      ({ ss with TestEnv := O.Step ss.TestTable ss.TestEnv }.call
        (Call.Step EnvId.TestEnv ss.TestTable)) :=
    ⟨[Call.Step EnvId.TestEnv ss.TestTable], rfl, by simp [Call.isTest]⟩
  unfold TestTrialSem
  simp only []
  split_ifs <;> first
    | exact ⟨h1, a1⟩
    | exact ⟨onlyTest_trans h1 (testTail_rel _).1, Adds_trans a1 (testTail_rel _).2⟩
    | exact ⟨onlyTest_trans h1 (onlyTest_call _ _), Adds_trans a1 (Adds_call _ (Call.UpdateView false) rfl)⟩
    | exact ⟨onlyTest_trans h1 (onlyTest_trans (onlyTest_call _ _) (testTail_rel _).1),
        Adds_trans a1 (Adds_trans (Adds_call _ (Call.UpdateView false) rfl) (testTail_rel _).2)⟩

theorem testRel_trans {V : Type} {a b c : TrialSim V}
    (h1 : onlyTest a b ∧ Adds (Call.isTest a.TestTable) a b)
    (h2 : onlyTest b c ∧ Adds (Call.isTest b.TestTable) b c) :
    onlyTest a c ∧ Adds (Call.isTest a.TestTable) a c := by
  refine ⟨onlyTest_trans h1.1 h2.1, Adds_trans h1.2 ?_⟩
  have := h2.2
  rw [(samePats_of_onlyTest h1.1).2.1] at this
  exact this

theorem testLoop_rel {V : Type} (O : EnvOps V) (n : Nat) (ss : TrialSim V) :
    onlyTest ss (testLoop O n ss).final ∧
      Adds (Call.isTest ss.TestTable) ss (testLoop O n ss).final := by
  induction n generalizing ss with
  | zero => exact ⟨onlyTest_refl ss, Adds_refl _ ss⟩
  | succ n ih =>
    unfold testLoop
    simp only []
    split_ifs
    · exact TestTrialSem_rel O true ss
    · exact testRel_trans (TestTrialSem_rel O true ss) (ih _)

theorem testStart_rel {V : Type} (O : EnvOps V) (ss : TrialSim V) :
    onlyTest ss (testStart O ss) ∧ Adds (Call.isTest ss.TestTable) ss (testStart O ss) :=
  ⟨rfl, ⟨[Call.NewTstTrlLog, Call.ConfigTstTrlLog], by simp [testStart, TrialSim.call], rfl⟩⟩

theorem TestAll_rel {V : Type} (O : EnvOps V) (fuel : Nat) (ss : TrialSim V) :
    onlyTest ss (TestAll O fuel ss).final ∧
      Adds (Call.isTest ss.TestTable) ss (TestAll O fuel ss).final := by
  have h0 := testStart_rel O ss
  have h1 := testLoop_rel O fuel (testStart O ss)
  unfold TestAll
  cases hl : testLoop O fuel (testStart O ss) with
  | error e =>
    rw [hl] at h1
    exact testRel_trans h0 h1
  | ok s1 =>
    rw [hl] at h1
    exact testRel_trans h0 (testRel_trans h1
      ⟨onlyTest_call _ _, Adds_call _ Call.LogTstEpc rfl⟩)

/-- When `TestAll` does not return, its loop is still running: it does not panic. -/
theorem TestAll_spin {V : Type} (O : EnvOps V) (fuel : Nat) (ss : TrialSim V) (h : Halt)
    (s1 : TrialSim V) (he : TestAll O fuel ss = Except.error (h, s1)) : h = Halt.spin := by
  have hloop : ∀ (n : Nat) (s : TrialSim V), testLoop O n s = Except.error (h, s1) →
      h = Halt.spin := by
    intro n
    induction n with
    | zero =>
      intro s hs
      simp only [testLoop, Except.error.injEq, Prod.mk.injEq] at hs
      exact hs.1.symm
    | succ n ih =>
      intro s hs
      unfold testLoop at hs
      simp only [] at hs
      split_ifs at hs
      exact ih _ hs
  unfold TestAll at he
  cases hl : testLoop O fuel (testStart O ss) with
  | error e =>
    rw [hl] at he
    cases he
    exact hloop _ _ hl
  | ok s2 =>
    rw [hl] at he
    cases he

/-! ### One training trial -/

theorem isAdmin_not_trial (c : Call) (h : c.isAdmin = true) : (!c.isTrial) = true := by
  cases c <;> first | rfl | cases h

theorem not_trial_not_training (c : Call) (h : (!c.isTrial) = true) :
    (!c.isTraining) = true := by
  cases c with
  | ApplyInputs k en => cases h
  | AlphaCyc m train => cases h
  | _ => rfl

theorem not_training_not_cycle (c : Call) (h : (!c.isTraining) = true) :
    (!c.isTrainCycle) = true := by
  cases c with
  | AlphaCyc m train =>
    cases train
    · rfl
    · cases h
  | _ => rfl

theorem afterStep_fields {V : Type} (O : EnvOps V) (ss : TrialSim V) :
    (afterStep O ss).MaxEpcs = ss.MaxEpcs ∧ (afterStep O ss).TestInterval = ss.TestInterval ∧
      (afterStep O ss).Net = ss.Net ∧ (afterStep O ss).StopNow = ss.StopNow ∧
      (afterStep O ss).NeedsNewRun = false ∧ samePats ss (afterStep O ss) := by
  unfold afterStep NewRun samePats
  cases h : ss.NeedsNewRun <;> simp [h, TrialSim.call]

theorem afterStep_adds {V : Type} (O : EnvOps V) (ss : TrialSim V) :
    Adds Call.isAdmin ss (afterStep O ss) ∧
      Adds (Call.stepsOn ss.TrainTable ss.TestTable) ss (afterStep O ss) ∧
      Call.Step EnvId.TrainEnv ss.TrainTable ∈ newCalls ss (afterStep O ss) := by
  have hc : (afterStep O ss).calls = ss.calls ++
      ((if ss.NeedsNewRun = true then [Call.ResetRun] else []) ++
        [Call.Step EnvId.TrainEnv ss.TrainTable]) := by
    unfold afterStep NewRun
    cases h : ss.NeedsNewRun <;> simp [h, TrialSim.call]
  refine ⟨⟨_, hc, ?_⟩, ⟨_, hc, ?_⟩, ?_⟩
  · cases ss.NeedsNewRun <;> rfl
  · cases ss.NeedsNewRun <;> simp [Call.stepsOn]
  · rw [newCalls_append hc]
    simp

theorem epochLog_rel {V : Type} (ss : TrialSim V) :
    epochLog ss = { ss with calls := (epochLog ss).calls } ∧
      Adds Call.isAdmin ss (epochLog ss) ∧
      Adds (Call.stepsOn ss.TrainTable ss.TestTable) ss (epochLog ss) := by
  have hc : (epochLog ss).calls = ss.calls ++ (Call.LogTrnEpc ::
      (if (ss.ViewOn && decide (TimeScales.AlphaCycle.ord < ss.TrainUpdt.ord)) = true then
        [Call.UpdateView true] else [])) := by
    unfold epochLog
    simp only [TrialSim.call]
    split_ifs <;> simp
  refine ⟨?_, ⟨_, hc, ?_⟩, ⟨_, hc, ?_⟩⟩
  · unfold epochLog
    simp only [TrialSim.call]
    split_ifs <;> rfl
  · split_ifs <;> rfl
  · split_ifs <;> rfl

theorem epochEnd_rel {V : Type} (O : EnvOps V) (ss : TrialSim V) :
    Adds Call.isAdmin ss (epochEnd O ss) ∧
      Adds (Call.stepsOn ss.TrainTable ss.TestTable) ss (epochEnd O ss) ∧
      samePats ss (epochEnd O ss) ∧
      (if (O.RunIncr ss.TrainEnv).2 = true then
        (epochEnd O ss).StopNow = true ∧ (epochEnd O ss).NeedsNewRun = ss.NeedsNewRun
       else (epochEnd O ss).NeedsNewRun = true ∧ (epochEnd O ss).StopNow = ss.StopNow) := by
  have hc : (epochEnd O ss).calls = ss.calls ++ [Call.RunEnd] := by
    unfold epochEnd
    simp only [TrialSim.call]
    split_ifs <;> rfl
  refine ⟨⟨_, hc, rfl⟩, ⟨_, hc, rfl⟩, ?_, ?_⟩
  · unfold epochEnd samePats
    simp only [TrialSim.call]
    split_ifs <;> exact ⟨rfl, rfl, rfl⟩
  · unfold epochEnd
    simp only [TrialSim.call]
    split_ifs <;> exact ⟨rfl, rfl⟩

theorem trainTail_rel {V : Type} (k : TrialKind) (ss : TrialSim V) :
    (trainTail k ss).calls = ss.calls ++ [Call.ApplyInputs k.inputs EnvId.TrainEnv,
        Call.AlphaCyc k.mode true, Call.TrialStats true, Call.LogTrnTrl] ∧
      samePats ss (trainTail k ss) ∧ (trainTail k ss).StopNow = ss.StopNow := by
  unfold trainTail samePats
  cases k.typ <;> simp [TrialSim.call]

theorem onlyTest_fields {V : Type} {a b : TrialSim V} (h : onlyTest a b) :
    b.MaxEpcs = a.MaxEpcs ∧ b.TrainEnv = a.TrainEnv ∧ b.StopNow = a.StopNow ∧
      b.NeedsNewRun = a.NeedsNewRun := by
  unfold onlyTest at h
  rw [h]
  exact ⟨rfl, rfl, rfl, rfl⟩

theorem epochLog_fields {V : Type} (ss : TrialSim V) :
    (epochLog ss).MaxEpcs = ss.MaxEpcs ∧ (epochLog ss).TrainEnv = ss.TrainEnv ∧
      (epochLog ss).StopNow = ss.StopNow ∧ (epochLog ss).NeedsNewRun = ss.NeedsNewRun ∧
      (epochLog ss).TestInterval = ss.TestInterval ∧ samePats ss (epochLog ss) := by
  have h := (epochLog_rel ss).1
  rw [h]
  exact ⟨rfl, rfl, rfl, rfl, rfl, rfl, rfl, rfl⟩

/-- The test that a training trial runs at the end of an epoch: `TestAll` when the epoch is
a multiple of `TestInterval`. -/
theorem trainTrial_eq {V : Type} (O : EnvOps V) (fuel : Nat) (k : TrialKind) (ss : TrialSim V)
    (hT : ss.TestInterval ≠ 0)
    (hL : k.ecin = true → (ss.Net.LayerByName "ECin").isSome = true) :
    trainTrial O fuel k ss =
      if (O.Epoch (afterStep O ss).TrainEnv).2 = true then
        match (if (O.Epoch (afterStep O ss).TrainEnv).1.tmod ss.TestInterval = 0 then
            TestAll O fuel (epochLog (afterStep O ss))
          else Except.ok (epochLog (afterStep O ss))) with
        | Except.error e => Except.error e
        | Except.ok t =>
          if (O.Epoch (afterStep O ss).TrainEnv).1 ≥ t.MaxEpcs then Except.ok (epochEnd O t)
          else Except.ok (trainTail k t)
      else Except.ok (trainTail k (afterStep O ss)) := by
  obtain ⟨_, f2, f3, _⟩ := afterStep_fields O ss
  have hecin : (k.ecin && ((afterStep O ss).Net.LayerByName "ECin").isNone) = false := by
    rw [f3]
    cases hk : k.ecin
    · rfl
    · have := hL hk
      simp only [Bool.true_and]
      cases hl : ss.Net.LayerByName "ECin" with
      | none => rw [hl] at this; cases this
      | some ly => rfl
  have hti : (epochLog (afterStep O ss)).TestInterval = ss.TestInterval :=
    (epochLog_fields _).2.2.2.2.1.trans f2
  unfold trainTrial epochTest
  simp only [hecin, Bool.false_eq_true, if_false, hti, hT]

/-! ### The choice of the patterns during training -/

theorem Keeps_of_testRel {V : Type} {a b : TrialSim V}
    (h : onlyTest a b ∧ Adds (Call.isTest a.TestTable) a b) : Keeps a b :=
  ⟨samePats_of_onlyTest h.1, Adds_mono h.2 (fun c hc => isTest_stepsOn _ _ c hc)⟩

theorem epochTest_keeps {V : Type} (O : EnvOps V) (fuel : Nat) (epc : Int) (ss : TrialSim V) :
    Keeps ss (epochTest O fuel epc ss).final := by
  unfold epochTest
  split_ifs
  · exact Keeps_of_testRel (TestAll_rel O fuel ss)
  · exact Keeps_refl ss

theorem afterStep_keeps {V : Type} (O : EnvOps V) (ss : TrialSim V) :
    Keeps ss (afterStep O ss) :=
  ⟨(afterStep_fields O ss).2.2.2.2.2, (afterStep_adds O ss).2.1⟩

theorem epochLog_keeps {V : Type} (ss : TrialSim V) : Keeps ss (epochLog ss) :=
  ⟨(epochLog_fields ss).2.2.2.2.2, (epochLog_rel ss).2.2⟩

theorem epochEnd_keeps {V : Type} (O : EnvOps V) (ss : TrialSim V) :
    Keeps ss (epochEnd O ss) :=
  ⟨(epochEnd_rel O ss).2.2.1, (epochEnd_rel O ss).2.1⟩

theorem trainTail_keeps {V : Type} (k : TrialKind) (ss : TrialSim V) :
    Keeps ss (trainTail k ss) :=
  ⟨(trainTail_rel k ss).2.1, ⟨_, (trainTail_rel k ss).1, rfl⟩⟩

/-- A training trial keeps the choice of the patterns, from its first step on. -/
theorem trainTrial_keeps {V : Type} (O : EnvOps V) (fuel : Nat) (k : TrialKind)
    (ss : TrialSim V) : Keeps (afterStep O ss) (trainTrial O fuel k ss).final := by
  unfold trainTrial
  simp only []
  split_ifs
  · exact Keeps_refl _
  · exact epochLog_keeps _
  · have h := epochTest_keeps O fuel (O.Epoch (afterStep O ss).TrainEnv).1
      (epochLog (afterStep O ss))
    cases hx : epochTest O fuel (O.Epoch (afterStep O ss).TrainEnv).1
        (epochLog (afterStep O ss)) with
    | error e =>
      rw [hx] at h
      exact Keeps_trans (epochLog_keeps _) h
    | ok t =>
      rw [hx] at h
      simp only []
      split_ifs
      · exact Keeps_trans (epochLog_keeps _) (Keeps_trans h (epochEnd_keeps O t))
      · exact Keeps_trans (epochLog_keeps _) (Keeps_trans h (trainTail_keeps k t))
  · exact trainTail_keeps k _

theorem mem_newCalls_of_adds {V : Type} {p : Call → Bool} {a b c : TrialSim V} {x : Call}
    (hx : x ∈ newCalls a b) (hab : ∃ e, b.calls = a.calls ++ e) (h : Adds p b c) :
    x ∈ newCalls a c := by
  obtain ⟨e1, h1⟩ := hab
  obtain ⟨e2, h2, _⟩ := h
  have hc : c.calls = a.calls ++ (e1 ++ e2) := by rw [h2, h1, List.append_assoc]
  rw [newCalls_append h1] at hx
  rw [newCalls_append hc]
  exact List.mem_append_left _ hx

/-- The loop of training trials keeps the choice of the patterns; when it runs at least one
trial, it steps the training environment on the table chosen at its start. -/
theorem trainLoop_keeps {V : Type} (O : EnvOps V) (fuel : Nat) (k : TrialKind) (n : Nat)
    (ss : TrialSim V) :
    Keeps ss (trainLoop O fuel k n ss).final ∧
      (0 < n → Call.Step EnvId.TrainEnv ss.TrainTable ∈
        newCalls ss (trainLoop O fuel k n ss).final) := by
  induction n generalizing ss with
  | zero => exact ⟨Keeps_refl ss, fun h => absurd h (by decide)⟩
  | succ n ih =>
    have h0 := afterStep_keeps O ss
    have h1 := trainTrial_keeps O fuel k ss
    have hm := (afterStep_adds O ss).2.2
    have he : ∃ e, (afterStep O ss).calls = ss.calls ++ e := by
      obtain ⟨e, he, _⟩ := h0.2
      exact ⟨e, he⟩
    unfold trainLoop
    cases hx : trainTrial O fuel k ss with
    | error e =>
      rw [hx] at h1
      exact ⟨Keeps_trans h0 h1, fun _ => mem_newCalls_of_adds hm he h1.2⟩
    | ok t =>
      rw [hx] at h1
      simp only []
      split_ifs
      · exact ⟨Keeps_trans h0 h1, fun _ => mem_newCalls_of_adds hm he h1.2⟩
      · have h2 := (ih t).1
        have h01 := Keeps_trans h0 h1
        refine ⟨Keeps_trans h01 h2, fun _ => ?_⟩
        have hm1 := mem_newCalls_of_adds hm he h1.2
        have he1 : ∃ e, t.calls = ss.calls ++ e := by
          obtain ⟨e, he, _⟩ := h01.2
          exact ⟨e, he⟩
        exact mem_newCalls_of_adds hm1 he1 h2.2

/-! ## The end of an epoch in a training trial -/

theorem countP_cycle_of_adds {V : Type} {a b : TrialSim V}
    (h : Adds (fun c => !c.isTrainCycle) a b) :
    (newCalls a b).countP Call.isTrainCycle = 0 := by
  rw [List.countP_eq_zero]
  intro c hc
  have := List.all_eq_true.mp (Adds_newCalls h) c hc
  simpa using this

theorem adds_admin_training {V : Type} {a b : TrialSim V} (h : Adds Call.isAdmin a b) :
    Adds (fun c => !c.isTraining) a b :=
  Adds_mono h (fun c hc => not_trial_not_training c (isAdmin_not_trial c hc))

theorem adds_admin_trial {V : Type} {a b : TrialSim V} (h : Adds Call.isAdmin a b) :
    Adds (fun c => !c.isTrial) a b :=
  Adds_mono h (fun c hc => isAdmin_not_trial c hc)

theorem adds_training_cycle {V : Type} {a b : TrialSim V}
    (h : Adds (fun c => !c.isTraining) a b) : Adds (fun c => !c.isTrainCycle) a b :=
  Adds_mono h (fun c hc => not_training_not_cycle c hc)

theorem trainTail_count {V : Type} (k : TrialKind) (a t : TrialSim V)
    (h : Adds (fun c => !c.isTrainCycle) a t) :
    (newCalls a (trainTail k t)).countP Call.isTrainCycle = 1 := by
  obtain ⟨e, he, hp⟩ := h
  have hc : (trainTail k t).calls = a.calls ++ (e ++ [Call.ApplyInputs k.inputs EnvId.TrainEnv,
      Call.AlphaCyc k.mode true, Call.TrialStats true, Call.LogTrnTrl]) := by
    rw [(trainTail_rel k t).1, he, List.append_assoc]
  have h0 : e.countP Call.isTrainCycle = 0 := by
    rw [List.countP_eq_zero]
    intro c hc
    have := List.all_eq_true.mp hp c hc
    simpa using this
  rw [newCalls_append hc, List.countP_append, h0]
  rfl

/-- C30 (amended): for each of the six training trials (`k` is the procedure), when
`TestInterval` is not 0 and the layers that the trial itself looks up exist, the trial does
not panic, and it returns unless the loop of `TestAll` does not end.  Let `epc` and `chg` be
the epoch counter and its changed flag after the step of the training environment.  When
`chg` is true and `epc >= MaxEpcs`: the trial applies no input of the training environment
and runs no alpha cycle with `train = true`; when `epc` is not a multiple of `TestInterval`
it applies no input and runs no alpha cycle at all; on return, if `Run.Incr()` reported the
end then `StopNow` is true and `NeedsNewRun` is false, otherwise `NeedsNewRun` is true and
`StopNow` is as it was.  When `chg` is false or `epc < MaxEpcs`: a trial that returns has
run exactly one alpha cycle with `train = true`. -/
theorem trainTrial_epoch_end {V : Type} (O : EnvOps V) (fuel : Nat) (k : TrialKind)
    (ss : TrialSim V) (hT : ss.TestInterval ≠ 0)
    (hL : k.ecin = true → (ss.Net.LayerByName "ECin").isSome = true) :
    (∀ s1, trainTrial O fuel k ss ≠ Except.error (Halt.panic, s1)) ∧
    (((O.Epoch (afterStep O ss).TrainEnv).2 = false ∨
        (O.Epoch (afterStep O ss).TrainEnv).1.tmod ss.TestInterval ≠ 0 ∨
        (∃ t, TestAll O fuel (epochLog (afterStep O ss)) = Except.ok t)) →
      ∃ s1, trainTrial O fuel k ss = Except.ok s1) ∧
    ((O.Epoch (afterStep O ss).TrainEnv).2 = true ∧
        ss.MaxEpcs ≤ (O.Epoch (afterStep O ss).TrainEnv).1 →
      (newCalls ss (trainTrial O fuel k ss).final).all (fun c => !c.isTraining) = true ∧
      ((O.Epoch (afterStep O ss).TrainEnv).1.tmod ss.TestInterval ≠ 0 →
        (newCalls ss (trainTrial O fuel k ss).final).all (fun c => !c.isTrial) = true) ∧
      ∀ s1, trainTrial O fuel k ss = Except.ok s1 →
        if (O.RunIncr (afterStep O ss).TrainEnv).2 = true then
          s1.StopNow = true ∧ s1.NeedsNewRun = false
        else s1.NeedsNewRun = true ∧ s1.StopNow = ss.StopNow) ∧
    ((O.Epoch (afterStep O ss).TrainEnv).2 = false ∨
        (O.Epoch (afterStep O ss).TrainEnv).1 < ss.MaxEpcs →
      ∀ s1, trainTrial O fuel k ss = Except.ok s1 →
        (newCalls ss s1).countP Call.isTrainCycle = 1) := by
  rw [trainTrial_eq O fuel k ss hT hL]
  obtain ⟨f1, f2, f3, f4, f5, f6⟩ := afterStep_fields O ss
  obtain ⟨a0, _, _⟩ := afterStep_adds O ss
  obtain ⟨g1, g2, g3, g4, g5, g6⟩ := epochLog_fields (afterStep O ss)
  obtain ⟨_, a1, _⟩ := epochLog_rel (afterStep O ss)
  generalize hs0 : afterStep O ss = s0 at *
  generalize hepc : (O.Epoch s0.TrainEnv).1 = epc
  generalize hs1 : epochLog s0 = s1 at *
  have a01 : Adds Call.isAdmin ss s1 := Adds_trans a0 a1
  generalize hx : (if epc.tmod ss.TestInterval = 0 then TestAll O fuel s1
    else Except.ok s1) = x
  have hxrel : onlyTest s1 x.final ∧ Adds (fun c => !c.isTraining) s1 x.final := by
    rw [← hx]
    split_ifs
    · exact ⟨(TestAll_rel O fuel s1).1,
        Adds_mono (TestAll_rel O fuel s1).2 (fun c hc => isTest_not_training _ c hc)⟩
    · exact ⟨onlyTest_refl s1, Adds_refl _ s1⟩
  have hxspin : ∀ h e, x = Except.error (h, e) → h = Halt.spin := by
    intro h e he
    rw [← hx] at he
    split_ifs at he
    exact TestAll_spin O fuel s1 h e he
  have hxok : epc.tmod ss.TestInterval ≠ 0 → x = Except.ok s1 := by
    intro hne
    rw [← hx, if_neg hne]
  have hxret : (∃ t, TestAll O fuel s1 = Except.ok t) → ∃ t, x = Except.ok t := by
    rintro ⟨t, ht⟩
    rw [← hx]
    split_ifs
    · exact ⟨t, ht⟩
    · exact ⟨s1, rfl⟩
  clear hx
  cases hchg : (O.Epoch s0.TrainEnv).2 with
  | false =>
    simp only [Bool.false_eq_true, if_false]
    refine ⟨fun s1 h => (by cases h), fun _ => ⟨_, rfl⟩, fun h => absurd h.1 (by decide), ?_⟩
    intro _ t ht
    simp only [Except.ok.injEq] at ht
    subst ht
    exact trainTail_count k ss s0 (adds_training_cycle (adds_admin_training a0))
  | true =>
    simp only [if_true]
    cases x with
    | error e =>
      obtain ⟨h, e⟩ := e
      have hsp := hxspin h e rfl
      subst hsp
      refine ⟨fun s h => (by cases h), ?_, ?_, ?_⟩
      · rintro (hf | hne | hret)
        · cases hf
        · cases hxok hne
        · obtain ⟨t, ht⟩ := hxret hret
          cases ht
      · intro hle
        refine ⟨Adds_newCalls (Adds_trans (adds_admin_training a01) hxrel.2), ?_, ?_⟩
        · intro hne
          cases hxok hne
        · intro t ht
          cases ht
      · intro _ t ht
        cases ht
    | ok t =>
      have hrel : onlyTest s1 t := hxrel.1
      have hadd : Adds (fun c => !c.isTraining) ss t :=
        Adds_trans (adds_admin_training a01) hxrel.2
      obtain ⟨o1, o2, o3, o4⟩ := onlyTest_fields hrel
      have hmax : t.MaxEpcs = ss.MaxEpcs := by rw [o1, g1, f1]
      simp only [hmax]
      obtain ⟨e1, e2, e3, e4⟩ := epochEnd_rel O t
      refine ⟨?_, ?_, ?_, ?_⟩
      · intro s h
        split_ifs at h
      · intro _
        split_ifs
        · exact ⟨_, rfl⟩
        · exact ⟨_, rfl⟩
      · intro hle
        have hge : epc ≥ ss.MaxEpcs := hle.2
        simp only [hge, if_true]
        refine ⟨Adds_newCalls (Adds_trans hadd (adds_admin_training e1)), ?_, ?_⟩
        · intro hne
          have := hxok hne
          simp only [Except.ok.injEq] at this
          subst this
          exact Adds_newCalls (Adds_trans (adds_admin_trial a01) (adds_admin_trial e1))
        · intro u hu
          simp only [Except.ok.injEq] at hu
          subst hu
          rw [o2, g2] at e4
          rw [o4, g4, f5, o3, g3, f4] at e4
          exact e4
      · intro hlt t1 ht1
        have hlt1 : epc < ss.MaxEpcs := by
          rcases hlt with hf | hlt
          · cases hf
          · exact hlt
        have hnge : ¬ epc ≥ ss.MaxEpcs := not_le.mpr hlt1
        simp only [hnge, if_false, Except.ok.injEq] at ht1
        subst ht1
        exact trainTail_count k ss t (adds_training_cycle hadd)

/-- C30 (counterexample): two trials per epoch, `MaxEpcs = 2`, `TestInterval = 2`, last
trial of epoch 1.  The step of the training environment changes the epoch counter to 2;
`TrainTrialHip` returns with `StopNow` set, after `TestAll` has applied the inputs of two
test trials and run two alpha cycles (`AlphaCycSem(false)`). -/
theorem trainTrial_testAll_counterexample :
    (tableOps 2).Epoch (afterStep (tableOps 2) (lastTrialSim 2)).TrainEnv = (2, true) ∧
      (lastTrialSim 2).MaxEpcs ≤ 2 ∧
      ∃ s1, TrainTrialHip (tableOps 2) 10 (lastTrialSim 2) = Except.ok s1 ∧
        s1.StopNow = true ∧
        newCalls (lastTrialSim 2) s1 =
          [Call.Step EnvId.TrainEnv PatSet.Close, Call.LogTrnEpc, Call.NewTstTrlLog,
           Call.ConfigTstTrlLog,
           Call.Step EnvId.TestEnv PatSet.Close,
           Call.ApplyInputs InputsKind.Sem EnvId.TestEnv, Call.AlphaCyc Mode.Sem false,
           Call.TrialStats false, Call.LogTstTrl,
           Call.Step EnvId.TestEnv PatSet.Close,
           Call.ApplyInputs InputsKind.Sem EnvId.TestEnv, Call.AlphaCyc Mode.Sem false,
           Call.TrialStats false, Call.LogTstTrl,
           Call.Step EnvId.TestEnv PatSet.Close, Call.LogTstEpc, Call.RunEnd] :=
  ⟨rfl, by decide, (TrainTrialHip (tableOps 2) 10 (lastTrialSim 2)).final, rfl, rfl, rfl⟩

/-- C30 (witness): `TrainTrialSem` at the end of the last epoch with `TestInterval = 1000`:
the trial returns with `StopNow` set and has applied no input and run no alpha cycle. -/
theorem trainTrial_epoch_end_witness :
    (lastTrialSim 1000).TestInterval ≠ 0 ∧
      ((lastTrialSim 1000).Net.LayerByName "ECin").isSome = true ∧
      (∃ s1, trainTrial (tableOps 2) 10 TrialKind.Sem (lastTrialSim 1000) = Except.ok s1) ∧
      (newCalls (lastTrialSim 1000)
        (trainTrial (tableOps 2) 10 TrialKind.Sem (lastTrialSim 1000)).final).all
          (fun c => !c.isTrial) = true :=
  ⟨by decide, rfl,
    (trainTrial_epoch_end (tableOps 2) 10 TrialKind.Sem (lastTrialSim 1000) (by decide)
      (fun _ => rfl)).2.1 (Or.inr (Or.inl (by decide))),
    ((trainTrial_epoch_end (tableOps 2) 10 TrialKind.Sem (lastTrialSim 1000) (by decide)
      (fun _ => rfl)).2.2.1 ⟨rfl, by decide⟩).2.1 (by decide)⟩

/-! ## The pattern set of a training procedure -/

/-- The table and the test name that `SetEnv` selects. -/
theorem SetEnv_selects {V : Type} (O : EnvOps V) (far : Bool) (ss : TrialSim V) :
    (SetEnv O far ss).TrainTable = (if far = true then PatSet.Far else PatSet.Close) ∧
      (SetEnv O far ss).TestTable = (if far = true then PatSet.Far else PatSet.Close) ∧
      (SetEnv O far ss).TestNm = (if far = true then "Far" else "Close") ∧
      (SetEnv O far ss).calls = ss.calls := by
  cases far <;> exact ⟨rfl, rfl, rfl, rfl⟩

theorem ConfigEnv_selects {V : Type} (O : EnvOps V) (ss : TrialSim V) :
    (ConfigEnv O ss).TrainTable = PatSet.Close ∧ (ConfigEnv O ss).TestTable = PatSet.Close ∧
      (ConfigEnv O ss).TestNm = "Close" ∧ (ConfigEnv O ss).calls = ss.calls := by
  by_cases h1 : ss.MaxRuns = 0 <;> by_cases h2 : ss.MaxEpcs = 0 <;>
    by_cases h3 : ss.MaxSubs = 0 <;> simp [ConfigEnv, h1, h2, h3]

/-- The state in which the loop of a training procedure starts. -/
theorem train_eq {V : Type} (O : EnvOps V) (fuel n : Nat) (k : TrialKind) (ss : TrialSim V) :
    ∃ s0, samePats (if k = TrialKind.RetrievalPractice then ConfigEnv O ss else ss) s0 ∧
      s0.calls = ss.calls ∧ Keeps s0 (train O fuel n k ss).final ∧
      (0 < n → Call.Step EnvId.TrainEnv s0.TrainTable ∈ newCalls s0 (train O fuel n k ss).final) := by
  refine ⟨{ { (if k = TrialKind.RetrievalPractice then ConfigEnv O ss else ss) with
      TrainEnv := O.SetTrialCur (-1)
        (if k = TrialKind.RetrievalPractice then ConfigEnv O ss else ss).TrainEnv } with
      StopNow := false }, ⟨rfl, rfl, rfl⟩, ?_, ?_⟩
  · show (if k = TrialKind.RetrievalPractice then ConfigEnv O ss else ss).calls = ss.calls
    split_ifs
    · exact (ConfigEnv_selects O ss).2.2.2
    · rfl
  · obtain ⟨h1, h2⟩ := trainLoop_keeps O fuel k n
      { { (if k = TrialKind.RetrievalPractice then ConfigEnv O ss else ss) with
        TrainEnv := O.SetTrialCur (-1)
          (if k = TrialKind.RetrievalPractice then ConfigEnv O ss else ss).TrainEnv } with
        StopNow := false }
    unfold train
    simp only []
    cases hx : trainLoop O fuel k n
      { { (if k = TrialKind.RetrievalPractice then ConfigEnv O ss else ss) with
        TrainEnv := O.SetTrialCur (-1)
          (if k = TrialKind.RetrievalPractice then ConfigEnv O ss else ss).TrainEnv } with
        StopNow := false } with
    | error e =>
      rw [hx] at h1 h2
      exact ⟨h1, h2⟩
    | ok t =>
      rw [hx] at h1 h2
      exact ⟨h1, h2⟩

theorem newCalls_congr {V : Type} {a b c : TrialSim V} (h : a.calls = b.calls) :
    newCalls a c = newCalls b c := by
  unfold newCalls
  rw [h]

/-- C24 (the code): `SetEnv(far)` selects the Far tables and the name "Far" when `far` is
true, the Close tables and "Close" otherwise.  A call of `TrainHip`, `TrainCor`,
`TrainSleep`, `TrainDaydream` or `TrainSem` after it keeps the selection to its end,
returned or not, and every step of an environment during the call is a step on the selected
table.  A call of `TrainRetrievalPractice` after it, for both values of `far`, ends with the
Close tables and the name "Close"; every step of an environment during the call is a step
on a Close table, and there is such a step of the training environment as soon as the call
runs one trial. -/
theorem train_pattern_set {V : Type} (O : EnvOps V) (fuel n : Nat) (far : Bool)
    (ss : TrialSim V) :
    (SetEnv O far ss).TrainTable = (if far = true then PatSet.Far else PatSet.Close) ∧
    (SetEnv O far ss).TestNm = (if far = true then "Far" else "Close") ∧
    (∀ k, k ≠ TrialKind.RetrievalPractice →
      samePats (SetEnv O far ss) (train O fuel n k (SetEnv O far ss)).final ∧
      (newCalls (SetEnv O far ss) (train O fuel n k (SetEnv O far ss)).final).all
        (Call.stepsOn (SetEnv O far ss).TrainTable (SetEnv O far ss).TestTable) = true) ∧
    (TrainRetrievalPractice O fuel n (SetEnv O far ss)).final.TrainTable = PatSet.Close ∧
    (TrainRetrievalPractice O fuel n (SetEnv O far ss)).final.TestTable = PatSet.Close ∧
    (TrainRetrievalPractice O fuel n (SetEnv O far ss)).final.TestNm = "Close" ∧
    (newCalls (SetEnv O far ss) (TrainRetrievalPractice O fuel n (SetEnv O far ss)).final).all
      (Call.stepsOn PatSet.Close PatSet.Close) = true ∧
    (0 < n → Call.Step EnvId.TrainEnv PatSet.Close ∈
      newCalls (SetEnv O far ss) (TrainRetrievalPractice O fuel n (SetEnv O far ss)).final) := by
  obtain ⟨e1, _, e3, _⟩ := SetEnv_selects O far ss
  refine ⟨e1, e3, ?_, ?_⟩
  · intro k hk
    obtain ⟨s0, hp, hc, hkeep, _⟩ := train_eq O fuel n k (SetEnv O far ss)
    rw [if_neg hk] at hp
    refine ⟨samePats_trans hp hkeep.1, ?_⟩
    rw [← newCalls_congr hc, ← hp.1, ← hp.2.1]
    exact Adds_newCalls hkeep.2
  · obtain ⟨s0, hp, hc, hkeep, hstep⟩ :=
      train_eq O fuel n TrialKind.RetrievalPractice (SetEnv O far ss)
    rw [if_pos rfl] at hp
    obtain ⟨c1, c2, c3, _⟩ := ConfigEnv_selects O (SetEnv O far ss)
    have t1 : s0.TrainTable = PatSet.Close := hp.1.trans c1
    have t2 : s0.TestTable = PatSet.Close := hp.2.1.trans c2
    have t3 : s0.TestNm = "Close" := hp.2.2.trans c3
    have hadd := hkeep.2
    rw [t1, t2] at hadd
    rw [t1] at hstep
    refine ⟨hkeep.1.1.trans t1, hkeep.1.2.1.trans t2, hkeep.1.2.2.trans t3, ?_, ?_⟩
    · rw [← newCalls_congr hc]
      exact Adds_newCalls hadd
    · intro hn
      rw [← newCalls_congr hc]
      exact hstep hn

end SleepModel
